import Mathlib

/-!
# Dependency-graph node builder

A shallow embedding of `source/blender/depsgraph/intern/depsgraph_build_nodes.cpp`
(`DepsgraphNodeBuilder`) and the properties of the graph it builds.

Conventions of the embedding.

* Authoring data (scenes, objects, worlds, materials, textures, node-trees,
  groups) lives in a heap `Main`: one table per struct type, a pointer is the
  index into the table of its static type, `NULL` is `none`.  A generic `ID *`
  is an `IDPtr`: the ID code stored in the block's name together with the
  address of the block.
* Linked lists (`ListBase`) are Lean lists; the fixed array `mtex[MAX_MTEX]`
  is a function read at the indices `0 .. MAX_MTEX - 1`.
* The visited tag (`LIB_DOIT` in `id.flag`) of all blocks is the map `Tags`.
* Graph node pointers are modelled by the key of the node they point to: an
  `IDDepsNode *` by the `IDPtr` of its entity, a `ComponentDepsNode *` by owner
  and component type, an `OperationDepsNode *` by component and position.
* Recursive builder methods take a `fuel : Nat` bounding the depth of the call
  stack; `BuildError.out_of_fuel` means the bound was hit, `BuildError.defect`
  stands for a crash (NULL dereference, a pointer cast to the wrong struct).
-/

namespace DEG

/-! ## Source data (DNA) -/

/-- The ID codes (`GS(id->name)`) of the datablock kinds the builder meets. -/
inductive ID_Type where
  | ID_SCE
  | ID_OB
  | ID_GR
  | ID_WO
  | ID_MA
  | ID_TE
  | ID_NT
  | ID_ME
deriving DecidableEq, Repr

/-- A generic `ID *`: code of the block and its address in the table of that kind. -/
structure IDPtr where
  gs : ID_Type
  addr : Nat
deriving DecidableEq, Repr

/-- Numeric value of the ID code `ID_TE`, `MAKE_ID2('T', 'E')` on a little-endian
machine (`DNA_ID.h`, not part of the sources at hand). -/
def ID_TE : Int := 17748

/-- Node type of group nodes (`BKE_node.h`, not part of the sources at hand). -/
def NODE_GROUP : Int := 2

/-- Object type of mesh objects (`DNA_object_types.h`). -/
def OB_MESH : Int := 1

/-- Driver type of scripted-expression drivers (`DNA_anim_types.h`). -/
def DRIVER_TYPE_PYTHON : Int := 1

/-- Number of slots of a texture stack (`DNA_material_types.h`). -/
def MAX_MTEX : Nat := 18

/-- The `ChannelDriver` of a driver F-Curve. -/
structure ChannelDriver where
  type : Int
deriving DecidableEq, Repr

/-- A driver F-Curve of `adt->drivers`; `fcurve->driver` is dereferenced
unconditionally by the builder, so it is a value here. -/
structure FCurve where
  driver : ChannelDriver
  array_index : Nat
deriving DecidableEq, Repr

/-- An NLA track; only its presence in the list matters to the builder. -/
structure NlaTrack where
  index : Nat
deriving DecidableEq, Repr

/-- Animation data of a datablock. -/
structure AnimData where
  action : Option Nat
  nla_tracks : List NlaTrack
  drivers : List FCurve
deriving DecidableEq, Repr

/-- A constraint of an object; only the presence of a first one is read. -/
structure bConstraint where
  type : Nat
deriving DecidableEq, Repr

/-- A texture slot; `mtex->tex` is the texture it maps. -/
structure MTex where
  tex : Nat
deriving DecidableEq, Repr

/-- A node of a node-tree: the datablock it references and its node type. -/
structure bNode where
  id : Option IDPtr
  type : Int
deriving DecidableEq, Repr

structure bNodeTree where
  adt : Option AnimData
  nodes : List bNode
deriving DecidableEq, Repr

structure Tex where
  adt : Option AnimData
  nodetree : Option Nat

structure Material where
  adt : Option AnimData
  mtex : Nat → Option MTex
  nodetree : Option Nat

structure World where
  adt : Option AnimData
  mtex : Nat → Option MTex
  nodetree : Option Nat

structure Object where
  type : Int
  adt : Option AnimData
  parent : Option Nat
  proxy : Option Nat
  dup_group : Option Nat
  constraints : List bConstraint
  data : Option IDPtr

/-- An entry of a group's object list. -/
structure GroupObject where
  ob : Option Nat
deriving DecidableEq, Repr

structure Group where
  gobject : List GroupObject
deriving DecidableEq, Repr

structure RigidBodyWorld where
  group : Option Nat
deriving DecidableEq, Repr

/-- An entry of the scene's object list. -/
structure Base where
  object : Nat
deriving DecidableEq, Repr

structure Scene where
  adt : Option AnimData
  set : Option Nat
  base : List Base
  rigidbody_world : Option RigidBodyWorld
  world : Option Nat
  nodetree : Option Nat

/-- The main database: `group` is the list `m_bmain->group` (in list order),
the other fields are the memory holding the blocks of each kind. -/
structure Main where
  group : List Nat
  scenes : Nat → Scene
  objects : Nat → Object
  groups : Nat → Group
  worlds : Nat → World
  materials : Nat → Material
  textures : Nat → Tex
  nodetrees : Nat → bNodeTree

def scene_id (scene : Nat) : IDPtr := ⟨ID_Type.ID_SCE, scene⟩
def object_id (ob : Nat) : IDPtr := ⟨ID_Type.ID_OB, ob⟩
def group_id (group : Nat) : IDPtr := ⟨ID_Type.ID_GR, group⟩
def world_id (world : Nat) : IDPtr := ⟨ID_Type.ID_WO, world⟩
def material_id (ma : Nat) : IDPtr := ⟨ID_Type.ID_MA, ma⟩
def texture_id (tex : Nat) : IDPtr := ⟨ID_Type.ID_TE, tex⟩
def nodetree_id (ntree : Nat) : IDPtr := ⟨ID_Type.ID_NT, ntree⟩

/-- Modelled from the spec: `BKE_animdata_from_id` (BKE_animsys, not part of the
sources at hand), the "animation-data (action/NLA/drivers) per entity" of the
source graph adapter: the `adt` of the block, `NULL` for kinds without one. -/
def BKE_animdata_from_id (bmain : Main) (id : IDPtr) : Option AnimData :=
  match id.gs with
  | ID_Type.ID_SCE => (bmain.scenes id.addr).adt
  | ID_Type.ID_OB => (bmain.objects id.addr).adt
  | ID_Type.ID_WO => (bmain.worlds id.addr).adt
  | ID_Type.ID_MA => (bmain.materials id.addr).adt
  | ID_Type.ID_TE => (bmain.textures id.addr).adt
  | ID_Type.ID_NT => (bmain.nodetrees id.addr).adt
  | ID_Type.ID_GR => none
  | ID_Type.ID_ME => none

/-! ## Visited tags -/

/-- The visited tag of every datablock. -/
abbrev Tags := IDPtr → Bool

/-- Modelled from the spec: `id_is_tagged` (visited-tag get of the source graph
adapter; depsgraph_build.cpp is not part of the sources at hand). -/
def id_is_tagged (tags : Tags) (id : IDPtr) : Bool := tags id

/-- Modelled from the spec: `id_tag_set` (visited-tag set). -/
def id_tag_set (tags : Tags) (id : IDPtr) : Tags := Function.update tags id true

/-- Modelled from the spec: `id_tag_clear` (visited-tag clear). -/
def id_tag_clear (tags : Tags) (id : IDPtr) : Tags := Function.update tags id false

/-! ## The graph -/

/-- Node types used by the builder: component kinds and operation kinds are
enumerators of the same enum (`depsgraph_types.h`). -/
inductive eDepsNode_Type where
  | DEPSNODE_TYPE_PARAMETERS
  | DEPSNODE_TYPE_ANIMATION
  | DEPSNODE_TYPE_TRANSFORM
  | DEPSNODE_TYPE_OP_PARAMETER
  | DEPSNODE_TYPE_OP_TRANSFORM
  | DEPSNODE_TYPE_OP_DRIVER
  | DEPSNODE_TYPE_OP_RIGIDBODY
deriving DecidableEq, Repr

inductive eDepsOperation_Type where
  | DEPSOP_TYPE_INIT
  | DEPSOP_TYPE_EXEC
  | DEPSOP_TYPE_SIM
  | DEPSOP_TYPE_REBUILD
deriving DecidableEq, Repr

/-- The evaluation callbacks the builder registers. -/
inductive DepsEvalOperationCb where
  | BKE_object_eval_local_transform
  | BKE_object_eval_parent
  | BKE_constraints_evaluate
  | BKE_animsys_eval_driver
  | BKE_rigidbody_rebuild_sim
  | BKE_rigidbody_eval_simulation
  | BKE_rigidbody_object_sync_transforms
deriving DecidableEq, Repr

/-- The display names `deg_op_name_*`. -/
inductive DegOpName where
  | deg_op_name_object_local_transform
  | deg_op_name_object_parent
  | deg_op_name_constraint_stack
  | deg_op_name_driver (driver : ChannelDriver)
  | deg_op_name_rigidbody_world_rebuild
  | deg_op_name_rigidbody_world_simulate
  | deg_op_name_rigidbody_object_sync
deriving DecidableEq, Repr

/-- Context-data reference of an operation. -/
inductive PointerRNA where
  | PointerRNA_NULL
  | id_pointer (id : IDPtr)
  | fcurve_pointer (id : IDPtr) (fcurve : FCurve)
deriving DecidableEq, Repr

def make_rna_id_pointer (id : IDPtr) : PointerRNA := PointerRNA.id_pointer id

/-- The call `make_rna_pointer(id, &RNA_FCurve, fcurve)`. -/
def make_rna_pointer (id : IDPtr) (fcurve : FCurve) : PointerRNA :=
  PointerRNA.fcurve_pointer id fcurve

/-- Flag bit "needs the external scripting runtime" (`depsgraph_types.h`, not
part of the sources at hand; a single bit). -/
def DEPSOP_FLAG_USES_PYTHON : Nat := 4

structure OperationDepsNode where
  type : eDepsNode_Type
  optype : eDepsOperation_Type
  evaluate : DepsEvalOperationCb
  name : DegOpName
  ptr : PointerRNA
  flag : Nat
deriving DecidableEq, Repr

structure ComponentDepsNode where
  type : eDepsNode_Type
  owner : IDPtr
  operations : List OperationDepsNode
deriving DecidableEq, Repr

structure IDDepsNode where
  id : IDPtr
  components : List ComponentDepsNode
deriving DecidableEq, Repr

structure TimeSourceDepsNode where
  name : String
deriving DecidableEq, Repr

structure Depsgraph where
  id_nodes : List IDDepsNode
  time_source : Option TimeSourceDepsNode
deriving DecidableEq, Repr

/-- A `ComponentDepsNode *`. -/
structure ComponentPtr where
  owner : IDPtr
  type : eDepsNode_Type
deriving DecidableEq, Repr

/-- An `OperationDepsNode *`. -/
structure OperationPtr where
  comp : ComponentPtr
  index : Nat
deriving DecidableEq, Repr

inductive BuildError where
  | out_of_fuel
  | defect
deriving DecidableEq, Repr

def Depsgraph.empty : Depsgraph := ⟨[], none⟩

/-- Modelled from the spec: `Depsgraph::find_id_node`, the lookup of an entity
node by entity identity. -/
def Depsgraph.find_id_node (graph : Depsgraph) (id : IDPtr) : Option IDDepsNode :=
  graph.id_nodes.find? (fun n => decide (n.id = id))

/-- Modelled from the spec: `IDDepsNode::find_component`, the lookup
`find_component(entity_node, kind) -> ComponentNode?` of the component registry. -/
def IDDepsNode.find_component (node : IDDepsNode) (type : eDepsNode_Type) :
    Option ComponentDepsNode :=
  node.components.find? (fun c => decide (c.type = type))

/-- The component a `ComponentDepsNode *` points to. -/
def Depsgraph.component (graph : Depsgraph) (c : ComponentPtr) : Option ComponentDepsNode :=
  (graph.find_id_node c.owner).bind (fun n => n.find_component c.type)

/-- The operations held by the component a pointer points to. -/
def Depsgraph.operations (graph : Depsgraph) (c : ComponentPtr) : List OperationDepsNode :=
  match graph.component c with
  | some k => k.operations
  | none => []

/-- The operation an `OperationDepsNode *` points to. -/
def Depsgraph.operation (graph : Depsgraph) (p : OperationPtr) : Option OperationDepsNode :=
  (graph.operations p.comp)[p.index]?

/-- Write through a `ComponentDepsNode *`. -/
def Depsgraph.modify_component (graph : Depsgraph) (c : ComponentPtr)
    (f : ComponentDepsNode → ComponentDepsNode) : Depsgraph :=
  { graph with
    id_nodes := graph.id_nodes.map (fun n =>
      if n.id = c.owner then
        { n with components := n.components.map (fun k => if k.type = c.type then f k else k) }
      else n) }

/-- Apply `f` to the element at position `i`. -/
def update_nth {α : Type} (f : α → α) : List α → Nat → List α
  | [], _ => []
  | a :: l, 0 => f a :: l
  | a :: l, i + 1 => a :: update_nth f l i

/-- Modelled from the spec: `add_id_node`, the node registry's
`get_or_create_entity_node(entity)`: "returns the existing node if the entity
was already visited in this pass, else allocates a new node and indexes it by
entity identity". -/
def add_id_node (graph : Depsgraph) (id : IDPtr) : IDPtr × Depsgraph :=
  match graph.find_id_node id with
  | some _ => (id, graph)
  | none => (id, { graph with id_nodes := graph.id_nodes ++ [⟨id, []⟩] })

/-- Get-or-create of a component under one node. -/
def IDDepsNode.add_component (node : IDDepsNode) (type : eDepsNode_Type) : IDDepsNode :=
  match node.find_component type with
  | some _ => node
  | none => { node with components := node.components ++ [⟨type, node.id, []⟩] }

/-- Modelled from the spec: `add_component_node`, the component registry's
`get_or_create_component(entity_node, kind)`, "idempotent per (entity_node,
kind) pair". -/
def add_component_node (graph : Depsgraph) (id_node : IDPtr) (type : eDepsNode_Type) :
    ComponentPtr × Depsgraph :=
  (⟨id_node, type⟩,
   { graph with
     id_nodes := graph.id_nodes.map (fun n =>
       if n.id = id_node then n.add_component type else n) })

/-- Modelled from the spec: `add_operation_node`, the operation registry's
`add_operation(component_node, kind, evaluation_ref, name, context_ref,
flags=none)`: "always appends", "no dedup".  A `NULL` component is a defect
("missing expected components/nodes ... are programming defects"). -/
def add_operation_node (graph : Depsgraph) (comp_node : Option ComponentPtr)
    (type : eDepsNode_Type) (optype : eDepsOperation_Type) (evaluate : DepsEvalOperationCb)
    (name : DegOpName) (ptr : PointerRNA) : Except BuildError (OperationPtr × Depsgraph) :=
  match comp_node with
  | none => Except.error BuildError.defect
  | some c =>
    Except.ok (⟨c, (graph.operations c).length⟩,
      graph.modify_component c (fun k =>
        { k with operations := k.operations ++ [⟨type, optype, evaluate, name, ptr, 0⟩] }))

/-- The statement `op->flag |= flag` through an `OperationDepsNode *`. -/
def Depsgraph.operation_flag_or (graph : Depsgraph) (op : OperationPtr) (mask : Nat) :
    Depsgraph :=
  graph.modify_component op.comp (fun k =>
    { k with operations :=
        (update_nth (fun o => { o with flag := o.flag ||| mask }) k.operations op.index) })

/-- Modelled from the spec: `add_time_source`, "adds a global time-source node":
the graph holds one time source, created by the first call. -/
def add_time_source (graph : Depsgraph) (_id : IDPtr) : Depsgraph :=
  match graph.time_source with
  | some _ => graph
  | none => { graph with time_source := some ⟨"Time Source"⟩ }

/-! ## The builder: routines without recursion -/

/-- The routine `DepsgraphNodeBuilder::build_object_transform`. -/
def build_object_transform (graph : Depsgraph) (ob : Nat) (ob_node : IDPtr) :
    Except BuildError (ComponentPtr × Depsgraph) := do
  let (trans_node, graph) := add_component_node graph ob_node eDepsNode_Type.DEPSNODE_TYPE_TRANSFORM
  let (_, graph) ← add_operation_node graph (some trans_node)
    eDepsNode_Type.DEPSNODE_TYPE_OP_TRANSFORM eDepsOperation_Type.DEPSOP_TYPE_INIT
    DepsEvalOperationCb.BKE_object_eval_local_transform
    DegOpName.deg_op_name_object_local_transform (make_rna_id_pointer (object_id ob))
  return (trans_node, graph)

/-- The routine `DepsgraphNodeBuilder::build_constraints`. -/
def build_constraints (graph : Depsgraph) (comp_node : ComponentPtr)
    (constraint_op_type : eDepsNode_Type) : Except BuildError Depsgraph := do
  let (_, graph) ← add_operation_node graph (some comp_node) constraint_op_type
    eDepsOperation_Type.DEPSOP_TYPE_EXEC DepsEvalOperationCb.BKE_constraints_evaluate
    DegOpName.deg_op_name_constraint_stack (make_rna_id_pointer comp_node.owner)
  return graph

/-- The routine `DepsgraphNodeBuilder::build_driver`. -/
def build_driver (graph : Depsgraph) (adt_node : ComponentPtr) (fcurve : FCurve) :
    Except BuildError (OperationPtr × Depsgraph) := do
  let id := adt_node.owner
  let driver := fcurve.driver
  let (driver_op, graph) ← add_operation_node graph (some adt_node)
    eDepsNode_Type.DEPSNODE_TYPE_OP_DRIVER eDepsOperation_Type.DEPSOP_TYPE_EXEC
    DepsEvalOperationCb.BKE_animsys_eval_driver (DegOpName.deg_op_name_driver driver)
    (make_rna_pointer id fcurve)
  let graph :=
    if driver.type = DRIVER_TYPE_PYTHON then
      graph.operation_flag_or driver_op DEPSOP_FLAG_USES_PYTHON
    else graph
  return (driver_op, graph)

/-- The routine `DepsgraphNodeBuilder::build_animdata`. -/
def build_animdata (bmain : Main) (graph : Depsgraph) (id_node : IDPtr) :
    Except BuildError Depsgraph :=
  match BKE_animdata_from_id bmain id_node with
  | none => return graph
  | some adt =>
    if adt.action.isSome ∨ adt.nla_tracks ≠ [] ∨ adt.drivers ≠ [] then do
      let (adt_node, graph) := add_component_node graph id_node eDepsNode_Type.DEPSNODE_TYPE_ANIMATION
      adt.drivers.foldlM (fun graph fcu => do
        let (_, graph) ← build_driver graph adt_node fcu
        return graph) graph
    else return graph

/-- The routine `DepsgraphNodeBuilder::build_object`.  The object-data block is read but
`obdata_node` stays `NULL` (the type switch is compiled out), so nothing is
built for it. -/
def build_object (bmain : Main) (graph : Depsgraph) (ob : Nat) :
    Except BuildError (IDPtr × Depsgraph) := do
  let (ob_node, graph) := add_id_node graph (object_id ob)
  let (_params_node, graph) := add_component_node graph ob_node eDepsNode_Type.DEPSNODE_TYPE_OP_PARAMETER
  let (trans_node, graph) ← build_object_transform graph ob ob_node
  let graph ← build_animdata bmain graph ob_node
  let graph ←
    (if (bmain.objects ob).parent.isSome then do
      let (_, graph) ← add_operation_node graph (some trans_node)
        eDepsNode_Type.DEPSNODE_TYPE_OP_TRANSFORM eDepsOperation_Type.DEPSOP_TYPE_EXEC
        DepsEvalOperationCb.BKE_object_eval_parent
        DegOpName.deg_op_name_object_parent (make_rna_id_pointer (object_id ob))
      pure graph
    else pure graph)
  let graph ←
    (if (bmain.objects ob).constraints ≠ [] then
      build_constraints graph trans_node eDepsNode_Type.DEPSNODE_TYPE_OP_TRANSFORM
    else pure graph)
  let graph ←
    (match (bmain.objects ob).data with
    | some _obdata_id =>
      let obdata_node : Option IDPtr := none
      match obdata_node with
      | some n => build_animdata bmain graph n
      | none => pure graph
    | none => pure graph)
  return (ob_node, graph)

/-- The lookup `node->find_component(type)` as a pointer: `NULL` when the node
or the component is missing. -/
def Depsgraph.find_component_ptr (graph : Depsgraph) (node : IDPtr) (type : eDepsNode_Type) :
    Option ComponentPtr :=
  match graph.component ⟨node, type⟩ with
  | some _ => some ⟨node, type⟩
  | none => none

/-- The routine `DepsgraphNodeBuilder::build_rigidbody`. -/
def build_rigidbody (bmain : Main) (graph : Depsgraph) (scene_node : IDPtr) (scene : Nat) :
    Except BuildError Depsgraph :=
  match (bmain.scenes scene).rigidbody_world with
  | none => Except.error BuildError.defect
  | some rbw => do
    let scene_trans := graph.find_component_ptr scene_node eDepsNode_Type.DEPSNODE_TYPE_TRANSFORM
    let (_init_node, graph) ← add_operation_node graph scene_trans
      eDepsNode_Type.DEPSNODE_TYPE_OP_RIGIDBODY eDepsOperation_Type.DEPSOP_TYPE_REBUILD
      DepsEvalOperationCb.BKE_rigidbody_rebuild_sim
      DegOpName.deg_op_name_rigidbody_world_rebuild PointerRNA.PointerRNA_NULL
    let (_sim_node, graph) ← add_operation_node graph scene_trans
      eDepsNode_Type.DEPSNODE_TYPE_OP_RIGIDBODY eDepsOperation_Type.DEPSOP_TYPE_SIM
      DepsEvalOperationCb.BKE_rigidbody_eval_simulation
      DegOpName.deg_op_name_rigidbody_world_simulate PointerRNA.PointerRNA_NULL
    match rbw.group with
    | none => return graph
    | some group =>
      (bmain.groups group).gobject.foldlM (fun graph go =>
        match go.ob with
        | none => pure graph
        | some ob =>
          if (bmain.objects ob).type ≠ OB_MESH then pure graph
          else
            match graph.find_id_node (object_id ob) with
            | none => Except.error BuildError.defect
            | some _ => do
              let tcomp := graph.find_component_ptr (object_id ob)
                eDepsNode_Type.DEPSNODE_TYPE_TRANSFORM
              let (_, graph) ← add_operation_node graph tcomp
                eDepsNode_Type.DEPSNODE_TYPE_OP_TRANSFORM eDepsOperation_Type.DEPSOP_TYPE_EXEC
                DepsEvalOperationCb.BKE_rigidbody_object_sync_transforms
                DegOpName.deg_op_name_rigidbody_object_sync PointerRNA.PointerRNA_NULL
              pure graph) graph

/-! ## The builder: recursive routines -/

/-- What the builder mutates: the graph under construction and the visited tags. -/
structure BuilderState where
  graph : Depsgraph
  tags : Tags

/-- A `DepsNode *`: an entity node or a component node. -/
inductive DepsNodePtr where
  | id_node (node : IDPtr)
  | component (comp : ComponentPtr)
deriving DecidableEq, Repr

/-- The pointer cast `(Tex *)id`, defined when the block is a texture. -/
def IDPtr.as_Tex (id : IDPtr) : Option Nat :=
  if id.gs = ID_Type.ID_TE then some id.addr else none

/-- The pointer cast `(bNodeTree *)id`, defined when the block is a node-tree. -/
def IDPtr.as_bNodeTree (id : IDPtr) : Option Nat :=
  if id.gs = ID_Type.ID_NT then some id.addr else none

/-- The routine `DepsgraphNodeBuilder::build_subgraph`: the body is empty. -/
def build_subgraph (st : BuilderState) (_group : Nat) : BuilderState := st

mutual

/-- The routine `DepsgraphNodeBuilder::build_nodetree`. -/
def build_nodetree (fuel : Nat) (bmain : Main) (st : BuilderState) (owner_node : DepsNodePtr)
    (ntree : Option Nat) : Except BuildError BuilderState :=
  match fuel with
  | 0 => Except.error BuildError.out_of_fuel
  | fuel + 1 =>
    match ntree with
    | none => pure st
    | some ntree => do
      let (ntree_node, graph) := add_id_node st.graph (nodetree_id ntree)
      let graph ← build_animdata bmain graph ntree_node
      (bmain.nodetrees ntree).nodes.foldlM (fun st bnode =>
        match bnode.id with
        | none => pure st
        | some id =>
          if id.gs = ID_Type.ID_MA then
            build_material fuel bmain st owner_node id.addr
          else if bnode.type = ID_TE then
            match id.as_Tex with
            | some tex => build_texture fuel bmain st owner_node tex
            | none => Except.error BuildError.defect
          else if bnode.type = NODE_GROUP then
            match id.as_bNodeTree with
            | some nt => build_nodetree fuel bmain st owner_node (some nt)
            | none => Except.error BuildError.defect
          else pure st) { st with graph := graph }

/-- The routine `DepsgraphNodeBuilder::build_material`. -/
def build_material (fuel : Nat) (bmain : Main) (st : BuilderState) (owner_node : DepsNodePtr)
    (ma : Nat) : Except BuildError BuilderState :=
  match fuel with
  | 0 => Except.error BuildError.out_of_fuel
  | fuel + 1 =>
    if id_is_tagged st.tags (material_id ma) then pure st
    else do
      let tags := id_tag_set st.tags (material_id ma)
      let (ma_node, graph) := add_id_node st.graph (material_id ma)
      let graph ← build_animdata bmain graph ma_node
      let st ← build_texture_stack fuel bmain ⟨graph, tags⟩ owner_node (bmain.materials ma).mtex
      let st ← build_nodetree fuel bmain st owner_node (bmain.materials ma).nodetree
      pure { st with tags := id_tag_clear st.tags (material_id ma) }

/-- The routine `DepsgraphNodeBuilder::build_texture_stack`. -/
def build_texture_stack (fuel : Nat) (bmain : Main) (st : BuilderState)
    (owner_node : DepsNodePtr) (texture_stack : Nat → Option MTex) :
    Except BuildError BuilderState :=
  match fuel with
  | 0 => Except.error BuildError.out_of_fuel
  | fuel + 1 =>
    (List.range MAX_MTEX).foldlM (fun st i =>
      match texture_stack i with
      | some mtex => build_texture fuel bmain st owner_node mtex.tex
      | none => pure st) st

/-- The routine `DepsgraphNodeBuilder::build_texture`. -/
def build_texture (fuel : Nat) (bmain : Main) (st : BuilderState) (owner_node : DepsNodePtr)
    (tex : Nat) : Except BuildError BuilderState :=
  match fuel with
  | 0 => Except.error BuildError.out_of_fuel
  | fuel + 1 =>
    if id_is_tagged st.tags (texture_id tex) then pure st
    else do
      let tags := id_tag_set st.tags (texture_id tex)
      let (tex_node, graph) := add_id_node st.graph (texture_id tex)
      let graph ← build_animdata bmain graph tex_node
      let st ← build_nodetree fuel bmain ⟨graph, tags⟩ owner_node (bmain.textures tex).nodetree
      pure { st with tags := id_tag_clear st.tags (texture_id tex) }

end

/-- The routine `DepsgraphNodeBuilder::build_world`. -/
def build_world (fuel : Nat) (bmain : Main) (st : BuilderState) (world : Nat) :
    Except BuildError BuilderState :=
  match fuel with
  | 0 => Except.error BuildError.out_of_fuel
  | fuel + 1 =>
    if id_is_tagged st.tags (world_id world) then pure st
    else do
      let tags := id_tag_set st.tags (world_id world)
      let (world_node, graph) := add_id_node st.graph (world_id world)
      let graph ← build_animdata bmain graph world_node
      let st ← build_texture_stack fuel bmain ⟨graph, tags⟩ (DepsNodePtr.id_node world_node)
        (bmain.worlds world).mtex
      let st ←
        (match (bmain.worlds world).nodetree with
        | some nt => build_nodetree fuel bmain st (DepsNodePtr.id_node world_node) (some nt)
        | none => pure st)
      pure { st with tags := id_tag_clear st.tags (world_id world) }

/-- The routine `DepsgraphNodeBuilder::build_compositor`. -/
def build_compositor (fuel : Nat) (bmain : Main) (st : BuilderState) (scene_node : IDPtr)
    (scene : Nat) : Except BuildError BuilderState :=
  match fuel with
  | 0 => Except.error BuildError.out_of_fuel
  | fuel + 1 =>
    let (owner_node, graph) :=
      add_component_node st.graph scene_node eDepsNode_Type.DEPSNODE_TYPE_PARAMETERS
    build_nodetree fuel bmain { st with graph := graph } (DepsNodePtr.component owner_node)
      (bmain.scenes scene).nodetree

/-- The body of the scene-object loop of `build_scene`. -/
def build_scene_base (bmain : Main) (st : BuilderState) (base : Base) :
    Except BuildError BuilderState := do
  let ob := base.object
  let (_, graph) ← build_object bmain st.graph ob
  let graph ←
    (match (bmain.objects ob).proxy with
    | some proxy => do
      let (_, graph) ← build_object bmain graph proxy
      pure graph
    | none => pure graph)
  let tags :=
    match (bmain.objects ob).dup_group with
    | some dup_group => id_tag_set st.tags (group_id dup_group)
    | none => st.tags
  return ⟨graph, tags⟩

/-- The body of the tagged-groups loop of `build_scene`. -/
def build_scene_group (st : BuilderState) (group : Nat) : BuilderState :=
  if id_is_tagged st.tags (group_id group) then
    let st := build_subgraph st group
    { st with tags := id_tag_clear st.tags (group_id group) }
  else st

/-- The routine `DepsgraphNodeBuilder::build_scene`. -/
def build_scene (fuel : Nat) (bmain : Main) (st : BuilderState) (scene : Nat) :
    Except BuildError (IDPtr × BuilderState) :=
  match fuel with
  | 0 => Except.error BuildError.out_of_fuel
  | fuel + 1 => do
    let (scene_node, graph) := add_id_node st.graph (scene_id scene)
    let graph := add_time_source graph (scene_id scene)
    let st : BuilderState := { st with graph := graph }
    let st ←
      (match (bmain.scenes scene).set with
      | some set => do
        let (_, st) ← build_scene fuel bmain st set
        pure st
      | none => pure st)
    let st ← (bmain.scenes scene).base.foldlM (build_scene_base bmain) st
    let st := bmain.group.foldl build_scene_group st
    let st ←
      (match (bmain.scenes scene).rigidbody_world with
      | some _ => do
        let graph ← build_rigidbody bmain st.graph scene_node scene
        pure { st with graph := graph }
      | none => pure st)
    let st ←
      (match (bmain.scenes scene).adt with
      | some _ => do
        let graph ← build_animdata bmain st.graph scene_node
        pure { st with graph := graph }
      | none => pure st)
    let st ←
      (match (bmain.scenes scene).world with
      | some world => build_world fuel bmain st world
      | none => pure st)
    let st ←
      (match (bmain.scenes scene).nodetree with
      | some _ => build_compositor fuel bmain st scene_node scene
      | none => pure st)
    return (scene_node, st)

/-! ## Observations of the graph and specification functions -/

/-- The keys of the entity nodes, in creation order. -/
def Depsgraph.keys (g : Depsgraph) : List IDPtr := g.id_nodes.map IDDepsNode.id

/-- The operation `build_driver` registers for a driver F-Curve of the block `id`. -/
def driver_operation (id : IDPtr) (fcurve : FCurve) : OperationDepsNode :=
  { type := eDepsNode_Type.DEPSNODE_TYPE_OP_DRIVER
    optype := eDepsOperation_Type.DEPSOP_TYPE_EXEC
    evaluate := DepsEvalOperationCb.BKE_animsys_eval_driver
    name := DegOpName.deg_op_name_driver fcurve.driver
    ptr := make_rna_pointer id fcurve
    flag := if fcurve.driver.type = DRIVER_TYPE_PYTHON then DEPSOP_FLAG_USES_PYTHON else 0 }

/-- The condition under which `build_animdata` creates the Animation component. -/
def has_animation (bmain : Main) (id : IDPtr) : Bool :=
  match BKE_animdata_from_id bmain id with
  | some adt => decide (adt.action.isSome ∨ adt.nla_tracks ≠ [] ∨ adt.drivers ≠ [])
  | none => false

/-- The driver F-Curves of a block, in list order (none without animation data). -/
def animdata_drivers (bmain : Main) (id : IDPtr) : List FCurve :=
  match BKE_animdata_from_id bmain id with
  | some adt => adt.drivers
  | none => []

/-- Append operations to a component. -/
def ComponentDepsNode.append (k : ComponentDepsNode) (ops : List OperationDepsNode) :
    ComponentDepsNode :=
  { k with operations := k.operations ++ ops }

/-- The component `add_component_node` returns under the node `n`. -/
def IDDepsNode.get_or_new_component (n : IDDepsNode) (t : eDepsNode_Type) : ComponentDepsNode :=
  match n.find_component t with
  | some k => k
  | none => ⟨t, n.id, []⟩

/-- The "local transform" init operation of an object. -/
def local_transform_operation (ob : Nat) : OperationDepsNode :=
  { type := eDepsNode_Type.DEPSNODE_TYPE_OP_TRANSFORM
    optype := eDepsOperation_Type.DEPSOP_TYPE_INIT
    evaluate := DepsEvalOperationCb.BKE_object_eval_local_transform
    name := DegOpName.deg_op_name_object_local_transform
    ptr := make_rna_id_pointer (object_id ob)
    flag := 0 }

/-- The "parent transform" exec operation of an object. -/
def parent_operation (ob : Nat) : OperationDepsNode :=
  { type := eDepsNode_Type.DEPSNODE_TYPE_OP_TRANSFORM
    optype := eDepsOperation_Type.DEPSOP_TYPE_EXEC
    evaluate := DepsEvalOperationCb.BKE_object_eval_parent
    name := DegOpName.deg_op_name_object_parent
    ptr := make_rna_id_pointer (object_id ob)
    flag := 0 }

/-- The constraint-stack exec operation of an object. -/
def constraint_stack_operation (ob : Nat) : OperationDepsNode :=
  { type := eDepsNode_Type.DEPSNODE_TYPE_OP_TRANSFORM
    optype := eDepsOperation_Type.DEPSOP_TYPE_EXEC
    evaluate := DepsEvalOperationCb.BKE_constraints_evaluate
    name := DegOpName.deg_op_name_constraint_stack
    ptr := make_rna_id_pointer (object_id ob)
    flag := 0 }

/-- Pointer to the Transform component of an object. -/
def transform_ptr (ob : Nat) : ComponentPtr :=
  ⟨object_id ob, eDepsNode_Type.DEPSNODE_TYPE_TRANSFORM⟩

/-- Pointer to the Animation component of a block. -/
def animation_ptr (id : IDPtr) : ComponentPtr :=
  ⟨id, eDepsNode_Type.DEPSNODE_TYPE_ANIMATION⟩

/-- Pointer to the component `build_object` creates for the parameters. -/
def object_params_ptr (ob : Nat) : ComponentPtr :=
  ⟨object_id ob, eDepsNode_Type.DEPSNODE_TYPE_OP_PARAMETER⟩

/-- The operations one `build_object` call appends to the Transform component. -/
def object_transform_operations (bmain : Main) (ob : Nat) : List OperationDepsNode :=
  [local_transform_operation ob]
    ++ (if (bmain.objects ob).parent.isSome then [parent_operation ob] else [])
    ++ (if (bmain.objects ob).constraints ≠ [] then [constraint_stack_operation ob] else [])

/-- The operations one `build_animdata` call appends, per component. -/
def animdata_operations (bmain : Main) (id : IDPtr) (c : ComponentPtr) :
    List OperationDepsNode :=
  if c = animation_ptr id then (animdata_drivers bmain id).map (driver_operation id) else []

/-- The operations one `build_object` call appends, per component. -/
def object_operations (bmain : Main) (ob : Nat) (c : ComponentPtr) : List OperationDepsNode :=
  if c = transform_ptr ob then object_transform_operations bmain ob
  else animdata_operations bmain (object_id ob) c

/-- Whether a component pointer is valid in the graph. -/
def Depsgraph.has_component (g : Depsgraph) (c : ComponentPtr) : Bool :=
  (g.component c).isSome

/-- A relation between graphs that is reflexive, transitive and holds across
each primitive of the node, component and operation registries. -/
structure GraphRel (R : Depsgraph → Depsgraph → Prop) : Prop where
  refl : ∀ g, R g g
  trans : ∀ a b c, R a b → R b c → R a c
  add_id : ∀ g id, R g (add_id_node g id).2
  add_component : ∀ g id t, R g (add_component_node g id t).2
  modify : ∀ g c (f : ComponentDepsNode → ComponentDepsNode),
    (∀ k, (f k).type = k.type ∧ (f k).owner = k.owner) → R g (g.modify_component c f)
  time_source : ∀ g id, R g (add_time_source g id)

/-- The nodes of `g` are still there in `g'`, at the same positions, and no
entity has two nodes in `g'` unless it had in `g`. -/
def KeysExt (g g' : Depsgraph) : Prop :=
  g.keys <+: g'.keys ∧ (g.keys.Nodup → g'.keys.Nodup)

/-- The result is not "ran out of fuel": the routine stopped by itself, with a
state or at a defect. -/
def Terminates {α : Type} (x : Except BuildError α) : Prop :=
  x ≠ Except.error BuildError.out_of_fuel

/-- Number of materials and textures with address below `B` whose tag is clear. -/
def untagged_count (B : Nat) (tags : Tags) : Nat :=
  (List.range B).countP (fun a => !tags (material_id a))
    + (List.range B).countP (fun a => !tags (texture_id a))

/-- The chain of set scenes starting at `scene` ends after at most `d` links. -/
def set_chain_ends (bmain : Main) : Nat → Nat → Prop
  | 0, scene => (bmain.scenes scene).set = none
  | d + 1, scene =>
    match (bmain.scenes scene).set with
    | none => True
    | some set => set_chain_ends bmain d set

/-- The source graph is finite: every material or texture referenced by a node
of a node-tree or by a texture slot of a material or world has an address
below `B`. -/
structure FiniteBelow (bmain : Main) (B : Nat) : Prop where
  nodes : ∀ nt node id, node ∈ (bmain.nodetrees nt).nodes → node.id = some id →
    (id.gs = ID_Type.ID_MA ∨ id.gs = ID_Type.ID_TE) → id.addr < B
  material_mtex : ∀ ma i mtex, (bmain.materials ma).mtex i = some mtex → mtex.tex < B
  world_mtex : ∀ world i mtex, (bmain.worlds world).mtex i = some mtex → mtex.tex < B

/-- The nesting of node-trees through group nodes is acyclic: `rank`, bounded by
`R`, decreases from a node-tree to every node-tree one of its group nodes
references. -/
structure GroupNestingAcyclic (bmain : Main) (rank : Nat → Nat) (R : Nat) : Prop where
  bound : ∀ nt, rank nt ≤ R
  decreases : ∀ nt node nt', node ∈ (bmain.nodetrees nt).nodes →
    node.id = some (nodetree_id nt') → node.type = NODE_GROUP → rank nt' < rank nt

/-- From `g` to `g'` operations were only appended, none of them an init
operation, and no object gained a Transform component. -/
def AppendsNonInit (g g' : Depsgraph) : Prop :=
  (∀ ob, g'.has_component (transform_ptr ob) = g.has_component (transform_ptr ob))
    ∧ ∀ c, ∃ l, g'.operations c = g.operations c ++ l
        ∧ ∀ o ∈ l, o.optype ≠ eDepsOperation_Type.DEPSOP_TYPE_INIT

/-- The objects `build_object` is called on by one iteration of the scene-object
loop: the object of the base, then its proxy target. -/
def base_object_visits (bmain : Main) (base : Base) : List Nat :=
  base.object ::
    (match (bmain.objects base.object).proxy with
     | some proxy => [proxy]
     | none => [])

/-- The objects `build_object` is called on by the scene-object loop, in call order. -/
def bases_object_visits (bmain : Main) : List Base → List Nat
  | [] => []
  | base :: rest => base_object_visits bmain base ++ bases_object_visits bmain rest

/-- The objects `build_object` is called on by `build_scene` with call-stack
bound `fuel`, in call order: those of the set scene first, then the scene's own. -/
def scene_object_visits (bmain : Main) : Nat → Nat → List Nat
  | 0, _ => []
  | fuel + 1, scene =>
    (match (bmain.scenes scene).set with
     | some set => scene_object_visits bmain fuel set
     | none => [])
      ++ bases_object_visits bmain (bmain.scenes scene).base

/-- Number of local-transform init operations in the Transform component of an object. -/
def local_transform_count (g : Depsgraph) (ob : Nat) : Nat :=
  (g.operations (transform_ptr ob)).count (local_transform_operation ob)

/-- Every init operation of the list precedes every exec operation of the list. -/
def init_before_exec (ops : List OperationDepsNode) : Prop :=
  ops.Pairwise (fun a b =>
    ¬ (a.optype = eDepsOperation_Type.DEPSOP_TYPE_EXEC
        ∧ b.optype = eDepsOperation_Type.DEPSOP_TYPE_INIT))

/-- Keys of nodes are distinct and, under each node, component types are distinct. -/
def Depsgraph.WF (g : Depsgraph) : Prop :=
  g.keys.Nodup ∧ ∀ n ∈ g.id_nodes, (n.components.map ComponentDepsNode.type).Nodup

/-- Invariant of the object-building loop: in every component the init
operations come first, and the objects outside `V` (those not built yet) have
no Transform component. -/
def ObjInv (g : Depsgraph) (V : List Nat) : Prop :=
  (∀ c, init_before_exec (g.operations c))
    ∧ ∀ ob, ob ∉ V → g.has_component (transform_ptr ob) = false

/-- Nodes and components of `g` are still there in `g'`. -/
def NodeCompMono (g g' : Depsgraph) : Prop :=
  (∀ id, id ∈ g.keys → id ∈ g'.keys)
    ∧ ∀ c, g.has_component c = true → g'.has_component c = true

/-- The object has its node, and under it the component `build_object` creates
for the parameters and the Transform component. -/
def ObjectBuilt (g : Depsgraph) (ob : Nat) : Prop :=
  object_id ob ∈ g.keys
    ∧ g.has_component (object_params_ptr ob) = true
    ∧ g.has_component (transform_ptr ob) = true

/-- The state in which `build_scene (fuel + 1)` calls `build_rigidbody`: the
state after its first two statements, the build of the set scene, the
scene-object loop and the tagged-groups loop. -/
def rigidbody_entry (bmain : Main) (fuel : Nat) (st : BuilderState) (scene : Nat)
    (s3 : BuilderState) : Prop :=
  ∃ s1 s2 : BuilderState,
    (match (bmain.scenes scene).set with
      | some set => ∃ q, build_scene fuel bmain
          ⟨add_time_source (add_id_node st.graph (scene_id scene)).2 (scene_id scene), st.tags⟩
          set = Except.ok (q, s1)
      | none => s1 =
          ⟨add_time_source (add_id_node st.graph (scene_id scene)).2 (scene_id scene), st.tags⟩)
    ∧ (bmain.scenes scene).base.foldlM (build_scene_base bmain) s1 = Except.ok s2
    ∧ s3 = bmain.group.foldl build_scene_group s2

/-- The object of a group entry for which `build_rigidbody` adds a sync
operation: the entry is not null and its object is a mesh. -/
def rigidbody_participant (bmain : Main) (go : GroupObject) : Option Nat :=
  match go.ob with
  | some ob => if (bmain.objects ob).type = OB_MESH then some ob else none
  | none => none

/-- The rebuild-world operation of `build_rigidbody`. -/
def rigidbody_rebuild_operation : OperationDepsNode :=
  { type := eDepsNode_Type.DEPSNODE_TYPE_OP_RIGIDBODY
    optype := eDepsOperation_Type.DEPSOP_TYPE_REBUILD
    evaluate := DepsEvalOperationCb.BKE_rigidbody_rebuild_sim
    name := DegOpName.deg_op_name_rigidbody_world_rebuild
    ptr := PointerRNA.PointerRNA_NULL
    flag := 0 }

/-- The simulate-step operation of `build_rigidbody`. -/
def rigidbody_simulate_operation : OperationDepsNode :=
  { type := eDepsNode_Type.DEPSNODE_TYPE_OP_RIGIDBODY
    optype := eDepsOperation_Type.DEPSOP_TYPE_SIM
    evaluate := DepsEvalOperationCb.BKE_rigidbody_eval_simulation
    name := DegOpName.deg_op_name_rigidbody_world_simulate
    ptr := PointerRNA.PointerRNA_NULL
    flag := 0 }

/-- The sync-transform-result operation `build_rigidbody` adds per participant. -/
def rigidbody_sync_operation : OperationDepsNode :=
  { type := eDepsNode_Type.DEPSNODE_TYPE_OP_TRANSFORM
    optype := eDepsOperation_Type.DEPSOP_TYPE_EXEC
    evaluate := DepsEvalOperationCb.BKE_rigidbody_object_sync_transforms
    name := DegOpName.deg_op_name_rigidbody_object_sync
    ptr := PointerRNA.PointerRNA_NULL
    flag := 0 }

/-- Number of participants among the group entries whose Transform component is `c`. -/
def sync_count (bmain : Main) (gos : List GroupObject) (c : ComponentPtr) : Nat :=
  ((gos.filterMap (rigidbody_participant bmain)).filter
    (fun ob => decide (transform_ptr ob = c))).length

/-- The entries of a rigidbody group for which `build_rigidbody` adds a sync
operation, in list order: the non-null entries whose object is a mesh. -/
def rigidbody_participants (bmain : Main) (group : Nat) : List Nat :=
  (bmain.groups group).gobject.filterMap (rigidbody_participant bmain)

/-- The error a result stands for, if any. -/
def failure {α : Type} (x : Except BuildError α) : Option BuildError :=
  match x with
  | Except.error e => some e
  | Except.ok _ => none

/-- No scene node has a Transform component. -/
def scene_transform_absent (g : Depsgraph) : Prop :=
  ∀ scene, g.has_component ⟨scene_id scene, eDepsNode_Type.DEPSNODE_TYPE_TRANSFORM⟩ = false

/-- Pointer to the Transform component of a scene node. -/
def scene_transform_ptr (scene : Nat) : ComponentPtr :=
  ⟨scene_id scene, eDepsNode_Type.DEPSNODE_TYPE_TRANSFORM⟩

/-- The state in which `build_scene (fuel + 1)` reaches its compositor step: the
state after its first two statements, the build of the set scene, the
scene-object loop, the tagged-groups loop, the rigidbody step, the scene's
animation data and the world. -/
def compositor_entry (bmain : Main) (fuel : Nat) (st : BuilderState) (scene : Nat)
    (s6 : BuilderState) : Prop :=
  ∃ s3 s4 s5 : BuilderState, rigidbody_entry bmain fuel st scene s3
    ∧ (match (bmain.scenes scene).rigidbody_world with
        | some _ => ∃ g, build_rigidbody bmain s3.graph (scene_id scene) scene = Except.ok g
            ∧ s4 = ⟨g, s3.tags⟩
        | none => s4 = s3)
    ∧ (match (bmain.scenes scene).adt with
        | some _ => ∃ g, build_animdata bmain s4.graph (scene_id scene) = Except.ok g
            ∧ s5 = ⟨g, s4.tags⟩
        | none => s5 = s4)
    ∧ (match (bmain.scenes scene).world with
        | some world => build_world fuel bmain s5 world = Except.ok s6
        | none => s6 = s5)

/-- Pointer to the Parameters component `build_compositor` creates under the scene node. -/
def scene_params_ptr (scene : Nat) : ComponentPtr :=
  ⟨scene_id scene, eDepsNode_Type.DEPSNODE_TYPE_PARAMETERS⟩

/-! ## Example inputs -/

/-- A scene with nothing in it. -/
def Scene.blank : Scene := ⟨none, none, [], none, none, none⟩

/-- An object without parent, proxy, constraints, group, data or animation. -/
def Object.blank : Object := ⟨0, none, none, none, none, [], none⟩

def Tex.blank : Tex := ⟨none, none⟩

def Material.blank : Material := ⟨none, fun _ => none, none⟩

def World.blank : World := ⟨none, fun _ => none, none⟩

def bNodeTree.blank : bNodeTree := ⟨none, []⟩

/-- A main database in which every block is blank. -/
def Main.blank : Main :=
  { group := []
    scenes := fun _ => Scene.blank
    objects := fun _ => Object.blank
    groups := fun _ => ⟨[]⟩
    worlds := fun _ => World.blank
    materials := fun _ => Material.blank
    textures := fun _ => Tex.blank
    nodetrees := fun _ => bNodeTree.blank }

/-- A scripted driver and a plain one. -/
def ex_scripted_driver : FCurve := ⟨⟨DRIVER_TYPE_PYTHON⟩, 0⟩

def ex_plain_driver : FCurve := ⟨⟨0⟩, 1⟩

/-- Scene 0 holds object 0, which has a parent (object 1) and two drivers. -/
def ex_parented_main : Main :=
  { Main.blank with
    scenes := fun _ => { Scene.blank with base := [⟨0⟩] }
    objects := fun i =>
      if i = 0 then
        { Object.blank with
          parent := some 1
          adt := some ⟨none, [], [ex_scripted_driver, ex_plain_driver]⟩ }
      else Object.blank }

/-- Scene 0 holds the parentless object 0 with two drivers, one scripted. -/
def ex_two_drivers_main : Main :=
  { Main.blank with
    scenes := fun _ => { Scene.blank with base := [⟨0⟩] }
    objects := fun _ =>
      { Object.blank with adt := some ⟨none, [], [ex_scripted_driver, ex_plain_driver]⟩ } }

/-- A graph holding the node of object 0 with an empty Animation component. -/
def ex_animation_graph : Depsgraph :=
  ⟨[⟨object_id 0, [⟨eDepsNode_Type.DEPSNODE_TYPE_ANIMATION, object_id 0, []⟩]⟩], none⟩

/-- A graph holding the bare node of object 0. -/
def ex_bare_node_graph : Depsgraph := ⟨[⟨object_id 0, []⟩], none⟩

/-- No block is tagged. -/
def Tags.clear : Tags := fun _ => false

/-- Scene 0 lists objects 0 and 1; object 1 is also the proxy target of object 0. -/
def ex_proxy_main : Main :=
  { Main.blank with
    scenes := fun _ => { Scene.blank with base := [⟨0⟩, ⟨1⟩] }
    objects := fun i =>
      if i = 0 then { Object.blank with proxy := some 1 }
      else { Object.blank with parent := some 0 } }

/-- A main database whose group list holds group 0; the scenes are blank. -/
def ex_group_main : Main := { Main.blank with group := [0] }

/-- Only group 0 is tagged. -/
def ex_group_tagged : Tags := fun id => decide (id = group_id 0)

/-- The compositing node-tree 0 of scene 0 holds a group node that references
node-tree 0 itself. -/
def ex_self_group_main : Main :=
  { Main.blank with
    scenes := fun _ => { Scene.blank with nodetree := some 0 }
    nodetrees := fun _ => ⟨none, [⟨some (nodetree_id 0), NODE_GROUP⟩]⟩ }

/-- A cycle through guarded blocks: the compositing node-tree 0 of scene 0
references material 0, whose slot 0 holds texture 0, whose node-tree 1
references material 0 again. -/
def ex_cycle_main : Main :=
  { Main.blank with
    scenes := fun _ => { Scene.blank with nodetree := some 0 }
    nodetrees := fun _ => ⟨none, [⟨some (material_id 0), 0⟩]⟩
    materials := fun _ => ⟨none, fun i => if i = 0 then some ⟨0⟩ else none, none⟩
    textures := fun _ => ⟨none, some 1⟩ }

/-- The compositing node-tree 0 of scene 0 references materials 0 and 1; slot 0
of every material holds texture 0, which has one driver and no node-tree. -/
def ex_shared_texture_main : Main :=
  { Main.blank with
    scenes := fun _ => { Scene.blank with nodetree := some 0 }
    nodetrees := fun _ => ⟨none, [⟨some (material_id 0), 0⟩, ⟨some (material_id 1), 0⟩]⟩
    materials := fun _ => ⟨none, fun i => if i = 0 then some ⟨0⟩ else none, none⟩
    textures := fun _ => ⟨some ⟨none, [], [ex_plain_driver]⟩, none⟩ }

/-- The graph after texture 0 of `ex_shared_texture_main` was built once. -/
def ex_texture_built_graph : Depsgraph :=
  ⟨[⟨texture_id 0, [⟨eDepsNode_Type.DEPSNODE_TYPE_ANIMATION, texture_id 0,
      [driver_operation (texture_id 0) ex_plain_driver]⟩]⟩], none⟩

/-- Scene 0 holds object 0, whose instancing group 0 is listed in the main database. -/
def ex_dup_group_main : Main :=
  { Main.blank with
    group := [0]
    scenes := fun _ => { Scene.blank with base := [⟨0⟩] }
    objects := fun _ => { Object.blank with dup_group := some 0 } }

/-- World 0, material 0 and texture 0 are tagged, nothing else. -/
def ex_guarded_tagged : Tags :=
  fun id => decide (id.addr = 0 ∧ (id.gs = ID_Type.ID_WO ∨ id.gs = ID_Type.ID_MA
    ∨ id.gs = ID_Type.ID_TE))

/-- Scene 0 has a rigidbody world without participant group and no objects. -/
def ex_rigidbody_main : Main :=
  { Main.blank with
    scenes := fun _ => { Scene.blank with rigidbody_world := some ⟨none⟩ } }

/-- Scene 0 holds the mesh object 0 and has a rigidbody world whose group 0
lists the mesh object 5, which is in no scene. -/
def ex_rigidbody_stray_main : Main :=
  { Main.blank with
    scenes := fun _ => { Scene.blank with base := [⟨0⟩], rigidbody_world := some ⟨some 0⟩ }
    objects := fun _ => { Object.blank with type := OB_MESH }
    groups := fun _ => ⟨[⟨some 5⟩]⟩ }

/-- Scene 0 holds object 0 and has a compositing node-tree (node-tree 0, empty). -/
def ex_compositor_object_main : Main :=
  { Main.blank with
    scenes := fun _ => { Scene.blank with base := [⟨0⟩], nodetree := some 0 } }

/-- Scene 0 lists the mesh object 0 and has a rigidbody world whose group 0
lists a null entry, object 0, the non-mesh object 1 and object 0 again. -/
def ex_rigidbody_group_main : Main :=
  { Main.blank with
    scenes := fun _ => { Scene.blank with base := [⟨0⟩], rigidbody_world := some ⟨some 0⟩ }
    objects := fun i =>
      if i = 0 then { Object.blank with type := OB_MESH } else Object.blank
    groups := fun _ => ⟨[⟨none⟩, ⟨some 0⟩, ⟨some 1⟩, ⟨some 0⟩]⟩ }

/-- The nodes of scene 0, with an empty Transform component, and of object 0,
with a Transform component holding its local-transform operation. -/
def ex_rigidbody_ready_graph : Depsgraph :=
  ⟨[⟨scene_id 0, [⟨eDepsNode_Type.DEPSNODE_TYPE_TRANSFORM, scene_id 0, []⟩]⟩,
    ⟨object_id 0, [⟨eDepsNode_Type.DEPSNODE_TYPE_TRANSFORM, object_id 0,
      [local_transform_operation 0]⟩]⟩], none⟩

/-- Node-tree 0 has four child nodes: one references material 0, one of
ordinary type references texture 0, a group node references node-tree 1, and
one of ordinary type references node-tree 2. -/
def ex_nodetree_refs_main : Main :=
  { Main.blank with
    nodetrees := fun i =>
      if i = 0 then
        ⟨none, [⟨some (material_id 0), 0⟩, ⟨some (texture_id 0), 0⟩,
          ⟨some (nodetree_id 1), NODE_GROUP⟩, ⟨some (nodetree_id 2), 0⟩]⟩
      else bNodeTree.blank }

/-- Object 0 is a mesh object whose data is the mesh block 0. -/
def ex_mesh_object_main : Main :=
  { Main.blank with
    objects := fun _ => { Object.blank with type := OB_MESH, data := some ⟨ID_Type.ID_ME, 0⟩ } }

end DEG

/-!
# OpenVDB volume loader

A shallow embedding of the index computations of
`intern/cycles/render/openvdb.cpp`.

Conventions of the embedding.

* An `int` is an `Int`; `/` and `%` of the source truncate (`Int.tdiv`,
  `Int.tmod`).  Signed overflow is undefined behaviour and is not modelled; the
  one computation done in `size_t` and converted back (`sparse_mem_use`,
  `dense_mem_use`) is wrapped explicitly.
* The header `util/util_sparse_grid.h` is not part of the sources at hand: the
  constant `TILE_SIZE` and the helpers `compute_index` and `get_tile_res` are
  parameters (`SparseGridUtil`).
* A grid is the list of its leaf nodes in iteration order; the value type `T`
  of the template is a type parameter `V`, and `gte_any (·, threshold)` is a
  parameter `above : V → Bool`.
* The effect of a loader on the `float *` buffer is the list of `copy` calls it
  makes, each with the destination offset and the leaf element read.
* `LoadError.out_of_bounds` stands for a read past the end of a leaf buffer,
  `LoadError.out_of_range` for the exception thrown by `vector::at`.
-/

namespace CCL

/-- An `openvdb::math::Coord`. -/
structure Coord where
  x : Int
  y : Int
  z : Int
deriving DecidableEq, Repr

/-- The operator `Coord - Coord`. -/
def Coord.sub (a b : Coord) : Coord := ⟨a.x - b.x, a.y - b.y, a.z - b.z⟩

/-- What the loader uses of `util/util_sparse_grid.h`. -/
structure SparseGridUtil where
  TILE_SIZE : Int
  compute_index : Int → Int → Int → Int → Int → Int
  get_tile_res : Int → Int

/-- The enumeration `OpenVDBGridType` (`render/openvdb.h`), as far as the loader
names its enumerators. -/
inductive OpenVDBGridType where
  | OPENVDB_GRID_BOOL
  | OPENVDB_GRID_DOUBLE
  | OPENVDB_GRID_FLOAT
  | OPENVDB_GRID_INT32
  | OPENVDB_GRID_INT64
  | OPENVDB_GRID_VEC_DOUBLE
  | OPENVDB_GRID_VEC_UINT32
  | OPENVDB_GRID_VEC_FLOAT
  | OPENVDB_GRID_MISC
deriving DecidableEq, Repr

inductive LoadError where
  | out_of_bounds
  | out_of_range
deriving DecidableEq, Repr

/-- A leaf node: start and dimensions of `getNodeBoundingBox()`, and the value
buffer `buffer().data()`, each value with its bit of the value mask. -/
structure Leaf (V : Type) where
  start : Coord
  dim : Coord
  data : List (V × Bool)

/-- A grid: the leaves in the order of `tree().cbeginLeaf()` and the background value. -/
structure Grid (V : Type) where
  leaves : List (Leaf V)
  background : V

/-- One call `copy(data + des, leaf_data + src)`, with the start of the leaf read. -/
structure Copy where
  des : Int
  leaf : Coord
  src : Int
deriving DecidableEq, Repr

/-- The float offsets one `copy(des, src)` writes: `des` for a scalar `T`,
`des .. des + 3` for the three specialisations on vector types. -/
def copy (vec : Bool) (des : Int) : List Int :=
  if vec then [des + 0, des + 1, des + 2, des + 3] else [des]

/-- The routine `get_tile_index`. -/
def get_tile_index (u : SparseGridUtil) (start tiled_res : Coord) : Int :=
  u.compute_index (Int.tdiv start.x u.TILE_SIZE) (Int.tdiv start.y u.TILE_SIZE)
    (Int.tdiv start.z u.TILE_SIZE) tiled_res.x tiled_res.y

/-- The routine `coord_product`. -/
def coord_product (c : Coord) : Int := c.x * c.y * c.z

/-- One iteration of the loop of `get_tile_dim`. -/
def get_tile_dim_axis (u : SparseGridUtil) (tile_min_bound image_res remainder : Int) : Int :=
  if tile_min_bound + u.TILE_SIZE > image_res then remainder else u.TILE_SIZE

/-- The routine `get_tile_dim`. -/
def get_tile_dim (u : SparseGridUtil) (tile_min_bound image_res remainder : Coord) : Coord :=
  ⟨get_tile_dim_axis u tile_min_bound.x image_res.x remainder.x,
   get_tile_dim_axis u tile_min_bound.y image_res.y remainder.y,
   get_tile_dim_axis u tile_min_bound.z image_res.z remainder.z⟩

/-- The `tiled_res` computed by the first loop of the three loaders. -/
def tiled_res_of (u : SparseGridUtil) (resolution : Coord) : Coord :=
  ⟨u.get_tile_res resolution.x, u.get_tile_res resolution.y, u.get_tile_res resolution.z⟩

/-- The `remainder` computed by the first loop of the three loaders. -/
def remainder_of (u : SparseGridUtil) (resolution : Coord) : Coord :=
  ⟨Int.tmod resolution.x u.TILE_SIZE, Int.tmod resolution.y u.TILE_SIZE,
   Int.tmod resolution.z u.TILE_SIZE⟩

/-- The library routine `tools::changeBackground` to a zero background, on one
inactive value: a value equal to the old background or its negative becomes the
new background. -/
def changeBackground {V : Type} [DecidableEq V] [Zero V] [Neg V] (background v : V) : V :=
  if v = background then 0 else if v = -background then 0 else v

/-- The routine `validate_and_process_grid`: `none` when the dimensions of the
first leaf differ from `TILE_SIZE`; otherwise the grid, with the background
subtracted from the active values when it is not zero. -/
def validate_and_process_grid {V : Type} [DecidableEq V] [Zero V] [Sub V] [Neg V]
    (u : SparseGridUtil) (grid : Grid V) : Option (Grid V) :=
  let dims_differ : Bool :=
    match grid.leaves.head? with
    | some leaf =>
      decide (leaf.dim.x ≠ u.TILE_SIZE ∨ leaf.dim.y ≠ u.TILE_SIZE ∨ leaf.dim.z ≠ u.TILE_SIZE)
    | none => false
  if dims_differ then none
  else if grid.background ≠ 0 then
    some
      { leaves := grid.leaves.map (fun leaf =>
          { leaf with
            data := leaf.data.map (fun v =>
              if v.2 then (v.1 - grid.background, true)
              else (changeBackground grid.background v.1, false)) })
        background := 0 }
  else some grid

/-- The call `vector::resize(n, val)`. -/
def vector_resize (v : List Int) (n : Int) (val : Int) : List Int :=
  v.take n.toNat ++ List.replicate (n.toNat - v.length) val

/-- The read `vector::at(i)`. -/
def vector_at (v : List Int) (i : Int) : Except LoadError Int :=
  if 0 ≤ i then
    match v[i.toNat]? with
    | some a => Except.ok a
    | none => Except.error LoadError.out_of_range
  else Except.error LoadError.out_of_range

/-- The write `vector::at(i) = val`. -/
def vector_set_at (v : List Int) (i : Int) (val : Int) : Except LoadError (List Int) :=
  if 0 ≤ i ∧ i.toNat < v.length then Except.ok (v.set i.toNat val)
  else Except.error LoadError.out_of_range

/-- Conversion of a `size_t` result to `int` (two's complement, 32 bits). -/
def size_t_to_int (n : Int) : Int := (n + 2 ^ 31) % 2 ^ 32 - 2 ^ 31

/-- The inner loop of `image_load_preprocess` on one leaf: the indices are read
in order until the first value for which `gte_any` holds (`break`). -/
def leaf_scan {V : Type} (above : V → Bool) (data : List (V × Bool)) :
    List Nat → Except LoadError Bool
  | [] => Except.ok false
  | i :: rest =>
    match data[i]? with
    | none => Except.error LoadError.out_of_bounds
    | some v => if above v.1 then Except.ok true else leaf_scan above data rest

/-- The body of the leaf loop of `image_load_preprocess`, on the state
`(sparse_indexes, voxel_count)`. -/
def preprocess_leaf {V : Type} (u : SparseGridUtil) (above : V → Bool)
    (resolution min_bound : Coord) (channels : Int) (acc : List Int × Int) (leaf : Leaf V) :
    Except LoadError (List Int × Int) := do
  let tile_pix_count := u.TILE_SIZE * u.TILE_SIZE * u.TILE_SIZE * channels
  let hit ← leaf_scan above leaf.data (List.range tile_pix_count.toNat)
  if hit then do
    let tile_start := leaf.start.sub min_bound
    let sparse_indexes ← vector_set_at acc.1
      (get_tile_index u tile_start (tiled_res_of u resolution)) 0
    pure (sparse_indexes,
      acc.2 + coord_product (get_tile_dim u tile_start resolution (remainder_of u resolution)))
  else pure acc

/-- The routine `image_load_preprocess`: the resulting `sparse_indexes` and
`sparse_size` (both unchanged when the grid is not validated). -/
def image_load_preprocess {V : Type} [DecidableEq V] [Zero V] [Sub V] [Neg V]
    (u : SparseGridUtil) (above : V → Bool) (grid_base : Grid V)
    (resolution min_bound : Coord) (channels : Int)
    (sparse_indexes : List Int) (sparse_size : Int) : Except LoadError (List Int × Int) :=
  match validate_and_process_grid u grid_base with
  | none => Except.ok (sparse_indexes, sparse_size)
  | some grid => do
    let tile_count := coord_product (tiled_res_of u resolution)
    let sparse_indexes := vector_resize sparse_indexes tile_count (-1)
    let acc ← grid.leaves.foldlM (preprocess_leaf u above resolution min_bound channels)
      (sparse_indexes, 0)
    let sparse_mem_use := size_t_to_int (tile_count * 4 + acc.2 * channels * 4)
    let dense_mem_use := size_t_to_int (coord_product resolution * channels * 4)
    if sparse_mem_use < dense_mem_use then pure (acc.1, acc.2 * channels)
    else pure ([], -1)

/-- The `leaf_index` of `image_load_dense`. -/
def dense_leaf_index (u : SparseGridUtil) (tile_dim : Coord) (i j k : Int) : Int :=
  u.compute_index k j i tile_dim.z tile_dim.y

/-- The `leaf_index` of `image_load_sparse`. -/
def sparse_leaf_index (u : SparseGridUtil) (i j k : Int) : Int :=
  u.compute_index k j i u.TILE_SIZE u.TILE_SIZE

/-- The three nested loops over the voxels of a tile, `k` outermost, with the
body `f i j k`. -/
def tile_loop {α : Type} (tile_dim : Coord) (f : Int → Int → Int → α) : List α :=
  (List.range tile_dim.z.toNat).flatMap (fun (k : Nat) =>
    (List.range tile_dim.y.toNat).flatMap (fun (j : Nat) =>
      (List.range tile_dim.x.toNat).map (fun (i : Nat) => f i j k)))

/-- The body of the leaf loop of `image_load_dense`: the `copy` calls for one leaf. -/
def dense_leaf {V : Type} (u : SparseGridUtil) (resolution min_bound : Coord) (leaf : Leaf V) :
    List Copy :=
  let tile_start := leaf.start.sub min_bound
  let tile_dim := get_tile_dim u tile_start resolution (remainder_of u resolution)
  tile_loop tile_dim (fun i j k =>
    { des := u.compute_index (tile_start.x + i) (tile_start.y + j) (tile_start.z + k)
        resolution.x resolution.y
      leaf := leaf.start
      src := dense_leaf_index u tile_dim i j k })

/-- The number of floats `image_load_dense` zeroes with `memset`. -/
def dense_zeroed (resolution : Coord) (channels : Int) : Int :=
  coord_product resolution * channels

/-- The routine `image_load_dense`: its `copy` calls, none when the grid is not
validated. -/
def image_load_dense {V : Type} [DecidableEq V] [Zero V] [Sub V] [Neg V]
    (u : SparseGridUtil) (grid_base : Grid V) (resolution min_bound : Coord) : List Copy :=
  match validate_and_process_grid u grid_base with
  | none => []
  | some grid => grid.leaves.flatMap (dense_leaf u resolution min_bound)

/-- State of the leaf loop of `image_load_sparse`. -/
structure SparseState where
  sparse_indexes : List Int
  voxel_count : Int
  copies : List Copy

/-- The body of the leaf loop of `image_load_sparse`. -/
def sparse_leaf {V : Type} (u : SparseGridUtil) (resolution min_bound : Coord) (channels : Int)
    (s : SparseState) (leaf : Leaf V) : Except LoadError SparseState := do
  let tile_start := leaf.start.sub min_bound
  let tile_index := get_tile_index u tile_start (tiled_res_of u resolution)
  let entry ← vector_at s.sparse_indexes tile_index
  if entry = -1 then pure s
  else do
    let sparse_indexes ← vector_set_at s.sparse_indexes tile_index
      (Int.tdiv s.voxel_count channels)
    let tile_dim := get_tile_dim u tile_start resolution (remainder_of u resolution)
    let copies := tile_loop tile_dim (fun i j k =>
      ({ des := s.voxel_count + u.compute_index i j k tile_dim.x tile_dim.y
         leaf := leaf.start
         src := sparse_leaf_index u i j k } : Copy))
    pure
      { sparse_indexes := sparse_indexes
        voxel_count := s.voxel_count + copies.length
        copies := s.copies ++ copies }

/-- The routine `image_load_sparse`: the resulting `sparse_indexes` and the
`copy` calls (the indexes unchanged and no call when the grid is not validated). -/
def image_load_sparse {V : Type} [DecidableEq V] [Zero V] [Sub V] [Neg V]
    (u : SparseGridUtil) (grid_base : Grid V) (resolution min_bound : Coord) (channels : Int)
    (sparse_indexes : List Int) : Except LoadError (List Int × List Copy) :=
  match validate_and_process_grid u grid_base with
  | none => Except.ok (sparse_indexes, [])
  | some grid => do
    let s ← grid.leaves.foldlM (sparse_leaf u resolution min_bound channels)
      ⟨sparse_indexes, 0, []⟩
    pure (s.sparse_indexes, s.copies)

/-- Whether the template argument `T` of the dispatch is a vector type. -/
def OpenVDBGridType.is_vector : OpenVDBGridType → Bool
  | OPENVDB_GRID_VEC_DOUBLE => true
  | OPENVDB_GRID_VEC_UINT32 => true
  | OPENVDB_GRID_VEC_FLOAT => true
  | _ => false

/-- The routine `openvdb_load_preprocess` after a successful `get_grid`: the
dispatch passes one channel for the scalar types and four for the vector types. -/
def openvdb_load_preprocess {V : Type} [DecidableEq V] [Zero V] [Sub V] [Neg V]
    (u : SparseGridUtil) (above : V → Bool) (grid : Grid V) (grid_type : OpenVDBGridType)
    (resolution min_bound : Coord) (sparse_indexes : List Int) (sparse_size : Int) :
    Except LoadError (List Int × Int) :=
  match grid_type with
  | OpenVDBGridType.OPENVDB_GRID_MISC => Except.ok (sparse_indexes, sparse_size)
  | OpenVDBGridType.OPENVDB_GRID_VEC_DOUBLE =>
    image_load_preprocess u above grid resolution min_bound 4 sparse_indexes sparse_size
  | OpenVDBGridType.OPENVDB_GRID_VEC_UINT32 =>
    image_load_preprocess u above grid resolution min_bound 4 sparse_indexes sparse_size
  | OpenVDBGridType.OPENVDB_GRID_VEC_FLOAT =>
    image_load_preprocess u above grid resolution min_bound 4 sparse_indexes sparse_size
  | _ => image_load_preprocess u above grid resolution min_bound 1 sparse_indexes sparse_size

/-- What `openvdb_load_image` does to the image buffer and the index vector. -/
structure ImageLoad where
  zeroed : Int
  vec : Bool
  copies : List Copy
  sparse_indexes : Option (List Int)

/-- The routine `openvdb_load_image` after a successful `get_grid`: every case
of both dispatches passes one channel. -/
def openvdb_load_image {V : Type} [DecidableEq V] [Zero V] [Sub V] [Neg V]
    (u : SparseGridUtil) (grid : Grid V) (grid_type : OpenVDBGridType)
    (resolution min_bound : Coord) (sparse_indexes : Option (List Int)) :
    Except LoadError ImageLoad :=
  let make_sparse : Bool :=
    match sparse_indexes with
    | some v => decide (v.length > 0)
    | none => false
  if grid_type = OpenVDBGridType.OPENVDB_GRID_MISC then
    Except.ok ⟨0, false, [], sparse_indexes⟩
  else if !make_sparse then
    Except.ok
      { zeroed := (match validate_and_process_grid u grid with
          | some _ => dense_zeroed resolution 1
          | none => 0)
        vec := grid_type.is_vector
        copies := image_load_dense u grid resolution min_bound
        sparse_indexes := sparse_indexes }
  else do
    let r ← image_load_sparse u grid resolution min_bound 1 (sparse_indexes.getD [])
    pure ⟨0, grid_type.is_vector, r.2, some r.1⟩

/-- The float offsets written by a list of `copy` calls. -/
def written_offsets (vec : Bool) (copies : List Copy) : List Int :=
  copies.flatMap (fun c => copy vec c.des)

/-- The reading of `util/util_sparse_grid.h` that the loader's buffer sizes
presuppose: a positive tile size, row-major linear indices, and the number of
tiles per axis rounded up. -/
structure SparseGridUtil.Standard (u : SparseGridUtil) : Prop where
  tile_pos : 0 < u.TILE_SIZE
  compute_index_eq : ∀ x y z width height,
    u.compute_index x y z width height = x + width * (y + z * height)
  get_tile_res_eq : ∀ res, 0 ≤ res →
    u.get_tile_res res
      = Int.tdiv res u.TILE_SIZE + (if Int.tmod res u.TILE_SIZE ≠ 0 then 1 else 0)

/-- The parameters with tiles of 8 voxels per axis, the leaf size of the grid
types the loader dispatches on. -/
def cycles_util : SparseGridUtil :=
  { TILE_SIZE := 8
    compute_index := fun x y z width height => x + width * (y + z * height)
    get_tile_res := fun res => Int.tdiv res 8 + (if Int.tmod res 8 ≠ 0 then 1 else 0) }

/-- A tile start on one axis: a multiple of `TILE_SIZE` inside the resolution. -/
def aligned_axis (u : SparseGridUtil) (s r : Int) : Prop :=
  0 ≤ s ∧ s < r ∧ u.TILE_SIZE ∣ s

/-- A tile start: aligned and inside the resolution on every axis. -/
def aligned (u : SparseGridUtil) (s r : Coord) : Prop :=
  aligned_axis u s.x r.x ∧ aligned_axis u s.y r.y ∧ aligned_axis u s.z r.z

/-- A full leaf of a vector grid at the origin, all values zero and active. -/
def ex_zero_vec_leaf : Leaf (Int × Int × Int) :=
  { start := ⟨0, 0, 0⟩
    dim := ⟨8, 8, 8⟩
    data := List.replicate 512 ((0, 0, 0), true) }

/-- A vector grid with zero background and the single leaf `ex_zero_vec_leaf`. -/
def ex_zero_vec_grid : Grid (Int × Int × Int) := ⟨[ex_zero_vec_leaf], (0, 0, 0)⟩

/-- The test `gte_any (·, 1)` on a vector value. -/
def ex_vec_above (v : Int × Int × Int) : Bool :=
  decide (v.1 ≥ 1 ∨ v.2.1 ≥ 1 ∨ v.2.2 ≥ 1)

/-- A full leaf of a scalar grid at the origin, all values zero and active. -/
def ex_zero_leaf : Leaf Int :=
  { start := ⟨0, 0, 0⟩
    dim := ⟨8, 8, 8⟩
    data := List.replicate 512 (0, true) }

/-- A scalar grid with zero background and the single leaf `ex_zero_leaf`. -/
def ex_zero_grid : Grid Int := ⟨[ex_zero_leaf], 0⟩

/-- The tile index `image_load_preprocess` and `image_load_sparse` compute for a leaf. -/
def leaf_tile_index {V : Type} (u : SparseGridUtil) (resolution min_bound : Coord)
    (leaf : Leaf V) : Int :=
  get_tile_index u (leaf.start.sub min_bound) (tiled_res_of u resolution)

/-- The tile dimensions the loaders compute for a leaf. -/
def leaf_tile_dim {V : Type} (u : SparseGridUtil) (resolution min_bound : Coord)
    (leaf : Leaf V) : Coord :=
  get_tile_dim u (leaf.start.sub min_bound) resolution (remainder_of u resolution)

/-- A leaf is active: one of the values the threshold scan reads passes the test. -/
def leaf_active {V : Type} (u : SparseGridUtil) (above : V → Bool) (channels : Int)
    (leaf : Leaf V) : Bool :=
  (leaf.data.take (u.TILE_SIZE * u.TILE_SIZE * u.TILE_SIZE * channels).toNat).any
    (fun v => above v.1)

/-- The leaves the loaders iterate over: those of the validated and processed grid. -/
def processed_leaves {V : Type} [DecidableEq V] [Zero V] [Sub V] [Neg V]
    (u : SparseGridUtil) (grid : Grid V) : List (Leaf V) :=
  match validate_and_process_grid u grid with
  | some g => g.leaves
  | none => []

/-- A grid with tile-aligned leaves: every leaf has the dimensions of a tile and
a buffer of `TILE_SIZE ^ 3` values, its start relative to `min_bound` is a
multiple of `TILE_SIZE` inside the resolution, and no two leaves have the same
start. -/
structure TileAligned {V : Type} (u : SparseGridUtil) (leaves : List (Leaf V))
    (resolution min_bound : Coord) : Prop where
  dim : ∀ leaf ∈ leaves, leaf.dim = ⟨u.TILE_SIZE, u.TILE_SIZE, u.TILE_SIZE⟩
  size : ∀ leaf ∈ leaves,
    leaf.data.length = (u.TILE_SIZE * u.TILE_SIZE * u.TILE_SIZE).toNat
  start : ∀ leaf ∈ leaves, aligned u (leaf.start.sub min_bound) resolution
  distinct : (leaves.map Leaf.start).Nodup

/-- Number of voxels in the tiles of the active leaves of a list. -/
def active_voxels {V : Type} (u : SparseGridUtil) (above : V → Bool) (channels : Int)
    (resolution min_bound : Coord) (leaves : List (Leaf V)) : Int :=
  ((leaves.filter (leaf_active u above channels)).map
    (fun leaf => coord_product (leaf_tile_dim u resolution min_bound leaf))).sum

/-- The contiguous offsets `b, b + 1, ..., b + n - 1`. -/
def offsets_from (b n : Int) : List Int :=
  (List.range n.toNat).map (fun (i : Nat) => b + (i : Int))

/-- The `copy` calls of `image_load_sparse` for the tile of one leaf, written
from offset `voxel_count` on. -/
def sparse_tile_copies {V : Type} (u : SparseGridUtil) (resolution min_bound : Coord)
    (voxel_count : Int) (leaf : Leaf V) : List Copy :=
  tile_loop (leaf_tile_dim u resolution min_bound leaf) (fun i j k =>
    { des := voxel_count + u.compute_index i j k (leaf_tile_dim u resolution min_bound leaf).x
        (leaf_tile_dim u resolution min_bound leaf).y
      leaf := leaf.start
      src := sparse_leaf_index u i j k })

/-- Two full leaves of a scalar grid on the `x` axis, at 8 and 24, all values 1. -/
def ex_row_grid : Grid Int :=
  { leaves :=
      [⟨⟨8, 0, 0⟩, ⟨8, 8, 8⟩, List.replicate 512 (1, true)⟩,
       ⟨⟨24, 0, 0⟩, ⟨8, 8, 8⟩, List.replicate 512 (1, true)⟩]
    background := 0 }

/-- The test `gte_any (·, 0)` on a scalar value: the generic template compares
with `>`. -/
def ex_above (v : Int) : Bool := decide (v > 0)

end CCL

namespace DEG

/-! ## Lookup lemmas -/

@[simp] theorem except_bind_ok {ε α β : Type} (a : α) (f : α → Except ε β) :
    (Except.ok a >>= f) = f a := rfl

@[simp] theorem except_bind_error {ε α β : Type} (e : ε) (f : α → Except ε β) :
    (Except.error e >>= f) = Except.error e := rfl

@[simp] theorem except_pure {ε α : Type} (a : α) : (pure a : Except ε α) = Except.ok a := rfl

theorem find?_map_key {α β : Type} [DecidableEq β] (key : α → β) (f : α → α)
    (hf : ∀ a, key (f a) = key a) (l : List α) (b : β) :
    (l.map f).find? (fun a => decide (key a = b))
      = (l.find? (fun a => decide (key a = b))).map f := by
  induction l with
  | nil => rfl
  | cons a l ih =>
    by_cases h : key a = b
    · simp [List.find?_cons, h, hf]
    · simp [List.find?_cons, h, hf, ih]

theorem find?_key_eq {α β : Type} [DecidableEq β] (key : α → β) (l : List α) (b : β) (a : α)
    (h : l.find? (fun a => decide (key a = b)) = some a) : key a = b := by
  have := List.find?_some h
  simpa using this

theorem update_nth_append_length {α : Type} (f : α → α) (l : List α) (a : α) :
    update_nth f (l ++ [a]) l.length = l ++ [f a] := by
  induction l with
  | nil => rfl
  | cons b l ih => simp [update_nth, ih]

theorem find_id_node_id {g : Depsgraph} {id : IDPtr} {n : IDDepsNode}
    (h : g.find_id_node id = some n) : n.id = id :=
  find?_key_eq IDDepsNode.id g.id_nodes id n h

theorem find_component_type {n : IDDepsNode} {t : eDepsNode_Type} {k : ComponentDepsNode}
    (h : n.find_component t = some k) : k.type = t :=
  find?_key_eq ComponentDepsNode.type n.components t k h

theorem component_modify_component (g : Depsgraph) (c c' : ComponentPtr)
    (f : ComponentDepsNode → ComponentDepsNode) (hf : ∀ k, (f k).type = k.type) :
    (g.modify_component c f).component c'
      = if c' = c then (g.component c).map f else g.component c' := by
  unfold Depsgraph.component Depsgraph.modify_component Depsgraph.find_id_node
  simp only
  rw [find?_map_key IDDepsNode.id _ (by intro a; by_cases h : a.id = c.owner <;> simp [h])]
  cases hn : g.id_nodes.find? (fun a => decide (a.id = c'.owner)) with
  | none =>
    by_cases hc : c' = c
    · subst hc; simp [hn]
    · simp [hc]
  | some n =>
    have hid : n.id = c'.owner := find?_key_eq IDDepsNode.id _ _ _ hn
    by_cases ho : c'.owner = c.owner
    · simp only [Option.map_some', Option.some_bind, hid, ho, if_true]
      unfold IDDepsNode.find_component
      simp only
      rw [find?_map_key ComponentDepsNode.type _ (by intro a; by_cases h : a.type = c.type <;> simp [h, hf])]
      cases hk : n.components.find? (fun a => decide (a.type = c'.type)) with
      | none =>
        by_cases hc : c' = c
        · subst hc; simp [hn, hk]
        · simp [hc]
      | some k =>
        have hty : k.type = c'.type := find?_key_eq ComponentDepsNode.type _ _ _ hk
        by_cases ht : c'.type = c.type
        · have hc : c' = c := by
            cases c; cases c'; simp_all
          subst hc
          simp [hn, hk, hty]
        · have hc : c' ≠ c := by
            intro h; exact ht (by rw [h])
          simp [hc, hty, ht]
    · have hc : c' ≠ c := by
        intro h; exact ho (by rw [h])
      simp [hid, ho, hc]

theorem find_id_node_eq_none_iff (g : Depsgraph) (id : IDPtr) :
    g.find_id_node id = none ↔ id ∉ g.keys := by
  unfold Depsgraph.find_id_node Depsgraph.keys
  simp only [List.find?_eq_none, List.mem_map, decide_eq_true_eq, not_exists, not_and]

theorem find_id_node_isSome_iff (g : Depsgraph) (id : IDPtr) :
    (g.find_id_node id).isSome ↔ id ∈ g.keys := by
  rw [← not_iff_not, ← find_id_node_eq_none_iff]
  cases g.find_id_node id <;> simp

theorem keys_modify_component (g : Depsgraph) (c : ComponentPtr)
    (f : ComponentDepsNode → ComponentDepsNode) : (g.modify_component c f).keys = g.keys := by
  unfold Depsgraph.modify_component Depsgraph.keys
  simp only [List.map_map]
  apply List.map_congr_left
  intro n _
  by_cases h : n.id = c.owner <;> simp [h]

theorem add_component_id (n : IDDepsNode) (t : eDepsNode_Type) : (n.add_component t).id = n.id := by
  unfold IDDepsNode.add_component
  cases n.find_component t <;> rfl

theorem keys_add_component_node (g : Depsgraph) (id : IDPtr) (t : eDepsNode_Type) :
    (add_component_node g id t).2.keys = g.keys := by
  unfold add_component_node Depsgraph.keys
  simp only [List.map_map]
  apply List.map_congr_left
  intro n _
  by_cases h : n.id = id <;> simp [h, add_component_id]

theorem keys_add_id_node (g : Depsgraph) (id : IDPtr) :
    (add_id_node g id).2.keys = if id ∈ g.keys then g.keys else g.keys ++ [id] := by
  unfold add_id_node
  cases h : g.find_id_node id with
  | none =>
    have := (find_id_node_eq_none_iff g id).1 h
    rw [if_neg this]
    simp [Depsgraph.keys]
  | some n =>
    have : id ∈ g.keys := (find_id_node_isSome_iff g id).1 (by simp [h])
    simp [this]

theorem mem_keys_add_id_node (g : Depsgraph) (id : IDPtr) : id ∈ (add_id_node g id).2.keys := by
  rw [keys_add_id_node]
  by_cases h : id ∈ g.keys <;> simp [h]

theorem add_id_node_fst (g : Depsgraph) (id : IDPtr) : (add_id_node g id).1 = id := by
  unfold add_id_node
  cases g.find_id_node id <;> rfl

theorem add_component_node_fst (g : Depsgraph) (id : IDPtr) (t : eDepsNode_Type) :
    (add_component_node g id t).1 = ⟨id, t⟩ := rfl

theorem component_add_id_node (g : Depsgraph) (id : IDPtr) (c : ComponentPtr) :
    (add_id_node g id).2.component c = g.component c := by
  unfold add_id_node
  cases h : g.find_id_node id with
  | some n => rfl
  | none =>
    unfold Depsgraph.component Depsgraph.find_id_node at *
    simp only [List.find?_append]
    cases h2 : g.id_nodes.find? (fun n => decide (n.id = c.owner)) with
    | some n => simp
    | none =>
      by_cases hc : id = c.owner
      · simp [List.find?_cons, hc, IDDepsNode.find_component]
      · simp [List.find?_cons, hc]

theorem find_id_node_add_component_node (g : Depsgraph) (id id' : IDPtr) (t : eDepsNode_Type) :
    (add_component_node g id t).2.find_id_node id'
      = (g.find_id_node id').map (fun n => if n.id = id then n.add_component t else n) := by
  unfold add_component_node Depsgraph.find_id_node
  simp only
  rw [find?_map_key IDDepsNode.id _ (by intro a; by_cases h : a.id = id <;> simp [h, add_component_id])]

theorem find_component_add_component (n : IDDepsNode) (t t' : eDepsNode_Type) :
    (n.add_component t).find_component t'
      = if t' = t then
          some (n.get_or_new_component t)
        else n.find_component t' := by
  unfold IDDepsNode.add_component IDDepsNode.get_or_new_component
  cases h : n.find_component t with
  | some k =>
    by_cases ht : t' = t
    · subst ht; simp [h]
    · simp [ht]
  | none =>
    unfold IDDepsNode.find_component at *
    simp only [List.find?_append]
    by_cases ht : t' = t
    · subst ht; simp [h, List.find?_cons]
    · have ht' : ¬ t = t' := fun e => ht e.symm
      simp [ht, ht', List.find?_cons]

theorem component_add_component_node (g : Depsgraph) (id : IDPtr) (t : eDepsNode_Type)
    (c : ComponentPtr) :
    (add_component_node g id t).2.component c
      = if c = ⟨id, t⟩ then
          (g.find_id_node id).map (fun n => n.get_or_new_component t)
        else g.component c := by
  unfold Depsgraph.component
  rw [find_id_node_add_component_node]
  cases hn : g.find_id_node c.owner with
  | none =>
    by_cases hc : c = ⟨id, t⟩
    · subst hc; simp at hn; simp [hn]
    · simp [hc]
  | some n =>
    have hid : n.id = c.owner := find_id_node_id hn
    by_cases ho : c.owner = id
    · by_cases ht : c.type = t
      · have hc : c = ⟨id, t⟩ := by cases c; simp_all
        subst hc
        simp at hn
        simp [hn, hid, find_component_add_component]
      · have hc : c ≠ ⟨id, t⟩ := by
          intro h; apply ht; rw [h]
        simp [hid, ho, hc, find_component_add_component, ht]
    · have hc : c ≠ ⟨id, t⟩ := by
        intro h; apply ho; rw [h]
      simp [hid, ho, hc]

theorem operations_add_id_node (g : Depsgraph) (id : IDPtr) (c : ComponentPtr) :
    (add_id_node g id).2.operations c = g.operations c := by
  unfold Depsgraph.operations
  rw [component_add_id_node]

theorem operations_add_component_node (g : Depsgraph) (id : IDPtr) (t : eDepsNode_Type)
    (c : ComponentPtr) :
    (add_component_node g id t).2.operations c = g.operations c := by
  unfold Depsgraph.operations
  rw [component_add_component_node]
  by_cases hc : c = ⟨id, t⟩
  · subst hc
    simp only [if_true]
    unfold Depsgraph.component
    cases hn : g.find_id_node id with
    | none => simp
    | some n =>
      cases hk : n.find_component t with
      | none => simp [hk, IDDepsNode.get_or_new_component]
      | some k => simp [hk, IDDepsNode.get_or_new_component]
  · simp [hc]

theorem component_isSome_add_component_node (g : Depsgraph) (id : IDPtr) (t : eDepsNode_Type)
    (h : id ∈ g.keys) : ((add_component_node g id t).2.component ⟨id, t⟩).isSome := by
  rw [component_add_component_node]
  have := (find_id_node_isSome_iff g id).2 h
  cases hn : g.find_id_node id with
  | none => simp [hn] at this
  | some n => simp

/-! ## Effect of the routines without recursion -/

theorem operations_of_component {g : Depsgraph} {c : ComponentPtr} {k : ComponentDepsNode}
    (h : g.component c = some k) : g.operations c = k.operations := by
  unfold Depsgraph.operations
  rw [h]

theorem operations_of_component_none {g : Depsgraph} {c : ComponentPtr}
    (h : g.component c = none) : g.operations c = [] := by
  unfold Depsgraph.operations
  rw [h]

/-- Effect of `add_operation_node` through a valid pointer. -/
theorem add_operation_node_some (g : Depsgraph) (c : ComponentPtr) (t : eDepsNode_Type)
    (ot : eDepsOperation_Type) (ev : DepsEvalOperationCb) (nm : DegOpName) (ptr : PointerRNA) :
    ∃ g', add_operation_node g (some c) t ot ev nm ptr
        = Except.ok (⟨c, (g.operations c).length⟩, g')
      ∧ g'.keys = g.keys
      ∧ g'.time_source = g.time_source
      ∧ ∀ c', g'.component c'
          = if c' = c then (g.component c).map (fun k => k.append [⟨t, ot, ev, nm, ptr, 0⟩])
            else g.component c' := by
  refine ⟨_, rfl, keys_modify_component _ _ _, rfl, ?_⟩
  intro c'
  exact component_modify_component g c c' _ (fun _ => rfl)

/-- Effect of `build_driver` through a valid pointer. -/
theorem build_driver_spec (g : Depsgraph) (c : ComponentPtr) (fcu : FCurve) :
    ∃ g', build_driver g c fcu = Except.ok (⟨c, (g.operations c).length⟩, g')
      ∧ g'.keys = g.keys
      ∧ g'.time_source = g.time_source
      ∧ ∀ c', g'.component c'
          = if c' = c then (g.component c).map (fun k => k.append [driver_operation c.owner fcu])
            else g.component c' := by
  obtain ⟨g1, h1, hk1, ht1, hc1⟩ := add_operation_node_some g c
    eDepsNode_Type.DEPSNODE_TYPE_OP_DRIVER eDepsOperation_Type.DEPSOP_TYPE_EXEC
    DepsEvalOperationCb.BKE_animsys_eval_driver (DegOpName.deg_op_name_driver fcu.driver)
    (make_rna_pointer c.owner fcu)
  unfold build_driver
  simp only [h1, except_bind_ok, except_pure]
  by_cases hpy : fcu.driver.type = DRIVER_TYPE_PYTHON
  · simp only [hpy, if_true]
    refine ⟨_, rfl, ?_, ?_, ?_⟩
    · unfold Depsgraph.operation_flag_or
      rw [keys_modify_component, hk1]
    · unfold Depsgraph.operation_flag_or
      exact ht1
    · intro c'
      unfold Depsgraph.operation_flag_or
      rw [component_modify_component g1 _ c' _ (by intro k; rfl), hc1 c', hc1 c]
      by_cases hc : c' = c
      · simp only [hc, if_true]
        cases hk : g.component c with
        | none => rfl
        | some k =>
          simp only [Option.map_some', ComponentDepsNode.append, operations_of_component hk,
            update_nth_append_length, driver_operation, hpy, if_true]
          rfl
      · simp only [hc, if_false]
  · simp only [hpy, if_false]
    refine ⟨g1, rfl, hk1, ht1, ?_⟩
    intro c'
    rw [hc1 c']
    simp only [driver_operation, hpy, if_false]

theorem append_append (k : ComponentDepsNode) (l1 l2 : List OperationDepsNode) :
    (k.append l1).append l2 = k.append (l1 ++ l2) := by
  simp [ComponentDepsNode.append]

theorem append_nil (k : ComponentDepsNode) : k.append [] = k := by
  simp [ComponentDepsNode.append]

/-- Effect of the driver loop of `build_animdata`. -/
theorem build_drivers_spec (c : ComponentPtr) (drivers : List FCurve) (g : Depsgraph) :
    ∃ g', drivers.foldlM (fun graph fcu => do
            let (_, graph) ← build_driver graph c fcu
            return graph) g = Except.ok g'
      ∧ g'.keys = g.keys
      ∧ g'.time_source = g.time_source
      ∧ ∀ c', g'.component c'
          = if c' = c then
              (g.component c).map (fun k => k.append (drivers.map (driver_operation c.owner)))
            else g.component c' := by
  induction drivers generalizing g with
  | nil =>
    refine ⟨g, rfl, rfl, rfl, ?_⟩
    intro c'
    by_cases hc : c' = c
    · subst hc
      cases g.component c' <;> simp [append_nil]
    · simp [hc]
  | cons fcu rest ih =>
    obtain ⟨g1, h1, hk1, ht1, hc1⟩ := build_driver_spec g c fcu
    obtain ⟨g2, h2, hk2, ht2, hc2⟩ := ih g1
    refine ⟨g2, ?_, hk2.trans hk1, ht2.trans ht1, ?_⟩
    · simp only [List.foldlM_cons, h1, except_bind_ok, except_pure]
      exact h2
    · intro c'
      rw [hc2 c', hc1 c, hc1 c']
      by_cases hc : c' = c
      · simp only [hc, if_true]
        cases g.component c <;> simp [append_append]
      · simp only [hc, if_false]

/-- Effect of `build_animdata`: it always succeeds, keeps the nodes, and appends
the driver operations to the Animation component it gets or creates. -/
theorem build_animdata_spec (bmain : Main) (g : Depsgraph) (id : IDPtr) :
    ∃ g', build_animdata bmain g id = Except.ok g'
      ∧ g'.keys = g.keys
      ∧ g'.time_source = g.time_source
      ∧ (has_animation bmain id = false → g' = g)
      ∧ ∀ c', g'.component c'
          = if c' = ⟨id, eDepsNode_Type.DEPSNODE_TYPE_ANIMATION⟩ ∧ has_animation bmain id = true then
              (g.find_id_node id).map (fun n =>
                (n.get_or_new_component eDepsNode_Type.DEPSNODE_TYPE_ANIMATION).append
                  ((animdata_drivers bmain id).map (driver_operation id)))
            else g.component c' := by
  unfold build_animdata has_animation animdata_drivers
  cases hadt : BKE_animdata_from_id bmain id with
  | none =>
    refine ⟨g, rfl, rfl, rfl, fun _ => rfl, ?_⟩
    intro c'
    simp
  | some adt =>
    by_cases hcond : adt.action.isSome ∨ adt.nla_tracks ≠ [] ∨ adt.drivers ≠ []
    · simp only [hcond, if_true]
      obtain ⟨g2, h2, hk2, ht2, hc2⟩ := build_drivers_spec
        ⟨id, eDepsNode_Type.DEPSNODE_TYPE_ANIMATION⟩ adt.drivers
        (add_component_node g id eDepsNode_Type.DEPSNODE_TYPE_ANIMATION).2
      refine ⟨g2, h2, ?_, ?_, ?_, ?_⟩
      · rw [hk2, keys_add_component_node]
      · rw [ht2]; rfl
      · intro h; simp [hcond] at h
      · intro c'
        rw [hc2 c', component_add_component_node, component_add_component_node]
        by_cases hc : c' = ⟨id, eDepsNode_Type.DEPSNODE_TYPE_ANIMATION⟩
        · simp only [hc, if_true, and_self]
          cases g.find_id_node id <;> simp
        · simp only [hc, if_false, false_and]
    · simp only [hcond, if_false]
      refine ⟨g, rfl, rfl, rfl, fun _ => rfl, ?_⟩
      intro c'
      simp

theorem operations_eq_of_component_eq {g g' : Depsgraph} {c : ComponentPtr}
    (h : g'.component c = g.component c) : g'.operations c = g.operations c := by
  unfold Depsgraph.operations
  rw [h]

theorem has_component_add_id_node (g : Depsgraph) (id : IDPtr) (c : ComponentPtr) :
    (add_id_node g id).2.has_component c = g.has_component c := by
  unfold Depsgraph.has_component
  rw [component_add_id_node]

theorem has_component_add_component_node (g : Depsgraph) (id : IDPtr) (t : eDepsNode_Type)
    (c : ComponentPtr) (h : id ∈ g.keys) :
    (add_component_node g id t).2.has_component c
      = (g.has_component c || decide (c = ⟨id, t⟩)) := by
  unfold Depsgraph.has_component
  rw [component_add_component_node]
  by_cases hc : c = ⟨id, t⟩
  · have := (find_id_node_isSome_iff g id).2 h
    cases hn : g.find_id_node id with
    | none => simp [hn] at this
    | some n => simp [hc]
  · simp [hc]

/-- Effect of `add_operation_node` on the observations of the graph. -/
theorem add_operation_node_effect (g : Depsgraph) (c : ComponentPtr) (t : eDepsNode_Type)
    (ot : eDepsOperation_Type) (ev : DepsEvalOperationCb) (nm : DegOpName) (ptr : PointerRNA)
    (hc : g.has_component c = true) :
    ∃ p g', add_operation_node g (some c) t ot ev nm ptr = Except.ok (p, g')
      ∧ g'.keys = g.keys
      ∧ g'.time_source = g.time_source
      ∧ (∀ c', g'.has_component c' = g.has_component c')
      ∧ ∀ c', g'.operations c'
          = g.operations c' ++ (if c' = c then [⟨t, ot, ev, nm, ptr, 0⟩] else []) := by
  obtain ⟨g', h, hk, ht, hcomp⟩ := add_operation_node_some g c t ot ev nm ptr
  refine ⟨_, g', h, hk, ht, ?_, ?_⟩
  · intro c'
    unfold Depsgraph.has_component
    rw [hcomp c']
    by_cases e : c' = c
    · subst e
      unfold Depsgraph.has_component at hc
      cases hh : g.component c' with
      | none => simp [hh] at hc
      | some k => simp
    · simp [e]
  · intro c'
    by_cases e : c' = c
    · subst e
      unfold Depsgraph.has_component at hc
      cases hh : g.component c' with
      | none => simp [hh] at hc
      | some k =>
        have h1 := hcomp c'
        rw [hh] at h1
        simp only [if_true, Option.map_some'] at h1
        rw [operations_of_component h1, operations_of_component hh]
        simp [ComponentDepsNode.append]
    · have h1 := hcomp c'
      simp only [e, if_false] at h1
      simp [e, operations_eq_of_component_eq h1]

/-- Effect of `build_object_transform` on a graph that holds the object's node. -/
theorem build_object_transform_effect (g : Depsgraph) (ob : Nat) (h : object_id ob ∈ g.keys) :
    ∃ g', build_object_transform g ob (object_id ob) = Except.ok (transform_ptr ob, g')
      ∧ g'.keys = g.keys
      ∧ g'.time_source = g.time_source
      ∧ (∀ c', g'.has_component c' = (g.has_component c' || decide (c' = transform_ptr ob)))
      ∧ ∀ c', g'.operations c'
          = g.operations c' ++ (if c' = transform_ptr ob then [local_transform_operation ob]
              else []) := by
  unfold build_object_transform
  have hc1 := has_component_add_component_node g (object_id ob)
    eDepsNode_Type.DEPSNODE_TYPE_TRANSFORM
  obtain ⟨p, g2, h2, hk2, ht2, hh2, ho2⟩ := add_operation_node_effect
    (add_component_node g (object_id ob) eDepsNode_Type.DEPSNODE_TYPE_TRANSFORM).2
    ⟨object_id ob, eDepsNode_Type.DEPSNODE_TYPE_TRANSFORM⟩
    eDepsNode_Type.DEPSNODE_TYPE_OP_TRANSFORM eDepsOperation_Type.DEPSOP_TYPE_INIT
    DepsEvalOperationCb.BKE_object_eval_local_transform
    DegOpName.deg_op_name_object_local_transform (make_rna_id_pointer (object_id ob))
    (by rw [hc1 _ h]; simp)
  refine ⟨g2, ?_, ?_, ?_, ?_, ?_⟩
  · simp only [add_component_node_fst, h2, except_bind_ok, except_pure]
    rfl
  · rw [hk2, keys_add_component_node]
  · rw [ht2]; rfl
  · intro c'
    rw [hh2, hc1 _ h]
    rfl
  · intro c'
    rw [ho2, operations_add_component_node]
    rfl

/-- Effect of `build_animdata` on a graph that holds the node. -/
theorem build_animdata_effect (bmain : Main) (g : Depsgraph) (id : IDPtr) (h : id ∈ g.keys) :
    ∃ g', build_animdata bmain g id = Except.ok g'
      ∧ g'.keys = g.keys
      ∧ g'.time_source = g.time_source
      ∧ (∀ c', g'.has_component c'
          = (g.has_component c' || (decide (c' = animation_ptr id) && has_animation bmain id)))
      ∧ ∀ c', g'.operations c' = g.operations c' ++ animdata_operations bmain id c' := by
  obtain ⟨g', h1, hk, ht, hno, hc⟩ := build_animdata_spec bmain g id
  have hsome := (find_id_node_isSome_iff g id).2 h
  refine ⟨g', h1, hk, ht, ?_, ?_⟩
  · intro c'
    unfold Depsgraph.has_component
    rw [hc c']
    by_cases e : c' = animation_ptr id ∧ has_animation bmain id = true
    · have e' : c' = ⟨id, eDepsNode_Type.DEPSNODE_TYPE_ANIMATION⟩
          ∧ has_animation bmain id = true := e
      rw [if_pos e']
      cases hn : g.find_id_node id with
      | none => simp [hn] at hsome
      | some n => simp [e.1, e.2]
    · have e' : ¬ (c' = ⟨id, eDepsNode_Type.DEPSNODE_TYPE_ANIMATION⟩
          ∧ has_animation bmain id = true) := e
      rw [if_neg e']
      have : (decide (c' = animation_ptr id) && has_animation bmain id) = false := by
        by_cases e1 : c' = animation_ptr id
        · have : has_animation bmain id = false := by
            cases hb : has_animation bmain id
            · rfl
            · exact absurd ⟨e1, hb⟩ e
          simp [this]
        · simp [e1]
      rw [this, Bool.or_false]
  · intro c'
    unfold animdata_operations
    by_cases e1 : c' = animation_ptr id
    · by_cases e2 : has_animation bmain id = true
      · have e' : c' = ⟨id, eDepsNode_Type.DEPSNODE_TYPE_ANIMATION⟩
            ∧ has_animation bmain id = true := ⟨e1, e2⟩
        have h2 := hc c'
        rw [if_pos e'] at h2
        cases hn : g.find_id_node id with
        | none => simp [hn] at hsome
        | some n =>
          rw [hn] at h2
          simp only [Option.map_some'] at h2
          rw [operations_of_component h2, if_pos e1]
          have hid := find_id_node_id hn
          simp only [ComponentDepsNode.append, IDDepsNode.get_or_new_component]
          subst e1
          unfold Depsgraph.operations Depsgraph.component
          simp only [animation_ptr, hn, Option.some_bind]
          cases n.find_component eDepsNode_Type.DEPSNODE_TYPE_ANIMATION <;> simp
      · have e2' : has_animation bmain id = false := by
          cases hb : has_animation bmain id
          · rfl
          · exact absurd hb e2
        rw [hno e2', if_pos e1]
        have : animdata_drivers bmain id = [] := by
          unfold has_animation at e2'
          unfold animdata_drivers
          cases hb : BKE_animdata_from_id bmain id with
          | none => rfl
          | some adt =>
            rw [hb] at e2'
            simp only [decide_eq_false_iff_not, not_or, not_not] at e2'
            exact e2'.2.2
        simp [this]
    · have e' : ¬ (c' = ⟨id, eDepsNode_Type.DEPSNODE_TYPE_ANIMATION⟩
          ∧ has_animation bmain id = true) := fun x => e1 x.1
      have h2 := hc c'
      rw [if_neg e'] at h2
      rw [operations_eq_of_component_eq h2, if_neg e1, List.append_nil]

/-- Effect of `build_object`: it always succeeds, returns the object's node,
creates the node and its parameter and Transform components when missing, and
appends its operations to the Transform and Animation components. -/
theorem build_object_effect (bmain : Main) (g : Depsgraph) (ob : Nat) :
    ∃ g', build_object bmain g ob = Except.ok (object_id ob, g')
      ∧ g'.keys = (if object_id ob ∈ g.keys then g.keys else g.keys ++ [object_id ob])
      ∧ g'.time_source = g.time_source
      ∧ (∀ c', g'.has_component c'
          = (g.has_component c' || decide (c' = object_params_ptr ob)
              || decide (c' = transform_ptr ob)
              || (decide (c' = animation_ptr (object_id ob))
                  && has_animation bmain (object_id ob))))
      ∧ ∀ c', g'.operations c' = g.operations c' ++ object_operations bmain ob c' := by
  have hk1 := keys_add_id_node g (object_id ob)
  have hm1 := mem_keys_add_id_node g (object_id ob)
  have hf1 := add_id_node_fst g (object_id ob)
  generalize hg1 : add_id_node g (object_id ob) = r1 at hk1 hm1 hf1
  obtain ⟨p1, g1⟩ := r1
  have hf1 : p1 = object_id ob := hf1
  have hk1 : g1.keys = _ := hk1
  have hm1 : object_id ob ∈ g1.keys := hm1
  subst hf1
  have hh1 : ∀ c, g1.has_component c = g.has_component c := by
    intro c
    have := has_component_add_id_node g (object_id ob) c
    rw [hg1] at this; exact this
  have ho1 : ∀ c, g1.operations c = g.operations c := by
    intro c
    have := operations_add_id_node g (object_id ob) c
    rw [hg1] at this; exact this
  have hk2 := keys_add_component_node g1 (object_id ob) eDepsNode_Type.DEPSNODE_TYPE_OP_PARAMETER
  have hh2 := fun c => has_component_add_component_node g1 (object_id ob)
    eDepsNode_Type.DEPSNODE_TYPE_OP_PARAMETER c hm1
  have ho2 := operations_add_component_node g1 (object_id ob)
    eDepsNode_Type.DEPSNODE_TYPE_OP_PARAMETER
  generalize hg2 : add_component_node g1 (object_id ob)
    eDepsNode_Type.DEPSNODE_TYPE_OP_PARAMETER = r2 at hk2 hh2 ho2
  obtain ⟨p2, g2⟩ := r2
  have hk2 : g2.keys = g1.keys := hk2
  have hh2 : ∀ c, g2.has_component c = (g1.has_component c || decide (c = object_params_ptr ob)) := hh2
  have ho2 : ∀ c, g2.operations c = g1.operations c := ho2
  have ht2 : g2.time_source = g.time_source := by
    have e2 : g2 = (add_component_node g1 (object_id ob)
      eDepsNode_Type.DEPSNODE_TYPE_OP_PARAMETER).2 := by rw [hg2]
    have e1 : g1 = (add_id_node g (object_id ob)).2 := by rw [hg1]
    rw [e2, e1]
    unfold add_component_node add_id_node
    cases g.find_id_node (object_id ob) <;> rfl
  obtain ⟨g3, h3, hk3, ht3, hh3, ho3⟩ := build_object_transform_effect g2 ob (by rw [hk2]; exact hm1)
  obtain ⟨g4, h4, hk4, ht4, hh4, ho4⟩ := build_animdata_effect bmain g3 (object_id ob)
    (by rw [hk3, hk2]; exact hm1)
  have htr4 : g4.has_component (transform_ptr ob) = true := by
    rw [hh4, hh3]; simp
  -- parent operation
  have h5 : ∃ g5, (if (bmain.objects ob).parent.isSome = true then do
        let (_, graph) ← add_operation_node g4 (some (transform_ptr ob))
          eDepsNode_Type.DEPSNODE_TYPE_OP_TRANSFORM eDepsOperation_Type.DEPSOP_TYPE_EXEC
          DepsEvalOperationCb.BKE_object_eval_parent
          DegOpName.deg_op_name_object_parent (make_rna_id_pointer (object_id ob))
        pure graph
      else pure g4 : Except BuildError Depsgraph) = Except.ok g5
      ∧ g5.keys = g4.keys ∧ g5.time_source = g4.time_source
      ∧ (∀ c', g5.has_component c' = g4.has_component c')
      ∧ ∀ c', g5.operations c' = g4.operations c'
          ++ (if c' = transform_ptr ob then
                (if (bmain.objects ob).parent.isSome then [parent_operation ob] else [])
              else []) := by
    by_cases hp : (bmain.objects ob).parent.isSome = true
    · obtain ⟨p, g5, e5, hk5, ht5, hh5, ho5⟩ := add_operation_node_effect g4 (transform_ptr ob)
        eDepsNode_Type.DEPSNODE_TYPE_OP_TRANSFORM eDepsOperation_Type.DEPSOP_TYPE_EXEC
        DepsEvalOperationCb.BKE_object_eval_parent
        DegOpName.deg_op_name_object_parent (make_rna_id_pointer (object_id ob)) htr4
      refine ⟨g5, ?_, hk5, ht5, hh5, ?_⟩
      · simp only [hp, if_true, e5, except_bind_ok, except_pure]
      · intro c'
        rw [ho5 c']
        simp only [hp, if_true]
        rfl
    · refine ⟨g4, ?_, rfl, rfl, fun _ => rfl, ?_⟩
      · simp only [hp, if_false, except_pure]
        rfl
      · intro c'
        simp [hp]
  obtain ⟨g5, e5, hk5, ht5, hh5, ho5⟩ := h5
  have htr5 : g5.has_component (transform_ptr ob) = true := by rw [hh5]; exact htr4
  have h6 : ∃ g6, (if (bmain.objects ob).constraints ≠ [] then
        build_constraints g5 (transform_ptr ob) eDepsNode_Type.DEPSNODE_TYPE_OP_TRANSFORM
      else pure g5 : Except BuildError Depsgraph) = Except.ok g6
      ∧ g6.keys = g5.keys ∧ g6.time_source = g5.time_source
      ∧ (∀ c', g6.has_component c' = g5.has_component c')
      ∧ ∀ c', g6.operations c' = g5.operations c'
          ++ (if c' = transform_ptr ob then
                (if (bmain.objects ob).constraints ≠ [] then [constraint_stack_operation ob]
                 else [])
              else []) := by
    by_cases hp : (bmain.objects ob).constraints ≠ []
    · obtain ⟨p, g6, e6, hk6, ht6, hh6, ho6⟩ := add_operation_node_effect g5 (transform_ptr ob)
        eDepsNode_Type.DEPSNODE_TYPE_OP_TRANSFORM eDepsOperation_Type.DEPSOP_TYPE_EXEC
        DepsEvalOperationCb.BKE_constraints_evaluate
        DegOpName.deg_op_name_constraint_stack (make_rna_id_pointer (object_id ob)) htr5
      refine ⟨g6, ?_, hk6, ht6, hh6, ?_⟩
      · rw [if_pos hp]
        unfold build_constraints
        simp only [transform_ptr] at e6 ⊢
        simp only [e6, except_bind_ok, except_pure]
      · intro c'
        rw [ho6 c', if_pos hp]
        rfl
    · refine ⟨g5, ?_, rfl, rfl, fun _ => rfl, ?_⟩
      · rw [if_neg hp]; rfl
      · intro c'
        simp [hp]
  obtain ⟨g6, e6, hk6, ht6, hh6, ho6⟩ := h6
  refine ⟨g6, ?_, ?_, ?_, ?_, ?_⟩
  · unfold build_object
    simp only [hg1, hg2, h3, except_bind_ok, h4, e5, e6]
    cases (bmain.objects ob).data <;> rfl
  · rw [hk6, hk5, hk4, hk3, hk2, hk1]
  · rw [ht6, ht5, ht4, ht3, ht2]
  · intro c'
    rw [hh6, hh5, hh4, hh3, hh2, hh1]
  · intro c'
    rw [ho6, ho5, ho4, ho3, ho2, ho1]
    unfold object_operations object_transform_operations
    by_cases e : c' = transform_ptr ob
    · have ne : ¬ c' = animation_ptr (object_id ob) := by
        rw [e]; unfold transform_ptr animation_ptr; simp
      simp [e, animdata_operations, ne, transform_ptr, animation_ptr]
    · simp [e]

theorem build_scene_group_graph (st : BuilderState) (group : Nat) :
    (build_scene_group st group).graph = st.graph := by
  unfold build_scene_group build_subgraph
  by_cases h : id_is_tagged st.tags (group_id group) = true <;> simp [h]

theorem build_scene_group_fold_graph (groups : List Nat) (st : BuilderState) :
    (groups.foldl build_scene_group st).graph = st.graph := by
  induction groups generalizing st with
  | nil => rfl
  | cons a l ih => rw [List.foldl_cons, ih, build_scene_group_graph]

theorem component_none_of_not_mem_keys {g : Depsgraph} {c : ComponentPtr}
    (h : c.owner ∉ g.keys) : g.component c = none := by
  unfold Depsgraph.component
  rw [(find_id_node_eq_none_iff g c.owner).2 h]
  rfl

/-! ## Claims about single routines -/

/-- C7: `build_object` on a graph without a node for the object succeeds and
leaves in the object's Transform component the local-transform (init) operation
first, directly followed by the parent-transform (exec) operation exactly when
the object has a parent (then by the constraint-stack operation when it has
constraints); without a parent no parent-transform operation is there. -/
theorem C7_build_object_transform_operations (bmain : Main) (g : Depsgraph) (ob : Nat)
    (hfresh : object_id ob ∉ g.keys) :
    ∃ g', build_object bmain g ob = Except.ok (object_id ob, g')
      ∧ g'.has_component (transform_ptr ob) = true
      ∧ g'.operations (transform_ptr ob)
          = local_transform_operation ob
              :: ((if (bmain.objects ob).parent.isSome then [parent_operation ob] else [])
                  ++ (if (bmain.objects ob).constraints ≠ [] then
                        [constraint_stack_operation ob] else []))
      ∧ (local_transform_operation ob).optype = eDepsOperation_Type.DEPSOP_TYPE_INIT
      ∧ (parent_operation ob).optype = eDepsOperation_Type.DEPSOP_TYPE_EXEC
      ∧ ((bmain.objects ob).parent = none →
          parent_operation ob ∉ g'.operations (transform_ptr ob)) := by
  obtain ⟨g', h, _, _, hh, ho⟩ := build_object_effect bmain g ob
  have hnone : g.component (transform_ptr ob) = none :=
    component_none_of_not_mem_keys (by simpa [transform_ptr] using hfresh)
  have hops : g'.operations (transform_ptr ob)
      = local_transform_operation ob
          :: ((if (bmain.objects ob).parent.isSome then [parent_operation ob] else [])
              ++ (if (bmain.objects ob).constraints ≠ [] then
                    [constraint_stack_operation ob] else [])) := by
    rw [ho, operations_of_component_none hnone]
    simp [object_operations, object_transform_operations]
  refine ⟨g', h, ?_, hops, rfl, rfl, ?_⟩
  · rw [hh]; simp
  · intro hp
    rw [hops, hp]
    by_cases hc : (bmain.objects ob).constraints = [] <;>
      simp [hc, parent_operation, local_transform_operation, constraint_stack_operation]

/-- C8: `build_driver` through a valid component pointer returns an operation
whose uses-Python flag is set if and only if the driver is a scripted
expression (`DRIVER_TYPE_PYTHON`). -/
theorem C8_build_driver_python_flag (g : Depsgraph) (adt_node : ComponentPtr) (fcurve : FCurve)
    (hvalid : g.has_component adt_node = true) :
    ∃ driver_op g' op, build_driver g adt_node fcurve = Except.ok (driver_op, g')
      ∧ g'.operation driver_op = some op
      ∧ op = driver_operation adt_node.owner fcurve
      ∧ (op.flag &&& DEPSOP_FLAG_USES_PYTHON ≠ 0 ↔ fcurve.driver.type = DRIVER_TYPE_PYTHON) := by
  obtain ⟨g', h, _, _, hc⟩ := build_driver_spec g adt_node fcurve
  unfold Depsgraph.has_component at hvalid
  cases hk : g.component adt_node with
  | none => simp [hk] at hvalid
  | some k =>
    have h1 := hc adt_node
    rw [hk] at h1
    simp only [if_true, Option.map_some'] at h1
    refine ⟨_, g', driver_operation adt_node.owner fcurve, h, ?_, rfl, ?_⟩
    · unfold Depsgraph.operation
      simp only [operations_of_component h1, operations_of_component hk,
        ComponentDepsNode.append]
      simp
    · unfold driver_operation
      by_cases hpy : fcurve.driver.type = DRIVER_TYPE_PYTHON
      · simp only [hpy, if_true, iff_true]
        decide
      · simp [hpy]

/-- C9: on a node without Animation component, `build_animdata` succeeds; the
node has an Animation component afterwards if and only if the block has
animation data with an action, an NLA track or a driver; that component then
holds exactly one operation per driver curve, in driver-list order; otherwise
the graph is unchanged. -/
theorem C9_build_animdata (bmain : Main) (g : Depsgraph) (id_node : IDPtr)
    (hnode : id_node ∈ g.keys) (hnew : g.has_component (animation_ptr id_node) = false) :
    ∃ g', build_animdata bmain g id_node = Except.ok g'
      ∧ (g'.has_component (animation_ptr id_node) = true ↔
          ∃ adt, BKE_animdata_from_id bmain id_node = some adt
            ∧ (adt.action.isSome ∨ adt.nla_tracks ≠ [] ∨ adt.drivers ≠ []))
      ∧ (∀ adt, BKE_animdata_from_id bmain id_node = some adt
            → (adt.action.isSome ∨ adt.nla_tracks ≠ [] ∨ adt.drivers ≠ [])
            → g'.component (animation_ptr id_node)
                = some ⟨eDepsNode_Type.DEPSNODE_TYPE_ANIMATION, id_node,
                    adt.drivers.map (driver_operation id_node)⟩)
      ∧ ((¬ ∃ adt, BKE_animdata_from_id bmain id_node = some adt
            ∧ (adt.action.isSome ∨ adt.nla_tracks ≠ [] ∨ adt.drivers ≠ [])) → g' = g) := by
  obtain ⟨g', h, _, _, hno, hc⟩ := build_animdata_spec bmain g id_node
  have hiff : has_animation bmain id_node = true ↔
      ∃ adt, BKE_animdata_from_id bmain id_node = some adt
        ∧ (adt.action.isSome ∨ adt.nla_tracks ≠ [] ∨ adt.drivers ≠ []) := by
    unfold has_animation
    cases BKE_animdata_from_id bmain id_node with
    | none => simp
    | some adt => simp
  have hsome := (find_id_node_isSome_iff g id_node).2 hnode
  refine ⟨g', h, ?_, ?_, ?_⟩
  · rw [← hiff]
    unfold Depsgraph.has_component at hnew ⊢
    have h1 := hc (animation_ptr id_node)
    by_cases ha : has_animation bmain id_node = true
    · rw [if_pos ⟨rfl, ha⟩] at h1
      cases hn : g.find_id_node id_node with
      | none => simp [hn] at hsome
      | some n => simp [h1, hn, ha]
    · rw [if_neg (fun x => ha x.2)] at h1
      rw [h1, hnew]
      simp [ha]
  · intro adt hadt hcond
    have ha : has_animation bmain id_node = true := hiff.2 ⟨adt, hadt, hcond⟩
    have h1 := hc (animation_ptr id_node)
    rw [if_pos ⟨rfl, ha⟩] at h1
    cases hn : g.find_id_node id_node with
    | none => simp [hn] at hsome
    | some n =>
      have hid := find_id_node_id hn
      have hk : n.find_component eDepsNode_Type.DEPSNODE_TYPE_ANIMATION = none := by
        unfold Depsgraph.has_component Depsgraph.component at hnew
        simp only [animation_ptr, hn, Option.some_bind] at hnew
        cases hf : n.find_component eDepsNode_Type.DEPSNODE_TYPE_ANIMATION with
        | none => rfl
        | some k => simp [hf] at hnew
      rw [h1, hn]
      simp [IDDepsNode.get_or_new_component, hk, ComponentDepsNode.append, hid,
        animdata_drivers, hadt]
  · intro hcond
    apply hno
    cases hb : has_animation bmain id_node
    · rfl
    · exact absurd (hiff.1 hb) hcond

/-- Witness of C7 on the parented example object and the empty graph. -/
theorem C7_witness :
    ∃ g', build_object ex_parented_main Depsgraph.empty 0 = Except.ok (object_id 0, g')
      ∧ g'.operations (transform_ptr 0) = [local_transform_operation 0, parent_operation 0] := by
  obtain ⟨g', h, _, hops, _⟩ :=
    C7_build_object_transform_operations ex_parented_main Depsgraph.empty 0 (by decide)
  exact ⟨g', h, by rw [hops]; rfl⟩

/-- Witness of C8 on a graph holding an Animation component. -/
theorem C8_witness :
    ∃ driver_op g' op,
      build_driver ex_animation_graph (animation_ptr (object_id 0)) ex_scripted_driver
        = Except.ok (driver_op, g')
      ∧ g'.operation driver_op = some op
      ∧ op.flag &&& DEPSOP_FLAG_USES_PYTHON ≠ 0 := by
  obtain ⟨p, g', op, h, hop, _, hflag⟩ :=
    C8_build_driver_python_flag ex_animation_graph (animation_ptr (object_id 0))
      ex_scripted_driver (by decide)
  exact ⟨p, g', op, h, hop, hflag.2 rfl⟩

/-- Witness of C9 on the bare node of the example object with two drivers. -/
theorem C9_witness :
    ∃ g', build_animdata ex_two_drivers_main ex_bare_node_graph (object_id 0) = Except.ok g'
      ∧ g'.component (animation_ptr (object_id 0))
          = some ⟨eDepsNode_Type.DEPSNODE_TYPE_ANIMATION, object_id 0,
              [driver_operation (object_id 0) ex_scripted_driver,
               driver_operation (object_id 0) ex_plain_driver]⟩ := by
  obtain ⟨g', h, _, hc, _⟩ :=
    C9_build_animdata ex_two_drivers_main ex_bare_node_graph (object_id 0)
      (by decide) (by decide)
  exact ⟨g', h, hc ⟨none, [], [ex_scripted_driver, ex_plain_driver]⟩ rfl (by decide)⟩

theorem except_bind_eq_ok {ε α β : Type} {x : Except ε α} {f : α → Except ε β} {b : β} :
    (x >>= f) = Except.ok b ↔ ∃ a, x = Except.ok a ∧ f a = Except.ok b := by
  cases x with
  | error e => simp
  | ok a => simp

/-- A reflexive and transitive relation that holds across every step of a loop
holds across the loop. -/
theorem foldlM_rel {ε σ α : Type} (R : σ → σ → Prop) (hrefl : ∀ s, R s s)
    (htrans : ∀ a b c, R a b → R b c → R a c) (f : σ → α → Except ε σ) (l : List α)
    (hstep : ∀ s a s', a ∈ l → f s a = Except.ok s' → R s s') :
    ∀ s s', l.foldlM f s = Except.ok s' → R s s' := by
  induction l with
  | nil =>
    intro s s' h
    simp only [List.foldlM_nil, except_pure, Except.ok.injEq] at h
    subst h
    exact hrefl s
  | cons a l ih =>
    intro s s' h
    simp only [List.foldlM_cons] at h
    obtain ⟨s1, h1, h2⟩ := except_bind_eq_ok.1 h
    exact htrans _ _ _ (hstep s a s1 (List.mem_cons_self _ _) h1)
      (ih (fun s a s' ha => hstep s a s' (List.mem_cons_of_mem _ ha)) s1 s' h2)

theorem add_id_node_eq (g : Depsgraph) (id : IDPtr) :
    add_id_node g id = (id, (add_id_node g id).2) := by
  unfold add_id_node
  cases g.find_id_node id <;> rfl

/-- Induction principle for the mutually recursive routines: a reflexive and
transitive relation on builder states holds from entry to return of each
routine when it holds across the build of a node-tree's own node, and across a
guarded block (tag set, own node, inner builds, tag clear) whenever it holds
across the inner builds. -/
theorem build_rec_rel (bmain : Main) (R : BuilderState → BuilderState → Prop)
    (hrefl : ∀ st, R st st) (htrans : ∀ a b c, R a b → R b c → R a c)
    (hnt : ∀ (st : BuilderState) nt g',
      build_animdata bmain (add_id_node st.graph (nodetree_id nt)).2 (nodetree_id nt)
        = Except.ok g' → R st ⟨g', st.tags⟩)
    (hguard : ∀ (st : BuilderState) id g1 (st2 : BuilderState),
      (id.gs = ID_Type.ID_MA ∨ id.gs = ID_Type.ID_TE ∨ id.gs = ID_Type.ID_WO) →
      st.tags id = false →
      build_animdata bmain (add_id_node st.graph id).2 id = Except.ok g1 →
      R ⟨g1, id_tag_set st.tags id⟩ st2 →
      R st ⟨st2.graph, id_tag_clear st2.tags id⟩) :
    ∀ fuel,
      (∀ st owner nt st', build_nodetree fuel bmain st owner nt = Except.ok st' → R st st')
      ∧ (∀ st owner ma st', build_material fuel bmain st owner ma = Except.ok st' → R st st')
      ∧ (∀ st owner ts st', build_texture_stack fuel bmain st owner ts = Except.ok st'
          → R st st')
      ∧ (∀ st owner tex st', build_texture fuel bmain st owner tex = Except.ok st'
          → R st st') := by
  intro fuel
  induction fuel with
  | zero =>
    refine ⟨?_, ?_, ?_, ?_⟩ <;> intro st owner x st' h
    · simp [build_nodetree] at h
    · simp [build_material] at h
    · simp [build_texture_stack] at h
    · simp [build_texture] at h
  | succ n ih =>
    obtain ⟨ihnt, ihma, ihts, ihte⟩ := ih
    refine ⟨?_, ?_, ?_, ?_⟩
    · intro st owner nt st' h
      cases nt with
      | none =>
        simp only [build_nodetree, except_pure, Except.ok.injEq] at h
        subst h; exact hrefl _
      | some nt =>
        simp only [build_nodetree] at h
        rw [add_id_node_eq] at h
        simp only at h
        obtain ⟨g1, h1, h2⟩ := except_bind_eq_ok.1 h
        refine htrans _ _ _ (hnt st nt g1 h1) ?_
        refine foldlM_rel R hrefl htrans _ _ ?_ _ _ h2
        intro s bnode s' _ hs
        cases hid : bnode.id with
        | none =>
          simp only [hid, except_pure, Except.ok.injEq] at hs
          subst hs; exact hrefl _
        | some id =>
          simp only [hid] at hs
          by_cases hma : id.gs = ID_Type.ID_MA
          · simp only [hma, if_true] at hs
            exact ihma _ _ _ _ hs
          · simp only [hma, if_false] at hs
            by_cases hte : bnode.type = ID_TE
            · simp only [hte, if_true] at hs
              cases htex : id.as_Tex with
              | none => simp [htex] at hs
              | some tex =>
                simp only [htex] at hs
                exact ihte _ _ _ _ hs
            · simp only [hte, if_false] at hs
              by_cases hgr : bnode.type = NODE_GROUP
              · simp only [hgr, if_true] at hs
                cases hnt' : id.as_bNodeTree with
                | none => simp [hnt'] at hs
                | some nt' =>
                  simp only [hnt'] at hs
                  exact ihnt _ _ _ _ hs
              · simp only [hgr, if_false, except_pure, Except.ok.injEq] at hs
                subst hs; exact hrefl _
    · intro st owner ma st' h
      simp only [build_material] at h
      by_cases htag : id_is_tagged st.tags (material_id ma) = true
      · simp only [htag, if_true, except_pure, Except.ok.injEq] at h
        subst h; exact hrefl _
      · simp only [htag] at h
        rw [add_id_node_eq] at h
        simp only [Bool.false_eq_true, if_false] at h
        obtain ⟨g1, h1, h2⟩ := except_bind_eq_ok.1 h
        obtain ⟨sa, h3, h4⟩ := except_bind_eq_ok.1 h2
        obtain ⟨sb, h5, h6⟩ := except_bind_eq_ok.1 h4
        simp only [except_pure, Except.ok.injEq] at h6
        subst h6
        refine hguard st (material_id ma) g1 sb (Or.inl rfl) ?_ h1 ?_
        · simpa [id_is_tagged] using htag
        · exact htrans _ _ _ (ihts _ _ _ _ h3) (ihnt _ _ _ _ h5)
    · intro st owner ts st' h
      simp only [build_texture_stack] at h
      refine foldlM_rel R hrefl htrans _ _ ?_ _ _ h
      intro s i s' _ hs
      cases hm : ts i with
      | none =>
        simp only [hm, except_pure, Except.ok.injEq] at hs
        subst hs; exact hrefl _
      | some mtex =>
        simp only [hm] at hs
        exact ihte _ _ _ _ hs
    · intro st owner tex st' h
      simp only [build_texture] at h
      by_cases htag : id_is_tagged st.tags (texture_id tex) = true
      · simp only [htag, if_true, except_pure, Except.ok.injEq] at h
        subst h; exact hrefl _
      · simp only [htag] at h
        rw [add_id_node_eq] at h
        simp only [Bool.false_eq_true, if_false] at h
        obtain ⟨g1, h1, h2⟩ := except_bind_eq_ok.1 h
        obtain ⟨sb, h5, h6⟩ := except_bind_eq_ok.1 h2
        simp only [except_pure, Except.ok.injEq] at h6
        subst h6
        refine hguard st (texture_id tex) g1 sb (Or.inr (Or.inl rfl)) ?_ h1 ?_
        · simpa [id_is_tagged] using htag
        · exact ihnt _ _ _ _ h5

/-- The induction principle extended to `build_world`. -/
theorem build_world_rel (bmain : Main) (R : BuilderState → BuilderState → Prop)
    (hrefl : ∀ st, R st st) (htrans : ∀ a b c, R a b → R b c → R a c)
    (hnt : ∀ (st : BuilderState) nt g',
      build_animdata bmain (add_id_node st.graph (nodetree_id nt)).2 (nodetree_id nt)
        = Except.ok g' → R st ⟨g', st.tags⟩)
    (hguard : ∀ (st : BuilderState) id g1 (st2 : BuilderState),
      (id.gs = ID_Type.ID_MA ∨ id.gs = ID_Type.ID_TE ∨ id.gs = ID_Type.ID_WO) →
      st.tags id = false →
      build_animdata bmain (add_id_node st.graph id).2 id = Except.ok g1 →
      R ⟨g1, id_tag_set st.tags id⟩ st2 →
      R st ⟨st2.graph, id_tag_clear st2.tags id⟩)
    (fuel : Nat) (st : BuilderState) (world : Nat) (st' : BuilderState)
    (h : build_world fuel bmain st world = Except.ok st') : R st st' := by
  cases fuel with
  | zero => simp [build_world] at h
  | succ n =>
    obtain ⟨ihnt, _, ihts, _⟩ := build_rec_rel bmain R hrefl htrans hnt hguard n
    simp only [build_world] at h
    by_cases htag : id_is_tagged st.tags (world_id world) = true
    · simp only [htag, if_true, except_pure, Except.ok.injEq] at h
      subst h; exact hrefl _
    · simp only [htag] at h
      rw [add_id_node_eq] at h
      simp only [Bool.false_eq_true, if_false] at h
      obtain ⟨g1, h1, h2⟩ := except_bind_eq_ok.1 h
      obtain ⟨sa, h3, h4⟩ := except_bind_eq_ok.1 h2
      obtain ⟨sb, h5, h6⟩ := except_bind_eq_ok.1 h4
      simp only [except_pure, Except.ok.injEq] at h6
      subst h6
      refine hguard st (world_id world) g1 sb (Or.inr (Or.inr rfl)) ?_ h1 ?_
      · simpa [id_is_tagged] using htag
      · refine htrans _ _ _ (ihts _ _ _ _ h3) ?_
        cases hn : (bmain.worlds world).nodetree with
        | none =>
          simp only [hn, except_pure, Except.ok.injEq] at h5
          subst h5; exact hrefl _
        | some nt =>
          simp only [hn] at h5
          exact ihnt _ _ _ _ h5

/-- The induction principle extended to `build_compositor`. -/
theorem build_compositor_rel (bmain : Main) (R : BuilderState → BuilderState → Prop)
    (hrefl : ∀ st, R st st) (htrans : ∀ a b c, R a b → R b c → R a c)
    (hnt : ∀ (st : BuilderState) nt g',
      build_animdata bmain (add_id_node st.graph (nodetree_id nt)).2 (nodetree_id nt)
        = Except.ok g' → R st ⟨g', st.tags⟩)
    (hguard : ∀ (st : BuilderState) id g1 (st2 : BuilderState),
      (id.gs = ID_Type.ID_MA ∨ id.gs = ID_Type.ID_TE ∨ id.gs = ID_Type.ID_WO) →
      st.tags id = false →
      build_animdata bmain (add_id_node st.graph id).2 id = Except.ok g1 →
      R ⟨g1, id_tag_set st.tags id⟩ st2 →
      R st ⟨st2.graph, id_tag_clear st2.tags id⟩)
    (hcomp : ∀ (st : BuilderState) scene,
      R st ⟨(add_component_node st.graph (scene_id scene)
        eDepsNode_Type.DEPSNODE_TYPE_PARAMETERS).2, st.tags⟩)
    (fuel : Nat) (st : BuilderState) (scene : Nat) (st' : BuilderState)
    (h : build_compositor fuel bmain st (scene_id scene) scene = Except.ok st') : R st st' := by
  cases fuel with
  | zero => simp [build_compositor] at h
  | succ n =>
    obtain ⟨ihnt, _, _, _⟩ := build_rec_rel bmain R hrefl htrans hnt hguard n
    simp only [build_compositor] at h
    exact htrans _ _ _ (hcomp st scene) (ihnt _ _ _ _ h)

/-- The state after the first two statements of `build_scene`. -/
theorem build_scene_inv {fuel : Nat} {bmain : Main} {st : BuilderState} {scene : Nat}
    {p : IDPtr} {st' : BuilderState}
    (h : build_scene (fuel + 1) bmain st scene = Except.ok (p, st')) :
    p = scene_id scene ∧ ∃ s1 s2 s4 s5 s6 : BuilderState,
      (match (bmain.scenes scene).set with
        | some set => ∃ q, build_scene fuel bmain
            ⟨add_time_source (add_id_node st.graph (scene_id scene)).2 (scene_id scene), st.tags⟩
            set = Except.ok (q, s1)
        | none => s1 =
            ⟨add_time_source (add_id_node st.graph (scene_id scene)).2 (scene_id scene), st.tags⟩)
      ∧ (bmain.scenes scene).base.foldlM (build_scene_base bmain) s1 = Except.ok s2
      ∧ (match (bmain.scenes scene).rigidbody_world with
        | some _ => ∃ g, build_rigidbody bmain (bmain.group.foldl build_scene_group s2).graph
              (scene_id scene) scene = Except.ok g
            ∧ s4 = ⟨g, (bmain.group.foldl build_scene_group s2).tags⟩
        | none => s4 = bmain.group.foldl build_scene_group s2)
      ∧ (match (bmain.scenes scene).adt with
        | some _ => ∃ g, build_animdata bmain s4.graph (scene_id scene) = Except.ok g
            ∧ s5 = ⟨g, s4.tags⟩
        | none => s5 = s4)
      ∧ (match (bmain.scenes scene).world with
        | some world => build_world fuel bmain s5 world = Except.ok s6
        | none => s6 = s5)
      ∧ (match (bmain.scenes scene).nodetree with
        | some _ => build_compositor fuel bmain s6 (scene_id scene) scene = Except.ok st'
        | none => st' = s6) := by
  simp only [build_scene] at h
  rw [add_id_node_eq] at h
  simp only at h
  obtain ⟨s1, h1, h⟩ := except_bind_eq_ok.1 h
  obtain ⟨s2, h2, h⟩ := except_bind_eq_ok.1 h
  obtain ⟨s4, h4, h⟩ := except_bind_eq_ok.1 h
  obtain ⟨s5, h5, h⟩ := except_bind_eq_ok.1 h
  obtain ⟨s6, h6, h⟩ := except_bind_eq_ok.1 h
  obtain ⟨s7, h7, h⟩ := except_bind_eq_ok.1 h
  simp only [except_pure, Except.ok.injEq, Prod.mk.injEq] at h
  obtain ⟨hp, hs⟩ := h
  subst hs
  refine ⟨hp.symm, s1, s2, s4, s5, s6, ?_, h2, ?_, ?_, ?_, ?_⟩
  · cases hset : (bmain.scenes scene).set with
    | none =>
      simp only [hset, except_pure, Except.ok.injEq] at h1
      exact h1.symm
    | some set =>
      simp only [hset] at h1
      obtain ⟨r, hr, hr2⟩ := except_bind_eq_ok.1 h1
      obtain ⟨q, s⟩ := r
      simp only [except_pure, Except.ok.injEq] at hr2
      subst hr2
      exact ⟨q, hr⟩
  · cases hrb : (bmain.scenes scene).rigidbody_world with
    | none =>
      simp only [hrb, except_pure, Except.ok.injEq] at h4
      exact h4.symm
    | some rbw =>
      simp only [hrb] at h4
      obtain ⟨g, hg, hg2⟩ := except_bind_eq_ok.1 h4
      simp only [except_pure, Except.ok.injEq] at hg2
      exact ⟨g, hg, hg2.symm⟩
  · cases hadt : (bmain.scenes scene).adt with
    | none =>
      simp only [hadt, except_pure, Except.ok.injEq] at h5
      exact h5.symm
    | some adt =>
      simp only [hadt] at h5
      obtain ⟨g, hg, hg2⟩ := except_bind_eq_ok.1 h5
      simp only [except_pure, Except.ok.injEq] at hg2
      exact ⟨g, hg, hg2.symm⟩
  · cases hw : (bmain.scenes scene).world with
    | none =>
      simp only [hw, except_pure, Except.ok.injEq] at h6
      exact h6.symm
    | some w =>
      simp only [hw] at h6
      exact h6
  · cases hn : (bmain.scenes scene).nodetree with
    | none =>
      simp only [hn, except_pure, Except.ok.injEq] at h7
      exact h7.symm
    | some nt =>
      simp only [hn] at h7
      exact h7

theorem foldl_rel {σ α : Type} (R : σ → σ → Prop) (hrefl : ∀ s, R s s)
    (htrans : ∀ a b c, R a b → R b c → R a c) (f : σ → α → σ) (l : List α)
    (hstep : ∀ s a, a ∈ l → R s (f s a)) : ∀ s, R s (l.foldl f s) := by
  induction l with
  | nil => intro s; exact hrefl s
  | cons a l ih =>
    intro s
    rw [List.foldl_cons]
    exact htrans _ _ _ (hstep s a (List.mem_cons_self _ _))
      (ih (fun s a ha => hstep s a (List.mem_cons_of_mem _ ha)) (f s a))

/-- Induction principle for `build_scene`: a reflexive and transitive relation
on builder states that holds across each stage of the routine holds from entry
to return. -/
theorem build_scene_rel (bmain : Main) (R : BuilderState → BuilderState → Prop)
    (hrefl : ∀ st, R st st) (htrans : ∀ a b c, R a b → R b c → R a c)
    (hnt : ∀ (st : BuilderState) nt g',
      build_animdata bmain (add_id_node st.graph (nodetree_id nt)).2 (nodetree_id nt)
        = Except.ok g' → R st ⟨g', st.tags⟩)
    (hguard : ∀ (st : BuilderState) id g1 (st2 : BuilderState),
      (id.gs = ID_Type.ID_MA ∨ id.gs = ID_Type.ID_TE ∨ id.gs = ID_Type.ID_WO) →
      st.tags id = false →
      build_animdata bmain (add_id_node st.graph id).2 id = Except.ok g1 →
      R ⟨g1, id_tag_set st.tags id⟩ st2 →
      R st ⟨st2.graph, id_tag_clear st2.tags id⟩)
    (hcomp : ∀ (st : BuilderState) scene,
      R st ⟨(add_component_node st.graph (scene_id scene)
        eDepsNode_Type.DEPSNODE_TYPE_PARAMETERS).2, st.tags⟩)
    (hscene : ∀ (st : BuilderState) scene,
      R st ⟨add_time_source (add_id_node st.graph (scene_id scene)).2 (scene_id scene), st.tags⟩)
    (hbase : ∀ st base st', build_scene_base bmain st base = Except.ok st' → R st st')
    (hgroup : ∀ st group, R st (build_scene_group st group))
    (hrb : ∀ (st : BuilderState) scene g,
      build_rigidbody bmain st.graph (scene_id scene) scene = Except.ok g → R st ⟨g, st.tags⟩)
    (hanim : ∀ (st : BuilderState) scene g,
      build_animdata bmain st.graph (scene_id scene) = Except.ok g → R st ⟨g, st.tags⟩) :
    ∀ fuel st scene p st', build_scene fuel bmain st scene = Except.ok (p, st') → R st st' := by
  intro fuel
  induction fuel with
  | zero =>
    intro st scene p st' h
    simp [build_scene] at h
  | succ n ih =>
    intro st scene p st' h
    obtain ⟨_, s1, s2, s4, s5, s6, h1, h2, h4, h5, h6, h7⟩ := build_scene_inv h
    have r1 : R st s1 := by
      cases hset : (bmain.scenes scene).set with
      | none =>
        simp only [hset] at h1
        subst h1; exact hscene st scene
      | some set =>
        simp only [hset] at h1
        obtain ⟨q, hq⟩ := h1
        exact htrans _ _ _ (hscene st scene) (ih _ _ _ _ hq)
    have r2 : R s1 s2 := foldlM_rel R hrefl htrans _ _ (fun s a s' _ hs => hbase s a s' hs) _ _ h2
    have r3 : R s2 (bmain.group.foldl build_scene_group s2) :=
      foldl_rel R hrefl htrans _ _ (fun s a _ => hgroup s a) s2
    have r4 : R (bmain.group.foldl build_scene_group s2) s4 := by
      cases hrbw : (bmain.scenes scene).rigidbody_world with
      | none =>
        simp only [hrbw] at h4
        subst h4; exact hrefl _
      | some rbw =>
        simp only [hrbw] at h4
        obtain ⟨g, hg, hs⟩ := h4
        subst hs
        exact hrb _ _ _ hg
    have r5 : R s4 s5 := by
      cases hadt : (bmain.scenes scene).adt with
      | none =>
        simp only [hadt] at h5
        subst h5; exact hrefl _
      | some adt =>
        simp only [hadt] at h5
        obtain ⟨g, hg, hs⟩ := h5
        subst hs
        exact hanim _ _ _ hg
    have r6 : R s5 s6 := by
      cases hw : (bmain.scenes scene).world with
      | none =>
        simp only [hw] at h6
        subst h6; exact hrefl _
      | some w =>
        simp only [hw] at h6
        exact build_world_rel bmain R hrefl htrans hnt hguard _ _ _ _ h6
    have r7 : R s6 st' := by
      cases hn : (bmain.scenes scene).nodetree with
      | none =>
        simp only [hn] at h7
        subst h7; exact hrefl _
      | some nt =>
        simp only [hn] at h7
        exact build_compositor_rel bmain R hrefl htrans hnt hguard hcomp _ _ _ _ h7
    exact htrans _ _ _ r1 (htrans _ _ _ r2 (htrans _ _ _ r3 (htrans _ _ _ r4
      (htrans _ _ _ r5 (htrans _ _ _ r6 r7)))))

/-! ## Relations that hold across every registry primitive -/

theorem GraphRel.rel_add_operation {R : Depsgraph → Depsgraph → Prop} (hR : GraphRel R)
    {g : Depsgraph} {c : Option ComponentPtr} {t : eDepsNode_Type} {ot : eDepsOperation_Type}
    {ev : DepsEvalOperationCb} {nm : DegOpName} {ptr : PointerRNA} {p : OperationPtr}
    {g' : Depsgraph} (h : add_operation_node g c t ot ev nm ptr = Except.ok (p, g')) :
    R g g' := by
  cases c with
  | none => simp [add_operation_node] at h
  | some c =>
    simp only [add_operation_node, Except.ok.injEq, Prod.mk.injEq] at h
    rw [← h.2]
    exact hR.modify g c _ (fun k => ⟨rfl, rfl⟩)

theorem GraphRel.rel_build_driver {R : Depsgraph → Depsgraph → Prop} (hR : GraphRel R)
    {g : Depsgraph} {c : ComponentPtr} {fcu : FCurve} {p : OperationPtr} {g' : Depsgraph}
    (h : build_driver g c fcu = Except.ok (p, g')) : R g g' := by
  unfold DEG.build_driver at h
  obtain ⟨r, h1, h2⟩ := except_bind_eq_ok.1 h
  obtain ⟨p1, g1⟩ := r
  simp only [except_pure, Except.ok.injEq, Prod.mk.injEq] at h2
  rw [← h2.2]
  refine hR.trans _ _ _ (hR.rel_add_operation h1) ?_
  by_cases hpy : fcu.driver.type = DRIVER_TYPE_PYTHON
  · simp only [hpy, if_true]
    exact hR.modify _ _ _ (fun k => ⟨rfl, rfl⟩)
  · simp only [hpy, if_false]
    exact hR.refl _

theorem GraphRel.rel_build_animdata {R : Depsgraph → Depsgraph → Prop} (hR : GraphRel R)
    {bmain : Main} {g : Depsgraph} {id : IDPtr} {g' : Depsgraph}
    (h : build_animdata bmain g id = Except.ok g') : R g g' := by
  unfold DEG.build_animdata at h
  cases hadt : BKE_animdata_from_id bmain id with
  | none =>
    simp only [hadt, except_pure, Except.ok.injEq] at h
    subst h; exact hR.refl _
  | some adt =>
    simp only [hadt] at h
    by_cases hc : adt.action.isSome ∨ adt.nla_tracks ≠ [] ∨ adt.drivers ≠ []
    · simp only [hc, if_true] at h
      refine hR.trans _ _ _ (hR.add_component g id eDepsNode_Type.DEPSNODE_TYPE_ANIMATION) ?_
      refine foldlM_rel R hR.refl hR.trans _ _ ?_ _ _ h
      intro s fcu s' _ hs
      obtain ⟨r, h1, h2⟩ := except_bind_eq_ok.1 hs
      obtain ⟨p1, g1⟩ := r
      simp only [except_pure, Except.ok.injEq] at h2
      subst h2
      exact hR.rel_build_driver h1
    · simp only [hc, if_false, except_pure, Except.ok.injEq] at h
      subst h; exact hR.refl _

theorem GraphRel.rel_build_object {R : Depsgraph → Depsgraph → Prop} (hR : GraphRel R)
    {bmain : Main} {g : Depsgraph} {ob : Nat} {p : IDPtr} {g' : Depsgraph}
    (h : build_object bmain g ob = Except.ok (p, g')) : R g g' := by
  unfold DEG.build_object at h
  rw [add_id_node_eq] at h
  simp only [add_component_node_fst] at h
  obtain ⟨r3, h3, h⟩ := except_bind_eq_ok.1 h
  obtain ⟨p3, g3⟩ := r3
  obtain ⟨g4, h4, h⟩ := except_bind_eq_ok.1 h
  obtain ⟨g5, h5, h⟩ := except_bind_eq_ok.1 h
  obtain ⟨g6, h6, h⟩ := except_bind_eq_ok.1 h
  obtain ⟨g7, h7, h⟩ := except_bind_eq_ok.1 h
  simp only [except_pure, Except.ok.injEq, Prod.mk.injEq] at h
  rw [← h.2]
  have r1 := hR.add_id g (object_id ob)
  have r2 := hR.add_component (add_id_node g (object_id ob)).2 (object_id ob)
    eDepsNode_Type.DEPSNODE_TYPE_OP_PARAMETER
  have r3 : R (add_component_node (add_id_node g (object_id ob)).2 (object_id ob)
      eDepsNode_Type.DEPSNODE_TYPE_OP_PARAMETER).2 g3 := by
    unfold build_object_transform at h3
    obtain ⟨r, h31, h32⟩ := except_bind_eq_ok.1 h3
    obtain ⟨q, gq⟩ := r
    simp only [except_pure, Except.ok.injEq, Prod.mk.injEq] at h32
    rw [← h32.2]
    exact hR.trans _ _ _ (hR.add_component _ _ _) (hR.rel_add_operation h31)
  have r4 : R g3 g4 := hR.rel_build_animdata h4
  have r5 : R g4 g5 := by
    by_cases hp : (bmain.objects ob).parent.isSome = true
    · simp only [hp, if_true] at h5
      obtain ⟨r, h51, h52⟩ := except_bind_eq_ok.1 h5
      obtain ⟨q, gq⟩ := r
      simp only [except_pure, Except.ok.injEq] at h52
      subst h52
      exact hR.rel_add_operation h51
    · simp only [hp, if_false, except_pure, Except.ok.injEq, Bool.false_eq_true] at h5
      subst h5; exact hR.refl _
  have r6 : R g5 g6 := by
    by_cases hp : (bmain.objects ob).constraints ≠ []
    · rw [if_pos hp] at h6
      unfold build_constraints at h6
      obtain ⟨r, h61, h62⟩ := except_bind_eq_ok.1 h6
      obtain ⟨q, gq⟩ := r
      simp only [except_pure, Except.ok.injEq] at h62
      subst h62
      exact hR.rel_add_operation h61
    · rw [if_neg hp] at h6
      simp only [except_pure, Except.ok.injEq] at h6
      subst h6; exact hR.refl _
  have r7 : R g6 g7 := by
    cases hd : (bmain.objects ob).data with
    | none =>
      simp only [hd, except_pure, Except.ok.injEq] at h7
      subst h7; exact hR.refl _
    | some d =>
      simp only [hd, except_pure, Except.ok.injEq] at h7
      subst h7; exact hR.refl _
  exact hR.trans _ _ _ r1 (hR.trans _ _ _ r2 (hR.trans _ _ _ r3 (hR.trans _ _ _ r4
    (hR.trans _ _ _ r5 (hR.trans _ _ _ r6 r7)))))

theorem GraphRel.rel_build_rigidbody {R : Depsgraph → Depsgraph → Prop} (hR : GraphRel R)
    {bmain : Main} {g : Depsgraph} {scene_node : IDPtr} {scene : Nat} {g' : Depsgraph}
    (h : build_rigidbody bmain g scene_node scene = Except.ok g') : R g g' := by
  unfold DEG.build_rigidbody at h
  cases hrbw : (bmain.scenes scene).rigidbody_world with
  | none => simp [hrbw] at h
  | some rbw =>
    simp only [hrbw] at h
    obtain ⟨r1, h1, h⟩ := except_bind_eq_ok.1 h
    obtain ⟨p1, g1⟩ := r1
    obtain ⟨r2, h2, h⟩ := except_bind_eq_ok.1 h
    obtain ⟨p2, g2⟩ := r2
    refine hR.trans _ _ _ (hR.rel_add_operation h1) (hR.trans _ _ _ (hR.rel_add_operation h2) ?_)
    cases hgr : rbw.group with
    | none =>
      simp only [hgr, except_pure, Except.ok.injEq] at h
      subst h; exact hR.refl _
    | some group =>
      simp only [hgr] at h
      refine foldlM_rel R hR.refl hR.trans _ _ ?_ _ _ h
      intro s go s' _ hs
      cases hob : go.ob with
      | none =>
        simp only [hob, except_pure, Except.ok.injEq] at hs
        subst hs; exact hR.refl _
      | some ob =>
        simp only [hob] at hs
        by_cases hty : (bmain.objects ob).type ≠ OB_MESH
        · rw [if_pos hty] at hs
          simp only [except_pure, Except.ok.injEq] at hs
          subst hs; exact hR.refl _
        · rw [if_neg hty] at hs
          cases hfn : s.find_id_node (object_id ob) with
          | none => simp [hfn] at hs
          | some n =>
            simp only [hfn] at hs
            obtain ⟨r, hr1, hr2⟩ := except_bind_eq_ok.1 hs
            obtain ⟨q, gq⟩ := r
            simp only [except_pure, Except.ok.injEq] at hr2
            subst hr2
            exact hR.rel_add_operation hr1

theorem GraphRel.rel_build_scene_base {R : Depsgraph → Depsgraph → Prop} (hR : GraphRel R)
    {bmain : Main} {st : BuilderState} {base : Base} {st' : BuilderState}
    (h : build_scene_base bmain st base = Except.ok st') : R st.graph st'.graph := by
  unfold DEG.build_scene_base at h
  obtain ⟨r1, h1, h⟩ := except_bind_eq_ok.1 h
  obtain ⟨p1, g1⟩ := r1
  obtain ⟨g2, h2, h⟩ := except_bind_eq_ok.1 h
  simp only [except_pure, Except.ok.injEq] at h
  subst h
  refine hR.trans _ _ _ (hR.rel_build_object h1) ?_
  cases hp : (bmain.objects base.object).proxy with
  | none =>
    simp only [hp, except_pure, Except.ok.injEq] at h2
    subst h2; exact hR.refl _
  | some proxy =>
    simp only [hp] at h2
    obtain ⟨r, hr1, hr2⟩ := except_bind_eq_ok.1 h2
    obtain ⟨q, gq⟩ := r
    simp only [except_pure, Except.ok.injEq] at hr2
    subst hr2
    exact hR.rel_build_object hr1

/-- A relation on graphs that holds across every registry primitive holds from
entry to return of `build_scene`. -/
theorem GraphRel.rel_build_scene {R : Depsgraph → Depsgraph → Prop} (hR : GraphRel R)
    {fuel : Nat} {bmain : Main} {st : BuilderState} {scene : Nat} {p : IDPtr}
    {st' : BuilderState} (h : build_scene fuel bmain st scene = Except.ok (p, st')) :
    R st.graph st'.graph := by
  refine build_scene_rel bmain (fun a b => R a.graph b.graph) (fun s => hR.refl _)
    (fun a b c => hR.trans _ _ _) ?_ ?_ ?_ ?_ ?_ ?_ ?_ ?_ fuel st scene p st' h
  · intro st nt g' hg
    exact hR.trans _ _ _ (hR.add_id _ _) (hR.rel_build_animdata hg)
  · intro st id g1 st2 _ _ hg hr
    exact hR.trans _ _ _ (hR.trans _ _ _ (hR.add_id _ _) (hR.rel_build_animdata hg)) hr
  · intro st scene
    exact hR.add_component _ _ _
  · intro st scene
    exact hR.trans _ _ _ (hR.add_id _ _) (hR.time_source _ (scene_id scene))
  · intro st base st' hb
    exact hR.rel_build_scene_base hb
  · intro st group
    rw [build_scene_group_graph]
    exact hR.refl _
  · intro st scene g hg
    exact hR.rel_build_rigidbody hg
  · intro st scene g hg
    exact hR.rel_build_animdata hg

theorem keys_add_time_source (g : Depsgraph) (id : IDPtr) :
    (add_time_source g id).keys = g.keys := by
  unfold add_time_source
  cases g.time_source <;> rfl

theorem KeysExt.of_keys_eq {g g' : Depsgraph} (h : g'.keys = g.keys) : KeysExt g g' := by
  unfold KeysExt
  rw [h]
  exact ⟨List.prefix_refl _, fun h => h⟩

theorem keysExt_graphRel : GraphRel KeysExt where
  refl := fun g => KeysExt.of_keys_eq rfl
  trans := fun a b c h1 h2 => ⟨h1.1.trans h2.1, fun h => h2.2 (h1.2 h)⟩
  add_id := by
    intro g id
    unfold KeysExt
    rw [keys_add_id_node]
    by_cases h : id ∈ g.keys
    · rw [if_pos h]
      exact ⟨List.prefix_refl _, fun hn => hn⟩
    · rw [if_neg h]
      refine ⟨List.prefix_append _ _, fun hn => ?_⟩
      rw [List.nodup_append]
      refine ⟨hn, List.nodup_singleton _, ?_⟩
      intro a ha hb
      rw [List.mem_singleton] at hb
      subst hb
      exact h ha
  add_component := fun g id t => KeysExt.of_keys_eq (keys_add_component_node g id t)
  modify := fun g c f _ => KeysExt.of_keys_eq (keys_modify_component g c f)
  time_source := fun g id => KeysExt.of_keys_eq (keys_add_time_source g id)

theorem except_ok_of_isSome {ε α : Type} {x : Except ε α} (h : x.toOption.isSome = true) :
    ∃ a, x = Except.ok a := by
  cases x with
  | error e => simp [Except.toOption] at h
  | ok a => exact ⟨a, rfl⟩

/-! ## Claims about a whole pass -/

theorem id_tag_clear_set (tags : Tags) (id : IDPtr) (h : tags id = false) :
    id_tag_clear (id_tag_set tags id) id = tags := by
  unfold id_tag_clear id_tag_set
  rw [Function.update_idem, ← h, Function.update_eq_self]

/-- The mutually recursive routines restore every visited tag. -/
theorem build_rec_tags (bmain : Main) (fuel : Nat) :
    (∀ st owner nt st', build_nodetree fuel bmain st owner nt = Except.ok st'
        → st'.tags = st.tags)
      ∧ (∀ st owner ma st', build_material fuel bmain st owner ma = Except.ok st'
        → st'.tags = st.tags)
      ∧ (∀ st owner ts st', build_texture_stack fuel bmain st owner ts = Except.ok st'
        → st'.tags = st.tags)
      ∧ (∀ st owner tex st', build_texture fuel bmain st owner tex = Except.ok st'
        → st'.tags = st.tags) := by
  refine build_rec_rel bmain (fun a b => b.tags = a.tags) (fun _ => rfl)
    (fun a b c h1 h2 => h2.trans h1) (fun _ _ _ _ => rfl) ?_ fuel
  intro st id g1 st2 _ htag _ hr
  simp only at hr ⊢
  rw [hr]
  exact id_tag_clear_set st.tags id htag

/-- The routine `build_world` restores every visited tag. -/
theorem build_world_tags {bmain : Main} {fuel : Nat} {st : BuilderState} {world : Nat}
    {st' : BuilderState} (h : build_world fuel bmain st world = Except.ok st') :
    st'.tags = st.tags := by
  refine build_world_rel bmain (fun a b => b.tags = a.tags) (fun _ => rfl)
    (fun a b c h1 h2 => h2.trans h1) (fun _ _ _ _ => rfl) ?_ fuel st world st' h
  intro st id g1 st2 _ htag _ hr
  simp only at hr ⊢
  rw [hr]
  exact id_tag_clear_set st.tags id htag

/-- The routine `build_compositor` restores every visited tag. -/
theorem build_compositor_tags {bmain : Main} {fuel : Nat} {st : BuilderState} {scene : Nat}
    {st' : BuilderState}
    (h : build_compositor fuel bmain st (scene_id scene) scene = Except.ok st') :
    st'.tags = st.tags := by
  refine build_compositor_rel bmain (fun a b => b.tags = a.tags) (fun _ => rfl)
    (fun a b c h1 h2 => h2.trans h1) (fun _ _ _ _ => rfl) ?_ (fun _ _ => rfl)
    fuel st scene st' h
  intro st id g1 st2 _ htag _ hr
  simp only at hr ⊢
  rw [hr]
  exact id_tag_clear_set st.tags id htag

theorem build_scene_base_tags {bmain : Main} {st : BuilderState} {base : Base}
    {st' : BuilderState} (h : build_scene_base bmain st base = Except.ok st') :
    st'.tags = (match (bmain.objects base.object).dup_group with
      | some dup_group => id_tag_set st.tags (group_id dup_group)
      | none => st.tags) := by
  unfold build_scene_base at h
  obtain ⟨r1, _, h⟩ := except_bind_eq_ok.1 h
  obtain ⟨g2, _, h⟩ := except_bind_eq_ok.1 h
  simp only [except_pure, Except.ok.injEq] at h
  subst h
  rfl

theorem build_scene_group_tags (st : BuilderState) (group : Nat) :
    (build_scene_group st group).tags = id_tag_clear st.tags (group_id group) := by
  unfold build_scene_group build_subgraph
  by_cases h : id_is_tagged st.tags (group_id group) = true
  · simp [h]
  · simp only [h, Bool.false_eq_true, if_false]
    unfold id_tag_clear
    unfold id_is_tagged at h
    have : st.tags (group_id group) = false := by simpa using h
    rw [← this, Function.update_eq_self]

theorem build_scene_group_fold_clear (groups : List Nat) (st : BuilderState) (id : IDPtr)
    (h : st.tags id = false) : (groups.foldl build_scene_group st).tags id = false := by
  induction groups generalizing st with
  | nil => exact h
  | cons a l ih =>
    rw [List.foldl_cons]
    apply ih
    rw [build_scene_group_tags]
    unfold id_tag_clear
    by_cases e : id = group_id a
    · rw [e, Function.update_same]
    · rw [Function.update_noteq e, h]

theorem build_scene_group_fold_listed (groups : List Nat) (st : BuilderState) (group : Nat)
    (h : group ∈ groups) : (groups.foldl build_scene_group st).tags (group_id group) = false := by
  induction groups generalizing st with
  | nil => simp at h
  | cons a l ih =>
    rw [List.foldl_cons]
    rcases List.mem_cons.1 h with e | e
    · apply build_scene_group_fold_clear
      rw [build_scene_group_tags, e]
      unfold id_tag_clear
      rw [Function.update_same]
    · exact ih _ e

/-- C2 (as amended): when `build_scene` returns, the visited tag of every block
that is not a group (world, material, texture, ...) has its value from before
the call, whatever the initial tags; the tag of every group listed in the main
database is clear. -/
theorem C2_tags_restored_except_groups (fuel : Nat) (bmain : Main) (st : BuilderState)
    (scene : Nat) (p : IDPtr) (st' : BuilderState)
    (h : build_scene fuel bmain st scene = Except.ok (p, st')) :
    (∀ id : IDPtr, id.gs ≠ ID_Type.ID_GR → st'.tags id = st.tags id)
      ∧ ∀ group ∈ bmain.group, st'.tags (group_id group) = false := by
  constructor
  · refine build_scene_rel bmain
      (fun a b => ∀ id : IDPtr, id.gs ≠ ID_Type.ID_GR → b.tags id = a.tags id)
      (fun _ _ _ => rfl) (fun a b c h1 h2 id hid => (h2 id hid).trans (h1 id hid))
      (fun _ _ _ _ _ _ => rfl) ?_ (fun _ _ _ _ => rfl) (fun _ _ _ _ => rfl) ?_ ?_
      (fun _ _ _ _ _ _ => rfl) (fun _ _ _ _ _ _ => rfl) fuel st scene p st' h
    · intro st id g1 st2 _ htag _ hr x hx
      simp only at hr ⊢
      unfold id_tag_clear
      by_cases e : x = id
      · rw [e, Function.update_same, htag]
      · rw [Function.update_noteq e, hr x hx]
        unfold id_tag_set
        rw [Function.update_noteq e]
    · intro st base st' hb x hx
      rw [build_scene_base_tags hb]
      cases (bmain.objects base.object).dup_group with
      | none => rfl
      | some g =>
        simp only
        unfold id_tag_set
        rw [Function.update_noteq]
        intro e
        apply hx
        rw [e]
        rfl
    · intro st group x hx
      rw [build_scene_group_tags]
      unfold id_tag_clear
      rw [Function.update_noteq]
      intro e
      apply hx
      rw [e]
      rfl
  · intro group hg
    cases fuel with
    | zero => simp [build_scene] at h
    | succ n =>
      obtain ⟨_, s1, s2, s4, s5, s6, _, _, h4, h5, h6, h7⟩ := build_scene_inv h
      have t4 : s4.tags = (bmain.group.foldl build_scene_group s2).tags := by
        cases hrbw : (bmain.scenes scene).rigidbody_world with
        | none => simp only [hrbw] at h4; rw [h4]
        | some rbw =>
          simp only [hrbw] at h4
          obtain ⟨g, _, hs⟩ := h4
          rw [hs]
      have t5 : s5.tags = s4.tags := by
        cases hadt : (bmain.scenes scene).adt with
        | none => simp only [hadt] at h5; rw [h5]
        | some adt =>
          simp only [hadt] at h5
          obtain ⟨g, _, hs⟩ := h5
          rw [hs]
      have t6 : s6.tags = s5.tags := by
        cases hw : (bmain.scenes scene).world with
        | none => simp only [hw] at h6; rw [h6]
        | some w =>
          simp only [hw] at h6
          exact build_world_tags h6
      have t7 : st'.tags = s6.tags := by
        cases hn : (bmain.scenes scene).nodetree with
        | none => simp only [hn] at h7; rw [h7]
        | some nt =>
          simp only [hn] at h7
          exact build_compositor_tags h7
      rw [t7, t6, t5, t4]
      exact build_scene_group_fold_listed _ _ _ hg


/-- Counterexample to C2 as stated: group 0 is listed in the main database and
tagged before the call; `build_scene` returns with its tag cleared. -/
theorem C2_counterexample :
    ∃ p st', build_scene 1 ex_group_main ⟨Depsgraph.empty, ex_group_tagged⟩ 0 = Except.ok (p, st')
      ∧ ex_group_tagged (group_id 0) = true
      ∧ st'.tags (group_id 0) = false :=
  ⟨_, _, rfl, rfl, rfl⟩

/-- Witness of C2 (as amended) on the same input: the tag of world 0 is as before. -/
theorem C2_witness :
    ∃ p st', build_scene 1 ex_group_main ⟨Depsgraph.empty, ex_group_tagged⟩ 0 = Except.ok (p, st')
      ∧ st'.tags (world_id 0) = ex_group_tagged (world_id 0)
      ∧ st'.tags (group_id 0) = false := by
  obtain ⟨r, hr⟩ := except_ok_of_isSome
    (x := build_scene 1 ex_group_main ⟨Depsgraph.empty, ex_group_tagged⟩ 0) (by decide)
  obtain ⟨p, st'⟩ := r
  have h := C2_tags_restored_except_groups 1 ex_group_main ⟨Depsgraph.empty, ex_group_tagged⟩ 0
    p st' hr
  exact ⟨p, st', hr, h.1 (world_id 0) (by decide), h.2 0 (by decide)⟩

theorem build_nodetree_self_group (fuel : Nat) :
    ∀ st owner, build_nodetree fuel ex_self_group_main st owner (some 0)
      = Except.error BuildError.out_of_fuel := by
  induction fuel with
  | zero => intro st owner; rfl
  | succ n ih =>
    intro st owner
    simp only [build_nodetree]
    rw [add_id_node_eq]
    have ha : ∀ g, build_animdata ex_self_group_main g (nodetree_id 0) = Except.ok g := by
      intro g; rfl
    simp only [ha, except_bind_ok]
    have hn : (ex_self_group_main.nodetrees 0).nodes = [⟨some (nodetree_id 0), NODE_GROUP⟩] := rfl
    rw [hn, List.foldlM_cons]
    have hb : (⟨ID_Type.ID_NT, 0⟩ : IDPtr).as_bNodeTree = some 0 := rfl
    have := ih ⟨(add_id_node st.graph (nodetree_id 0)).2, st.tags⟩ owner
    simp only [nodetree_id] at this
    simp [nodetree_id, hb, ID_TE, NODE_GROUP, this]

/-- With a compositing node-tree whose group node references that same
node-tree, `build_scene` runs out of every amount of fuel. -/
theorem build_scene_self_group :
    ∀ fuel, build_scene fuel ex_self_group_main ⟨Depsgraph.empty, Tags.clear⟩ 0
      = Except.error BuildError.out_of_fuel := by
  intro fuel
  cases fuel with
  | zero => rfl
  | succ n =>
    simp only [build_scene]
    rw [add_id_node_eq]
    have h1 : (ex_self_group_main.scenes 0).set = none := rfl
    have h2 : (ex_self_group_main.scenes 0).base = [] := rfl
    have h3 : ex_self_group_main.group = [] := rfl
    have h4 : (ex_self_group_main.scenes 0).rigidbody_world = none := rfl
    have h5 : (ex_self_group_main.scenes 0).adt = none := rfl
    have h6 : (ex_self_group_main.scenes 0).world = none := rfl
    have h7 : (ex_self_group_main.scenes 0).nodetree = some 0 := rfl
    simp only [h1, h2, h3, h4, h5, h6, h7, List.foldlM_nil, List.foldl_nil, except_pure,
      except_bind_ok]
    cases n with
    | zero => rfl
    | succ k =>
      simp only [build_compositor, h7]
      rw [build_nodetree_self_group]
      rfl

/-- Counterexample to C3 as stated: the source graph is finite and has no set
scene, the compositing node-tree has a group node referencing that same
node-tree, and no call-stack bound lets `build_scene` stop by itself. -/
theorem C3_counterexample :
    set_chain_ends ex_self_group_main 0 0
      ∧ FiniteBelow ex_self_group_main 0
      ∧ ¬ ∃ fuel, Terminates
          (build_scene fuel ex_self_group_main ⟨Depsgraph.empty, Tags.clear⟩ 0) := by
  refine ⟨rfl, ⟨?_, ?_, ?_⟩, ?_⟩
  · intro nt node id hmem hid hgs
    have hn : (ex_self_group_main.nodetrees nt).nodes
        = [⟨some (nodetree_id 0), NODE_GROUP⟩] := rfl
    rw [hn, List.mem_singleton] at hmem
    rw [hmem] at hid
    simp only [Option.some.injEq] at hid
    rw [← hid] at hgs
    simp [nodetree_id] at hgs
  · intro ma i mtex h
    have hm : (ex_self_group_main.materials ma).mtex i = none := rfl
    rw [hm] at h
    simp at h
  · intro world i mtex h
    have hm : (ex_self_group_main.worlds world).mtex i = none := rfl
    rw [hm] at h
    simp at h
  · rintro ⟨fuel, h⟩
    exact h (build_scene_self_group fuel)

theorem countP_succ_le {α : Type} (p q : α → Bool) (a : α) (l : List α) (ha : a ∈ l)
    (hp : p a = true) (hq : q a = false) (hqp : ∀ x, q x = true → p x = true) :
    l.countP q + 1 ≤ l.countP p := by
  induction l with
  | nil => simp at ha
  | cons b l ih =>
    rcases List.mem_cons.1 ha with e | e
    · subst e
      rw [List.countP_cons_of_pos _ _ hp, List.countP_cons_of_neg _ _ (by simp [hq])]
      exact Nat.succ_le_succ (List.countP_mono_left (fun x _ => hqp x))
    · have := ih e
      by_cases hb : q b = true
      · rw [List.countP_cons_of_pos _ _ hb, List.countP_cons_of_pos _ _ (hqp b hb)]
        omega
      · rw [List.countP_cons_of_neg _ _ hb]
        by_cases hb2 : p b = true
        · rw [List.countP_cons_of_pos _ _ hb2]; omega
        · rw [List.countP_cons_of_neg _ _ hb2]; omega

theorem untagged_count_le (B : Nat) (tags : Tags) : untagged_count B tags ≤ 2 * B := by
  unfold untagged_count
  have h1 := List.countP_le_length (fun a => !tags (material_id a)) (l := List.range B)
  have h2 := List.countP_le_length (fun a => !tags (texture_id a)) (l := List.range B)
  rw [List.length_range] at h1 h2
  omega

theorem untagged_count_set_material (B : Nat) (tags : Tags) (ma : Nat) (h : ma < B)
    (ht : tags (material_id ma) = false) :
    untagged_count B (id_tag_set tags (material_id ma)) + 1 ≤ untagged_count B tags := by
  unfold untagged_count id_tag_set
  have h1 : (List.range B).countP (fun a => !Function.update tags (material_id ma) true
      (texture_id a)) = (List.range B).countP (fun a => !tags (texture_id a)) := by
    have e : (fun a => !Function.update tags (material_id ma) true (texture_id a))
        = (fun a => !tags (texture_id a)) := by
      funext a
      rw [Function.update_noteq (by simp [texture_id, material_id])]
    rw [e]
  have h2 := countP_succ_le (fun a => !tags (material_id a))
    (fun a => !Function.update tags (material_id ma) true (material_id a)) ma (List.range B)
    (List.mem_range.2 h) (by simp [ht]) (by simp) (by
      intro x hx
      simp only at hx ⊢
      by_cases e : x = ma
      · subst e; simp at hx
      · rw [Function.update_noteq (by simpa [material_id] using e)] at hx
        exact hx)
  rw [h1]
  omega

theorem untagged_count_set_texture (B : Nat) (tags : Tags) (tex : Nat) (h : tex < B)
    (ht : tags (texture_id tex) = false) :
    untagged_count B (id_tag_set tags (texture_id tex)) + 1 ≤ untagged_count B tags := by
  unfold untagged_count id_tag_set
  have h1 : (List.range B).countP (fun a => !Function.update tags (texture_id tex) true
      (material_id a)) = (List.range B).countP (fun a => !tags (material_id a)) := by
    have e : (fun a => !Function.update tags (texture_id tex) true (material_id a))
        = (fun a => !tags (material_id a)) := by
      funext a
      rw [Function.update_noteq (by simp [texture_id, material_id])]
    rw [e]
  have h2 := countP_succ_le (fun a => !tags (texture_id a))
    (fun a => !Function.update tags (texture_id tex) true (texture_id a)) tex (List.range B)
    (List.mem_range.2 h) (by simp [ht]) (by simp) (by
      intro x hx
      simp only at hx ⊢
      by_cases e : x = tex
      · subst e; simp at hx
      · rw [Function.update_noteq (by simpa [texture_id] using e)] at hx
        exact hx)
  rw [h1]
  omega

theorem untagged_count_set_world (B : Nat) (tags : Tags) (world : Nat) :
    untagged_count B (id_tag_set tags (world_id world)) = untagged_count B tags := by
  unfold untagged_count id_tag_set
  have e1 : (fun a => !Function.update tags (world_id world) true (material_id a))
      = (fun a => !tags (material_id a)) := by
    funext a
    rw [Function.update_noteq (by simp [material_id, world_id])]
  have e2 : (fun a => !Function.update tags (world_id world) true (texture_id a))
      = (fun a => !tags (texture_id a)) := by
    funext a
    rw [Function.update_noteq (by simp [texture_id, world_id])]
  rw [e1, e2]

theorem terminates_ok {α : Type} (a : α) : Terminates (Except.ok a : Except BuildError α) := by
  unfold Terminates; simp

theorem terminates_defect {α : Type} :
    Terminates (Except.error BuildError.defect : Except BuildError α) := by
  unfold Terminates; simp

theorem terminates_bind {α β : Type} {x : Except BuildError α} {f : α → Except BuildError β}
    (hx : Terminates x) (hf : ∀ a, x = Except.ok a → Terminates (f a)) :
    Terminates (x >>= f) := by
  cases x with
  | error e =>
    unfold Terminates at hx ⊢
    simpa using hx
  | ok a => simpa using hf a rfl

/-- A loop terminates when every step does, from every state satisfying an
invariant the steps preserve. -/
theorem terminates_foldlM {σ α : Type} (J : σ → Prop) (f : σ → α → Except BuildError σ)
    (l : List α)
    (hstep : ∀ s a, a ∈ l → J s → Terminates (f s a) ∧ ∀ s', f s a = Except.ok s' → J s') :
    ∀ s, J s → Terminates (l.foldlM f s) := by
  induction l with
  | nil => intro s _; exact terminates_ok s
  | cons a l ih =>
    intro s hs
    rw [List.foldlM_cons]
    have h := hstep s a (List.mem_cons_self _ _) hs
    exact terminates_bind h.1 (fun s' hs' =>
      ih (fun s a ha => hstep s a (List.mem_cons_of_mem _ ha)) s' (h.2 s' hs'))

theorem build_animdata_terminates (bmain : Main) (g : Depsgraph) (id : IDPtr) :
    Terminates (build_animdata bmain g id) := by
  obtain ⟨g', h, _⟩ := build_animdata_spec bmain g id
  rw [h]
  exact terminates_ok g'

theorem as_Tex_eq_some {id : IDPtr} {tex : Nat} (h : id.as_Tex = some tex) :
    id.gs = ID_Type.ID_TE ∧ id.addr = tex := by
  unfold IDPtr.as_Tex at h
  by_cases e : id.gs = ID_Type.ID_TE
  · simp only [e, if_true, Option.some.injEq] at h
    exact ⟨e, h⟩
  · simp [e] at h

theorem as_bNodeTree_eq_some {id : IDPtr} {nt : Nat} (h : id.as_bNodeTree = some nt) :
    id = nodetree_id nt := by
  unfold IDPtr.as_bNodeTree at h
  by_cases e : id.gs = ID_Type.ID_NT
  · simp only [e, if_true, Option.some.injEq] at h
    cases id
    simp only at e h
    subst e; subst h
    rfl
  · simp [e] at h

/-- Termination of the mutually recursive routines: with `mu` untagged
materials and textures left, a call stack of depth `(R + 4) * mu + r + 3`
suffices for a node-tree of rank at most `r`. -/
theorem build_rec_terminates (bmain : Main) (B R : Nat) (rank : Nat → Nat)
    (hfin : FiniteBelow bmain B) (hacyc : GroupNestingAcyclic bmain rank R) :
    ∀ mu,
      (∀ st : BuilderState, untagged_count B st.tags ≤ mu → ∀ r nt owner fuel,
          rank nt ≤ r → (R + 4) * mu + r + 3 ≤ fuel →
          Terminates (build_nodetree fuel bmain st owner (some nt)))
      ∧ (∀ st : BuilderState, untagged_count B st.tags ≤ mu → ∀ ma owner fuel,
          ma < B → (R + 4) * mu + 1 ≤ fuel →
          Terminates (build_material fuel bmain st owner ma))
      ∧ (∀ st : BuilderState, untagged_count B st.tags ≤ mu → ∀ ts owner fuel,
          (∀ i mtex, ts i = some mtex → mtex.tex < B) → (R + 4) * mu + 2 ≤ fuel →
          Terminates (build_texture_stack fuel bmain st owner ts))
      ∧ (∀ st : BuilderState, untagged_count B st.tags ≤ mu → ∀ tex owner fuel,
          tex < B → (R + 4) * mu + 1 ≤ fuel →
          Terminates (build_texture fuel bmain st owner tex)) := by
  intro mu
  induction mu using Nat.strong_induction_on with
  | _ mu ih =>
    -- a node-tree pointer that may be NULL, one guarded level down
    have hopt : ∀ (st : BuilderState) (id : IDPtr), st.tags id = false →
        untagged_count B (id_tag_set st.tags id) + 1 ≤ untagged_count B st.tags →
        untagged_count B st.tags ≤ mu → ∀ g owner (o : Option Nat) n,
        (R + 4) * mu ≤ n + 1 → 1 ≤ n →
        Terminates (build_nodetree n bmain ⟨g, id_tag_set st.tags id⟩ owner o) := by
      intro st id _ hdec hmu g owner o n hn h1
      cases o with
      | none =>
        obtain ⟨k, rfl⟩ : ∃ k, n = k + 1 := ⟨n - 1, by omega⟩
        simp only [build_nodetree]
        exact terminates_ok _
      | some nt =>
        have hlt : mu - 1 < mu := by omega
        refine (ih (mu - 1) hlt).1 ⟨g, id_tag_set st.tags id⟩ (by simp only; omega) R nt owner n
          (hacyc.bound nt) ?_
        have : (R + 4) * mu = (R + 4) * (mu - 1) + (R + 4) := by
          obtain ⟨k, rfl⟩ : ∃ k, mu = k + 1 := ⟨mu - 1, by omega⟩
          simp [Nat.mul_succ]
        omega
    have hte : ∀ st : BuilderState, untagged_count B st.tags ≤ mu → ∀ tex owner fuel,
        tex < B → (R + 4) * mu + 1 ≤ fuel →
        Terminates (build_texture fuel bmain st owner tex) := by
      intro st hmu tex owner fuel htex hfuel
      obtain ⟨n, rfl⟩ : ∃ n, fuel = n + 1 := ⟨fuel - 1, by omega⟩
      simp only [build_texture]
      by_cases htag : id_is_tagged st.tags (texture_id tex) = true
      · simp only [htag, if_true]
        exact terminates_ok _
      · simp only [htag]
        rw [add_id_node_eq]
        simp only [Bool.false_eq_true, if_false]
        have htag' : st.tags (texture_id tex) = false := by simpa [id_is_tagged] using htag
        have hdec := untagged_count_set_texture B st.tags tex htex htag'
        refine terminates_bind (build_animdata_terminates _ _ _) (fun g1 _ => ?_)
        refine terminates_bind ?_ (fun s _ => terminates_ok _)
        refine hopt st (texture_id tex) htag' hdec hmu g1 owner _ n (by omega) ?_
        have : 1 ≤ mu := by omega
        have : R + 4 ≤ (R + 4) * mu := Nat.le_mul_of_pos_right _ (by omega)
        omega
    have hts : ∀ st : BuilderState, untagged_count B st.tags ≤ mu → ∀ ts owner fuel,
        (∀ i mtex, ts i = some mtex → mtex.tex < B) → (R + 4) * mu + 2 ≤ fuel →
        Terminates (build_texture_stack fuel bmain st owner ts) := by
      intro st hmu ts owner fuel hts hfuel
      obtain ⟨n, rfl⟩ : ∃ n, fuel = n + 1 := ⟨fuel - 1, by omega⟩
      simp only [build_texture_stack]
      refine terminates_foldlM (fun s => s.tags = st.tags) _ _ ?_ st rfl
      intro s i _ hs
      cases hm : ts i with
      | none =>
        simp only
        exact ⟨terminates_ok _, fun s' h' => by
          simp only [except_pure, Except.ok.injEq] at h'
          rw [← h']; exact hs⟩
      | some mtex =>
        simp only
        refine ⟨hte s (by rw [hs]; exact hmu) _ owner n (hts i mtex hm) (by omega), ?_⟩
        intro s' h'
        rw [(build_rec_tags bmain n).2.2.2 _ _ _ _ h', hs]
    have hma : ∀ st : BuilderState, untagged_count B st.tags ≤ mu → ∀ ma owner fuel,
        ma < B → (R + 4) * mu + 1 ≤ fuel →
        Terminates (build_material fuel bmain st owner ma) := by
      intro st hmu ma owner fuel hlt hfuel
      obtain ⟨n, rfl⟩ : ∃ n, fuel = n + 1 := ⟨fuel - 1, by omega⟩
      simp only [build_material]
      by_cases htag : id_is_tagged st.tags (material_id ma) = true
      · simp only [htag, if_true]
        exact terminates_ok _
      · simp only [htag]
        rw [add_id_node_eq]
        simp only [Bool.false_eq_true, if_false]
        have htag' : st.tags (material_id ma) = false := by simpa [id_is_tagged] using htag
        have hdec := untagged_count_set_material B st.tags ma hlt htag'
        have hpos : 1 ≤ mu := by omega
        have hmul : (R + 4) * mu = (R + 4) * (mu - 1) + (R + 4) := by
          obtain ⟨k, rfl⟩ : ∃ k, mu = k + 1 := ⟨mu - 1, by omega⟩
          simp [Nat.mul_succ]
        refine terminates_bind (build_animdata_terminates _ _ _) (fun g1 _ => ?_)
        refine terminates_bind ?_ (fun sa hsa => ?_)
        · refine (ih (mu - 1) (by omega)).2.2.1 ⟨g1, id_tag_set st.tags (material_id ma)⟩
            (by simp only; omega) _ owner n (fun i mtex h => hfin.material_mtex ma i mtex h)
            (by omega)
        · have hta : sa.tags = id_tag_set st.tags (material_id ma) :=
            (build_rec_tags bmain n).2.2.1 _ _ _ _ hsa
          refine terminates_bind ?_ (fun s _ => terminates_ok _)
          have := hopt st (material_id ma) htag' hdec hmu sa.graph owner
            (bmain.materials ma).nodetree n (by omega) (by omega)
          rw [← hta] at this
          exact this
    have hnt : ∀ r, ∀ st : BuilderState, untagged_count B st.tags ≤ mu → ∀ nt owner fuel,
        rank nt ≤ r → (R + 4) * mu + r + 3 ≤ fuel →
        Terminates (build_nodetree fuel bmain st owner (some nt)) := by
      intro r
      induction r using Nat.strong_induction_on with
      | _ r ihr =>
        intro st hmu nt owner fuel hr hfuel
        obtain ⟨n, rfl⟩ : ∃ n, fuel = n + 1 := ⟨fuel - 1, by omega⟩
        simp only [build_nodetree]
        rw [add_id_node_eq]
        simp only
        refine terminates_bind (build_animdata_terminates _ _ _) (fun g1 _ => ?_)
        refine terminates_foldlM (fun s => s.tags = st.tags) _ _ ?_ _ rfl
        intro s bnode hmem hs
        have hcount : untagged_count B s.tags ≤ mu := by rw [hs]; exact hmu
        cases hid : bnode.id with
        | none =>
          simp only
          exact ⟨terminates_ok _, fun s' h' => by
            simp only [except_pure, Except.ok.injEq] at h'
            rw [← h']; exact hs⟩
        | some id =>
          simp only
          by_cases hgs : id.gs = ID_Type.ID_MA
          · simp only [hgs, if_true]
            refine ⟨hma s hcount _ owner n (hfin.nodes nt bnode id hmem hid (Or.inl hgs))
              (by omega), ?_⟩
            intro s' h'
            rw [(build_rec_tags bmain n).2.1 _ _ _ _ h', hs]
          · simp only [hgs, if_false]
            by_cases hty : bnode.type = ID_TE
            · simp only [hty, if_true]
              cases htex : id.as_Tex with
              | none =>
                simp only
                exact ⟨terminates_defect, fun s' h' => by simp at h'⟩
              | some tex =>
                simp only
                obtain ⟨hg, ha⟩ := as_Tex_eq_some htex
                have hlt : tex < B := by
                  rw [← ha]
                  exact hfin.nodes nt bnode id hmem hid (Or.inr hg)
                refine ⟨hte s hcount tex owner n hlt (by omega), ?_⟩
                intro s' h'
                rw [(build_rec_tags bmain n).2.2.2 _ _ _ _ h', hs]
            · simp only [hty, if_false]
              by_cases hgr : bnode.type = NODE_GROUP
              · simp only [hgr, if_true]
                cases hnt' : id.as_bNodeTree with
                | none =>
                  simp only
                  exact ⟨terminates_defect, fun s' h' => by simp at h'⟩
                | some nt' =>
                  simp only
                  have hid' := as_bNodeTree_eq_some hnt'
                  have hrk := hacyc.decreases nt bnode nt' hmem (by rw [hid, hid']) hgr
                  refine ⟨ihr (r - 1) (by omega) s hcount nt' owner n (by omega) (by omega), ?_⟩
                  intro s' h'
                  rw [(build_rec_tags bmain n).1 _ _ _ _ h', hs]
              · simp only [hgr, if_false]
                exact ⟨terminates_ok _, fun s' h' => by
                  simp only [except_pure, Except.ok.injEq] at h'
                  rw [← h']; exact hs⟩
    exact ⟨fun st hmu r nt owner fuel => hnt r st hmu nt owner fuel, hma, hts, hte⟩

theorem add_operation_node_terminates (g : Depsgraph) (c : Option ComponentPtr)
    (t : eDepsNode_Type) (ot : eDepsOperation_Type) (ev : DepsEvalOperationCb) (nm : DegOpName)
    (ptr : PointerRNA) : Terminates (add_operation_node g c t ot ev nm ptr) := by
  cases c with
  | none => exact terminates_defect
  | some c => exact terminates_ok _

theorem build_rigidbody_terminates (bmain : Main) (g : Depsgraph) (scene_node : IDPtr)
    (scene : Nat) : Terminates (build_rigidbody bmain g scene_node scene) := by
  unfold build_rigidbody
  cases (bmain.scenes scene).rigidbody_world with
  | none => exact terminates_defect
  | some rbw =>
    simp only
    refine terminates_bind (add_operation_node_terminates _ _ _ _ _ _ _) (fun r1 _ => ?_)
    refine terminates_bind (add_operation_node_terminates _ _ _ _ _ _ _) (fun r2 _ => ?_)
    cases rbw.group with
    | none => exact terminates_ok _
    | some group =>
      simp only
      refine terminates_foldlM (fun _ => True) _ _ ?_ _ trivial
      intro s go _ _
      refine ⟨?_, fun _ _ => trivial⟩
      cases go.ob with
      | none => exact terminates_ok _
      | some ob =>
        simp only
        by_cases hty : (bmain.objects ob).type ≠ OB_MESH
        · rw [if_pos hty]; exact terminates_ok _
        · rw [if_neg hty]
          cases s.find_id_node (object_id ob) with
          | none => exact terminates_defect
          | some n =>
            simp only
            exact terminates_bind (add_operation_node_terminates _ _ _ _ _ _ _)
              (fun _ _ => terminates_ok _)

theorem build_scene_base_ok (bmain : Main) (st : BuilderState) (base : Base) :
    ∃ st', build_scene_base bmain st base = Except.ok st' := by
  unfold build_scene_base
  obtain ⟨g1, h1, _⟩ := build_object_effect bmain st.graph base.object
  simp only [h1, except_bind_ok]
  cases hp : (bmain.objects base.object).proxy with
  | none => exact ⟨_, rfl⟩
  | some proxy =>
    obtain ⟨g2, h2, _⟩ := build_object_effect bmain g1 proxy
    simp only [h2, except_bind_ok]
    exact ⟨_, rfl⟩

theorem build_world_terminates (bmain : Main) (B R : Nat) (rank : Nat → Nat)
    (hfin : FiniteBelow bmain B) (hacyc : GroupNestingAcyclic bmain rank R)
    (st : BuilderState) (world fuel : Nat) (hfuel : (R + 4) * (2 * B) + R + 4 ≤ fuel) :
    Terminates (build_world fuel bmain st world) := by
  obtain ⟨hnt, _, hts, _⟩ := build_rec_terminates bmain B R rank hfin hacyc (2 * B)
  obtain ⟨n, rfl⟩ : ∃ n, fuel = n + 1 := ⟨fuel - 1, by omega⟩
  simp only [build_world]
  by_cases htag : id_is_tagged st.tags (world_id world) = true
  · simp only [htag, if_true]
    exact terminates_ok _
  · simp only [htag]
    rw [add_id_node_eq]
    simp only [Bool.false_eq_true, if_false]
    refine terminates_bind (build_animdata_terminates _ _ _) (fun g1 _ => ?_)
    refine terminates_bind ?_ (fun sa _ => ?_)
    · exact hts _ (untagged_count_le _ _) _ _ n
        (fun i mtex h => hfin.world_mtex world i mtex h) (by omega)
    · refine terminates_bind ?_ (fun s _ => terminates_ok _)
      cases (bmain.worlds world).nodetree with
      | none => exact terminates_ok _
      | some nt =>
        simp only
        exact hnt sa (untagged_count_le _ _) R nt _ n (hacyc.bound nt) (by omega)

theorem build_compositor_terminates (bmain : Main) (B R : Nat) (rank : Nat → Nat)
    (hfin : FiniteBelow bmain B) (hacyc : GroupNestingAcyclic bmain rank R)
    (st : BuilderState) (scene_node : IDPtr) (scene fuel : Nat)
    (hfuel : (R + 4) * (2 * B) + R + 4 ≤ fuel) :
    Terminates (build_compositor fuel bmain st scene_node scene) := by
  obtain ⟨hnt, _, _, _⟩ := build_rec_terminates bmain B R rank hfin hacyc (2 * B)
  obtain ⟨n, rfl⟩ : ∃ n, fuel = n + 1 := ⟨fuel - 1, by omega⟩
  simp only [build_compositor]
  cases (bmain.scenes scene).nodetree with
  | none =>
    obtain ⟨k, rfl⟩ : ∃ k, n = k + 1 := ⟨n - 1, by omega⟩
    simp only [build_nodetree]
    exact terminates_ok _
  | some nt =>
    exact hnt _ (untagged_count_le _ _) R nt _ n (hacyc.bound nt) (by omega)

/-- C3 (as amended): for a finite source graph whose set-scene chain ends and
whose node-tree nesting through group nodes is acyclic, `build_scene` stops by
itself once the call stack may be as deep as the stated bound, whatever the
initial tags and graph, also when materials, textures and node-trees reference
one another cyclically. -/
theorem C3_build_scene_terminates (bmain : Main) (B R : Nat) (rank : Nat → Nat)
    (hfin : FiniteBelow bmain B) (hacyc : GroupNestingAcyclic bmain rank R) :
    ∀ (d scene : Nat) (st : BuilderState) (fuel : Nat), set_chain_ends bmain d scene →
      d + (R + 4) * (2 * B) + R + 5 ≤ fuel →
      Terminates (build_scene fuel bmain st scene) := by
  intro d
  induction d with
  | zero =>
    intro scene st fuel hset hfuel
    obtain ⟨n, rfl⟩ : ∃ n, fuel = n + 1 := ⟨fuel - 1, by omega⟩
    have hs : (bmain.scenes scene).set = none := hset
    simp only [build_scene]
    rw [add_id_node_eq]
    simp only [hs]
    refine terminates_bind (terminates_ok _) (fun s1 _ => ?_)
    refine terminates_bind ?_ (fun s2 _ => ?_)
    · refine terminates_foldlM (fun _ => True) _ _ ?_ _ trivial
      intro s base _ _
      obtain ⟨s', hs'⟩ := build_scene_base_ok bmain s base
      exact ⟨by rw [hs']; exact terminates_ok _, fun _ _ => trivial⟩
    refine terminates_bind ?_ (fun s4 _ => ?_)
    · cases (bmain.scenes scene).rigidbody_world with
      | none => exact terminates_ok _
      | some rbw =>
        exact terminates_bind (build_rigidbody_terminates _ _ _ _) (fun _ _ => terminates_ok _)
    refine terminates_bind ?_ (fun s5 _ => ?_)
    · cases (bmain.scenes scene).adt with
      | none => exact terminates_ok _
      | some adt =>
        exact terminates_bind (build_animdata_terminates _ _ _) (fun _ _ => terminates_ok _)
    refine terminates_bind ?_ (fun s6 _ => ?_)
    · cases (bmain.scenes scene).world with
      | none => exact terminates_ok _
      | some w => exact build_world_terminates bmain B R rank hfin hacyc _ _ _ (by omega)
    refine terminates_bind ?_ (fun s7 _ => terminates_ok _)
    cases (bmain.scenes scene).nodetree with
    | none => exact terminates_ok _
    | some nt => exact build_compositor_terminates bmain B R rank hfin hacyc _ _ _ _ (by omega)
  | succ d ih =>
    intro scene st fuel hset hfuel
    obtain ⟨n, rfl⟩ : ∃ n, fuel = n + 1 := ⟨fuel - 1, by omega⟩
    simp only [build_scene]
    rw [add_id_node_eq]
    simp only
    refine terminates_bind ?_ (fun s1 _ => ?_)
    · cases hs : (bmain.scenes scene).set with
      | none => exact terminates_ok _
      | some set =>
        simp only
        have hset' : set_chain_ends bmain d set := by
          simp only [set_chain_ends, hs] at hset
          exact hset
        exact terminates_bind (ih set _ n hset' (by omega)) (fun _ _ => terminates_ok _)
    refine terminates_bind ?_ (fun s2 _ => ?_)
    · refine terminates_foldlM (fun _ => True) _ _ ?_ _ trivial
      intro s base _ _
      obtain ⟨s', hs'⟩ := build_scene_base_ok bmain s base
      exact ⟨by rw [hs']; exact terminates_ok _, fun _ _ => trivial⟩
    refine terminates_bind ?_ (fun s4 _ => ?_)
    · cases (bmain.scenes scene).rigidbody_world with
      | none => exact terminates_ok _
      | some rbw =>
        exact terminates_bind (build_rigidbody_terminates _ _ _ _) (fun _ _ => terminates_ok _)
    refine terminates_bind ?_ (fun s5 _ => ?_)
    · cases (bmain.scenes scene).adt with
      | none => exact terminates_ok _
      | some adt =>
        exact terminates_bind (build_animdata_terminates _ _ _) (fun _ _ => terminates_ok _)
    refine terminates_bind ?_ (fun s6 _ => ?_)
    · cases (bmain.scenes scene).world with
      | none => exact terminates_ok _
      | some w => exact build_world_terminates bmain B R rank hfin hacyc _ _ _ (by omega)
    refine terminates_bind ?_ (fun s7 _ => terminates_ok _)
    cases (bmain.scenes scene).nodetree with
    | none => exact terminates_ok _
    | some nt => exact build_compositor_terminates bmain B R rank hfin hacyc _ _ _ _ (by omega)

/-- Witness of C3 (as amended): material 0, texture 0 and node-tree 1 reference
one another in a cycle; the pass stops and returns a graph. -/
theorem C3_witness :
    Terminates (build_scene 13 ex_cycle_main ⟨Depsgraph.empty, Tags.clear⟩ 0)
      ∧ (build_scene 13 ex_cycle_main ⟨Depsgraph.empty, Tags.clear⟩ 0).toOption.isSome
          = true := by
  have hfin : FiniteBelow ex_cycle_main 1 := by
    refine ⟨?_, ?_, ?_⟩
    · intro nt node id hmem hid _
      have hn : (ex_cycle_main.nodetrees nt).nodes = [⟨some (material_id 0), 0⟩] := rfl
      rw [hn, List.mem_singleton] at hmem
      rw [hmem] at hid
      simp only [Option.some.injEq] at hid
      rw [← hid]
      decide
    · intro ma i mtex h
      have hm : (ex_cycle_main.materials ma).mtex i = if i = 0 then some ⟨0⟩ else none := rfl
      rw [hm] at h
      by_cases e : i = 0
      · simp only [e, if_true, Option.some.injEq] at h
        rw [← h]
        decide
      · simp [e] at h
    · intro world i mtex h
      have hm : (ex_cycle_main.worlds world).mtex i = none := rfl
      rw [hm] at h
      simp at h
  have hacyc : GroupNestingAcyclic ex_cycle_main (fun _ => 0) 0 := by
    refine ⟨fun _ => Nat.le_refl _, ?_⟩
    intro nt node nt' hmem hid _
    have hn : (ex_cycle_main.nodetrees nt).nodes = [⟨some (material_id 0), 0⟩] := rfl
    rw [hn, List.mem_singleton] at hmem
    rw [hmem] at hid
    simp [material_id, nodetree_id] at hid
  exact ⟨C3_build_scene_terminates ex_cycle_main 1 0 (fun _ => 0) hfin hacyc 0 0
    ⟨Depsgraph.empty, Tags.clear⟩ 13 rfl (by decide), by decide⟩

/-! ## Shared resources -/

/-- Building a block's own node and animation data appends the driver
operations of the block to its Animation component and nothing else. -/
theorem entity_step_operations {bmain : Main} {g g' : Depsgraph} {id : IDPtr}
    (h : build_animdata bmain (add_id_node g id).2 id = Except.ok g') (c : ComponentPtr) :
    g'.operations c = g.operations c ++ animdata_operations bmain id c := by
  obtain ⟨g2, h2, _, _, _, ho⟩ := build_animdata_effect bmain (add_id_node g id).2 id
    (mem_keys_add_id_node g id)
  rw [h2] at h
  simp only [Except.ok.injEq] at h
  subst h
  rw [ho c, operations_add_id_node]

theorem animdata_operations_of_ne {bmain : Main} {id : IDPtr} {c : ComponentPtr}
    (h : c ≠ animation_ptr id) : animdata_operations bmain id c = [] := by
  unfold animdata_operations
  rw [if_neg h]

/-- While a material or texture is tagged, the recursive routines leave the
operations of its Animation component alone (and restore the tags). -/
theorem build_rec_tagged_frame (bmain : Main) (T : IDPtr)
    (hT : T.gs = ID_Type.ID_MA ∨ T.gs = ID_Type.ID_TE) (fuel : Nat) :
    (∀ st owner nt st', build_nodetree fuel bmain st owner nt = Except.ok st' →
        st'.tags = st.tags ∧ (st.tags T = true →
          st'.graph.operations (animation_ptr T) = st.graph.operations (animation_ptr T)))
      ∧ (∀ st owner ma st', build_material fuel bmain st owner ma = Except.ok st' →
        st'.tags = st.tags ∧ (st.tags T = true →
          st'.graph.operations (animation_ptr T) = st.graph.operations (animation_ptr T)))
      ∧ (∀ st owner ts st', build_texture_stack fuel bmain st owner ts = Except.ok st' →
        st'.tags = st.tags ∧ (st.tags T = true →
          st'.graph.operations (animation_ptr T) = st.graph.operations (animation_ptr T)))
      ∧ (∀ st owner tex st', build_texture fuel bmain st owner tex = Except.ok st' →
        st'.tags = st.tags ∧ (st.tags T = true →
          st'.graph.operations (animation_ptr T) = st.graph.operations (animation_ptr T))) := by
  refine build_rec_rel bmain
    (fun a b => b.tags = a.tags ∧ (a.tags T = true →
      b.graph.operations (animation_ptr T) = a.graph.operations (animation_ptr T)))
    (fun _ => ⟨rfl, fun _ => rfl⟩) ?_ ?_ ?_ fuel
  · intro a b c h1 h2
    refine ⟨h2.1.trans h1.1, fun ha => ?_⟩
    rw [h2.2 (by rw [h1.1]; exact ha), h1.2 ha]
  · intro st nt g' hg
    refine ⟨rfl, fun _ => ?_⟩
    rw [entity_step_operations hg, animdata_operations_of_ne, List.append_nil]
    intro e
    have : T = nodetree_id nt := by
      simpa [animation_ptr] using e
    rw [this] at hT
    simp [nodetree_id] at hT
  · intro st id g1 st2 _ htag hg hr
    simp only at hr ⊢
    refine ⟨by rw [hr.1]; exact id_tag_clear_set st.tags id htag, fun hTt => ?_⟩
    have hne : T ≠ id := by
      intro e; rw [e, htag] at hTt; simp at hTt
    rw [hr.2 (by unfold id_tag_set; rw [Function.update_noteq hne]; exact hTt),
      entity_step_operations hg, animdata_operations_of_ne, List.append_nil]
    intro e
    apply hne
    simpa [animation_ptr] using e

/-- Every returning `build_texture` (`build_material`) call on an untagged
texture (material) appends one driver operation per driver of the block, in
driver order, to the block's Animation component, whether or not the block was
built before, and restores the tags. -/
theorem shared_resource_rebuilt_operations (fuel : Nat) (bmain : Main) (st : BuilderState)
    (owner : DepsNodePtr) :
    (∀ tex st', st.tags (texture_id tex) = false →
        build_texture fuel bmain st owner tex = Except.ok st' →
        st'.graph.operations (animation_ptr (texture_id tex))
            = st.graph.operations (animation_ptr (texture_id tex))
              ++ (animdata_drivers bmain (texture_id tex)).map (driver_operation (texture_id tex))
          ∧ st'.tags = st.tags)
      ∧ (∀ ma st', st.tags (material_id ma) = false →
        build_material fuel bmain st owner ma = Except.ok st' →
        st'.graph.operations (animation_ptr (material_id ma))
            = st.graph.operations (animation_ptr (material_id ma))
              ++ (animdata_drivers bmain (material_id ma)).map (driver_operation (material_id ma))
          ∧ st'.tags = st.tags) := by
  constructor
  · intro tex st' htag h
    refine ⟨?_, (build_rec_tags bmain fuel).2.2.2 _ _ _ _ h⟩
    cases fuel with
    | zero => simp [build_texture] at h
    | succ n =>
      simp only [build_texture] at h
      have htag' : ¬ id_is_tagged st.tags (texture_id tex) = true := by
        simp [id_is_tagged, htag]
      simp only [htag'] at h
      rw [add_id_node_eq] at h
      simp only [Bool.false_eq_true, if_false] at h
      obtain ⟨g1, h1, h2⟩ := except_bind_eq_ok.1 h
      obtain ⟨sb, h5, h6⟩ := except_bind_eq_ok.1 h2
      simp only [except_pure, Except.ok.injEq] at h6
      subst h6
      have hf := ((build_rec_tagged_frame bmain (texture_id tex) (Or.inr rfl) n).1
        _ _ _ _ h5).2 (by simp [id_tag_set])
      simp only at hf ⊢
      rw [hf, entity_step_operations h1]
      simp [animdata_operations]
  · intro ma st' htag h
    refine ⟨?_, (build_rec_tags bmain fuel).2.1 _ _ _ _ h⟩
    cases fuel with
    | zero => simp [build_material] at h
    | succ n =>
      simp only [build_material] at h
      have htag' : ¬ id_is_tagged st.tags (material_id ma) = true := by
        simp [id_is_tagged, htag]
      simp only [htag'] at h
      rw [add_id_node_eq] at h
      simp only [Bool.false_eq_true, if_false] at h
      obtain ⟨g1, h1, h2⟩ := except_bind_eq_ok.1 h
      obtain ⟨sa, h3, h4⟩ := except_bind_eq_ok.1 h2
      obtain ⟨sb, h5, h6⟩ := except_bind_eq_ok.1 h4
      simp only [except_pure, Except.ok.injEq] at h6
      subst h6
      have hfa := (build_rec_tagged_frame bmain (material_id ma) (Or.inl rfl) n).2.2.1
        _ _ _ _ h3
      have hfb := (build_rec_tagged_frame bmain (material_id ma) (Or.inl rfl) n).1
        _ _ _ _ h5
      have ta : sa.tags (material_id ma) = true := by
        rw [hfa.1]; simp [id_tag_set]
      simp only at hfa ⊢
      rw [hfb.2 ta, hfa.2 (by simp [id_tag_set]), entity_step_operations h1]
      simp [animdata_operations]

theorem except_ok_of_map {ε α β : Type} {x : Except ε α} {f : α → β} {b : β}
    (h : x.toOption.map f = some b) : ∃ a, x = Except.ok a ∧ f a = b := by
  cases x with
  | error e => simp [Except.toOption] at h
  | ok a =>
    simp only [Except.toOption, Option.map_some', Option.some.injEq] at h
    exact ⟨a, rfl, h⟩

/-- Counterexample to C4 as stated: materials 0 and 1 both reference texture 0,
which has one driver; after the pass the texture has one node and its Animation
component holds two driver operations. -/
theorem C4_counterexample :
    ∃ p st', build_scene 8 ex_shared_texture_main ⟨Depsgraph.empty, Tags.clear⟩ 0
        = Except.ok (p, st')
      ∧ (animdata_drivers ex_shared_texture_main (texture_id 0)).length = 1
      ∧ List.count (texture_id 0) st'.graph.keys = 1
      ∧ st'.graph.operations (animation_ptr (texture_id 0))
          = [driver_operation (texture_id 0) ex_plain_driver,
             driver_operation (texture_id 0) ex_plain_driver] := by
  obtain ⟨r, hr, hf⟩ := except_ok_of_map
    (x := build_scene 8 ex_shared_texture_main ⟨Depsgraph.empty, Tags.clear⟩ 0)
    (f := fun r => (List.count (texture_id 0) r.2.graph.keys,
      r.2.graph.operations (animation_ptr (texture_id 0))))
    (b := (1, [driver_operation (texture_id 0) ex_plain_driver,
      driver_operation (texture_id 0) ex_plain_driver])) (by decide)
  obtain ⟨p, st'⟩ := r
  simp only [Prod.mk.injEq] at hf
  exact ⟨p, st', hr, rfl, hf.1, hf.2⟩

/-! ## Steps that append no init operation -/

theorem AppendsNonInit.refl (g : Depsgraph) : AppendsNonInit g g :=
  ⟨fun _ => rfl, fun c => ⟨[], by simp, by simp⟩⟩

theorem AppendsNonInit.trans {a b c : Depsgraph} (h1 : AppendsNonInit a b)
    (h2 : AppendsNonInit b c) : AppendsNonInit a c := by
  refine ⟨fun ob => (h2.1 ob).trans (h1.1 ob), fun k => ?_⟩
  obtain ⟨l1, e1, p1⟩ := h1.2 k
  obtain ⟨l2, e2, p2⟩ := h2.2 k
  refine ⟨l1 ++ l2, by rw [e2, e1, List.append_assoc], ?_⟩
  intro o ho
  rcases List.mem_append.1 ho with h | h
  · exact p1 o h
  · exact p2 o h

theorem AppendsNonInit.app_of_component_eq {g g' : Depsgraph}
    (h : ∀ c, g'.component c = g.component c) : AppendsNonInit g g' := by
  refine ⟨fun ob => ?_, fun c => ⟨[], ?_, by simp⟩⟩
  · unfold Depsgraph.has_component; rw [h]
  · rw [List.append_nil]; exact operations_eq_of_component_eq (h c)

theorem component_add_time_source (g : Depsgraph) (id : IDPtr) (c : ComponentPtr) :
    (add_time_source g id).component c = g.component c := by
  unfold add_time_source
  cases g.time_source <;> rfl

/-- Effect of `add_operation_node` through any pointer, when it succeeds. -/
theorem add_operation_node_appends {g : Depsgraph} {c : Option ComponentPtr}
    {t : eDepsNode_Type} {ot : eDepsOperation_Type} {ev : DepsEvalOperationCb}
    {nm : DegOpName} {ptr : PointerRNA} {p : OperationPtr} {g' : Depsgraph}
    (h : add_operation_node g c t ot ev nm ptr = Except.ok (p, g')) :
    (∀ c', g'.has_component c' = g.has_component c')
      ∧ ∀ c', ∃ l, g'.operations c' = g.operations c' ++ l ∧ ∀ o ∈ l, o.optype = ot := by
  cases c with
  | none => simp [add_operation_node] at h
  | some c0 =>
    obtain ⟨g2, h2, _, _, hc⟩ := add_operation_node_some g c0 t ot ev nm ptr
    rw [h2] at h
    simp only [Except.ok.injEq, Prod.mk.injEq] at h
    obtain ⟨_, hg⟩ := h
    subst hg
    constructor
    · intro c'
      unfold Depsgraph.has_component
      rw [hc c']
      by_cases e : c' = c0
      · subst e
        cases g.component c' <;> simp
      · simp [e]
    · intro c'
      by_cases e : c' = c0
      · subst e
        cases hk : g.component c' with
        | none =>
          have h1 := hc c'
          rw [hk] at h1
          simp only [if_true, Option.map_none'] at h1
          refine ⟨[], ?_, by simp⟩
          rw [operations_of_component_none h1, operations_of_component_none hk]
          rfl
        | some k =>
          have h1 := hc c'
          rw [hk] at h1
          simp only [if_true, Option.map_some'] at h1
          refine ⟨[⟨t, ot, ev, nm, ptr, 0⟩], ?_, by simp⟩
          rw [operations_of_component h1, operations_of_component hk]
          rfl
      · have h1 := hc c'
        simp only [e, if_false] at h1
        refine ⟨[], ?_, by simp⟩
        rw [List.append_nil]
        exact operations_eq_of_component_eq h1

theorem AppendsNonInit.app_add_operation {g : Depsgraph} {c : Option ComponentPtr}
    {t : eDepsNode_Type} {ot : eDepsOperation_Type} {ev : DepsEvalOperationCb}
    {nm : DegOpName} {ptr : PointerRNA} {p : OperationPtr} {g' : Depsgraph}
    (hot : ot ≠ eDepsOperation_Type.DEPSOP_TYPE_INIT)
    (h : add_operation_node g c t ot ev nm ptr = Except.ok (p, g')) : AppendsNonInit g g' := by
  obtain ⟨h1, h2⟩ := add_operation_node_appends h
  refine ⟨fun ob => h1 _, fun c' => ?_⟩
  obtain ⟨l, e, hl⟩ := h2 c'
  exact ⟨l, e, fun o ho => by rw [hl o ho]; exact hot⟩

theorem AppendsNonInit.app_add_id (g : Depsgraph) (id : IDPtr) :
    AppendsNonInit g (add_id_node g id).2 :=
  AppendsNonInit.app_of_component_eq (fun c => component_add_id_node g id c)

theorem driver_operation_optype (id : IDPtr) (fcu : FCurve) :
    (driver_operation id fcu).optype = eDepsOperation_Type.DEPSOP_TYPE_EXEC := rfl

/-- The routine `build_animdata` appends exec operations only, on any graph. -/
theorem AppendsNonInit.app_build_animdata {bmain : Main} {g : Depsgraph} {id : IDPtr}
    {g' : Depsgraph} (h : build_animdata bmain g id = Except.ok g') : AppendsNonInit g g' := by
  obtain ⟨g2, h2, _, _, _, hc⟩ := build_animdata_spec bmain g id
  rw [h2] at h
  simp only [Except.ok.injEq] at h
  subst h
  by_cases hmem : id ∈ g.keys
  · obtain ⟨g3, h3, _, _, hh, ho⟩ := build_animdata_effect bmain g id hmem
    rw [h2] at h3
    simp only [Except.ok.injEq] at h3
    subst h3
    refine ⟨fun ob => ?_, fun c => ⟨_, ho c, ?_⟩⟩
    · rw [hh]
      simp [transform_ptr, animation_ptr]
    · intro o hmo
      unfold animdata_operations at hmo
      by_cases e : c = animation_ptr id
      · rw [if_pos e] at hmo
        obtain ⟨fcu, _, rfl⟩ := List.mem_map.1 hmo
        simp [driver_operation]
      · rw [if_neg e] at hmo
        simp at hmo
  · apply AppendsNonInit.app_of_component_eq
    intro c
    rw [hc c]
    by_cases e : c = ⟨id, eDepsNode_Type.DEPSNODE_TYPE_ANIMATION⟩ ∧ has_animation bmain id = true
    · rw [if_pos e, (find_id_node_eq_none_iff g id).2 hmem]
      rw [e.1]
      exact (component_none_of_not_mem_keys hmem).symm
    · rw [if_neg e]

theorem AppendsNonInit.app_add_component {g : Depsgraph} {id : IDPtr} {t : eDepsNode_Type}
    (h : t ≠ eDepsNode_Type.DEPSNODE_TYPE_TRANSFORM) :
    AppendsNonInit g (add_component_node g id t).2 := by
  refine ⟨fun ob => ?_, fun c => ⟨[], ?_, by simp⟩⟩
  · unfold Depsgraph.has_component
    rw [component_add_component_node, if_neg]
    intro e
    apply h
    have := congrArg ComponentPtr.type e
    exact this.symm
  · rw [List.append_nil, operations_add_component_node]

theorem AppendsNonInit.app_build_rigidbody {bmain : Main} {g : Depsgraph} {scene_node : IDPtr}
    {scene : Nat} {g' : Depsgraph}
    (h : build_rigidbody bmain g scene_node scene = Except.ok g') : AppendsNonInit g g' := by
  unfold DEG.build_rigidbody at h
  cases hrbw : (bmain.scenes scene).rigidbody_world with
  | none => simp [hrbw] at h
  | some rbw =>
    simp only [hrbw] at h
    obtain ⟨r1, h1, h⟩ := except_bind_eq_ok.1 h
    obtain ⟨p1, g1⟩ := r1
    obtain ⟨r2, h2, h⟩ := except_bind_eq_ok.1 h
    obtain ⟨p2, g2⟩ := r2
    refine (AppendsNonInit.app_add_operation (by decide) h1).trans
      ((AppendsNonInit.app_add_operation (by decide) h2).trans ?_)
    cases hgr : rbw.group with
    | none =>
      simp only [hgr, except_pure, Except.ok.injEq] at h
      subst h; exact AppendsNonInit.refl _
    | some group =>
      simp only [hgr] at h
      refine foldlM_rel AppendsNonInit AppendsNonInit.refl
        (fun a b c => AppendsNonInit.trans) _ _ ?_ _ _ h
      intro s go s' _ hs
      cases hob : go.ob with
      | none =>
        simp only [hob, except_pure, Except.ok.injEq] at hs
        subst hs; exact AppendsNonInit.refl _
      | some ob =>
        simp only [hob] at hs
        by_cases hty : (bmain.objects ob).type ≠ OB_MESH
        · rw [if_pos hty] at hs
          simp only [except_pure, Except.ok.injEq] at hs
          subst hs; exact AppendsNonInit.refl _
        · rw [if_neg hty] at hs
          cases hfn : s.find_id_node (object_id ob) with
          | none => simp [hfn] at hs
          | some n =>
            simp only [hfn] at hs
            obtain ⟨r, hr1, hr2⟩ := except_bind_eq_ok.1 hs
            obtain ⟨q, gq⟩ := r
            simp only [except_pure, Except.ok.injEq] at hr2
            subst hr2
            exact AppendsNonInit.app_add_operation (by decide) hr1

/-- The routines `build_world` and `build_compositor` append no init operation. -/
theorem AppendsNonInit.app_build_world {bmain : Main} {fuel : Nat} {st : BuilderState}
    {world : Nat} {st' : BuilderState} (h : build_world fuel bmain st world = Except.ok st') :
    AppendsNonInit st.graph st'.graph := by
  refine build_world_rel bmain (fun a b => AppendsNonInit a.graph b.graph)
    (fun _ => AppendsNonInit.refl _) (fun a b c => AppendsNonInit.trans) ?_ ?_
    fuel st world st' h
  · intro st nt g' hg
    exact (AppendsNonInit.app_add_id _ _).trans (AppendsNonInit.app_build_animdata hg)
  · intro st id g1 st2 _ _ hg hr
    exact ((AppendsNonInit.app_add_id _ _).trans (AppendsNonInit.app_build_animdata hg)).trans hr

theorem AppendsNonInit.app_build_compositor {bmain : Main} {fuel : Nat} {st : BuilderState}
    {scene : Nat} {st' : BuilderState}
    (h : build_compositor fuel bmain st (scene_id scene) scene = Except.ok st') :
    AppendsNonInit st.graph st'.graph := by
  refine build_compositor_rel bmain (fun a b => AppendsNonInit a.graph b.graph)
    (fun _ => AppendsNonInit.refl _) (fun a b c => AppendsNonInit.trans) ?_ ?_ ?_
    fuel st scene st' h
  · intro st nt g' hg
    exact (AppendsNonInit.app_add_id _ _).trans (AppendsNonInit.app_build_animdata hg)
  · intro st id g1 st2 _ _ hg hr
    exact ((AppendsNonInit.app_add_id _ _).trans (AppendsNonInit.app_build_animdata hg)).trans hr
  · intro st scene
    exact AppendsNonInit.app_add_component (by decide)

/-- The stages of `build_scene` after the tagged-groups loop append no init
operation. -/
theorem build_scene_tail_appends {bmain : Main} {fuel scene : Nat}
    {s3 s4 s5 s6 st' : BuilderState}
    (h4 : match (bmain.scenes scene).rigidbody_world with
      | some _ => ∃ g, build_rigidbody bmain s3.graph (scene_id scene) scene = Except.ok g
          ∧ s4 = ⟨g, s3.tags⟩
      | none => s4 = s3)
    (h5 : match (bmain.scenes scene).adt with
      | some _ => ∃ g, build_animdata bmain s4.graph (scene_id scene) = Except.ok g
          ∧ s5 = ⟨g, s4.tags⟩
      | none => s5 = s4)
    (h6 : match (bmain.scenes scene).world with
      | some world => build_world fuel bmain s5 world = Except.ok s6
      | none => s6 = s5)
    (h7 : match (bmain.scenes scene).nodetree with
      | some _ => build_compositor fuel bmain s6 (scene_id scene) scene = Except.ok st'
      | none => st' = s6) :
    AppendsNonInit s3.graph st'.graph := by
  have r4 : AppendsNonInit s3.graph s4.graph := by
    cases hrbw : (bmain.scenes scene).rigidbody_world with
    | none => simp only [hrbw] at h4; rw [h4]; exact AppendsNonInit.refl _
    | some rbw =>
      simp only [hrbw] at h4
      obtain ⟨g, hg, hs⟩ := h4
      rw [hs]
      exact AppendsNonInit.app_build_rigidbody hg
  have r5 : AppendsNonInit s4.graph s5.graph := by
    cases hadt : (bmain.scenes scene).adt with
    | none => simp only [hadt] at h5; rw [h5]; exact AppendsNonInit.refl _
    | some adt =>
      simp only [hadt] at h5
      obtain ⟨g, hg, hs⟩ := h5
      rw [hs]
      exact AppendsNonInit.app_build_animdata hg
  have r6 : AppendsNonInit s5.graph s6.graph := by
    cases hw : (bmain.scenes scene).world with
    | none => simp only [hw] at h6; rw [h6]; exact AppendsNonInit.refl _
    | some w =>
      simp only [hw] at h6
      exact AppendsNonInit.app_build_world h6
  have r7 : AppendsNonInit s6.graph st'.graph := by
    cases hn : (bmain.scenes scene).nodetree with
    | none => simp only [hn] at h7; rw [h7]; exact AppendsNonInit.refl _
    | some nt =>
      simp only [hn] at h7
      exact AppendsNonInit.app_build_compositor h7
  exact r4.trans (r5.trans (r6.trans r7))

/-- The first two statements of `build_scene` append no operation. -/
theorem build_scene_head_appends (g : Depsgraph) (scene : Nat) :
    AppendsNonInit g (add_time_source (add_id_node g (scene_id scene)).2 (scene_id scene)) :=
  (AppendsNonInit.app_add_id g (scene_id scene)).trans
    (AppendsNonInit.app_of_component_eq (fun c => component_add_time_source _ _ c))

/-! ## Objects built more than once -/

theorem local_transform_count_of_appends {g g' : Depsgraph} (h : AppendsNonInit g g')
    (ob : Nat) : local_transform_count g' ob = local_transform_count g ob := by
  unfold local_transform_count
  obtain ⟨l, e, hl⟩ := h.2 (transform_ptr ob)
  have h0 : List.count (local_transform_operation ob) l = 0 :=
    List.count_eq_zero_of_not_mem (fun hm => hl _ hm rfl)
  rw [e, List.count_append, h0, Nat.add_zero]

theorem transform_ptr_inj {a b : Nat} (h : transform_ptr a = transform_ptr b) : a = b := by
  simpa [transform_ptr, object_id] using h

theorem count_object_operations (bmain : Main) (ob ob' : Nat) :
    (object_operations bmain ob' (transform_ptr ob)).count (local_transform_operation ob)
      = [ob'].count ob := by
  unfold object_operations
  by_cases e : ob = ob'
  · subst e
    simp only [if_true, object_transform_operations]
    by_cases hp : (bmain.objects ob).parent.isSome = true <;>
      by_cases hc : (bmain.objects ob).constraints = [] <;>
      simp [hp, hc, local_transform_operation, parent_operation, constraint_stack_operation]
  · have hne : transform_ptr ob ≠ transform_ptr ob' := fun h => e (transform_ptr_inj h)
    rw [if_neg hne, animdata_operations_of_ne (by simp [transform_ptr, animation_ptr])]
    exact (List.count_eq_zero_of_not_mem (by simp [e])).symm

theorem local_transform_count_build_object {bmain : Main} {g : Depsgraph} {ob' : Nat}
    {p : IDPtr} {g' : Depsgraph} (h : build_object bmain g ob' = Except.ok (p, g'))
    (ob : Nat) : local_transform_count g' ob = local_transform_count g ob + [ob'].count ob := by
  obtain ⟨g2, h2, _, _, _, ho⟩ := build_object_effect bmain g ob'
  rw [h2] at h
  simp only [Except.ok.injEq, Prod.mk.injEq] at h
  obtain ⟨_, hg⟩ := h
  subst hg
  unfold local_transform_count
  rw [ho, List.count_append, count_object_operations]

theorem build_scene_base_graph {bmain : Main} {st : BuilderState} {base : Base}
    {st' : BuilderState} (h : build_scene_base bmain st base = Except.ok st') :
    ∃ p1 g1, build_object bmain st.graph base.object = Except.ok (p1, g1)
      ∧ (match (bmain.objects base.object).proxy with
          | some proxy => ∃ p2, build_object bmain g1 proxy = Except.ok (p2, st'.graph)
          | none => st'.graph = g1) := by
  unfold build_scene_base at h
  obtain ⟨r1, h1, h⟩ := except_bind_eq_ok.1 h
  obtain ⟨p1, g1⟩ := r1
  obtain ⟨g2, h2, h⟩ := except_bind_eq_ok.1 h
  simp only [except_pure, Except.ok.injEq] at h
  subst h
  refine ⟨p1, g1, h1, ?_⟩
  cases hp : (bmain.objects base.object).proxy with
  | none =>
    simp only [hp, except_pure, Except.ok.injEq] at h2
    exact h2.symm
  | some proxy =>
    simp only [hp] at h2
    obtain ⟨r, hr1, hr2⟩ := except_bind_eq_ok.1 h2
    obtain ⟨q, gq⟩ := r
    simp only [except_pure, Except.ok.injEq] at hr2
    subst hr2
    exact ⟨q, hr1⟩

theorem local_transform_count_base {bmain : Main} {st : BuilderState} {base : Base}
    {st' : BuilderState} (h : build_scene_base bmain st base = Except.ok st') (ob : Nat) :
    local_transform_count st'.graph ob
      = local_transform_count st.graph ob + (base_object_visits bmain base).count ob := by
  obtain ⟨p1, g1, h1, h2⟩ := build_scene_base_graph h
  unfold base_object_visits
  cases hp : (bmain.objects base.object).proxy with
  | none =>
    simp only [hp] at h2
    rw [h2, local_transform_count_build_object h1]
  | some proxy =>
    simp only [hp] at h2
    obtain ⟨p2, h3⟩ := h2
    rw [local_transform_count_build_object h3, local_transform_count_build_object h1]
    simp only [List.count_cons, List.count_nil]
    omega

theorem local_transform_count_bases (bmain : Main) (ob : Nat) (bases : List Base) :
    ∀ st st', bases.foldlM (build_scene_base bmain) st = Except.ok st' →
      local_transform_count st'.graph ob
        = local_transform_count st.graph ob + (bases_object_visits bmain bases).count ob := by
  induction bases with
  | nil =>
    intro st st' h
    simp only [List.foldlM_nil, except_pure, Except.ok.injEq] at h
    subst h
    simp [bases_object_visits]
  | cons b rest ih =>
    intro st st' h
    simp only [List.foldlM_cons] at h
    obtain ⟨s1, h1, h2⟩ := except_bind_eq_ok.1 h
    rw [ih s1 st' h2, local_transform_count_base h1]
    simp only [bases_object_visits, List.count_append]
    omega

/-- C5 (as amended): `build_scene` runs `build_object` once per occurrence of
an object in the traversal (base list entries and their proxy targets, set
scene first), and each run appends one local-transform init operation: the
number of such operations in an object's Transform component grows by the
number of occurrences of the object in the traversal. An object reached
exactly once from the empty graph has exactly one. -/
theorem C5_local_transform_per_visit (bmain : Main) :
    ∀ (fuel : Nat) (st : BuilderState) (scene : Nat) (p : IDPtr) (st' : BuilderState),
      build_scene fuel bmain st scene = Except.ok (p, st') →
      ∀ ob, local_transform_count st'.graph ob
        = local_transform_count st.graph ob + (scene_object_visits bmain fuel scene).count ob := by
  intro fuel
  induction fuel with
  | zero =>
    intro st scene p st' h
    simp [build_scene] at h
  | succ n ih =>
    intro st scene p st' h ob
    obtain ⟨_, s1, s2, s4, s5, s6, h1, h2, h4, h5, h6, h7⟩ := build_scene_inv h
    have e0 := local_transform_count_of_appends (build_scene_head_appends st.graph scene) ob
    have e1 : local_transform_count s1.graph ob = local_transform_count st.graph ob
        + (match (bmain.scenes scene).set with
            | some set => scene_object_visits bmain n set
            | none => []).count ob := by
      cases hs : (bmain.scenes scene).set with
      | none =>
        simp only [hs] at h1
        rw [h1]
        simpa using e0
      | some set =>
        simp only [hs] at h1
        obtain ⟨q, hq⟩ := h1
        rw [ih _ _ _ _ hq ob]
        simp only
        rw [e0]
    have e2 := local_transform_count_bases bmain ob _ _ _ h2
    have e3 : local_transform_count (bmain.group.foldl build_scene_group s2).graph ob
        = local_transform_count s2.graph ob := by
      rw [build_scene_group_fold_graph]
    have h4' : match (bmain.scenes scene).rigidbody_world with
        | some _ => ∃ g, build_rigidbody bmain (bmain.group.foldl build_scene_group s2).graph
            (scene_id scene) scene = Except.ok g
            ∧ s4 = ⟨g, (bmain.group.foldl build_scene_group s2).tags⟩
        | none => s4 = bmain.group.foldl build_scene_group s2 := h4
    have e4 := local_transform_count_of_appends (build_scene_tail_appends h4' h5 h6 h7) ob
    rw [e4, e3, e2, e1]
    simp only [scene_object_visits, List.count_append]
    omega

/-- Counterexample to C5 as stated: object 1 is in the scene's object list and is
the proxy target of object 0; its Transform component ends up with two
local-transform init operations. -/
theorem C5_counterexample :
    ∃ p st', build_scene 1 ex_proxy_main ⟨Depsgraph.empty, Tags.clear⟩ 0 = Except.ok (p, st')
      ∧ local_transform_count st'.graph 1 = 2 := by
  obtain ⟨r, hr, hf⟩ := except_ok_of_map
    (x := build_scene 1 ex_proxy_main ⟨Depsgraph.empty, Tags.clear⟩ 0)
    (f := fun r => local_transform_count r.2.graph 1) (b := 2) (by decide)
  exact ⟨r.1, r.2, hr, hf⟩

/-- Witness of C5 (as amended) on the same scene: object 0 is reached once and
has one local-transform operation, object 1 is reached twice and has two. -/
theorem C5_witness :
    ∃ p st', build_scene 1 ex_proxy_main ⟨Depsgraph.empty, Tags.clear⟩ 0 = Except.ok (p, st')
      ∧ local_transform_count st'.graph 0 = 1
      ∧ local_transform_count st'.graph 1 = 2 := by
  obtain ⟨r, hr⟩ := except_ok_of_isSome
    (x := build_scene 1 ex_proxy_main ⟨Depsgraph.empty, Tags.clear⟩ 0) (by decide)
  obtain ⟨p, st'⟩ := r
  have h := C5_local_transform_per_visit ex_proxy_main 1 ⟨Depsgraph.empty, Tags.clear⟩ 0 p st' hr
  exact ⟨p, st', hr, by rw [h 0]; decide, by rw [h 1]; decide⟩

/-! ## Well-formed graphs -/

theorem find?_of_nodup {α β : Type} [DecidableEq β] (key : α → β) (l : List α) (a : α)
    (hn : (l.map key).Nodup) (ha : a ∈ l) :
    l.find? (fun x => decide (key x = key a)) = some a := by
  induction l with
  | nil => simp at ha
  | cons b l ih =>
    rw [List.map_cons, List.nodup_cons] at hn
    rcases List.mem_cons.1 ha with e | e
    · subst e
      simp [List.find?_cons]
    · have hne : key b ≠ key a := by
        intro h
        apply hn.1
        rw [h]
        exact List.mem_map_of_mem key e
      simp only [List.find?_cons, hne, decide_False]
      exact ih hn.2 e

/-- In a well-formed graph every component is the one its pointer designates. -/
theorem component_of_mem {g : Depsgraph} (hwf : g.WF) {n : IDDepsNode} {k : ComponentDepsNode}
    (hn : n ∈ g.id_nodes) (hk : k ∈ n.components) : g.component ⟨n.id, k.type⟩ = some k := by
  unfold Depsgraph.component Depsgraph.find_id_node
  simp only
  rw [find?_of_nodup IDDepsNode.id g.id_nodes n hwf.1 hn]
  simp only [Option.some_bind]
  unfold IDDepsNode.find_component
  exact find?_of_nodup ComponentDepsNode.type n.components k (hwf.2 n hn) hk

theorem find_component_eq_none_iff (n : IDDepsNode) (t : eDepsNode_Type) :
    n.find_component t = none ↔ t ∉ n.components.map ComponentDepsNode.type := by
  unfold IDDepsNode.find_component
  simp only [List.find?_eq_none, List.mem_map, decide_eq_true_eq, not_exists, not_and]

theorem add_component_types_nodup (n : IDDepsNode) (t : eDepsNode_Type)
    (h : (n.components.map ComponentDepsNode.type).Nodup) :
    ((n.add_component t).components.map ComponentDepsNode.type).Nodup := by
  unfold IDDepsNode.add_component
  cases hf : n.find_component t with
  | some k => exact h
  | none =>
    have hnot := (find_component_eq_none_iff n t).1 hf
    simp only [List.map_append, List.map_cons, List.map_nil]
    rw [List.nodup_append]
    refine ⟨h, List.nodup_singleton _, ?_⟩
    intro a ha hb
    rw [List.mem_singleton] at hb
    subst hb
    exact hnot ha

theorem wf_graphRel : GraphRel (fun g g' => g.WF → g'.WF) where
  refl := fun _ h => h
  trans := fun _ _ _ h1 h2 h => h2 (h1 h)
  add_id := by
    intro g id hwf
    refine ⟨(keysExt_graphRel.add_id g id).2 hwf.1, ?_⟩
    intro n hn
    unfold add_id_node at hn
    cases hf : g.find_id_node id with
    | some m =>
      rw [hf] at hn
      exact hwf.2 n hn
    | none =>
      rw [hf] at hn
      simp only [List.mem_append, List.mem_singleton] at hn
      rcases hn with h | h
      · exact hwf.2 n h
      · rw [h]; exact List.nodup_nil
  add_component := by
    intro g id t hwf
    refine ⟨by rw [keys_add_component_node]; exact hwf.1, ?_⟩
    intro n hn
    unfold add_component_node at hn
    simp only [List.mem_map] at hn
    obtain ⟨m, hm, rfl⟩ := hn
    by_cases e : m.id = id
    · rw [if_pos e]
      exact add_component_types_nodup m t (hwf.2 m hm)
    · rw [if_neg e]
      exact hwf.2 m hm
  modify := by
    intro g c f hf hwf
    refine ⟨by rw [keys_modify_component]; exact hwf.1, ?_⟩
    intro n hn
    unfold Depsgraph.modify_component at hn
    simp only [List.mem_map] at hn
    obtain ⟨m, hm, rfl⟩ := hn
    by_cases e : m.id = c.owner
    · rw [if_pos e]
      simp only [List.map_map]
      have : (ComponentDepsNode.type ∘ fun k => if k.type = c.type then f k else k)
          = ComponentDepsNode.type := by
        funext k
        simp only [Function.comp]
        by_cases e2 : k.type = c.type
        · rw [if_pos e2]; exact (hf k).1
        · rw [if_neg e2]
      rw [this]
      exact hwf.2 m hm
    · rw [if_neg e]
      exact hwf.2 m hm
  time_source := by
    intro g id hwf
    unfold add_time_source
    cases g.time_source <;> exact hwf

theorem wf_empty : Depsgraph.empty.WF :=
  ⟨List.nodup_nil, fun n hn => by simp [Depsgraph.empty] at hn⟩

/-! ## Init operations before exec operations -/

theorem pairwise_of_forall_right {α : Type} (R : α → α → Prop) (P : α → Prop)
    (hR : ∀ a b, P b → R a b) (l : List α) (h : ∀ b ∈ l, P b) : l.Pairwise R := by
  induction l with
  | nil => exact List.Pairwise.nil
  | cons a l ih =>
    refine List.Pairwise.cons ?_ (ih (fun b hb => h b (List.mem_cons_of_mem _ hb)))
    intro b hb
    exact hR a b (h b (List.mem_cons_of_mem _ hb))

theorem init_before_exec_append_non_init {ops l : List OperationDepsNode}
    (h : init_before_exec ops)
    (hl : ∀ o ∈ l, o.optype ≠ eDepsOperation_Type.DEPSOP_TYPE_INIT) :
    init_before_exec (ops ++ l) := by
  unfold init_before_exec at h ⊢
  rw [List.pairwise_append]
  refine ⟨h, ?_, ?_⟩
  · exact pairwise_of_forall_right
      (fun a b : OperationDepsNode => ¬ (a.optype = eDepsOperation_Type.DEPSOP_TYPE_EXEC
        ∧ b.optype = eDepsOperation_Type.DEPSOP_TYPE_INIT))
      (fun o => o.optype ≠ eDepsOperation_Type.DEPSOP_TYPE_INIT)
      (fun a b hb hab => hb hab.2) l hl
  · intro a _ b hb hab
    exact hl b hb hab.2

theorem ObjInv.of_appends {g g' : Depsgraph} {V : List Nat} (h : AppendsNonInit g g')
    (hi : ObjInv g V) : ObjInv g' V := by
  refine ⟨fun c => ?_, fun ob hob => ?_⟩
  · obtain ⟨l, e, hl⟩ := h.2 c
    rw [e]
    exact init_before_exec_append_non_init (hi.1 c) hl
  · rw [h.1 ob]
    exact hi.2 ob hob

theorem init_before_exec_object_transform (bmain : Main) (ob : Nat) :
    init_before_exec (object_transform_operations bmain ob) := by
  unfold init_before_exec object_transform_operations
  by_cases hp : (bmain.objects ob).parent.isSome = true <;>
    by_cases hc : (bmain.objects ob).constraints = [] <;>
    simp [hp, hc, local_transform_operation, parent_operation, constraint_stack_operation]

theorem ObjInv.inv_build_object {bmain : Main} {g : Depsgraph} {ob : Nat} {p : IDPtr}
    {g' : Depsgraph} {V : List Nat} (hi : ObjInv g V) (hob : ob ∉ V)
    (h : build_object bmain g ob = Except.ok (p, g')) : ObjInv g' (V ++ [ob]) := by
  obtain ⟨g2, h2, _, _, hh, ho⟩ := build_object_effect bmain g ob
  rw [h2] at h
  simp only [Except.ok.injEq, Prod.mk.injEq] at h
  obtain ⟨_, hg⟩ := h
  subst hg
  refine ⟨fun c => ?_, fun ob' hob' => ?_⟩
  · rw [ho c]
    unfold object_operations
    by_cases e : c = transform_ptr ob
    · rw [if_pos e, e]
      have hnone : g.operations (transform_ptr ob) = [] := by
        have := hi.2 ob hob
        unfold Depsgraph.has_component at this
        cases hk : g.component (transform_ptr ob) with
        | none => exact operations_of_component_none hk
        | some k => simp [hk] at this
      rw [hnone, List.nil_append]
      exact init_before_exec_object_transform bmain ob
    · rw [if_neg e]
      apply init_before_exec_append_non_init (hi.1 c)
      intro o hmo
      unfold animdata_operations at hmo
      by_cases e2 : c = animation_ptr (object_id ob)
      · rw [if_pos e2] at hmo
        obtain ⟨fcu, _, rfl⟩ := List.mem_map.1 hmo
        simp [driver_operation]
      · rw [if_neg e2] at hmo
        simp at hmo
  · simp only [List.mem_append, List.mem_singleton, not_or] at hob'
    rw [hh, hi.2 ob' hob'.1]
    have hne : transform_ptr ob' ≠ transform_ptr ob := fun e => hob'.2 (transform_ptr_inj e)
    simp [transform_ptr, object_params_ptr, animation_ptr, object_id, hob'.2]

theorem ObjInv.inv_base {bmain : Main} {st : BuilderState} {base : Base} {st' : BuilderState}
    {V : List Nat} (hi : ObjInv st.graph V)
    (hn : (V ++ base_object_visits bmain base).Nodup)
    (h : build_scene_base bmain st base = Except.ok st') :
    ObjInv st'.graph (V ++ base_object_visits bmain base) := by
  obtain ⟨p1, g1, h1, h2⟩ := build_scene_base_graph h
  unfold base_object_visits at hn ⊢
  cases hp : (bmain.objects base.object).proxy with
  | none =>
    simp only [hp] at h2 hn ⊢
    rw [h2]
    refine ObjInv.inv_build_object hi ?_ h1
    intro hm
    exact (List.nodup_append.1 hn).2.2 hm (List.mem_singleton_self _)
  | some proxy =>
    simp only [hp] at h2 hn ⊢
    obtain ⟨p2, h3⟩ := h2
    have hd := List.nodup_append.1 hn
    have hob : base.object ∉ V := fun hm => hd.2.2 hm (List.mem_cons_self _ _)
    have i1 := ObjInv.inv_build_object hi hob h1
    have hpr : proxy ∉ V ++ [base.object] := by
      intro hm
      rcases List.mem_append.1 hm with e | e
      · exact hd.2.2 e (List.mem_cons_of_mem _ (List.mem_singleton_self _))
      · rw [List.mem_singleton] at e
        have := hd.2.1
        rw [e] at this
        simp at this
    have i2 := ObjInv.inv_build_object i1 hpr h3
    rw [List.append_assoc] at i2
    exact i2

theorem ObjInv.inv_bases (bmain : Main) (bases : List Base) :
    ∀ (V : List Nat) (st st' : BuilderState), ObjInv st.graph V →
      (V ++ bases_object_visits bmain bases).Nodup →
      bases.foldlM (build_scene_base bmain) st = Except.ok st' →
      ObjInv st'.graph (V ++ bases_object_visits bmain bases) := by
  induction bases with
  | nil =>
    intro V st st' hi _ h
    simp only [List.foldlM_nil, except_pure, Except.ok.injEq] at h
    subst h
    simpa [bases_object_visits] using hi
  | cons b rest ih =>
    intro V st st' hi hn h
    simp only [List.foldlM_cons] at h
    obtain ⟨s1, h1, h2⟩ := except_bind_eq_ok.1 h
    simp only [bases_object_visits] at hn ⊢
    rw [← List.append_assoc] at hn ⊢
    have hn1 : (V ++ base_object_visits bmain b).Nodup := (List.nodup_append.1 hn).1
    exact ih _ s1 st' (ObjInv.inv_base hi hn1 h1) hn h2

/-- The invariant of the object-building loop holds across `build_scene` when no
object is built twice. -/
theorem ObjInv.inv_build_scene (bmain : Main) :
    ∀ (fuel : Nat) (V : List Nat) (st : BuilderState) (scene : Nat) (p : IDPtr)
      (st' : BuilderState), DEG.build_scene fuel bmain st scene = Except.ok (p, st') →
      ObjInv st.graph V → (V ++ scene_object_visits bmain fuel scene).Nodup →
      ObjInv st'.graph (V ++ scene_object_visits bmain fuel scene) := by
  intro fuel
  induction fuel with
  | zero =>
    intro V st scene p st' h
    simp [DEG.build_scene] at h
  | succ n ih =>
    intro V st scene p st' h hi hn
    obtain ⟨_, s1, s2, s4, s5, s6, h1, h2, h4, h5, h6, h7⟩ := build_scene_inv h
    have i0 := ObjInv.of_appends (build_scene_head_appends st.graph scene) hi
    simp only [scene_object_visits] at hn ⊢
    rw [← List.append_assoc] at hn ⊢
    have hn1 := (List.nodup_append.1 hn).1
    have i1 : ObjInv s1.graph (V ++ match (bmain.scenes scene).set with
        | some set => scene_object_visits bmain n set
        | none => []) := by
      cases hs : (bmain.scenes scene).set with
      | none =>
        simp only [hs] at h1
        rw [h1]
        simpa using i0
      | some set =>
        simp only [hs] at h1 hn1
        obtain ⟨q, hq⟩ := h1
        exact ih V _ set q s1 hq i0 hn1
    have i2 := ObjInv.inv_bases bmain _ _ s1 s2 i1 hn h2
    have h4' : match (bmain.scenes scene).rigidbody_world with
        | some _ => ∃ g, build_rigidbody bmain (bmain.group.foldl build_scene_group s2).graph
            (scene_id scene) scene = Except.ok g
            ∧ s4 = ⟨g, (bmain.group.foldl build_scene_group s2).tags⟩
        | none => s4 = bmain.group.foldl build_scene_group s2 := h4
    have i3 := i2
    rw [← build_scene_group_fold_graph bmain.group s2] at i3
    exact ObjInv.of_appends (build_scene_tail_appends h4' h5 h6 h7) i3

/-- C6 (as amended): when no object is built twice in the pass (the traversal
lists every object at most once), every component of the graph `build_scene`
produces from the empty graph holds its operations with every init operation
before every exec operation. -/
theorem C6_init_before_exec (fuel : Nat) (bmain : Main) (tags : Tags) (scene : Nat)
    (p : IDPtr) (st' : BuilderState)
    (h : build_scene fuel bmain ⟨Depsgraph.empty, tags⟩ scene = Except.ok (p, st'))
    (honce : (scene_object_visits bmain fuel scene).Nodup) :
    ∀ n ∈ st'.graph.id_nodes, ∀ k ∈ n.components, init_before_exec k.operations := by
  intro n hn k hk
  have hwf : st'.graph.WF := wf_graphRel.rel_build_scene h wf_empty
  have hinv0 : ObjInv Depsgraph.empty [] := by
    refine ⟨fun c => ?_, fun ob _ => rfl⟩
    have : Depsgraph.empty.operations c = [] := rfl
    rw [this]
    exact List.Pairwise.nil
  have hinv := ObjInv.inv_build_scene bmain fuel [] _ scene p st' h hinv0 (by simpa using honce)
  have hc := component_of_mem hwf hn hk
  have := hinv.1 ⟨n.id, k.type⟩
  rw [operations_of_component hc] at this
  exact this

/-- Counterexample to C6 as stated: object 1 has a parent, is in the scene's
object list and is the proxy target of object 0; its Transform component holds
local (init), parent (exec), local (init), parent (exec). -/
theorem C6_counterexample :
    ∃ p st' k, build_scene 1 ex_proxy_main ⟨Depsgraph.empty, Tags.clear⟩ 0 = Except.ok (p, st')
      ∧ st'.graph.component (transform_ptr 1) = some k
      ∧ k.operations = [local_transform_operation 1, parent_operation 1,
          local_transform_operation 1, parent_operation 1]
      ∧ ¬ init_before_exec k.operations := by
  obtain ⟨r, hr, hf⟩ := except_ok_of_map
    (x := build_scene 1 ex_proxy_main ⟨Depsgraph.empty, Tags.clear⟩ 0)
    (f := fun r => r.2.graph.component (transform_ptr 1))
    (b := some ⟨eDepsNode_Type.DEPSNODE_TYPE_TRANSFORM, object_id 1,
      [local_transform_operation 1, parent_operation 1,
       local_transform_operation 1, parent_operation 1]⟩) (by decide)
  refine ⟨r.1, r.2, _, hr, hf, rfl, ?_⟩
  unfold init_before_exec
  simp [local_transform_operation, parent_operation]

/-- Witness of C6 (as amended): the scene with one parented object. -/
theorem C6_witness :
    ∃ p st', build_scene 1 ex_parented_main ⟨Depsgraph.empty, Tags.clear⟩ 0 = Except.ok (p, st')
      ∧ ∀ n ∈ st'.graph.id_nodes, ∀ k ∈ n.components, init_before_exec k.operations := by
  obtain ⟨r, hr⟩ := except_ok_of_isSome
    (x := build_scene 1 ex_parented_main ⟨Depsgraph.empty, Tags.clear⟩ 0) (by decide)
  obtain ⟨p, st'⟩ := r
  exact ⟨p, st', hr, C6_init_before_exec 1 ex_parented_main Tags.clear 0 p st' hr (by decide)⟩

/-! ## Further claims about single routines -/

/-- C14: one `build_object` call appends to the object's Transform component a
list of operations that holds exactly one constraint-stack operation (an exec
operation) when the object has at least one constraint, however many it has,
and none when it has no constraint. -/
theorem C14_constraint_stack_once (bmain : Main) (g : Depsgraph) (ob : Nat) :
    ∃ g' added, build_object bmain g ob = Except.ok (object_id ob, g')
      ∧ g'.operations (transform_ptr ob) = g.operations (transform_ptr ob) ++ added
      ∧ (added.filter (fun o => decide (o.name = DegOpName.deg_op_name_constraint_stack))).length
          = (if (bmain.objects ob).constraints ≠ [] then 1 else 0)
      ∧ added.count (constraint_stack_operation ob)
          = (if (bmain.objects ob).constraints ≠ [] then 1 else 0)
      ∧ (constraint_stack_operation ob).optype = eDepsOperation_Type.DEPSOP_TYPE_EXEC := by
  obtain ⟨g', h, _, _, _, ho⟩ := build_object_effect bmain g ob
  refine ⟨g', object_transform_operations bmain ob, h, ?_, ?_, ?_, rfl⟩
  · rw [ho]
    simp [object_operations]
  · unfold object_transform_operations
    by_cases hp : (bmain.objects ob).parent.isSome = true <;>
      by_cases hc : (bmain.objects ob).constraints = [] <;>
      simp [hp, hc, List.filter, local_transform_operation, parent_operation,
        constraint_stack_operation]
  · unfold object_transform_operations
    by_cases hp : (bmain.objects ob).parent.isSome = true <;>
      by_cases hc : (bmain.objects ob).constraints = [] <;>
      simp [hp, hc, local_transform_operation, parent_operation, constraint_stack_operation]

/-- C17: `build_world`, `build_material` and `build_texture` on a block whose
visited tag is set return at once with the builder state (graph and every tag)
exactly as it was. -/
theorem C17_tagged_is_noop (fuel : Nat) (bmain : Main) (st : BuilderState)
    (owner : DepsNodePtr) :
    (∀ world, st.tags (world_id world) = true →
        build_world (fuel + 1) bmain st world = Except.ok st)
      ∧ (∀ ma, st.tags (material_id ma) = true →
        build_material (fuel + 1) bmain st owner ma = Except.ok st)
      ∧ (∀ tex, st.tags (texture_id tex) = true →
        build_texture (fuel + 1) bmain st owner tex = Except.ok st) := by
  refine ⟨?_, ?_, ?_⟩
  · intro world h
    simp [build_world, id_is_tagged, h]
  · intro ma h
    simp [build_material, id_is_tagged, h]
  · intro tex h
    simp [build_texture, id_is_tagged, h]

/-- Witness of C17: the three routines on the tagged blocks 0 and the empty graph. -/
theorem C17_witness :
    build_world 1 Main.blank ⟨Depsgraph.empty, ex_guarded_tagged⟩ 0
        = Except.ok ⟨Depsgraph.empty, ex_guarded_tagged⟩
      ∧ build_material 1 Main.blank ⟨Depsgraph.empty, ex_guarded_tagged⟩
          (DepsNodePtr.id_node (scene_id 0)) 0 = Except.ok ⟨Depsgraph.empty, ex_guarded_tagged⟩
      ∧ build_texture 1 Main.blank ⟨Depsgraph.empty, ex_guarded_tagged⟩
          (DepsNodePtr.id_node (scene_id 0)) 0
          = Except.ok ⟨Depsgraph.empty, ex_guarded_tagged⟩ := by
  have h := C17_tagged_is_noop 0 Main.blank ⟨Depsgraph.empty, ex_guarded_tagged⟩
    (DepsNodePtr.id_node (scene_id 0))
  exact ⟨h.1 0 (by decide), h.2.1 0 (by decide), h.2.2 0 (by decide)⟩

/-! ## Further claims about a whole pass -/

/-- C16: a `build_scene` pass that starts from a well-formed graph (such as the
empty graph) ends with at most one component of each kind under every entity
node, also under nodes whose build routine ran more than once. -/
theorem C16_one_component_per_kind (fuel : Nat) (bmain : Main) (st : BuilderState)
    (scene : Nat) (p : IDPtr) (st' : BuilderState) (hwf : st.graph.WF)
    (h : build_scene fuel bmain st scene = Except.ok (p, st')) :
    ∀ n ∈ st'.graph.id_nodes, ∀ K : eDepsNode_Type,
      (n.components.filter (fun k => decide (k.type = K))).length ≤ 1 := by
  intro n hn K
  have hwf' : st'.graph.WF := wf_graphRel.rel_build_scene h hwf
  have hc := List.nodup_iff_count_le_one.1 (hwf'.2 n hn) K
  have : (n.components.filter (fun k => decide (k.type = K))).length
      = List.count K (n.components.map ComponentDepsNode.type) := by
    rw [List.count, List.countP_map, List.countP_eq_length_filter]
    congr 1
  rw [this]
  exact hc

/-- Witness of C16: object 1 is built twice (scene object and proxy target) and
still has one component of each kind. -/
theorem C16_witness :
    ∃ p st', build_scene 1 ex_proxy_main ⟨Depsgraph.empty, Tags.clear⟩ 0 = Except.ok (p, st')
      ∧ List.count 1 (scene_object_visits ex_proxy_main 1 0) = 2
      ∧ ∀ n ∈ st'.graph.id_nodes, ∀ K : eDepsNode_Type,
          (n.components.filter (fun k => decide (k.type = K))).length ≤ 1 := by
  obtain ⟨r, hr⟩ := except_ok_of_isSome
    (x := build_scene 1 ex_proxy_main ⟨Depsgraph.empty, Tags.clear⟩ 0) (by decide)
  obtain ⟨p, st'⟩ := r
  exact ⟨p, st', hr, by decide,
    C16_one_component_per_kind 1 ex_proxy_main ⟨Depsgraph.empty, Tags.clear⟩ 0 p st'
      wf_empty hr⟩

/-- When `build_scene` returns, every group listed in the main database is untagged. -/
theorem build_scene_listed_groups_clear {fuel : Nat} {bmain : Main} {st : BuilderState}
    {scene : Nat} {p : IDPtr} {st' : BuilderState}
    (h : build_scene fuel bmain st scene = Except.ok (p, st')) :
    ∀ group ∈ bmain.group, st'.tags (group_id group) = false := by
  intro group hg
  cases fuel with
  | zero => simp [build_scene] at h
  | succ n =>
    obtain ⟨_, s1, s2, s4, s5, s6, _, _, h4, h5, h6, h7⟩ := build_scene_inv h
    have t4 : s4.tags = (bmain.group.foldl build_scene_group s2).tags := by
      cases hrbw : (bmain.scenes scene).rigidbody_world with
      | none => simp only [hrbw] at h4; rw [h4]
      | some rbw =>
        simp only [hrbw] at h4
        obtain ⟨g, _, hs⟩ := h4
        rw [hs]
    have t5 : s5.tags = s4.tags := by
      cases hadt : (bmain.scenes scene).adt with
      | none => simp only [hadt] at h5; rw [h5]
      | some adt =>
        simp only [hadt] at h5
        obtain ⟨g, _, hs⟩ := h5
        rw [hs]
    have t6 : s6.tags = s5.tags := by
      cases hw : (bmain.scenes scene).world with
      | none => simp only [hw] at h6; rw [h6]
      | some w =>
        simp only [hw] at h6
        exact build_world_tags h6
    have t7 : st'.tags = s6.tags := by
      cases hn : (bmain.scenes scene).nodetree with
      | none => simp only [hn] at h7; rw [h7]
      | some nt =>
        simp only [hn] at h7
        exact build_compositor_tags h7
    rw [t7, t6, t5, t4]
    exact build_scene_group_fold_listed _ _ _ hg

/-- When every instancing group is listed in the main database, a clear tag of a
block that is not a listed group is still clear when `build_scene` returns. -/
theorem build_scene_clear_stays_clear {fuel : Nat} {bmain : Main} {st : BuilderState}
    {scene : Nat} {p : IDPtr} {st' : BuilderState}
    (hlisted : ∀ ob dup, (bmain.objects ob).dup_group = some dup → dup ∈ bmain.group)
    (h : build_scene fuel bmain st scene = Except.ok (p, st')) :
    ∀ x : IDPtr, (∀ group ∈ bmain.group, x ≠ group_id group) →
      st.tags x = false → st'.tags x = false := by
  refine build_scene_rel bmain
    (fun a b => ∀ x : IDPtr, (∀ group ∈ bmain.group, x ≠ group_id group) →
      a.tags x = false → b.tags x = false)
    (fun _ _ _ hx => hx) (fun a b c h1 h2 x hx ha => h2 x hx (h1 x hx ha))
    (fun _ _ _ _ _ _ hx => hx) ?_ (fun _ _ _ _ hx => hx) (fun _ _ _ _ hx => hx) ?_ ?_
    (fun _ _ _ _ _ _ hx => hx) (fun _ _ _ _ _ _ hx => hx) fuel st scene p st' h
  · intro st id g1 st2 _ _ _ hr x hx hf
    simp only at hr ⊢
    unfold id_tag_clear
    by_cases e : x = id
    · rw [e, Function.update_same]
    · rw [Function.update_noteq e]
      apply hr x hx
      unfold id_tag_set
      rw [Function.update_noteq e]
      exact hf
  · intro st base st' hb x hx hf
    rw [build_scene_base_tags hb]
    cases hd : (bmain.objects base.object).dup_group with
    | none => exact hf
    | some dup =>
      simp only
      unfold id_tag_set
      rw [Function.update_noteq (hx dup (hlisted _ _ hd))]
      exact hf
  · intro st group x _ hf
    rw [build_scene_group_tags]
    unfold id_tag_clear
    by_cases e : x = group_id group
    · rw [e, Function.update_same]
    · rw [Function.update_noteq e]
      exact hf

/-- C15: if every visited tag is clear when `build_scene` is called and every
object's instancing group is listed in the main database, every visited tag is
clear when `build_scene` returns. -/
theorem C15_no_tag_left_set (fuel : Nat) (bmain : Main) (st : BuilderState) (scene : Nat)
    (p : IDPtr) (st' : BuilderState) (hclear : ∀ id, st.tags id = false)
    (hlisted : ∀ ob dup, (bmain.objects ob).dup_group = some dup → dup ∈ bmain.group)
    (h : build_scene fuel bmain st scene = Except.ok (p, st')) :
    ∀ id, st'.tags id = false := by
  intro id
  by_cases hl : ∃ group ∈ bmain.group, id = group_id group
  · obtain ⟨group, hg, rfl⟩ := hl
    exact build_scene_listed_groups_clear h group hg
  · refine build_scene_clear_stays_clear hlisted h id ?_ (hclear id)
    intro group hg e
    exact hl ⟨group, hg, e⟩

/-- Witness of C15: object 0 instances the listed group 0; the pass sets and
clears the group's tag. -/
theorem C15_witness :
    ∃ p st', build_scene 1 ex_dup_group_main ⟨Depsgraph.empty, Tags.clear⟩ 0
        = Except.ok (p, st')
      ∧ ∀ id, st'.tags id = false := by
  obtain ⟨r, hr⟩ := except_ok_of_isSome
    (x := build_scene 1 ex_dup_group_main ⟨Depsgraph.empty, Tags.clear⟩ 0) (by decide)
  obtain ⟨p, st'⟩ := r
  refine ⟨p, st', hr, C15_no_tag_left_set 1 ex_dup_group_main ⟨Depsgraph.empty, Tags.clear⟩ 0
    p st' (fun _ => rfl) ?_ hr⟩
  intro ob dup hd
  have : (ex_dup_group_main.objects ob).dup_group = some 0 := rfl
  rw [this] at hd
  simp only [Option.some.injEq] at hd
  rw [← hd]
  decide

/-! ## Objects built by the pass -/

theorem has_component_modify_component (g : Depsgraph) (c c' : ComponentPtr)
    (f : ComponentDepsNode → ComponentDepsNode) (hf : ∀ k, (f k).type = k.type) :
    (g.modify_component c f).has_component c' = g.has_component c' := by
  unfold Depsgraph.has_component
  rw [component_modify_component g c c' f hf]
  by_cases e : c' = c
  · subst e
    cases g.component c' <;> simp
  · simp [e]

theorem nodeCompMono_graphRel : GraphRel NodeCompMono where
  refl := fun _ => ⟨fun _ h => h, fun _ h => h⟩
  trans := fun _ _ _ h1 h2 => ⟨fun id h => h2.1 id (h1.1 id h), fun c h => h2.2 c (h1.2 c h)⟩
  add_id := by
    intro g id
    refine ⟨fun x hx => (keysExt_graphRel.add_id g id).1.subset hx, fun c hc => ?_⟩
    rw [has_component_add_id_node]
    exact hc
  add_component := by
    intro g id t
    refine ⟨fun x hx => by rw [keys_add_component_node]; exact hx, fun c hc => ?_⟩
    unfold Depsgraph.has_component at hc ⊢
    rw [component_add_component_node]
    by_cases e : c = ⟨id, t⟩
    · rw [if_pos e]
      subst e
      unfold Depsgraph.component at hc
      cases hn : g.find_id_node id with
      | none => simp [hn] at hc
      | some n => simp
    · rw [if_neg e]
      exact hc
  modify := by
    intro g c f hf
    refine ⟨fun x hx => by rw [keys_modify_component]; exact hx, fun c' hc => ?_⟩
    rw [has_component_modify_component g c c' f (fun k => (hf k).1)]
    exact hc
  time_source := by
    intro g id
    refine ⟨fun x hx => by rw [keys_add_time_source]; exact hx, fun c hc => ?_⟩
    unfold Depsgraph.has_component at hc ⊢
    rw [component_add_time_source]
    exact hc

theorem ObjectBuilt.mono {g g' : Depsgraph} {ob : Nat} (h : NodeCompMono g g')
    (hb : ObjectBuilt g ob) : ObjectBuilt g' ob :=
  ⟨h.1 _ hb.1, h.2 _ hb.2.1, h.2 _ hb.2.2⟩

theorem objectBuilt_build_object {bmain : Main} {g : Depsgraph} {ob : Nat} {p : IDPtr}
    {g' : Depsgraph} (h : build_object bmain g ob = Except.ok (p, g')) : ObjectBuilt g' ob := by
  obtain ⟨g2, h2, hk, _, hh, _⟩ := build_object_effect bmain g ob
  rw [h2] at h
  simp only [Except.ok.injEq, Prod.mk.injEq] at h
  obtain ⟨_, hg⟩ := h
  subst hg
  refine ⟨?_, ?_, ?_⟩
  · rw [hk]
    by_cases e : object_id ob ∈ g.keys
    · rw [if_pos e]; exact e
    · rw [if_neg e]; simp
  · rw [hh]; simp
  · rw [hh]; simp

theorem objectBuilt_base {bmain : Main} {st : BuilderState} {base : Base}
    {st' : BuilderState} (h : build_scene_base bmain st base = Except.ok st') :
    ∀ ob ∈ base_object_visits bmain base, ObjectBuilt st'.graph ob := by
  obtain ⟨p1, g1, h1, h2⟩ := build_scene_base_graph h
  intro ob hob
  unfold base_object_visits at hob
  cases hp : (bmain.objects base.object).proxy with
  | none =>
    simp only [hp, List.mem_singleton] at h2 hob
    rw [h2, hob]
    exact objectBuilt_build_object h1
  | some proxy =>
    simp only [hp] at h2 hob
    obtain ⟨p2, h3⟩ := h2
    rcases List.mem_cons.1 hob with e | e
    · rw [e]
      exact ObjectBuilt.mono (nodeCompMono_graphRel.rel_build_object h3)
        (objectBuilt_build_object h1)
    · rw [List.mem_singleton] at e
      rw [e]
      exact objectBuilt_build_object h3

theorem objectBuilt_bases (bmain : Main) (bases : List Base) :
    ∀ st st', bases.foldlM (build_scene_base bmain) st = Except.ok st' →
      NodeCompMono st.graph st'.graph
        ∧ ∀ ob ∈ bases_object_visits bmain bases, ObjectBuilt st'.graph ob := by
  induction bases with
  | nil =>
    intro st st' h
    simp only [List.foldlM_nil, except_pure, Except.ok.injEq] at h
    subst h
    exact ⟨nodeCompMono_graphRel.refl _, fun ob hob => by simp [bases_object_visits] at hob⟩
  | cons b rest ih =>
    intro st st' h
    simp only [List.foldlM_cons] at h
    obtain ⟨s1, h1, h2⟩ := except_bind_eq_ok.1 h
    obtain ⟨m2, b2⟩ := ih s1 st' h2
    have m1 : NodeCompMono st.graph s1.graph := nodeCompMono_graphRel.rel_build_scene_base h1
    refine ⟨nodeCompMono_graphRel.trans _ _ _ m1 m2, ?_⟩
    intro ob hob
    simp only [bases_object_visits, List.mem_append] at hob
    rcases hob with e | e
    · exact ObjectBuilt.mono m2 (objectBuilt_base h1 ob e)
    · exact b2 ob e

/-- Given that a returning `build_scene` with bound `fuel` has built every object
of its traversal, the objects of the traversal with bound `fuel + 1` are built
in the state in which `build_rigidbody` is called. -/
theorem rigidbody_entry_built_of {bmain : Main} {fuel : Nat}
    (ih : ∀ st scene p st', build_scene fuel bmain st scene = Except.ok (p, st') →
      ∀ ob ∈ scene_object_visits bmain fuel scene, ObjectBuilt st'.graph ob)
    {st : BuilderState} {scene : Nat} {s3 : BuilderState}
    (h : rigidbody_entry bmain fuel st scene s3) :
    ∀ ob ∈ scene_object_visits bmain (fuel + 1) scene, ObjectBuilt s3.graph ob := by
  obtain ⟨s1, s2, h1, h2, h3⟩ := h
  obtain ⟨m2, b2⟩ := objectBuilt_bases bmain _ s1 s2 h2
  intro ob hob
  rw [h3, build_scene_group_fold_graph]
  simp only [scene_object_visits, List.mem_append] at hob
  rcases hob with e | e
  · cases hs : (bmain.scenes scene).set with
    | none => simp [hs] at e
    | some set =>
      simp only [hs] at h1 e
      obtain ⟨q, hq⟩ := h1
      exact ObjectBuilt.mono m2 (ih _ _ _ _ hq ob e)
  · exact b2 ob e

theorem GraphRel.rel_build_world {R : Depsgraph → Depsgraph → Prop} (hR : GraphRel R)
    {bmain : Main} {fuel : Nat} {st : BuilderState} {world : Nat} {st' : BuilderState}
    (h : build_world fuel bmain st world = Except.ok st') : R st.graph st'.graph := by
  refine build_world_rel bmain (fun a b => R a.graph b.graph) (fun s => hR.refl _)
    (fun a b c => hR.trans _ _ _) ?_ ?_ fuel st world st' h
  · intro st nt g' hg
    exact hR.trans _ _ _ (hR.add_id _ _) (hR.rel_build_animdata hg)
  · intro st id g1 st2 _ _ hg hr
    exact hR.trans _ _ _ (hR.trans _ _ _ (hR.add_id _ _) (hR.rel_build_animdata hg)) hr

theorem GraphRel.rel_build_compositor {R : Depsgraph → Depsgraph → Prop} (hR : GraphRel R)
    {bmain : Main} {fuel : Nat} {st : BuilderState} {scene : Nat} {st' : BuilderState}
    (h : build_compositor fuel bmain st (scene_id scene) scene = Except.ok st') :
    R st.graph st'.graph := by
  refine build_compositor_rel bmain (fun a b => R a.graph b.graph) (fun s => hR.refl _)
    (fun a b c => hR.trans _ _ _) ?_ ?_ ?_ fuel st scene st' h
  · intro st nt g' hg
    exact hR.trans _ _ _ (hR.add_id _ _) (hR.rel_build_animdata hg)
  · intro st id g1 st2 _ _ hg hr
    exact hR.trans _ _ _ (hR.trans _ _ _ (hR.add_id _ _) (hR.rel_build_animdata hg)) hr
  · intro st scene
    exact hR.add_component _ _ _

/-- The four mutually recursive routines satisfy every relation that holds across
the registry primitives. -/
theorem GraphRel.rel_build_rec {R : Depsgraph → Depsgraph → Prop} (hR : GraphRel R)
    (bmain : Main) (fuel : Nat) :
    (∀ st owner nt st', build_nodetree fuel bmain st owner nt = Except.ok st'
        → R st.graph st'.graph)
      ∧ (∀ st owner ma st', build_material fuel bmain st owner ma = Except.ok st'
        → R st.graph st'.graph)
      ∧ (∀ st owner ts st', build_texture_stack fuel bmain st owner ts = Except.ok st'
        → R st.graph st'.graph)
      ∧ (∀ st owner tex st', build_texture fuel bmain st owner tex = Except.ok st'
        → R st.graph st'.graph) := by
  refine build_rec_rel bmain (fun a b => R a.graph b.graph) (fun s => hR.refl _)
    (fun a b c => hR.trans _ _ _) ?_ ?_ fuel
  · intro st nt g' hg
    exact hR.trans _ _ _ (hR.add_id _ _) (hR.rel_build_animdata hg)
  · intro st id g1 st2 _ _ hg hr
    exact hR.trans _ _ _ (hR.trans _ _ _ (hR.add_id _ _) (hR.rel_build_animdata hg)) hr

/-- The stages of `build_scene` from the call of `build_rigidbody` on satisfy
every relation that holds across the registry primitives. -/
theorem GraphRel.rel_build_scene_tail {R : Depsgraph → Depsgraph → Prop} (hR : GraphRel R)
    {bmain : Main} {fuel scene : Nat} {s3 s4 s5 s6 st' : BuilderState}
    (h4 : match (bmain.scenes scene).rigidbody_world with
      | some _ => ∃ g, build_rigidbody bmain s3.graph (scene_id scene) scene = Except.ok g
          ∧ s4 = ⟨g, s3.tags⟩
      | none => s4 = s3)
    (h5 : match (bmain.scenes scene).adt with
      | some _ => ∃ g, build_animdata bmain s4.graph (scene_id scene) = Except.ok g
          ∧ s5 = ⟨g, s4.tags⟩
      | none => s5 = s4)
    (h6 : match (bmain.scenes scene).world with
      | some world => build_world fuel bmain s5 world = Except.ok s6
      | none => s6 = s5)
    (h7 : match (bmain.scenes scene).nodetree with
      | some _ => build_compositor fuel bmain s6 (scene_id scene) scene = Except.ok st'
      | none => st' = s6) :
    R s3.graph st'.graph := by
  have r4 : R s3.graph s4.graph := by
    cases hrbw : (bmain.scenes scene).rigidbody_world with
    | none => simp only [hrbw] at h4; rw [h4]; exact hR.refl _
    | some rbw =>
      simp only [hrbw] at h4
      obtain ⟨g, hg, hs⟩ := h4
      rw [hs]
      exact hR.rel_build_rigidbody hg
  have r5 : R s4.graph s5.graph := by
    cases hadt : (bmain.scenes scene).adt with
    | none => simp only [hadt] at h5; rw [h5]; exact hR.refl _
    | some adt =>
      simp only [hadt] at h5
      obtain ⟨g, hg, hs⟩ := h5
      rw [hs]
      exact hR.rel_build_animdata hg
  have r6 : R s5.graph s6.graph := by
    cases hw : (bmain.scenes scene).world with
    | none => simp only [hw] at h6; rw [h6]; exact hR.refl _
    | some w =>
      simp only [hw] at h6
      exact hR.rel_build_world h6
  have r7 : R s6.graph st'.graph := by
    cases hn : (bmain.scenes scene).nodetree with
    | none => simp only [hn] at h7; rw [h7]; exact hR.refl _
    | some nt =>
      simp only [hn] at h7
      exact hR.rel_build_compositor h7
  exact hR.trans _ _ _ r4 (hR.trans _ _ _ r5 (hR.trans _ _ _ r6 r7))

/-- A returning `build_scene` has built every object of its traversal: node,
parameters component of `build_object`, Transform component. -/
theorem build_scene_objects_built (bmain : Main) :
    ∀ (fuel : Nat) (st : BuilderState) (scene : Nat) (p : IDPtr) (st' : BuilderState),
      build_scene fuel bmain st scene = Except.ok (p, st') →
      ∀ ob ∈ scene_object_visits bmain fuel scene, ObjectBuilt st'.graph ob := by
  intro fuel
  induction fuel with
  | zero =>
    intro st scene p st' h
    simp [build_scene] at h
  | succ n ih =>
    intro st scene p st' h ob hob
    obtain ⟨_, s1, s2, s4, s5, s6, h1, h2, h4, h5, h6, h7⟩ := build_scene_inv h
    have hentry : rigidbody_entry bmain n st scene (bmain.group.foldl build_scene_group s2) :=
      ⟨s1, s2, h1, h2, rfl⟩
    have hb := rigidbody_entry_built_of ih hentry ob hob
    have h4' : match (bmain.scenes scene).rigidbody_world with
        | some _ => ∃ g, build_rigidbody bmain (bmain.group.foldl build_scene_group s2).graph
            (scene_id scene) scene = Except.ok g
            ∧ s4 = ⟨g, (bmain.group.foldl build_scene_group s2).tags⟩
        | none => s4 = bmain.group.foldl build_scene_group s2 := h4
    exact ObjectBuilt.mono (nodeCompMono_graphRel.rel_build_scene_tail h4' h5 h6 h7) hb

/-! ## The rigidbody stage -/

theorem find_component_ptr_of_has_component {g : Depsgraph} {id : IDPtr} {t : eDepsNode_Type}
    (h : g.has_component ⟨id, t⟩ = true) : g.find_component_ptr id t = some ⟨id, t⟩ := by
  unfold Depsgraph.find_component_ptr
  unfold Depsgraph.has_component at h
  cases hc : g.component ⟨id, t⟩ with
  | none => simp [hc] at h
  | some k => rfl

theorem find_component_ptr_of_not_has_component {g : Depsgraph} {id : IDPtr}
    {t : eDepsNode_Type} (h : g.has_component ⟨id, t⟩ = false) :
    g.find_component_ptr id t = none := by
  unfold Depsgraph.find_component_ptr
  unfold Depsgraph.has_component at h
  cases hc : g.component ⟨id, t⟩ with
  | none => rfl
  | some k => simp [hc] at h

theorem eq_error_of_failure {α : Type} {x : Except BuildError α} {e : BuildError}
    (h : failure x = some e) : x = Except.error e := by
  cases x with
  | error e' =>
    simp only [failure, Option.some.injEq] at h
    rw [h]
  | ok a => simp [failure] at h

/-- The routine `build_scene (fuel + 1)` calls `build_rigidbody` in the state
`rigidbody_entry` describes: a failure of that call is the failure of the pass. -/
theorem build_scene_of_rigidbody_entry {bmain : Main} {fuel : Nat} {st : BuilderState}
    {scene : Nat} {s3 : BuilderState} (h : rigidbody_entry bmain fuel st scene s3)
    (hrbw : (bmain.scenes scene).rigidbody_world.isSome = true) (e : BuildError)
    (he : build_rigidbody bmain s3.graph (scene_id scene) scene = Except.error e) :
    build_scene (fuel + 1) bmain st scene = Except.error e := by
  obtain ⟨s1, s2, h1, h2, h3⟩ := h
  subst h3
  simp only [build_scene]
  rw [add_id_node_eq]
  simp only
  have hs1 : (match (bmain.scenes scene).set with
      | some set => do
        let (_, st) ← build_scene fuel bmain
          ⟨add_time_source (add_id_node st.graph (scene_id scene)).2 (scene_id scene), st.tags⟩
          set
        pure st
      | none => pure
          ⟨add_time_source (add_id_node st.graph (scene_id scene)).2 (scene_id scene), st.tags⟩
      : Except BuildError BuilderState) = Except.ok s1 := by
    cases hs : (bmain.scenes scene).set with
    | none =>
      simp only [hs] at h1
      rw [h1]
      rfl
    | some set =>
      simp only [hs] at h1
      obtain ⟨q, hq⟩ := h1
      simp only [hq, except_bind_ok, except_pure]
  rw [hs1]
  simp only [except_bind_ok, h2]
  cases hr : (bmain.scenes scene).rigidbody_world with
  | none => simp [hr] at hrbw
  | some rbw =>
    simp only [he, except_bind_error]

/-- In the state in which `build_scene` calls `build_rigidbody`, every object
the pass has built by then (the entries of the scene's object list, their proxy
targets, the objects of the set scenes) has its entity node and its Transform
component, so both lookups succeed for every participant among them; the state
is the one `build_rigidbody` runs on. -/
theorem rigidbody_entry_objects_found (bmain : Main) (fuel : Nat) (st : BuilderState)
    (scene : Nat) (s3 : BuilderState) (h : rigidbody_entry bmain fuel st scene s3) :
    (∀ ob ∈ scene_object_visits bmain (fuel + 1) scene,
        (s3.graph.find_id_node (object_id ob)).isSome = true
          ∧ s3.graph.find_component_ptr (object_id ob) eDepsNode_Type.DEPSNODE_TYPE_TRANSFORM
              = some (transform_ptr ob))
      ∧ ∀ e, (bmain.scenes scene).rigidbody_world.isSome = true →
          build_rigidbody bmain s3.graph (scene_id scene) scene = Except.error e →
          build_scene (fuel + 1) bmain st scene = Except.error e := by
  refine ⟨fun ob hob => ?_, fun e hrbw he => build_scene_of_rigidbody_entry h hrbw e he⟩
  have hb := rigidbody_entry_built_of (build_scene_objects_built bmain fuel) h ob hob
  exact ⟨(find_id_node_isSome_iff _ _).2 hb.1, find_component_ptr_of_has_component hb.2.2⟩

/-- C12 (evaluation at the failing input): the rigidbody group of scene 0 lists
the mesh object 5, which is in no scene; in the state in which `build_scene`
calls `build_rigidbody` the lookup of its entity node comes back empty, and
`build_rigidbody` reaches the missing-node defect branch there even when the
scene node is given a Transform component. -/
theorem C12_stray_participant_not_built :
    ∃ s3, rigidbody_entry ex_rigidbody_stray_main 0 ⟨Depsgraph.empty, Tags.clear⟩ 0 s3
      ∧ (ex_rigidbody_stray_main.scenes 0).rigidbody_world = some ⟨some 0⟩
      ∧ 5 ∈ rigidbody_participants ex_rigidbody_stray_main 0
      ∧ s3.graph.find_id_node (object_id 5) = none
      ∧ build_rigidbody ex_rigidbody_stray_main
          (add_component_node s3.graph (scene_id 0) eDepsNode_Type.DEPSNODE_TYPE_TRANSFORM).2
          (scene_id 0) 0 = Except.error BuildError.defect := by
  obtain ⟨s2, h2, hf⟩ := except_ok_of_map
    (x := (ex_rigidbody_stray_main.scenes 0).base.foldlM
      (build_scene_base ex_rigidbody_stray_main)
      ⟨add_time_source (add_id_node Depsgraph.empty (scene_id 0)).2 (scene_id 0), Tags.clear⟩)
    (f := fun s2 =>
      ((ex_rigidbody_stray_main.group.foldl build_scene_group s2).graph.find_id_node
        (object_id 5),
       failure (build_rigidbody ex_rigidbody_stray_main
        (add_component_node (ex_rigidbody_stray_main.group.foldl build_scene_group s2).graph
          (scene_id 0) eDepsNode_Type.DEPSNODE_TYPE_TRANSFORM).2 (scene_id 0) 0)))
    (b := (none, some BuildError.defect)) (by decide)
  simp only [Prod.mk.injEq] at hf
  exact ⟨_, ⟨_, s2, rfl, h2, rfl⟩, rfl, by decide, hf.1, eq_error_of_failure hf.2⟩

/-- Example: the scene object 0 has its node and Transform component when
`build_rigidbody` is called. -/
theorem rigidbody_entry_objects_found_example :
    ∃ s3, rigidbody_entry ex_rigidbody_stray_main 0 ⟨Depsgraph.empty, Tags.clear⟩ 0 s3
      ∧ (s3.graph.find_id_node (object_id 0)).isSome = true
      ∧ s3.graph.find_component_ptr (object_id 0) eDepsNode_Type.DEPSNODE_TYPE_TRANSFORM
          = some (transform_ptr 0) := by
  obtain ⟨s2, h2⟩ := except_ok_of_isSome
    (x := (ex_rigidbody_stray_main.scenes 0).base.foldlM
      (build_scene_base ex_rigidbody_stray_main)
      ⟨add_time_source (add_id_node Depsgraph.empty (scene_id 0)).2 (scene_id 0), Tags.clear⟩)
    (by decide)
  have hentry : rigidbody_entry ex_rigidbody_stray_main 0 ⟨Depsgraph.empty, Tags.clear⟩ 0
      (ex_rigidbody_stray_main.group.foldl build_scene_group s2) := ⟨_, s2, rfl, h2, rfl⟩
  have h := (rigidbody_entry_objects_found ex_rigidbody_stray_main 0
    ⟨Depsgraph.empty, Tags.clear⟩ 0 _ hentry).1 0 (by decide)
  exact ⟨_, hentry, h.1, h.2⟩

/-- C18 (evaluation at the failing input): after the pass over a scene that
holds object 0 and has a compositing node-tree, the scene node owns a component
of kind `DEPSNODE_TYPE_PARAMETERS`, while the object node owns none of that
kind: its parameters component is keyed by `DEPSNODE_TYPE_OP_PARAMETER`. The
object's Transform component is there. -/
theorem C18_object_parameters_kind :
    ∃ p st', build_scene 3 ex_compositor_object_main ⟨Depsgraph.empty, Tags.clear⟩ 0
        = Except.ok (p, st')
      ∧ st'.graph.has_component ⟨scene_id 0, eDepsNode_Type.DEPSNODE_TYPE_PARAMETERS⟩ = true
      ∧ st'.graph.has_component ⟨object_id 0, eDepsNode_Type.DEPSNODE_TYPE_PARAMETERS⟩ = false
      ∧ st'.graph.has_component ⟨object_id 0, eDepsNode_Type.DEPSNODE_TYPE_OP_PARAMETER⟩ = true
      ∧ st'.graph.has_component (transform_ptr 0) = true := by
  obtain ⟨r, hr, hf⟩ := except_ok_of_map
    (x := build_scene 3 ex_compositor_object_main ⟨Depsgraph.empty, Tags.clear⟩ 0)
    (f := fun r =>
      (r.2.graph.has_component ⟨scene_id 0, eDepsNode_Type.DEPSNODE_TYPE_PARAMETERS⟩,
       r.2.graph.has_component ⟨object_id 0, eDepsNode_Type.DEPSNODE_TYPE_PARAMETERS⟩,
       r.2.graph.has_component ⟨object_id 0, eDepsNode_Type.DEPSNODE_TYPE_OP_PARAMETER⟩,
       r.2.graph.has_component (transform_ptr 0)))
    (b := (true, false, true, true)) (by decide)
  simp only [Prod.mk.injEq] at hf
  exact ⟨r.1, r.2, hr, hf.1, hf.2.1, hf.2.2.1, hf.2.2.2⟩

/-- C11 (evaluation at the failing input): for a scene with a rigidbody world
and nothing else, the lookup of the scene node's Transform component comes back
empty (the node has no component at all) and the pass ends in the defect of
`add_operation_node` on a NULL component: no operation is attached. -/
theorem C11_rigidbody_scene_transform_missing :
    (add_time_source (add_id_node Depsgraph.empty (scene_id 0)).2 (scene_id 0)).find_component_ptr
        (scene_id 0) eDepsNode_Type.DEPSNODE_TYPE_TRANSFORM = none
      ∧ build_scene 1 ex_rigidbody_main ⟨Depsgraph.empty, Tags.clear⟩ 0
          = Except.error BuildError.defect :=
  ⟨by decide, eq_error_of_failure (by decide)⟩

theorem has_component_build_animdata_of_ne {bmain : Main} {g : Depsgraph} {id : IDPtr}
    {g' : Depsgraph} (h : build_animdata bmain g id = Except.ok g') {c : ComponentPtr}
    (hc : c ≠ animation_ptr id) : g'.has_component c = g.has_component c := by
  obtain ⟨g2, h2, _, _, _, hcomp⟩ := build_animdata_spec bmain g id
  rw [h2] at h
  simp only [Except.ok.injEq] at h
  subst h
  unfold Depsgraph.has_component
  rw [hcomp c, if_neg]
  intro e
  exact hc e.1

/-- The routine `build_rigidbody` creates no component. -/
theorem build_rigidbody_has_component {bmain : Main} {g : Depsgraph} {scene_node : IDPtr}
    {scene : Nat} {g' : Depsgraph}
    (h : build_rigidbody bmain g scene_node scene = Except.ok g') :
    ∀ c, g'.has_component c = g.has_component c := by
  unfold build_rigidbody at h
  cases hrbw : (bmain.scenes scene).rigidbody_world with
  | none => simp [hrbw] at h
  | some rbw =>
    simp only [hrbw] at h
    obtain ⟨r1, h1, h⟩ := except_bind_eq_ok.1 h
    obtain ⟨p1, g1⟩ := r1
    obtain ⟨r2, h2, h⟩ := except_bind_eq_ok.1 h
    obtain ⟨p2, g2⟩ := r2
    have e1 := (add_operation_node_appends h1).1
    have e2 := (add_operation_node_appends h2).1
    have e3 : ∀ c, g'.has_component c = g2.has_component c := by
      cases hgr : rbw.group with
      | none =>
        simp only [hgr, except_pure, Except.ok.injEq] at h
        subst h; exact fun _ => rfl
      | some group =>
        simp only [hgr] at h
        refine foldlM_rel (fun a b : Depsgraph => ∀ c, b.has_component c = a.has_component c)
          (fun _ _ => rfl) (fun a b c h1 h2 x => (h2 x).trans (h1 x)) _ _ ?_ _ _ h
        intro s go s' _ hs
        cases hob : go.ob with
        | none =>
          simp only [hob, except_pure, Except.ok.injEq] at hs
          subst hs; exact fun _ => rfl
        | some ob =>
          simp only [hob] at hs
          by_cases hty : (bmain.objects ob).type ≠ OB_MESH
          · rw [if_pos hty] at hs
            simp only [except_pure, Except.ok.injEq] at hs
            subst hs; exact fun _ => rfl
          · rw [if_neg hty] at hs
            cases hfn : s.find_id_node (object_id ob) with
            | none => simp [hfn] at hs
            | some n =>
              simp only [hfn] at hs
              obtain ⟨r, hr1, hr2⟩ := except_bind_eq_ok.1 hs
              obtain ⟨q, gq⟩ := r
              simp only [except_pure, Except.ok.injEq] at hr2
              subst hr2
              exact (add_operation_node_appends hr1).1
    intro c
    rw [e3 c, e2 c, e1 c]

theorem scene_transform_absent_base {bmain : Main} {st : BuilderState} {base : Base}
    {st' : BuilderState} (h : build_scene_base bmain st base = Except.ok st')
    (ha : scene_transform_absent st.graph) : scene_transform_absent st'.graph := by
  have hobj : ∀ (g : Depsgraph) (ob : Nat) (p : IDPtr) (g' : Depsgraph),
      build_object bmain g ob = Except.ok (p, g') → scene_transform_absent g →
      scene_transform_absent g' := by
    intro g ob p g' hb hg scene
    obtain ⟨g2, h2, _, _, hh, _⟩ := build_object_effect bmain g ob
    rw [h2] at hb
    simp only [Except.ok.injEq, Prod.mk.injEq] at hb
    obtain ⟨_, e⟩ := hb
    subst e
    rw [hh, hg scene]
    simp [object_params_ptr, transform_ptr, animation_ptr, scene_id, object_id]
  obtain ⟨p1, g1, h1, h2⟩ := build_scene_base_graph h
  have a1 := hobj _ _ _ _ h1 ha
  cases hp : (bmain.objects base.object).proxy with
  | none =>
    simp only [hp] at h2
    rw [h2]; exact a1
  | some proxy =>
    simp only [hp] at h2
    obtain ⟨p2, h3⟩ := h2
    exact hobj _ _ _ _ h3 a1

theorem scene_transform_absent_entity {bmain : Main} {g : Depsgraph} {id : IDPtr}
    {g' : Depsgraph} (h : build_animdata bmain (add_id_node g id).2 id = Except.ok g')
    (ha : scene_transform_absent g) : scene_transform_absent g' := by
  intro scene
  rw [has_component_build_animdata_of_ne h (by simp [animation_ptr]),
    has_component_add_id_node]
  exact ha scene

theorem scene_transform_absent_head {g : Depsgraph} (scene : Nat)
    (ha : scene_transform_absent g) :
    scene_transform_absent (add_time_source (add_id_node g (scene_id scene)).2
      (scene_id scene)) := by
  intro s
  unfold Depsgraph.has_component
  rw [component_add_time_source, component_add_id_node]
  exact ha s

/-- No routine of the pass creates a Transform component under a scene node. -/
theorem scene_transform_absent_build_scene {bmain : Main} {fuel : Nat} {st : BuilderState}
    {scene : Nat} {p : IDPtr} {st' : BuilderState}
    (h : build_scene fuel bmain st scene = Except.ok (p, st'))
    (ha : scene_transform_absent st.graph) : scene_transform_absent st'.graph := by
  refine build_scene_rel bmain
    (fun a b => scene_transform_absent a.graph → scene_transform_absent b.graph)
    (fun _ h => h) (fun a b c h1 h2 h => h2 (h1 h)) ?_ ?_ ?_ ?_ ?_ ?_ ?_ ?_
    fuel st scene p st' h ha
  · intro st nt g' hg hab
    exact scene_transform_absent_entity hg hab
  · intro st id g1 st2 _ _ hg hr hab
    exact hr (scene_transform_absent_entity hg hab)
  · intro st scene hab s
    unfold Depsgraph.has_component
    rw [component_add_component_node, if_neg (by simp)]
    exact hab s
  · intro st scene hab
    exact scene_transform_absent_head scene hab
  · intro st base st' hb hab
    exact scene_transform_absent_base hb hab
  · intro st group hab
    rw [build_scene_group_graph]
    exact hab
  · intro st scene g hg hab s
    rw [build_rigidbody_has_component hg]
    exact hab s
  · intro st scene g hg hab s
    rw [has_component_build_animdata_of_ne hg (by simp [animation_ptr])]
    exact hab s

/-- For every scene with a rigidbody world: on a graph in which no scene node has
a Transform component (such as the empty graph) `build_scene` never returns a
state, because the lookup of the scene's Transform component in
`build_rigidbody` comes back empty. -/
theorem build_scene_rigidbody_defect (bmain : Main) (fuel : Nat) (st : BuilderState)
    (scene : Nat) (ha : scene_transform_absent st.graph)
    (hrbw : (bmain.scenes scene).rigidbody_world.isSome = true) :
    ∀ r, build_scene fuel bmain st scene ≠ Except.ok r := by
  intro r h
  obtain ⟨p, st'⟩ := r
  cases fuel with
  | zero => simp [build_scene] at h
  | succ n =>
    obtain ⟨_, s1, s2, s4, s5, s6, h1, h2, h4, _, _, _⟩ := build_scene_inv h
    have a0 := scene_transform_absent_head scene ha
    have a1 : scene_transform_absent s1.graph := by
      cases hs : (bmain.scenes scene).set with
      | none =>
        simp only [hs] at h1
        rw [h1]; exact a0
      | some set =>
        simp only [hs] at h1
        obtain ⟨q, hq⟩ := h1
        exact scene_transform_absent_build_scene hq a0
    have a2 : scene_transform_absent s2.graph :=
      foldlM_rel (fun a b : BuilderState =>
          scene_transform_absent a.graph → scene_transform_absent b.graph)
        (fun _ h => h) (fun a b c h1 h2 h => h2 (h1 h)) _ _
        (fun s b s' _ hs => scene_transform_absent_base hs) _ _ h2 a1
    cases hr : (bmain.scenes scene).rigidbody_world with
    | none => simp [hr] at hrbw
    | some rbw =>
      simp only [hr] at h4
      obtain ⟨g, hg, _⟩ := h4
      rw [build_scene_group_fold_graph] at hg
      unfold build_rigidbody at hg
      have hnone := find_component_ptr_of_not_has_component (a2 scene)
      simp [hr, hnone, add_operation_node] at hg

/-! ## The participant loop of the rigidbody stage -/

theorem sync_count_cons (bmain : Main) (go : GroupObject) (gos : List GroupObject)
    (c : ComponentPtr) :
    sync_count bmain (go :: gos) c
      = (match rigidbody_participant bmain go with
          | some ob => if transform_ptr ob = c then 1 else 0
          | none => 0) + sync_count bmain gos c := by
  unfold sync_count
  cases hp : rigidbody_participant bmain go with
  | none => simp [List.filterMap_cons, hp]
  | some ob =>
    by_cases e : transform_ptr ob = c
    · simp [List.filterMap_cons, hp, e, List.filter_cons]
      omega
    · simp [List.filterMap_cons, hp, e, List.filter_cons]

/-- Effect of the participant loop of `build_rigidbody` when every participant
has its node and Transform component. -/
theorem rigidbody_loop_effect (bmain : Main) (gos : List GroupObject) :
    ∀ g : Depsgraph,
      (∀ ob ∈ gos.filterMap (rigidbody_participant bmain),
        object_id ob ∈ g.keys ∧ g.has_component (transform_ptr ob) = true) →
      ∃ g', gos.foldlM (fun graph go =>
          match go.ob with
          | none => pure graph
          | some ob =>
            if (bmain.objects ob).type ≠ OB_MESH then pure graph
            else
              match graph.find_id_node (object_id ob) with
              | none => Except.error BuildError.defect
              | some _ => do
                let tcomp := graph.find_component_ptr (object_id ob)
                  eDepsNode_Type.DEPSNODE_TYPE_TRANSFORM
                let (_, graph) ← add_operation_node graph tcomp
                  eDepsNode_Type.DEPSNODE_TYPE_OP_TRANSFORM eDepsOperation_Type.DEPSOP_TYPE_EXEC
                  DepsEvalOperationCb.BKE_rigidbody_object_sync_transforms
                  DegOpName.deg_op_name_rigidbody_object_sync PointerRNA.PointerRNA_NULL
                pure graph) g = Except.ok g'
        ∧ g'.keys = g.keys
        ∧ (∀ c, g'.has_component c = g.has_component c)
        ∧ ∀ c, g'.operations c
            = g.operations c ++ List.replicate (sync_count bmain gos c) rigidbody_sync_operation := by
  induction gos with
  | nil =>
    intro g _
    exact ⟨g, rfl, rfl, fun _ => rfl, fun c => by simp [sync_count]⟩
  | cons go rest ih =>
    intro g hb
    rw [List.foldlM_cons]
    cases hob : go.ob with
    | none =>
      have hp : rigidbody_participant bmain go = none := by
        simp [rigidbody_participant, hob]
      have hb' : ∀ ob ∈ rest.filterMap (rigidbody_participant bmain),
          object_id ob ∈ g.keys ∧ g.has_component (transform_ptr ob) = true := by
        intro ob hm
        exact hb ob (by simp only [List.filterMap_cons, hp]; exact hm)
      obtain ⟨g', h1, hk, hh, ho⟩ := ih g hb'
      refine ⟨g', by simpa using h1, hk, hh, fun c => ?_⟩
      rw [ho c, sync_count_cons, hp]
      simp
    | some ob =>
      by_cases hty : (bmain.objects ob).type ≠ OB_MESH
      · have hp : rigidbody_participant bmain go = none := by
          simp [rigidbody_participant, hob, hty]
        have hb' : ∀ ob ∈ rest.filterMap (rigidbody_participant bmain),
            object_id ob ∈ g.keys ∧ g.has_component (transform_ptr ob) = true := by
          intro ob hm
          exact hb ob (by simp only [List.filterMap_cons, hp]; exact hm)
        obtain ⟨g', h1, hk, hh, ho⟩ := ih g hb'
        refine ⟨g', ?_, hk, hh, fun c => ?_⟩
        · simp only [if_pos hty, except_pure, except_bind_ok]
          exact h1
        · rw [ho c, sync_count_cons, hp]
          simp
      · have hmesh : (bmain.objects ob).type = OB_MESH := by
          by_contra hne; exact hty hne
        have hp : rigidbody_participant bmain go = some ob := by
          simp [rigidbody_participant, hob, hmesh]
        have hbo := hb ob (by simp only [List.filterMap_cons, hp]; exact List.mem_cons_self _ _)
        have hnode := (find_id_node_isSome_iff g (object_id ob)).2 hbo.1
        obtain ⟨q, g1, e1, hk1, _, hh1, ho1⟩ := add_operation_node_effect g (transform_ptr ob)
          eDepsNode_Type.DEPSNODE_TYPE_OP_TRANSFORM eDepsOperation_Type.DEPSOP_TYPE_EXEC
          DepsEvalOperationCb.BKE_rigidbody_object_sync_transforms
          DegOpName.deg_op_name_rigidbody_object_sync PointerRNA.PointerRNA_NULL hbo.2
        have hb' : ∀ ob' ∈ rest.filterMap (rigidbody_participant bmain),
            object_id ob' ∈ g1.keys ∧ g1.has_component (transform_ptr ob') = true := by
          intro ob' hm
          have := hb ob' (by
            simp only [List.filterMap_cons, hp]; exact List.mem_cons_of_mem _ hm)
          rw [hk1, hh1]
          exact this
        obtain ⟨g', h1, hk, hh, ho⟩ := ih g1 hb'
        refine ⟨g', ?_, hk.trans hk1, fun c => (hh c).trans (hh1 c), fun c => ?_⟩
        · cases hfn : g.find_id_node (object_id ob) with
          | none => simp [hfn] at hnode
          | some n =>
            have hptr : g.find_component_ptr (object_id ob)
                eDepsNode_Type.DEPSNODE_TYPE_TRANSFORM = some (transform_ptr ob) :=
              find_component_ptr_of_has_component hbo.2
            simp only [if_neg hty, hfn, hptr, e1, except_bind_ok, except_pure]
            exact h1
        · rw [ho c, ho1 c, sync_count_cons, hp]
          simp only
          by_cases e : c = transform_ptr ob
          · have e' : transform_ptr ob = c := e.symm
            rw [if_pos e, if_pos e', Nat.add_comm, List.replicate_succ, List.append_assoc]
            rfl
          · have e' : ¬ transform_ptr ob = c := fun x => e x.symm
            rw [if_neg e, if_neg e']
            simp

/-- What `build_rigidbody` does once the scene node has a Transform component:
if that component exists and every mesh participant of the rigidbody group has
a node with a Transform component, `build_rigidbody` returns a graph with the same nodes and components in which every component's
operations are the old ones, followed by the rebuild and simulate operations in
the scene's Transform component, followed by one sync-transform-result exec
operation per mesh participant entry whose Transform component it is. Null
entries and non-mesh objects are no participants and add nothing. -/
theorem build_rigidbody_sync_operations (bmain : Main) (g : Depsgraph) (scene_node : IDPtr)
    (scene : Nat) (rbw : RigidBodyWorld) (group : Nat)
    (hrbw : (bmain.scenes scene).rigidbody_world = some rbw)
    (hgroup : rbw.group = some group)
    (hscene : g.has_component ⟨scene_node, eDepsNode_Type.DEPSNODE_TYPE_TRANSFORM⟩ = true)
    (hbuilt : ∀ ob ∈ rigidbody_participants bmain group,
      object_id ob ∈ g.keys ∧ g.has_component (transform_ptr ob) = true) :
    ∃ g', build_rigidbody bmain g scene_node scene = Except.ok g'
      ∧ g'.keys = g.keys
      ∧ (∀ c, g'.has_component c = g.has_component c)
      ∧ ∀ c, g'.operations c
          = g.operations c
            ++ (if c = ⟨scene_node, eDepsNode_Type.DEPSNODE_TYPE_TRANSFORM⟩
                then [rigidbody_rebuild_operation, rigidbody_simulate_operation] else [])
            ++ List.replicate (sync_count bmain (bmain.groups group).gobject c)
                rigidbody_sync_operation := by
  have hptr := find_component_ptr_of_has_component hscene
  obtain ⟨p1, g1, e1, hk1, _, hh1, ho1⟩ := add_operation_node_effect g
    ⟨scene_node, eDepsNode_Type.DEPSNODE_TYPE_TRANSFORM⟩
    eDepsNode_Type.DEPSNODE_TYPE_OP_RIGIDBODY eDepsOperation_Type.DEPSOP_TYPE_REBUILD
    DepsEvalOperationCb.BKE_rigidbody_rebuild_sim
    DegOpName.deg_op_name_rigidbody_world_rebuild PointerRNA.PointerRNA_NULL hscene
  obtain ⟨p2, g2, e2, hk2, _, hh2, ho2⟩ := add_operation_node_effect g1
    ⟨scene_node, eDepsNode_Type.DEPSNODE_TYPE_TRANSFORM⟩
    eDepsNode_Type.DEPSNODE_TYPE_OP_RIGIDBODY eDepsOperation_Type.DEPSOP_TYPE_SIM
    DepsEvalOperationCb.BKE_rigidbody_eval_simulation
    DegOpName.deg_op_name_rigidbody_world_simulate PointerRNA.PointerRNA_NULL
    ((hh1 _).trans hscene)
  have hb2 : ∀ ob ∈ (bmain.groups group).gobject.filterMap (rigidbody_participant bmain),
      object_id ob ∈ g2.keys ∧ g2.has_component (transform_ptr ob) = true := by
    intro ob hm
    rw [hk2, hk1, hh2, hh1]
    exact hbuilt ob hm
  obtain ⟨g', h3, hk3, hh3, ho3⟩ := rigidbody_loop_effect bmain _ g2 hb2
  refine ⟨g', ?_, hk3.trans (hk2.trans hk1),
    fun c => (hh3 c).trans ((hh2 c).trans (hh1 c)), fun c => ?_⟩
  · unfold build_rigidbody
    simp only [hrbw, hptr, e1, e2, hgroup, except_bind_ok]
    exact h3
  · rw [ho3 c, ho2 c, ho1 c]
    by_cases e : c = ⟨scene_node, eDepsNode_Type.DEPSNODE_TYPE_TRANSFORM⟩
    · simp only [if_pos e, List.append_assoc]
      rfl
    · simp only [if_neg e, List.append_nil]

/-- C13 (evaluation at the failing input): scene 0 lists the mesh object 0,
which is also the mesh participant of its rigidbody group. In the state in
which `build_scene` calls `build_rigidbody` the participant has its node and
its Transform component, but the scene node has no Transform component, so
`build_rigidbody` stops at the defect of `add_operation_node` on a NULL
component before it reaches the participant loop, and so does the pass: no sync
operation is appended. -/
theorem C13_sync_operations_not_reached :
    ∃ s3, rigidbody_entry ex_rigidbody_group_main 0 ⟨Depsgraph.empty, Tags.clear⟩ 0 s3
      ∧ rigidbody_participants ex_rigidbody_group_main 0 = [0, 0]
      ∧ object_id 0 ∈ s3.graph.keys
      ∧ s3.graph.has_component (transform_ptr 0) = true
      ∧ s3.graph.has_component ⟨scene_id 0, eDepsNode_Type.DEPSNODE_TYPE_TRANSFORM⟩ = false
      ∧ build_rigidbody ex_rigidbody_group_main s3.graph (scene_id 0) 0
          = Except.error BuildError.defect
      ∧ build_scene 1 ex_rigidbody_group_main ⟨Depsgraph.empty, Tags.clear⟩ 0
          = Except.error BuildError.defect := by
  obtain ⟨s2, h2, hf⟩ := except_ok_of_map
    (x := (ex_rigidbody_group_main.scenes 0).base.foldlM
      (build_scene_base ex_rigidbody_group_main)
      ⟨add_time_source (add_id_node Depsgraph.empty (scene_id 0)).2 (scene_id 0), Tags.clear⟩)
    (f := fun s2 =>
      (decide (object_id 0
          ∈ (ex_rigidbody_group_main.group.foldl build_scene_group s2).graph.keys),
       (ex_rigidbody_group_main.group.foldl build_scene_group s2).graph.has_component
        (transform_ptr 0),
       (ex_rigidbody_group_main.group.foldl build_scene_group s2).graph.has_component
        ⟨scene_id 0, eDepsNode_Type.DEPSNODE_TYPE_TRANSFORM⟩,
       failure (build_rigidbody ex_rigidbody_group_main
        (ex_rigidbody_group_main.group.foldl build_scene_group s2).graph (scene_id 0) 0)))
    (b := (true, true, false, some BuildError.defect)) (by decide)
  simp only [Prod.mk.injEq, decide_eq_true_eq] at hf
  exact ⟨_, ⟨_, s2, rfl, h2, rfl⟩, by decide, hf.1, hf.2.1, hf.2.2.1,
    eq_error_of_failure hf.2.2.2, eq_error_of_failure (by decide)⟩

/-- Example: group 0 lists a null entry, the mesh object 0, the non-mesh
object 1 and object 0 again; the Transform component of object 0
receives two sync operations after its local-transform operation, and the
scene's Transform component receives the rebuild and simulate operations. -/
theorem build_rigidbody_sync_operations_example :
    ∃ g', build_rigidbody ex_rigidbody_group_main ex_rigidbody_ready_graph (scene_id 0) 0
          = Except.ok g'
      ∧ g'.operations (transform_ptr 0)
          = [local_transform_operation 0, rigidbody_sync_operation, rigidbody_sync_operation]
      ∧ g'.operations ⟨scene_id 0, eDepsNode_Type.DEPSNODE_TYPE_TRANSFORM⟩
          = [rigidbody_rebuild_operation, rigidbody_simulate_operation]
      ∧ g'.operations (transform_ptr 1) = [] := by
  obtain ⟨g', h, _, _, ho⟩ := build_rigidbody_sync_operations ex_rigidbody_group_main
    ex_rigidbody_ready_graph (scene_id 0) 0 ⟨some 0⟩ 0 rfl rfl (by decide) (by decide)
  refine ⟨g', h, ?_, ?_, ?_⟩
  · rw [ho]; decide
  · rw [ho]; decide
  · rw [ho]; decide

/-! ## Nodes created by the shading routines -/

/-- A loop establishes `Q a` for every element `a` it has processed when each
step establishes it for its own element, keeps what earlier steps established
and preserves the invariant `J`. -/
theorem foldlM_establish {ε σ α : Type} (J : σ → Prop) (Q : α → σ → Prop)
    (f : σ → α → Except ε σ) (l : List α)
    (hstep : ∀ s a s', a ∈ l → J s → f s a = Except.ok s' →
      J s' ∧ Q a s' ∧ ∀ b, Q b s → Q b s') :
    ∀ s s', J s → l.foldlM f s = Except.ok s' →
      J s' ∧ (∀ a ∈ l, Q a s') ∧ ∀ b, Q b s → Q b s' := by
  induction l with
  | nil =>
    intro s s' hJ h
    simp only [List.foldlM_nil, except_pure, Except.ok.injEq] at h
    subst h
    exact ⟨hJ, fun a ha => by simp at ha, fun _ h => h⟩
  | cons a l ih =>
    intro s s' hJ h
    simp only [List.foldlM_cons] at h
    obtain ⟨s1, h1, h2⟩ := except_bind_eq_ok.1 h
    obtain ⟨j1, q1, m1⟩ := hstep s a s1 (List.mem_cons_self _ _) hJ h1
    obtain ⟨j2, q2, m2⟩ :=
      ih (fun s a s' ha => hstep s a s' (List.mem_cons_of_mem _ ha)) s1 s' j1 h2
    refine ⟨j2, ?_, fun b hb => m2 b (m1 b hb)⟩
    intro b hb
    rcases List.mem_cons.1 hb with e | hb'
    · subst e; exact m2 _ q1
    · exact q2 b hb'

/-- Stages of a `build_nodetree` call on a node-tree: the tree's own node and
animation data, then the loop over the child nodes, each step of which is one of
the five branches of the loop body. -/
theorem build_nodetree_inv {bmain : Main} {fuel : Nat} {st : BuilderState} {owner : DepsNodePtr}
    {nt : Nat} {st' : BuilderState}
    (h : build_nodetree fuel bmain st owner (some nt) = Except.ok st') :
    ∃ n g1, fuel = n + 1
      ∧ build_animdata bmain (add_id_node st.graph (nodetree_id nt)).2 (nodetree_id nt)
          = Except.ok g1
      ∧ ∃ f : BuilderState → bNode → Except BuildError BuilderState,
        (bmain.nodetrees nt).nodes.foldlM f ⟨g1, st.tags⟩ = Except.ok st'
        ∧ ∀ s bnode s', f s bnode = Except.ok s' →
          (bnode.id = none ∧ s' = s)
          ∨ (∃ id, bnode.id = some id ∧ id.gs = ID_Type.ID_MA
              ∧ build_material n bmain s owner id.addr = Except.ok s')
          ∨ (∃ id tex, bnode.id = some id ∧ id.gs ≠ ID_Type.ID_MA ∧ bnode.type = ID_TE
              ∧ id.as_Tex = some tex ∧ build_texture n bmain s owner tex = Except.ok s')
          ∨ (∃ id nt', bnode.id = some id ∧ id.gs ≠ ID_Type.ID_MA ∧ bnode.type ≠ ID_TE
              ∧ bnode.type = NODE_GROUP ∧ id.as_bNodeTree = some nt'
              ∧ build_nodetree n bmain s owner (some nt') = Except.ok s')
          ∨ (∃ id, bnode.id = some id ∧ id.gs ≠ ID_Type.ID_MA ∧ bnode.type ≠ ID_TE
              ∧ bnode.type ≠ NODE_GROUP ∧ s' = s) := by
  cases fuel with
  | zero => simp [build_nodetree] at h
  | succ n =>
    simp only [build_nodetree] at h
    rw [add_id_node_eq] at h
    simp only at h
    obtain ⟨g1, h1, h2⟩ := except_bind_eq_ok.1 h
    refine ⟨n, g1, rfl, h1, _, h2, ?_⟩
    intro s bnode s' hs
    cases hid : bnode.id with
    | none =>
      simp only [hid, except_pure, Except.ok.injEq] at hs
      exact Or.inl ⟨rfl, hs.symm⟩
    | some id =>
      simp only [hid] at hs
      by_cases hma : id.gs = ID_Type.ID_MA
      · simp only [hma, if_true] at hs
        exact Or.inr (Or.inl ⟨id, rfl, hma, hs⟩)
      · simp only [hma, if_false] at hs
        by_cases hte : bnode.type = ID_TE
        · simp only [hte, if_true] at hs
          cases htex : id.as_Tex with
          | none => simp [htex] at hs
          | some tex =>
            simp only [htex] at hs
            exact Or.inr (Or.inr (Or.inl ⟨id, tex, rfl, hma, hte, htex, hs⟩))
        · simp only [hte, if_false] at hs
          by_cases hgr : bnode.type = NODE_GROUP
          · simp only [hgr, if_true] at hs
            cases hnt' : id.as_bNodeTree with
            | none => simp [hnt'] at hs
            | some nt' =>
              simp only [hnt'] at hs
              exact Or.inr (Or.inr (Or.inr (Or.inl ⟨id, nt', rfl, hma, hte, hgr, hnt', hs⟩)))
          · simp only [hgr, if_false, except_pure, Except.ok.injEq] at hs
            exact Or.inr (Or.inr (Or.inr (Or.inr ⟨id, rfl, hma, hte, hgr, hs.symm⟩)))

/-- Stages of a `build_material` call on an untagged material. -/
theorem build_material_inv {bmain : Main} {fuel : Nat} {st : BuilderState} {owner : DepsNodePtr}
    {ma : Nat} {st' : BuilderState} (hun : st.tags (material_id ma) = false)
    (h : build_material fuel bmain st owner ma = Except.ok st') :
    ∃ n g1 sa sb, fuel = n + 1
      ∧ build_animdata bmain (add_id_node st.graph (material_id ma)).2 (material_id ma)
          = Except.ok g1
      ∧ build_texture_stack n bmain ⟨g1, id_tag_set st.tags (material_id ma)⟩ owner
          (bmain.materials ma).mtex = Except.ok sa
      ∧ build_nodetree n bmain sa owner (bmain.materials ma).nodetree = Except.ok sb
      ∧ st' = ⟨sb.graph, id_tag_clear sb.tags (material_id ma)⟩ := by
  cases fuel with
  | zero => simp [build_material] at h
  | succ n =>
    simp only [build_material] at h
    have htag : ¬ id_is_tagged st.tags (material_id ma) = true := by
      simp [id_is_tagged, hun]
    simp only [htag] at h
    rw [add_id_node_eq] at h
    simp only [Bool.false_eq_true, if_false] at h
    obtain ⟨g1, h1, h2⟩ := except_bind_eq_ok.1 h
    obtain ⟨sa, h3, h4⟩ := except_bind_eq_ok.1 h2
    obtain ⟨sb, h5, h6⟩ := except_bind_eq_ok.1 h4
    simp only [except_pure, Except.ok.injEq] at h6
    exact ⟨n, g1, sa, sb, rfl, h1, h3, h5, h6.symm⟩

theorem build_rec_keys (bmain : Main) (fuel : Nat) :
    (∀ st owner nt st', build_nodetree fuel bmain st owner nt = Except.ok st'
        → ∀ id, id ∈ st.graph.keys → id ∈ st'.graph.keys)
      ∧ (∀ st owner ma st', build_material fuel bmain st owner ma = Except.ok st'
        → ∀ id, id ∈ st.graph.keys → id ∈ st'.graph.keys)
      ∧ (∀ st owner ts st', build_texture_stack fuel bmain st owner ts = Except.ok st'
        → ∀ id, id ∈ st.graph.keys → id ∈ st'.graph.keys)
      ∧ (∀ st owner tex st', build_texture fuel bmain st owner tex = Except.ok st'
        → ∀ id, id ∈ st.graph.keys → id ∈ st'.graph.keys) := by
  obtain ⟨h1, h2, h3, h4⟩ := nodeCompMono_graphRel.rel_build_rec bmain fuel
  exact ⟨fun a b c d h => (h1 a b c d h).1, fun a b c d h => (h2 a b c d h).1,
    fun a b c d h => (h3 a b c d h).1, fun a b c d h => (h4 a b c d h).1⟩

theorem mem_keys_entity_step {bmain : Main} {g : Depsgraph} {id : IDPtr} {g1 : Depsgraph}
    (h : build_animdata bmain (add_id_node g id).2 id = Except.ok g1) :
    id ∈ g1.keys ∧ ∀ x, x ∈ g.keys → x ∈ g1.keys := by
  obtain ⟨g2, h2, hk, _⟩ := build_animdata_spec bmain (add_id_node g id).2 id
  rw [h2] at h
  simp only [Except.ok.injEq] at h
  subst h
  rw [hk]
  exact ⟨mem_keys_add_id_node g id, fun x hx => (nodeCompMono_graphRel.add_id g id).1 x hx⟩

/-- A `build_nodetree` call that returns has created the node of the tree. -/
theorem build_nodetree_adds_node {bmain : Main} {fuel : Nat} {st : BuilderState}
    {owner : DepsNodePtr} {nt : Nat} {st' : BuilderState}
    (h : build_nodetree fuel bmain st owner (some nt) = Except.ok st') :
    nodetree_id nt ∈ st'.graph.keys := by
  obtain ⟨n, g1, _, h1, f, h2, hf⟩ := build_nodetree_inv h
  obtain ⟨knt, kma, _, kte⟩ := build_rec_keys bmain n
  refine foldlM_rel (fun a b : BuilderState => ∀ id, id ∈ a.graph.keys → id ∈ b.graph.keys)
    (fun _ _ h => h) (fun a b c h1 h2 id h => h2 id (h1 id h)) f _ ?_ _ _ h2 _
    (mem_keys_entity_step h1).1
  intro s bnode s' _ hs
  rcases hf s bnode s' hs with ⟨_, e⟩ | ⟨id, _, _, e⟩ | ⟨id, tex, _, _, _, _, e⟩
    | ⟨id, nt', _, _, _, _, _, e⟩ | ⟨id, _, _, _, _, e⟩
  · subst e; exact fun _ h => h
  · exact kma _ _ _ _ e
  · exact kte _ _ _ _ e
  · exact knt _ _ _ _ e
  · subst e; exact fun _ h => h

/-- A `build_material` call on an untagged material that returns has created
the node of the material. -/
theorem build_material_adds_node {bmain : Main} {fuel : Nat} {st : BuilderState}
    {owner : DepsNodePtr} {ma : Nat} {st' : BuilderState}
    (hun : st.tags (material_id ma) = false)
    (h : build_material fuel bmain st owner ma = Except.ok st') :
    material_id ma ∈ st'.graph.keys := by
  obtain ⟨n, g1, sa, sb, _, h1, h3, h5, e⟩ := build_material_inv hun h
  obtain ⟨knt, _, kts, _⟩ := build_rec_keys bmain n
  subst e
  exact knt _ _ _ _ h5 _ (kts _ _ _ _ h3 _ (mem_keys_entity_step h1).1)

/-- A `build_texture` call on an untagged texture that returns has created the
node of the texture. -/
theorem build_texture_adds_node {bmain : Main} {fuel : Nat} {st : BuilderState}
    {owner : DepsNodePtr} {tex : Nat} {st' : BuilderState}
    (hun : st.tags (texture_id tex) = false)
    (h : build_texture fuel bmain st owner tex = Except.ok st') :
    texture_id tex ∈ st'.graph.keys := by
  cases fuel with
  | zero => simp [build_texture] at h
  | succ n =>
    simp only [build_texture] at h
    have htag : ¬ id_is_tagged st.tags (texture_id tex) = true := by
      simp [id_is_tagged, hun]
    simp only [htag] at h
    rw [add_id_node_eq] at h
    simp only [Bool.false_eq_true, if_false] at h
    obtain ⟨g1, h1, h2⟩ := except_bind_eq_ok.1 h
    obtain ⟨sb, h5, h6⟩ := except_bind_eq_ok.1 h2
    simp only [except_pure, Except.ok.injEq] at h6
    subst h6
    exact (build_rec_keys bmain n).1 _ _ _ _ h5 _ (mem_keys_entity_step h1).1

/-- C19 (as amended: materials are dispatched by the entity kind, nested
node-trees by the node type `NODE_GROUP`; textures are left out): when
`build_nodetree` returns from a state with all tags clear, the node-tree has a
node, every material referenced by a child node has a node, and every node-tree
referenced by a child node of group type has a node. -/
theorem C19_nodetree_dispatch (bmain : Main) (fuel : Nat) (st : BuilderState)
    (owner : DepsNodePtr) (nt : Nat) (st' : BuilderState)
    (hclear : ∀ id, st.tags id = false)
    (h : build_nodetree fuel bmain st owner (some nt) = Except.ok st') :
    nodetree_id nt ∈ st'.graph.keys
      ∧ ∀ bnode, bnode ∈ (bmain.nodetrees nt).nodes → ∀ id, bnode.id = some id →
          (id.gs = ID_Type.ID_MA → id ∈ st'.graph.keys)
          ∧ (id.gs = ID_Type.ID_NT → bnode.type = NODE_GROUP → id ∈ st'.graph.keys) := by
  refine ⟨build_nodetree_adds_node h, ?_⟩
  obtain ⟨n, g1, _, h1, f, h2, hf⟩ := build_nodetree_inv h
  obtain ⟨tnt, tma, _, tte⟩ := build_rec_tags bmain n
  obtain ⟨knt, kma, _, kte⟩ := build_rec_keys bmain n
  have key := foldlM_establish
    (fun s : BuilderState => ∀ id, s.tags id = false)
    (fun (bnode : bNode) (s : BuilderState) => ∀ id, bnode.id = some id →
      (id.gs = ID_Type.ID_MA → id ∈ s.graph.keys)
      ∧ (id.gs = ID_Type.ID_NT → bnode.type = NODE_GROUP → id ∈ s.graph.keys))
    f (bmain.nodetrees nt).nodes ?_ ⟨g1, st.tags⟩ st' hclear h2
  · exact key.2.1
  · intro s bnode s' _ hJ hs
    rcases hf s bnode s' hs with ⟨hnone, e⟩ | ⟨id, hid, hgs, e⟩ | ⟨id, tex, hid, hgs, hty, _, e⟩
      | ⟨id, nt', hid, hgs, _, _, hcast, e⟩ | ⟨id, hid, hgs, _, hty, e⟩
    · subst e
      refine ⟨hJ, ?_, fun _ h => h⟩
      intro id hid
      rw [hnone] at hid
      cases hid
    · have hk := kma _ _ _ _ e
      refine ⟨fun x => by rw [tma _ _ _ _ e]; exact hJ x, ?_,
        fun b hb x hx => ⟨fun a => hk _ ((hb x hx).1 a), fun a c => hk _ ((hb x hx).2 a c)⟩⟩
      intro id' hid'
      rw [hid] at hid'
      simp only [Option.some.injEq] at hid'
      subst hid'
      refine ⟨fun _ => ?_, fun a => ?_⟩
      · have hmem := build_material_adds_node (hJ _) e
        have eid : material_id id.addr = id := by
          cases id
          simp only at hgs
          subst hgs
          rfl
        rw [eid] at hmem
        exact hmem
      · rw [hgs] at a
        cases a
    · have hk := kte _ _ _ _ e
      refine ⟨fun x => by rw [tte _ _ _ _ e]; exact hJ x, ?_,
        fun b hb x hx => ⟨fun a => hk _ ((hb x hx).1 a), fun a c => hk _ ((hb x hx).2 a c)⟩⟩
      intro id' hid'
      rw [hid] at hid'
      simp only [Option.some.injEq] at hid'
      subst hid'
      refine ⟨fun a => absurd a hgs, fun _ c => ?_⟩
      rw [hty] at c
      exact absurd c (by decide)
    · have hk := knt _ _ _ _ e
      refine ⟨fun x => by rw [tnt _ _ _ _ e]; exact hJ x, ?_,
        fun b hb x hx => ⟨fun a => hk _ ((hb x hx).1 a), fun a c => hk _ ((hb x hx).2 a c)⟩⟩
      intro id' hid'
      rw [hid] at hid'
      simp only [Option.some.injEq] at hid'
      subst hid'
      refine ⟨fun a => absurd a hgs, fun _ _ => ?_⟩
      rw [as_bNodeTree_eq_some hcast]
      exact build_nodetree_adds_node e
    · subst e
      refine ⟨hJ, ?_, fun _ h => h⟩
      intro id' hid'
      rw [hid] at hid'
      simp only [Option.some.injEq] at hid'
      subst hid'
      exact ⟨fun a => absurd a hgs, fun _ c => absurd c hty⟩

/-- C19 as stated fails: node-tree 0 has a child node of ordinary type that
references texture 0 and another that references node-tree 2; after
`build_nodetree` from the empty graph with all tags clear neither has a node
(the material and the node-tree of the group node have). -/
theorem C19_counterexample :
    ∃ st', build_nodetree 3 ex_nodetree_refs_main ⟨Depsgraph.empty, Tags.clear⟩
          (DepsNodePtr.id_node (scene_id 0)) (some 0) = Except.ok st'
      ∧ (⟨some (texture_id 0), 0⟩ : bNode) ∈ (ex_nodetree_refs_main.nodetrees 0).nodes
      ∧ (⟨some (nodetree_id 2), 0⟩ : bNode) ∈ (ex_nodetree_refs_main.nodetrees 0).nodes
      ∧ st'.graph.keys = [nodetree_id 0, material_id 0, nodetree_id 1]
      ∧ texture_id 0 ∉ st'.graph.keys
      ∧ nodetree_id 2 ∉ st'.graph.keys := by
  obtain ⟨r, hr, hf⟩ := except_ok_of_map
    (x := build_nodetree 3 ex_nodetree_refs_main ⟨Depsgraph.empty, Tags.clear⟩
      (DepsNodePtr.id_node (scene_id 0)) (some 0))
    (f := fun r => r.graph.keys)
    (b := [nodetree_id 0, material_id 0, nodetree_id 1]) (by decide)
  refine ⟨r, hr, by decide, by decide, hf, ?_, ?_⟩
  · rw [hf]; decide
  · rw [hf]; decide

/-- Witness of C19 (as amended): on the same node-tree the material of the
first child node and the node-tree of the group node have nodes. -/
theorem C19_witness :
    ∃ st', build_nodetree 3 ex_nodetree_refs_main ⟨Depsgraph.empty, Tags.clear⟩
          (DepsNodePtr.id_node (scene_id 0)) (some 0) = Except.ok st'
      ∧ nodetree_id 0 ∈ st'.graph.keys
      ∧ material_id 0 ∈ st'.graph.keys
      ∧ nodetree_id 1 ∈ st'.graph.keys := by
  obtain ⟨st', h⟩ := except_ok_of_isSome
    (x := build_nodetree 3 ex_nodetree_refs_main ⟨Depsgraph.empty, Tags.clear⟩
      (DepsNodePtr.id_node (scene_id 0)) (some 0)) (by decide)
  have hc := C19_nodetree_dispatch ex_nodetree_refs_main 3 ⟨Depsgraph.empty, Tags.clear⟩
    (DepsNodePtr.id_node (scene_id 0)) 0 st' (fun _ => rfl) h
  exact ⟨st', h, hc.1,
    (hc.2 ⟨some (material_id 0), 0⟩ (by decide) (material_id 0) rfl).1 rfl,
    (hc.2 ⟨some (nodetree_id 1), NODE_GROUP⟩ (by decide) (nodetree_id 1) rfl).2 rfl rfl⟩

/-- C21 (as amended): `build_object` builds nothing for the object's data block.
It always returns; the only entity node it may add is the object's own, so the
data block has a node afterwards only if it had one before; and under every
node other than the object's the components and their operations are as before
(no animation data is built for the data block). -/
theorem C21_object_data_not_built (bmain : Main) (g : Depsgraph) (ob : Nat) :
    ∃ g', build_object bmain g ob = Except.ok (object_id ob, g')
      ∧ g'.keys = (if object_id ob ∈ g.keys then g.keys else g.keys ++ [object_id ob])
      ∧ (∀ d, (bmain.objects ob).data = some d → d ≠ object_id ob →
          (d ∈ g'.keys ↔ d ∈ g.keys))
      ∧ ∀ c : ComponentPtr, c.owner ≠ object_id ob →
          g'.has_component c = g.has_component c ∧ g'.operations c = g.operations c := by
  obtain ⟨g', h, hk, _, hh, ho⟩ := build_object_effect bmain g ob
  refine ⟨g', h, hk, ?_, ?_⟩
  · intro d _ hd
    rw [hk]
    by_cases hm : object_id ob ∈ g.keys
    · rw [if_pos hm]
    · rw [if_neg hm]
      simp [hd]
  · intro c hc
    have e1 : c ≠ object_params_ptr ob := fun e => hc (by rw [e]; rfl)
    have e2 : c ≠ transform_ptr ob := fun e => hc (by rw [e]; rfl)
    have e3 : c ≠ animation_ptr (object_id ob) := fun e => hc (by rw [e]; rfl)
    constructor
    · rw [hh]
      simp [e1, e2, e3]
    · rw [ho]
      simp [object_operations, animdata_operations, e2, e3]

/-- C21 as stated fails: object 0 is a mesh object with the mesh block 0 as its
data; after `build_object` on the empty graph the graph holds the object's node
only, and no node for the mesh block. -/
theorem C21_counterexample :
    (ex_mesh_object_main.objects 0).data = some ⟨ID_Type.ID_ME, 0⟩
      ∧ (ex_mesh_object_main.objects 0).type = OB_MESH
      ∧ ∃ g', build_object ex_mesh_object_main Depsgraph.empty 0 = Except.ok (object_id 0, g')
        ∧ g'.keys = [object_id 0]
        ∧ (⟨ID_Type.ID_ME, 0⟩ : IDPtr) ∉ g'.keys := by
  obtain ⟨r, hr, hf⟩ := except_ok_of_map
    (x := build_object ex_mesh_object_main Depsgraph.empty 0)
    (f := fun r => (r.1, r.2.keys))
    (b := (object_id 0, [object_id 0])) (by decide)
  simp only [Prod.mk.injEq] at hf
  obtain ⟨p, g'⟩ := r
  simp only at hf
  obtain ⟨hp, hk⟩ := hf
  subst hp
  refine ⟨rfl, rfl, g', hr, hk, ?_⟩
  rw [hk]; decide

/-- Witness of C21 (as amended) on the mesh object and the empty graph. -/
theorem C21_witness :
    ∃ g', build_object ex_mesh_object_main Depsgraph.empty 0 = Except.ok (object_id 0, g')
      ∧ ((⟨ID_Type.ID_ME, 0⟩ : IDPtr) ∈ g'.keys ↔ (⟨ID_Type.ID_ME, 0⟩ : IDPtr) ∈ Depsgraph.empty.keys)
      ∧ g'.has_component (animation_ptr ⟨ID_Type.ID_ME, 0⟩) = false := by
  obtain ⟨g', h, _, hd, hc⟩ := C21_object_data_not_built ex_mesh_object_main Depsgraph.empty 0
  refine ⟨g', h, hd ⟨ID_Type.ID_ME, 0⟩ rfl (by decide), ?_⟩
  rw [(hc (animation_ptr ⟨ID_Type.ID_ME, 0⟩) (by decide)).1]
  decide

/-- The stages of `build_scene` up to its compositor step satisfy every relation
that holds across the registry primitives. -/
theorem GraphRel.rel_compositor_entry {R : Depsgraph → Depsgraph → Prop} (hR : GraphRel R)
    {bmain : Main} {fuel : Nat} {st : BuilderState} {scene : Nat} {s6 : BuilderState}
    (h : compositor_entry bmain fuel st scene s6) :
    R (add_time_source (add_id_node st.graph (scene_id scene)).2 (scene_id scene)) s6.graph := by
  obtain ⟨s3, s4, s5, ⟨s1, s2, h1, h2, h3⟩, h4, h5, h6⟩ := h
  have r1 : R (add_time_source (add_id_node st.graph (scene_id scene)).2 (scene_id scene))
      s1.graph := by
    cases hs : (bmain.scenes scene).set with
    | none => simp only [hs] at h1; rw [h1]; exact hR.refl _
    | some set =>
      simp only [hs] at h1
      obtain ⟨q, hq⟩ := h1
      exact hR.rel_build_scene hq
  have r2 : R s1.graph s2.graph :=
    foldlM_rel (fun a b : BuilderState => R a.graph b.graph) (fun s => hR.refl _)
      (fun a b c => hR.trans _ _ _) _ _ (fun s b s' _ hs => hR.rel_build_scene_base hs) _ _ h2
  have r3 : R s2.graph s3.graph := by
    rw [h3, build_scene_group_fold_graph]; exact hR.refl _
  have r4 : R s3.graph s4.graph := by
    cases hrbw : (bmain.scenes scene).rigidbody_world with
    | none => simp only [hrbw] at h4; rw [h4]; exact hR.refl _
    | some rbw =>
      simp only [hrbw] at h4
      obtain ⟨g, hg, hs⟩ := h4
      rw [hs]
      exact hR.rel_build_rigidbody hg
  have r5 : R s4.graph s5.graph := by
    cases hadt : (bmain.scenes scene).adt with
    | none => simp only [hadt] at h5; rw [h5]; exact hR.refl _
    | some adt =>
      simp only [hadt] at h5
      obtain ⟨g, hg, hs⟩ := h5
      rw [hs]
      exact hR.rel_build_animdata hg
  have r6 : R s5.graph s6.graph := by
    cases hw : (bmain.scenes scene).world with
    | none => simp only [hw] at h6; rw [h6]; exact hR.refl _
    | some w =>
      simp only [hw] at h6
      exact hR.rel_build_world h6
  exact hR.trans _ _ _ r1 (hR.trans _ _ _ r2 (hR.trans _ _ _ r3
    (hR.trans _ _ _ r4 (hR.trans _ _ _ r5 r6))))

theorem compositor_entry_of_build_scene {fuel : Nat} {bmain : Main} {st : BuilderState}
    {scene : Nat} {p : IDPtr} {st' : BuilderState}
    (h : build_scene (fuel + 1) bmain st scene = Except.ok (p, st')) :
    ∃ s6, compositor_entry bmain fuel st scene s6
      ∧ (match (bmain.scenes scene).nodetree with
          | some _ => build_compositor fuel bmain s6 (scene_id scene) scene = Except.ok st'
          | none => st' = s6) := by
  obtain ⟨_, s1, s2, s4, s5, s6, h1, h2, h4, h5, h6, h7⟩ := build_scene_inv h
  exact ⟨s6, ⟨_, s4, s5, ⟨s1, s2, h1, h2, rfl⟩, h4, h5, h6⟩, h7⟩

/-- C22: when `build_scene` returns for a scene with a compositing node-tree,
the compositor step has created a component of kind `DEPSNODE_TYPE_PARAMETERS`
under the scene node and run `build_nodetree` on the node-tree with that
component as owner, so the node-tree has an entity node; for a scene without a
compositing node-tree the returned state is the state in which the compositor
step is reached: the step adds nothing. -/
theorem C22_compositor_parameters (fuel : Nat) (bmain : Main) (st : BuilderState)
    (scene : Nat) (p : IDPtr) (st' : BuilderState)
    (h : build_scene fuel bmain st scene = Except.ok (p, st')) :
    (∀ nt, (bmain.scenes scene).nodetree = some nt →
        st'.graph.has_component (scene_params_ptr scene) = true
        ∧ nodetree_id nt ∈ st'.graph.keys
        ∧ ∃ n s6, fuel = n + 2 ∧ compositor_entry bmain (n + 1) st scene s6
          ∧ build_nodetree n bmain
              ⟨(add_component_node s6.graph (scene_id scene)
                eDepsNode_Type.DEPSNODE_TYPE_PARAMETERS).2, s6.tags⟩
              (DepsNodePtr.component (scene_params_ptr scene)) (some nt) = Except.ok st')
      ∧ ((bmain.scenes scene).nodetree = none →
        ∃ n, fuel = n + 1 ∧ compositor_entry bmain n st scene st') := by
  cases fuel with
  | zero => simp [build_scene] at h
  | succ m =>
    obtain ⟨s6, he, h7⟩ := compositor_entry_of_build_scene h
    constructor
    · intro nt hnt
      simp only [hnt] at h7
      cases m with
      | zero => simp [build_compositor] at h7
      | succ n =>
        simp only [build_compositor, hnt] at h7
        have h7' : build_nodetree n bmain
            ⟨(add_component_node s6.graph (scene_id scene)
              eDepsNode_Type.DEPSNODE_TYPE_PARAMETERS).2, s6.tags⟩
            (DepsNodePtr.component (scene_params_ptr scene)) (some nt) = Except.ok st' := h7
        have hscene : scene_id scene ∈ s6.graph.keys := by
          refine (nodeCompMono_graphRel.rel_compositor_entry he).1 _ ?_
          rw [keys_add_time_source]
          exact mem_keys_add_id_node _ _
        have hmono := (nodeCompMono_graphRel.rel_build_rec bmain n).1 _ _ _ _ h7'
        refine ⟨hmono.2 _ ?_, build_nodetree_adds_node h7', n, s6, rfl, he, h7'⟩
        show (add_component_node s6.graph (scene_id scene)
          eDepsNode_Type.DEPSNODE_TYPE_PARAMETERS).2.has_component (scene_params_ptr scene) = true
        rw [has_component_add_component_node _ _ _ _ hscene]
        simp [scene_params_ptr]
    · intro hnt
      simp only [hnt] at h7
      subst h7
      exact ⟨m, rfl, he⟩

/-- Witness of C22: scene 0 of `ex_compositor_object_main` has the compositing
node-tree 0; after the pass the scene node has its Parameters component and the
node-tree has a node. -/
theorem C22_witness :
    ∃ p st', build_scene 3 ex_compositor_object_main ⟨Depsgraph.empty, Tags.clear⟩ 0
        = Except.ok (p, st')
      ∧ st'.graph.has_component (scene_params_ptr 0) = true
      ∧ nodetree_id 0 ∈ st'.graph.keys := by
  obtain ⟨r, hr⟩ := except_ok_of_isSome
    (x := build_scene 3 ex_compositor_object_main ⟨Depsgraph.empty, Tags.clear⟩ 0) (by decide)
  obtain ⟨p, st'⟩ := r
  have hc := (C22_compositor_parameters 3 ex_compositor_object_main
    ⟨Depsgraph.empty, Tags.clear⟩ 0 p st' hr).1 0 rfl
  exact ⟨p, st', hr, hc.1, hc.2.1⟩

/-! ## Shared resources: one node, one Animation component -/

/-- Stages of a `build_texture` call on an untagged texture. -/
theorem build_texture_inv {bmain : Main} {fuel : Nat} {st : BuilderState} {owner : DepsNodePtr}
    {tex : Nat} {st' : BuilderState} (hun : st.tags (texture_id tex) = false)
    (h : build_texture fuel bmain st owner tex = Except.ok st') :
    ∃ n g1 sb, fuel = n + 1
      ∧ build_animdata bmain (add_id_node st.graph (texture_id tex)).2 (texture_id tex)
          = Except.ok g1
      ∧ build_nodetree n bmain ⟨g1, id_tag_set st.tags (texture_id tex)⟩ owner
          (bmain.textures tex).nodetree = Except.ok sb
      ∧ st' = ⟨sb.graph, id_tag_clear sb.tags (texture_id tex)⟩ := by
  cases fuel with
  | zero => simp [build_texture] at h
  | succ n =>
    simp only [build_texture] at h
    have htag : ¬ id_is_tagged st.tags (texture_id tex) = true := by
      simp [id_is_tagged, hun]
    simp only [htag] at h
    rw [add_id_node_eq] at h
    simp only [Bool.false_eq_true, if_false] at h
    obtain ⟨g1, h1, h2⟩ := except_bind_eq_ok.1 h
    obtain ⟨sb, h5, h6⟩ := except_bind_eq_ok.1 h2
    simp only [except_pure, Except.ok.injEq] at h6
    exact ⟨n, g1, sb, rfl, h1, h5, h6.symm⟩

/-- The entity step of a guarded build creates the Animation component of a
block that has animation. -/
theorem has_component_entity_step {bmain : Main} {g : Depsgraph} {id : IDPtr} {g1 : Depsgraph}
    (h : build_animdata bmain (add_id_node g id).2 id = Except.ok g1)
    (ha : has_animation bmain id = true) : g1.has_component (animation_ptr id) = true := by
  obtain ⟨g2, e2, _, _, hh, _⟩ := build_animdata_effect bmain (add_id_node g id).2 id
    (mem_keys_add_id_node _ _)
  rw [e2] at h
  simp only [Except.ok.injEq] at h
  subst h
  rw [hh, ha]
  simp

/-- In a well-formed graph every node has at most one component of each kind. -/
theorem component_count_le_one {g : Depsgraph} (hwf : g.WF) :
    ∀ n ∈ g.id_nodes, ∀ K : eDepsNode_Type,
      (n.components.filter (fun k => decide (k.type = K))).length ≤ 1 := by
  intro n hn K
  have hc := List.nodup_iff_count_le_one.1 (hwf.2 n hn) K
  have : (n.components.filter (fun k => decide (k.type = K))).length
      = List.count K (n.components.map ComponentDepsNode.type) := by
    rw [List.count, List.countP_map, List.countP_eq_length_filter]
    congr 1
  rw [this]
  exact hc

/-- A valid component pointer points into a node of the graph that holds a
component of that kind. -/
theorem exists_node_of_has_component {g : Depsgraph} {c : ComponentPtr}
    (h : g.has_component c = true) :
    ∃ n ∈ g.id_nodes, n.id = c.owner
      ∧ 1 ≤ (n.components.filter (fun k => decide (k.type = c.type))).length := by
  unfold Depsgraph.has_component Depsgraph.component at h
  cases hn : g.find_id_node c.owner with
  | none => simp [hn] at h
  | some n =>
    simp only [hn, Option.some_bind] at h
    cases hk : n.find_component c.type with
    | none => simp [hk] at h
    | some k =>
      refine ⟨n, List.mem_of_find?_eq_some hn, find_id_node_id hn, ?_⟩
      have hmem : k ∈ n.components.filter (fun k => decide (k.type = c.type)) :=
        List.mem_filter.2 ⟨List.mem_of_find?_eq_some hk, by simp [find_component_type hk]⟩
      exact List.length_pos_of_mem hmem

/-- C4 (as amended): a shared texture or material gets exactly one entity node
and one Animation component, but it is built once per reference that reaches it
while its tag is clear, not once per pass. Every returning `build_texture`
(`build_material`) call on an untagged texture (material) appends one driver
operation per driver of the block, in driver order, to the block's Animation
component, whether or not the block was built before, and restores the tags;
the block has a node afterwards and, when it has animation, its Animation
component; the nodes that were there keep their place; and on a well-formed
graph (no entity with two nodes, no node with two components of a kind, such as
the empty graph) the result is well-formed: the block has exactly one node,
under every node there is at most one Animation component, and a block with
animation has exactly one. A whole `build_scene` pass keeps a graph well-formed
as well. -/
theorem C4_shared_resource_rebuilt (fuel : Nat) (bmain : Main) (st : BuilderState)
    (owner : DepsNodePtr) :
    (∀ tex st', st.tags (texture_id tex) = false →
        build_texture fuel bmain st owner tex = Except.ok st' →
        st'.graph.operations (animation_ptr (texture_id tex))
            = st.graph.operations (animation_ptr (texture_id tex))
              ++ (animdata_drivers bmain (texture_id tex)).map (driver_operation (texture_id tex))
          ∧ st'.tags = st.tags
          ∧ texture_id tex ∈ st'.graph.keys
          ∧ (has_animation bmain (texture_id tex) = true →
              st'.graph.has_component (animation_ptr (texture_id tex)) = true)
          ∧ st.graph.keys <+: st'.graph.keys
          ∧ (st.graph.WF →
              st'.graph.WF
              ∧ List.count (texture_id tex) st'.graph.keys = 1
              ∧ (∀ n ∈ st'.graph.id_nodes,
                  (n.components.filter (fun k =>
                    decide (k.type = eDepsNode_Type.DEPSNODE_TYPE_ANIMATION))).length ≤ 1)
              ∧ (has_animation bmain (texture_id tex) = true →
                  ∃ n ∈ st'.graph.id_nodes, n.id = texture_id tex
                    ∧ (n.components.filter (fun k =>
                      decide (k.type = eDepsNode_Type.DEPSNODE_TYPE_ANIMATION))).length = 1)))
      ∧ (∀ ma st', st.tags (material_id ma) = false →
        build_material fuel bmain st owner ma = Except.ok st' →
        st'.graph.operations (animation_ptr (material_id ma))
            = st.graph.operations (animation_ptr (material_id ma))
              ++ (animdata_drivers bmain (material_id ma)).map (driver_operation (material_id ma))
          ∧ st'.tags = st.tags
          ∧ material_id ma ∈ st'.graph.keys
          ∧ (has_animation bmain (material_id ma) = true →
              st'.graph.has_component (animation_ptr (material_id ma)) = true)
          ∧ st.graph.keys <+: st'.graph.keys
          ∧ (st.graph.WF →
              st'.graph.WF
              ∧ List.count (material_id ma) st'.graph.keys = 1
              ∧ (∀ n ∈ st'.graph.id_nodes,
                  (n.components.filter (fun k =>
                    decide (k.type = eDepsNode_Type.DEPSNODE_TYPE_ANIMATION))).length ≤ 1)
              ∧ (has_animation bmain (material_id ma) = true →
                  ∃ n ∈ st'.graph.id_nodes, n.id = material_id ma
                    ∧ (n.components.filter (fun k =>
                      decide (k.type = eDepsNode_Type.DEPSNODE_TYPE_ANIMATION))).length = 1)))
      ∧ (∀ scene p st', st.graph.WF →
        build_scene fuel bmain st scene = Except.ok (p, st') →
        st'.graph.WF
          ∧ (∀ id, List.count id st'.graph.keys ≤ 1)
          ∧ ∀ n ∈ st'.graph.id_nodes,
              (n.components.filter (fun k =>
                decide (k.type = eDepsNode_Type.DEPSNODE_TYPE_ANIMATION))).length ≤ 1) := by
  have hops := shared_resource_rebuilt_operations fuel bmain st owner
  refine ⟨?_, ?_, ?_⟩
  · intro tex st' htag h
    have hmem := build_texture_adds_node htag h
    obtain ⟨_, _, _, mte⟩ := nodeCompMono_graphRel.rel_build_rec bmain fuel
    have hcomp : has_animation bmain (texture_id tex) = true →
        st'.graph.has_component (animation_ptr (texture_id tex)) = true := by
      intro ha
      obtain ⟨n, g1, sb, _, h1, h5, e⟩ := build_texture_inv htag h
      subst e
      exact ((nodeCompMono_graphRel.rel_build_rec bmain n).1 _ _ _ _ h5).2 _
        (has_component_entity_step h1 ha)
    refine ⟨(hops.1 tex st' htag h).1, (hops.1 tex st' htag h).2, hmem, hcomp,
      ((keysExt_graphRel.rel_build_rec bmain fuel).2.2.2 _ _ _ _ h).1, ?_⟩
    intro hwf
    have hwf' := (wf_graphRel.rel_build_rec bmain fuel).2.2.2 _ _ _ _ h hwf
    refine ⟨hwf', List.count_eq_one_of_mem hwf'.1 hmem,
      fun n hn => component_count_le_one hwf' n hn _, fun ha => ?_⟩
    obtain ⟨n, hn, hid, hge⟩ := exists_node_of_has_component (hcomp ha)
    exact ⟨n, hn, hid, Nat.le_antisymm (component_count_le_one hwf' n hn _) hge⟩
  · intro ma st' htag h
    have hmem := build_material_adds_node htag h
    have hcomp : has_animation bmain (material_id ma) = true →
        st'.graph.has_component (animation_ptr (material_id ma)) = true := by
      intro ha
      obtain ⟨n, g1, sa, sb, _, h1, h3, h5, e⟩ := build_material_inv htag h
      subst e
      obtain ⟨mnt, _, mts, _⟩ := nodeCompMono_graphRel.rel_build_rec bmain n
      exact (mnt _ _ _ _ h5).2 _ ((mts _ _ _ _ h3).2 _ (has_component_entity_step h1 ha))
    refine ⟨(hops.2 ma st' htag h).1, (hops.2 ma st' htag h).2, hmem, hcomp,
      ((keysExt_graphRel.rel_build_rec bmain fuel).2.1 _ _ _ _ h).1, ?_⟩
    intro hwf
    have hwf' := (wf_graphRel.rel_build_rec bmain fuel).2.1 _ _ _ _ h hwf
    refine ⟨hwf', List.count_eq_one_of_mem hwf'.1 hmem,
      fun n hn => component_count_le_one hwf' n hn _, fun ha => ?_⟩
    obtain ⟨n, hn, hid, hge⟩ := exists_node_of_has_component (hcomp ha)
    exact ⟨n, hn, hid, Nat.le_antisymm (component_count_le_one hwf' n hn _) hge⟩
  · intro scene p st' hwf h
    have hwf' := wf_graphRel.rel_build_scene h hwf
    exact ⟨hwf', fun id => List.nodup_iff_count_le_one.1 hwf'.1 id,
      fun n hn => component_count_le_one hwf' n hn _⟩

/-- Witness of C4 (as amended): building the texture again on the graph that
already holds its node and driver operation adds the operation a second time;
the texture still has one node and one Animation component. -/
theorem C4_witness :
    ∃ st', build_texture 2 ex_shared_texture_main ⟨ex_texture_built_graph, Tags.clear⟩
        (DepsNodePtr.id_node (scene_id 0)) 0 = Except.ok st'
      ∧ st'.graph.operations (animation_ptr (texture_id 0))
          = [driver_operation (texture_id 0) ex_plain_driver,
             driver_operation (texture_id 0) ex_plain_driver]
      ∧ List.count (texture_id 0) st'.graph.keys = 1
      ∧ ∃ n ∈ st'.graph.id_nodes, n.id = texture_id 0
          ∧ (n.components.filter (fun k =>
            decide (k.type = eDepsNode_Type.DEPSNODE_TYPE_ANIMATION))).length = 1 := by
  obtain ⟨st', hr⟩ := except_ok_of_isSome
    (x := build_texture 2 ex_shared_texture_main ⟨ex_texture_built_graph, Tags.clear⟩
      (DepsNodePtr.id_node (scene_id 0)) 0) (by decide)
  have h := (C4_shared_resource_rebuilt 2 ex_shared_texture_main
    ⟨ex_texture_built_graph, Tags.clear⟩ (DepsNodePtr.id_node (scene_id 0))).1 0 st' rfl hr
  have hwf : ex_texture_built_graph.WF := by
    constructor
    · decide
    · intro n hn
      simp only [ex_texture_built_graph, List.mem_cons, List.mem_singleton,
        List.not_mem_nil, or_false] at hn
      subst hn
      decide
  obtain ⟨_, hcount, _, hone⟩ := h.2.2.2.2.2 hwf
  exact ⟨st', hr, by rw [h.1]; rfl, hcount, hone (by decide)⟩

end DEG

namespace CCL

/-! ## Tile dimensions -/

theorem get_tile_dim_axis_eq (u : SparseGridUtil) (hT : 0 < u.TILE_SIZE) (s r : Int)
    (h : aligned_axis u s r) :
    get_tile_dim_axis u s r (Int.tmod r u.TILE_SIZE) = min u.TILE_SIZE (r - s) := by
  obtain ⟨h0, hlt, m, hm⟩ := h
  unfold get_tile_dim_axis
  have hr : 0 ≤ r := by omega
  rw [Int.tmod_eq_emod hr (le_of_lt hT)]
  by_cases hc : s + u.TILE_SIZE > r
  · rw [if_pos hc]
    have hmin : min u.TILE_SIZE (r - s) = r - s := by
      apply min_eq_right
      omega
    rw [hmin]
    have e : r = (r - s) + u.TILE_SIZE * m := by rw [← hm]; ring
    have : r % u.TILE_SIZE = (r - s) % u.TILE_SIZE := by
      conv_lhs => rw [e]
      exact Int.add_mul_emod_self_left _ _ _
    rw [this]
    exact Int.emod_eq_of_lt (by omega) (by omega)
  · rw [if_neg hc]
    symm
    apply min_eq_left
    omega

/-- C23: for a tile start that is a multiple of `TILE_SIZE` with `0 ≤ s < r` on
every axis (so the resolution `r` is at least 1), `get_tile_dim`
called with the remainder `r mod TILE_SIZE` returns `min (TILE_SIZE, r - s)` on
each axis, which lies between 1 and `TILE_SIZE`; when the resolution is an
exact multiple of `TILE_SIZE` (remainder 0) the result is `TILE_SIZE`, never the
remainder. -/
theorem C23_get_tile_dim (u : SparseGridUtil) (hT : 0 < u.TILE_SIZE) (s r : Coord)
    (h : aligned u s r) :
    get_tile_dim u s r (remainder_of u r)
        = ⟨min u.TILE_SIZE (r.x - s.x), min u.TILE_SIZE (r.y - s.y),
            min u.TILE_SIZE (r.z - s.z)⟩
      ∧ (1 ≤ min u.TILE_SIZE (r.x - s.x) ∧ min u.TILE_SIZE (r.x - s.x) ≤ u.TILE_SIZE)
      ∧ (1 ≤ min u.TILE_SIZE (r.y - s.y) ∧ min u.TILE_SIZE (r.y - s.y) ≤ u.TILE_SIZE)
      ∧ (1 ≤ min u.TILE_SIZE (r.z - s.z) ∧ min u.TILE_SIZE (r.z - s.z) ≤ u.TILE_SIZE)
      ∧ (Int.tmod r.x u.TILE_SIZE = 0 →
          (get_tile_dim u s r (remainder_of u r)).x = u.TILE_SIZE)
      ∧ (Int.tmod r.y u.TILE_SIZE = 0 →
          (get_tile_dim u s r (remainder_of u r)).y = u.TILE_SIZE)
      ∧ (Int.tmod r.z u.TILE_SIZE = 0 →
          (get_tile_dim u s r (remainder_of u r)).z = u.TILE_SIZE) := by
  obtain ⟨hx, hy, hz⟩ := h
  have ex := get_tile_dim_axis_eq u hT s.x r.x hx
  have ey := get_tile_dim_axis_eq u hT s.y r.y hy
  have ez := get_tile_dim_axis_eq u hT s.z r.z hz
  have bound : ∀ a b : Int, aligned_axis u a b →
      1 ≤ min u.TILE_SIZE (b - a) ∧ min u.TILE_SIZE (b - a) ≤ u.TILE_SIZE := by
    intro a b hab
    obtain ⟨_, hlt, _⟩ := hab
    exact ⟨le_min (by omega) (by omega), min_le_left _ _⟩
  have full : ∀ a b : Int, aligned_axis u a b → Int.tmod b u.TILE_SIZE = 0 →
      get_tile_dim_axis u a b (Int.tmod b u.TILE_SIZE) = u.TILE_SIZE := by
    intro a b hab h0
    have hb := bound a b hab
    rw [get_tile_dim_axis_eq u hT a b hab]
    have := get_tile_dim_axis_eq u hT a b hab
    unfold get_tile_dim_axis at this
    by_cases hc : a + u.TILE_SIZE > b
    · rw [if_pos hc, h0] at this
      omega
    · exact min_eq_left (by omega)
  refine ⟨?_, bound _ _ hx, bound _ _ hy, bound _ _ hz, full _ _ hx, full _ _ hy, full _ _ hz⟩
  unfold get_tile_dim remainder_of
  simp only [ex, ey, ez]

/-- Witness of C23: resolution 20 x 16 x 5 with tiles of 8; the tile starting at
(16, 8, 0) has dimensions 4 x 8 x 5. -/
theorem C23_witness :
    get_tile_dim cycles_util ⟨16, 8, 0⟩ ⟨20, 16, 5⟩ (remainder_of cycles_util ⟨20, 16, 5⟩)
      = ⟨4, 8, 5⟩ := by
  have h := (C23_get_tile_dim cycles_util (by decide) ⟨16, 8, 0⟩ ⟨20, 16, 5⟩
    ⟨⟨by decide, by decide, ⟨2, by decide⟩⟩, ⟨by decide, by decide, ⟨1, by decide⟩⟩,
     ⟨by decide, by decide, ⟨0, by decide⟩⟩⟩).1
  rw [h]
  decide

/-! ## Offsets written and leaf elements read -/

theorem mem_tile_loop {α : Type} (tile_dim : Coord) (f : Int → Int → Int → α) (a : α) :
    a ∈ tile_loop tile_dim f ↔
      ∃ i j k : Nat, i < tile_dim.x.toNat ∧ j < tile_dim.y.toNat ∧ k < tile_dim.z.toNat
        ∧ a = f i j k := by
  unfold tile_loop
  constructor
  · intro h
    obtain ⟨k, hk, h⟩ := List.mem_flatMap.1 h
    obtain ⟨j, hj, h⟩ := List.mem_flatMap.1 h
    obtain ⟨i, hi, e⟩ := List.mem_map.1 h
    exact ⟨i, j, k, List.mem_range.1 hi, List.mem_range.1 hj, List.mem_range.1 hk, e.symm⟩
  · rintro ⟨i, j, k, hi, hj, hk, e⟩
    exact List.mem_flatMap.2 ⟨k, List.mem_range.2 hk, List.mem_flatMap.2 ⟨j, List.mem_range.2 hj,
      List.mem_map.2 ⟨i, List.mem_range.2 hi, e.symm⟩⟩⟩

theorem linear_index_bound (x y z w h d : Int) (hx : 0 ≤ x) (hxw : x < w) (hy : 0 ≤ y)
    (hyh : y < h) (hz : 0 ≤ z) (hzd : z < d) :
    0 ≤ x + w * (y + z * h) ∧ x + w * (y + z * h) < w * h * d := by
  have hw : 0 < w := by omega
  have hh : 0 < h := by omega
  have h1 : 0 ≤ z * h := Int.mul_nonneg hz (le_of_lt hh)
  have h2 : 0 ≤ w * (y + z * h) := Int.mul_nonneg (le_of_lt hw) (by omega)
  have h3 : z * h ≤ (d - 1) * h := Int.mul_le_mul_of_nonneg_right (by omega) (le_of_lt hh)
  have h4 : y + z * h ≤ h * d - 1 := by
    have : (d - 1) * h = h * d - h := by ring
    omega
  have h5 : w * (y + z * h) ≤ w * (h * d - 1) :=
    Int.mul_le_mul_of_nonneg_left h4 (le_of_lt hw)
  have h6 : w * (h * d - 1) = w * h * d - w := by ring
  constructor
  · omega
  · omega

/-- In-tile coordinates stay inside the resolution. -/
theorem tile_voxel_in_resolution (u : SparseGridUtil) (hT : 0 < u.TILE_SIZE) (s r : Int)
    (h : aligned_axis u s r) (i : Nat)
    (hi : i < (get_tile_dim_axis u s r (Int.tmod r u.TILE_SIZE)).toNat) :
    0 ≤ s + i ∧ s + i < r := by
  rw [get_tile_dim_axis_eq u hT s r h] at hi
  obtain ⟨h0, _, _⟩ := h
  have : (i : Int) < min u.TILE_SIZE (r - s) := by omega
  have := lt_of_lt_of_le this (min_le_right _ _)
  omega

/-- For a scalar grid type: every offset `image_load_dense` writes for a leaf
with an aligned start is inside the range zeroed by `memset`. -/
theorem dense_leaf_offsets_in_range {V : Type} (u : SparseGridUtil) (hu : u.Standard)
    (resolution min_bound : Coord) (leaf : Leaf V)
    (h : aligned u (leaf.start.sub min_bound) resolution) :
    ∀ o ∈ written_offsets false (dense_leaf u resolution min_bound leaf),
      0 ≤ o ∧ o < dense_zeroed resolution 1 := by
  intro o ho
  unfold written_offsets at ho
  simp only [List.mem_flatMap, copy, Bool.false_eq_true, if_false, List.mem_singleton] at ho
  obtain ⟨c, hc, rfl⟩ := ho
  unfold dense_leaf at hc
  simp only [mem_tile_loop] at hc
  obtain ⟨i, j, k, hi, hj, hk, rfl⟩ := hc
  obtain ⟨hx, hy, hz⟩ := h
  have bx := tile_voxel_in_resolution u hu.tile_pos _ _ hx i hi
  have by' := tile_voxel_in_resolution u hu.tile_pos _ _ hy j hj
  have bz := tile_voxel_in_resolution u hu.tile_pos _ _ hz k hk
  simp only [hu.compute_index_eq, dense_zeroed, coord_product, mul_one]
  exact linear_index_bound _ _ _ _ _ _ bx.1 bx.2 by'.1 by'.2 bz.1 bz.2

/-- C24 (evaluation at the failing input): a vector grid of resolution 1 x 1 x 1
with one leaf at the origin. `openvdb_load_image` runs the dense loader with one
channel, so one float is zeroed, while the vector `copy` of the single voxel
writes the offsets 0, 1, 2 and 3. -/
theorem C24_vector_copy_outside_zeroed :
    aligned cycles_util (ex_zero_vec_leaf.start.sub ⟨0, 0, 0⟩) ⟨1, 1, 1⟩
      ∧ ∃ r, openvdb_load_image cycles_util ex_zero_vec_grid
            OpenVDBGridType.OPENVDB_GRID_VEC_FLOAT ⟨1, 1, 1⟩ ⟨0, 0, 0⟩ none = Except.ok r
        ∧ r.zeroed = 1
        ∧ written_offsets r.vec r.copies = [0, 1, 2, 3] := by
  refine ⟨⟨⟨by decide, by decide, ⟨0, by decide⟩⟩, ⟨by decide, by decide, ⟨0, by decide⟩⟩,
    ⟨by decide, by decide, ⟨0, by decide⟩⟩⟩, ?_⟩
  obtain ⟨r, hr, hf⟩ := DEG.except_ok_of_map
    (x := openvdb_load_image cycles_util ex_zero_vec_grid
      OpenVDBGridType.OPENVDB_GRID_VEC_FLOAT ⟨1, 1, 1⟩ ⟨0, 0, 0⟩ none)
    (f := fun r => (r.zeroed, written_offsets r.vec r.copies))
    (b := (1, [0, 1, 2, 3])) (by decide)
  simp only [Prod.mk.injEq] at hf
  exact ⟨r, hr, hf.1, hf.2⟩

/-- On a tile that is full in `y` and `z` the two loaders read the same leaf element. -/
theorem leaf_index_eq_of_full (u : SparseGridUtil) (tile_dim : Coord) (i j k : Int)
    (hy : tile_dim.y = u.TILE_SIZE) (hz : tile_dim.z = u.TILE_SIZE) :
    dense_leaf_index u tile_dim i j k = sparse_leaf_index u i j k := by
  unfold dense_leaf_index sparse_leaf_index
  rw [hy, hz]

/-- C25 (evaluation at the failing input): resolution 8 x 8 x 4, one leaf at the
origin, so the tile is partial in `z` (dimensions 8 x 8 x 4). For the in-tile
coordinate (0, 1, 0) both loaders write the offset 8; `image_load_dense` reads
the leaf element 4 for it, `image_load_sparse` the leaf element 8. -/
theorem C25_leaf_index_differs_on_partial_tile :
    get_tile_dim cycles_util ⟨0, 0, 0⟩ ⟨8, 8, 4⟩ (remainder_of cycles_util ⟨8, 8, 4⟩) = ⟨8, 8, 4⟩
      ∧ dense_leaf_index cycles_util ⟨8, 8, 4⟩ 0 1 0 = 4
      ∧ sparse_leaf_index cycles_util 0 1 0 = 8
      ∧ (⟨8, ⟨0, 0, 0⟩, 4⟩ : Copy) ∈ image_load_dense cycles_util ex_zero_grid ⟨8, 8, 4⟩ ⟨0, 0, 0⟩
      ∧ ∃ r, image_load_sparse cycles_util ex_zero_grid ⟨8, 8, 4⟩ ⟨0, 0, 0⟩ 1 [0] = Except.ok r
        ∧ (⟨8, ⟨0, 0, 0⟩, 8⟩ : Copy) ∈ r.2 := by
  refine ⟨by decide, by decide, by decide, ?_, ?_⟩
  · have hv : validate_and_process_grid cycles_util ex_zero_grid = some ex_zero_grid := rfl
    unfold image_load_dense
    rw [hv]
    simp only [ex_zero_grid, List.flatMap_cons, List.flatMap_nil, List.append_nil]
    unfold dense_leaf
    rw [mem_tile_loop]
    exact ⟨0, 1, 0, by decide, by decide, by decide, by decide⟩
  · obtain ⟨r, hr, hf⟩ := DEG.except_ok_of_map
      (x := image_load_sparse cycles_util ex_zero_grid ⟨8, 8, 4⟩ ⟨0, 0, 0⟩ 1 [0])
      (f := fun r => decide ((⟨8, ⟨0, 0, 0⟩, 8⟩ : Copy) ∈ r.2))
      (b := true) (by decide)
    exact ⟨r, hr, of_decide_eq_true hf⟩

/-! ## The threshold scan -/

theorem leaf_scan_range' {V : Type} (above : V → Bool) (data : List (V × Bool)) :
    ∀ m a, a + m ≤ data.length →
      leaf_scan above data (List.range' a m)
        = Except.ok (((data.drop a).take m).any (fun v => above v.1)) := by
  intro m
  induction m with
  | zero => intro a _; rfl
  | succ m ih =>
    intro a h
    have ha : a < data.length := by omega
    rw [List.range'_succ, leaf_scan, List.getElem?_eq_getElem ha]
    simp only
    rw [List.drop_eq_getElem_cons ha, List.take_succ_cons, List.any_cons]
    by_cases hv : above data[a].1 = true
    · simp [hv]
    · simp only [hv, Bool.false_eq_true, if_false, Bool.false_or]
      exact ih (a + 1) (by omega)

/-- A scan of at most as many indices as the leaf buffer holds values stays
inside the buffer and tells whether one of the values read passes the test. -/
theorem leaf_scan_in_bounds {V : Type} (above : V → Bool) (data : List (V × Bool)) (n : Nat)
    (h : n ≤ data.length) :
    leaf_scan above data (List.range n)
      = Except.ok ((data.take n).any (fun v => above v.1)) := by
  rw [List.range_eq_range']
  have := leaf_scan_range' above data n 0 (by omega)
  simpa using this

theorem leaf_scan_past_end {V : Type} (above : V → Bool) (data : List (V × Bool))
    (hquiet : ∀ v ∈ data, above v.1 = false) :
    ∀ m a, a ≤ data.length → data.length < a + m →
      leaf_scan above data (List.range' a m) = Except.error LoadError.out_of_bounds := by
  intro m
  induction m with
  | zero => intro a h1 h2; omega
  | succ m ih =>
    intro a h1 h2
    rw [List.range'_succ, leaf_scan]
    by_cases ha : a < data.length
    · rw [List.getElem?_eq_getElem ha]
      simp only [hquiet _ (List.getElem_mem ha), Bool.false_eq_true, if_false]
      exact ih (a + 1) (by omega) (by omega)
    · rw [List.getElem?_eq_none (by omega)]

/-- A scan of more indices than the leaf buffer holds values, none of which
passes the test, reads past the end of the buffer. -/
theorem leaf_scan_out_of_bounds {V : Type} (above : V → Bool) (data : List (V × Bool)) (n : Nat)
    (hquiet : ∀ v ∈ data, above v.1 = false) (h : data.length < n) :
    leaf_scan above data (List.range n) = Except.error LoadError.out_of_bounds := by
  rw [List.range_eq_range']
  exact leaf_scan_past_end above data hquiet n 0 (by omega) (by omega)

/-- C26 (evaluation at the failing input): a vector grid with one full leaf of
`8 * 8 * 8` values, none of which reaches the threshold.
`openvdb_load_preprocess` passes four channels, the scan runs over
`8 * 8 * 8 * 4` indices of the leaf buffer and reads past its end at index 512. -/
theorem C26_vector_scan_outside_leaf :
    ex_zero_vec_leaf.data.length = 8 * 8 * 8
      ∧ ex_zero_vec_leaf.data[512]? = none
      ∧ openvdb_load_preprocess cycles_util ex_vec_above ex_zero_vec_grid
          OpenVDBGridType.OPENVDB_GRID_VEC_FLOAT ⟨8, 8, 8⟩ ⟨0, 0, 0⟩ [] (-1)
        = Except.error LoadError.out_of_bounds := by
  have hlen : ex_zero_vec_leaf.data.length = 512 := List.length_replicate _ _
  have hquiet : ∀ v ∈ ex_zero_vec_leaf.data, ex_vec_above v.1 = false := by
    intro v hv
    rw [(List.mem_replicate.1 hv).2]
    rfl
  have hscan := leaf_scan_out_of_bounds ex_vec_above ex_zero_vec_leaf.data 2048 hquiet
    (by rw [hlen]; decide)
  have hv : validate_and_process_grid cycles_util ex_zero_vec_grid = some ex_zero_vec_grid :=
    rfl
  refine ⟨hlen, List.getElem?_eq_none (by rw [hlen]), ?_⟩
  show image_load_preprocess cycles_util ex_vec_above ex_zero_vec_grid ⟨8, 8, 8⟩ ⟨0, 0, 0⟩ 4
    [] (-1) = Except.error LoadError.out_of_bounds
  unfold image_load_preprocess
  rw [hv]
  have hleaf : preprocess_leaf cycles_util ex_vec_above ⟨8, 8, 8⟩ ⟨0, 0, 0⟩ 4
      (vector_resize [] (coord_product (tiled_res_of cycles_util ⟨8, 8, 8⟩)) (-1), 0)
      ex_zero_vec_leaf = Except.error LoadError.out_of_bounds := by
    unfold preprocess_leaf
    have e : (cycles_util.TILE_SIZE * cycles_util.TILE_SIZE * cycles_util.TILE_SIZE * 4).toNat
        = 2048 := by decide
    simp only [e, hscan]
    rfl
  simp only [ex_zero_vec_grid, List.foldlM_cons, hleaf]
  rfl

/-! ## The sparse layout -/

theorem range_flatMap_map {β : Type} (a b : Nat) (g : Nat → β) :
    (List.range b).flatMap (fun j => (List.range a).map (fun i => g (i + a * j)))
      = (List.range (a * b)).map g := by
  induction b with
  | zero => simp
  | succ b ih =>
    rw [List.range_succ, List.flatMap_append, ih, Nat.mul_succ, List.range_add, List.map_append,
      List.map_map]
    simp only [List.flatMap_cons, List.flatMap_nil, List.append_nil]
    congr 1
    apply List.map_congr_left
    intro i _
    simp only [Function.comp]
    rw [Nat.add_comm]

theorem range_flatMap_flatMap_map {β : Type} (a b c : Nat) (g : Nat → β) :
    (List.range c).flatMap (fun k =>
        (List.range b).flatMap (fun j => (List.range a).map (fun i => g (i + a * (j + k * b)))))
      = (List.range (a * b * c)).map g := by
  have h1 : ∀ k, (List.range b).flatMap (fun j =>
        (List.range a).map (fun i => g (i + a * (j + k * b))))
      = (List.range (a * b)).map (fun n => g (n + a * b * k)) := by
    intro k
    rw [← range_flatMap_map a b (fun n => g (n + a * b * k))]
    congr 1
    funext j
    apply List.map_congr_left
    intro i _
    congr 1
    ring
  simp only [h1]
  exact range_flatMap_map (a * b) c g

/-- With row-major indices the three loops over a tile visit the linear in-tile
indices `0, 1, 2, ...` in order. -/
theorem tile_loop_linear {β : Type} (u : SparseGridUtil) (hu : u.Standard) (d : Coord)
    (hx : 0 ≤ d.x) (hy : 0 ≤ d.y) (g : Int → β) :
    tile_loop d (fun i j k => g (u.compute_index i j k d.x d.y))
      = (List.range (d.x.toNat * d.y.toNat * d.z.toNat)).map (fun (n : Nat) => g (n : Int)) := by
  rw [← range_flatMap_flatMap_map d.x.toNat d.y.toNat d.z.toNat (fun (n : Nat) => g (n : Int))]
  unfold tile_loop
  congr 1
  funext k
  congr 1
  funext j
  apply List.map_congr_left
  intro i _
  show g (u.compute_index i j k d.x d.y) = g ((i + d.x.toNat * (j + k * d.y.toNat) : Nat) : Int)
  rw [hu.compute_index_eq]
  congr 1
  push_cast
  rw [Int.toNat_of_nonneg hx, Int.toNat_of_nonneg hy]

theorem tile_loop_map {α β : Type} (d : Coord) (f : Int → Int → Int → α) (h : α → β) :
    (tile_loop d f).map h = tile_loop d (fun i j k => h (f i j k)) := by
  unfold tile_loop
  simp only [List.map_flatMap, List.map_map]
  rfl

theorem linear_index_inj (x y z x' y' z' w h : Int) (hx : 0 ≤ x) (hxw : x < w)
    (hx' : 0 ≤ x') (hxw' : x' < w) (hy : 0 ≤ y) (hyh : y < h) (hy' : 0 ≤ y') (hyh' : y' < h)
    (e : x + w * (y + z * h) = x' + w * (y' + z' * h)) : x = x' ∧ y = y' ∧ z = z' := by
  have hw : 0 < w := by omega
  have hh : 0 < h := by omega
  have e1 := congrArg (fun t => t % w) e
  simp only [Int.add_mul_emod_self_left] at e1
  rw [Int.emod_eq_of_lt hx hxw, Int.emod_eq_of_lt hx' hxw'] at e1
  subst e1
  have e2 : y + z * h = y' + z' * h := by
    have : w * (y + z * h) = w * (y' + z' * h) := by omega
    exact Int.eq_of_mul_eq_mul_left (by omega) this
  have e3 := congrArg (fun t => t % h) e2
  simp only [Int.add_mul_emod_self] at e3
  rw [Int.emod_eq_of_lt hy hyh, Int.emod_eq_of_lt hy' hyh'] at e3
  subst e3
  have e4 : z * h = z' * h := by omega
  exact ⟨rfl, rfl, Int.eq_of_mul_eq_mul_right (by omega) e4⟩

/-- The tile coordinate of an aligned start on one axis lies below the number of
tiles of that axis, and determines the start. -/
theorem tile_coordinate (u : SparseGridUtil) (hu : u.Standard) (s r : Int)
    (h : aligned_axis u s r) :
    0 ≤ Int.tdiv s u.TILE_SIZE ∧ Int.tdiv s u.TILE_SIZE < u.get_tile_res r
      ∧ s = u.TILE_SIZE * Int.tdiv s u.TILE_SIZE := by
  obtain ⟨h0, hlt, m, hm⟩ := h
  have hT := hu.tile_pos
  have hr : 0 ≤ r := by omega
  rw [hu.get_tile_res_eq r hr, Int.tdiv_eq_ediv h0 (le_of_lt hT),
    Int.tdiv_eq_ediv hr (le_of_lt hT), Int.tmod_eq_emod hr (le_of_lt hT)]
  have hsm : s / u.TILE_SIZE = m := by
    rw [hm]; exact Int.mul_ediv_cancel_left _ (by omega)
  rw [hsm]
  have hm0 : 0 ≤ m := by
    by_contra hneg
    have : u.TILE_SIZE * m < 0 := Int.mul_neg_of_pos_of_neg hT (by omega)
    omega
  refine ⟨hm0, ?_, hm⟩
  have hdiv := Int.emod_add_ediv r u.TILE_SIZE
  have hmod0 := Int.emod_nonneg r (show u.TILE_SIZE ≠ 0 by omega)
  have hmodlt := Int.emod_lt_of_pos r hT
  by_cases hrem : r % u.TILE_SIZE ≠ 0
  · rw [if_pos hrem]
    by_contra hge
    have : u.TILE_SIZE * (r / u.TILE_SIZE + 1) ≤ u.TILE_SIZE * m :=
      Int.mul_le_mul_of_nonneg_left (by omega) (le_of_lt hT)
    have e : u.TILE_SIZE * (r / u.TILE_SIZE + 1)
        = u.TILE_SIZE * (r / u.TILE_SIZE) + u.TILE_SIZE := by ring
    omega
  · rw [if_neg hrem]
    have hz : r % u.TILE_SIZE = 0 := by
      by_contra hne; exact hrem hne
    by_contra hge
    have : u.TILE_SIZE * (r / u.TILE_SIZE) ≤ u.TILE_SIZE * m :=
      Int.mul_le_mul_of_nonneg_left (by omega) (le_of_lt hT)
    omega

/-- The tile index of an aligned start is a valid index of the tile table. -/
theorem tile_index_in_range (u : SparseGridUtil) (hu : u.Standard) (s r : Coord)
    (h : aligned u s r) :
    0 ≤ get_tile_index u s (tiled_res_of u r)
      ∧ get_tile_index u s (tiled_res_of u r) < coord_product (tiled_res_of u r) := by
  obtain ⟨hx, hy, hz⟩ := h
  obtain ⟨x0, x1, _⟩ := tile_coordinate u hu _ _ hx
  obtain ⟨y0, y1, _⟩ := tile_coordinate u hu _ _ hy
  obtain ⟨z0, z1, _⟩ := tile_coordinate u hu _ _ hz
  unfold get_tile_index coord_product tiled_res_of
  rw [hu.compute_index_eq]
  exact linear_index_bound _ _ _ _ _ _ x0 x1 y0 y1 z0 z1

/-- Aligned starts with the same tile index are equal. -/
theorem tile_index_inj (u : SparseGridUtil) (hu : u.Standard) (s s' r : Coord)
    (h : aligned u s r) (h' : aligned u s' r)
    (e : get_tile_index u s (tiled_res_of u r) = get_tile_index u s' (tiled_res_of u r)) :
    s = s' := by
  obtain ⟨hx, hy, hz⟩ := h
  obtain ⟨hx', hy', hz'⟩ := h'
  obtain ⟨x0, x1, ex⟩ := tile_coordinate u hu _ _ hx
  obtain ⟨y0, y1, ey⟩ := tile_coordinate u hu _ _ hy
  obtain ⟨_, _, ez⟩ := tile_coordinate u hu _ _ hz
  obtain ⟨x0', x1', ex'⟩ := tile_coordinate u hu _ _ hx'
  obtain ⟨y0', y1', ey'⟩ := tile_coordinate u hu _ _ hy'
  obtain ⟨_, _, ez'⟩ := tile_coordinate u hu _ _ hz'
  unfold get_tile_index tiled_res_of at e
  rw [hu.compute_index_eq, hu.compute_index_eq] at e
  obtain ⟨e1, e2, e3⟩ := linear_index_inj _ _ _ _ _ _ _ _ x0 x1 x0' x1' y0 y1 y0' y1' e
  cases s
  cases s'
  simp only at ex ey ez ex' ey' ez' e1 e2 e3
  simp only [Coord.mk.injEq]
  refine ⟨?_, ?_, ?_⟩
  · rw [ex, ex', e1]
  · rw [ey, ey', e2]
  · rw [ez, ez', e3]

theorem validate_tile_aligned {V : Type} [DecidableEq V] [Zero V] [Sub V] [Neg V]
    (u : SparseGridUtil) (grid : Grid V) (resolution min_bound : Coord)
    (h : TileAligned u grid.leaves resolution min_bound) :
    ∃ g, validate_and_process_grid u grid = some g
      ∧ TileAligned u g.leaves resolution min_bound := by
  have hdims : (match grid.leaves.head? with
      | some leaf =>
        decide (leaf.dim.x ≠ u.TILE_SIZE ∨ leaf.dim.y ≠ u.TILE_SIZE ∨ leaf.dim.z ≠ u.TILE_SIZE)
      | none => false) = false := by
    cases hh : grid.leaves.head? with
    | none => rfl
    | some leaf =>
      have hm : leaf ∈ grid.leaves := List.mem_of_mem_head? (by rw [hh]; exact rfl)
      have := h.dim leaf hm
      simp [this]
  unfold validate_and_process_grid
  simp only [hdims, Bool.false_eq_true, if_false]
  by_cases hb : grid.background ≠ 0
  · rw [if_pos hb]
    refine ⟨_, rfl, ?_⟩
    constructor
    · intro leaf hl
      obtain ⟨l0, h0, rfl⟩ := List.mem_map.1 hl
      exact h.dim l0 h0
    · intro leaf hl
      obtain ⟨l0, h0, rfl⟩ := List.mem_map.1 hl
      simp only [List.length_map]
      exact h.size l0 h0
    · intro leaf hl
      obtain ⟨l0, h0, rfl⟩ := List.mem_map.1 hl
      exact h.start l0 h0
    · have := h.distinct
      simp only [List.map_map]
      exact this
  · rw [if_neg hb]
    exact ⟨grid, rfl, h⟩

theorem active_voxels_cons {V : Type} (u : SparseGridUtil) (above : V → Bool) (channels : Int)
    (resolution min_bound : Coord) (leaf : Leaf V) (leaves : List (Leaf V)) :
    active_voxels u above channels resolution min_bound (leaf :: leaves)
      = (if leaf_active u above channels leaf = true
          then coord_product (leaf_tile_dim u resolution min_bound leaf) else 0)
        + active_voxels u above channels resolution min_bound leaves := by
  unfold active_voxels
  by_cases h : leaf_active u above channels leaf = true
  · simp [List.filter_cons, h]
  · simp [List.filter_cons, h]

/-- The dimensions of the tile of an aligned leaf are positive. -/
theorem leaf_tile_dim_pos {V : Type} (u : SparseGridUtil) (hu : u.Standard)
    (resolution min_bound : Coord) (leaf : Leaf V)
    (h : aligned u (leaf.start.sub min_bound) resolution) :
    1 ≤ (leaf_tile_dim u resolution min_bound leaf).x
      ∧ 1 ≤ (leaf_tile_dim u resolution min_bound leaf).y
      ∧ 1 ≤ (leaf_tile_dim u resolution min_bound leaf).z := by
  obtain ⟨hx, hy, hz⟩ := h
  have bound : ∀ a b : Int, aligned_axis u a b →
      1 ≤ get_tile_dim_axis u a b (Int.tmod b u.TILE_SIZE) := by
    intro a b hab
    rw [get_tile_dim_axis_eq u hu.tile_pos a b hab]
    obtain ⟨_, hlt, _⟩ := hab
    have := hu.tile_pos
    exact le_min (by omega) (by omega)
  exact ⟨bound _ _ hx, bound _ _ hy, bound _ _ hz⟩

theorem active_voxels_nonneg {V : Type} (u : SparseGridUtil) (hu : u.Standard) (above : V → Bool)
    (channels : Int) (resolution min_bound : Coord) (leaves : List (Leaf V))
    (h : ∀ leaf ∈ leaves, aligned u (leaf.start.sub min_bound) resolution) :
    0 ≤ active_voxels u above channels resolution min_bound leaves := by
  induction leaves with
  | nil => simp [active_voxels]
  | cons leaf rest ih =>
    rw [active_voxels_cons]
    have hr := ih (fun l hl => h l (List.mem_cons_of_mem _ hl))
    obtain ⟨hx, hy, hz⟩ := leaf_tile_dim_pos u hu resolution min_bound leaf
      (h leaf (List.mem_cons_self _ _))
    have : 0 ≤ coord_product (leaf_tile_dim u resolution min_bound leaf) := by
      unfold coord_product
      exact Int.mul_nonneg (Int.mul_nonneg (by omega) (by omega)) (by omega)
    split <;> omega

/-- The body of the leaf loop of `image_load_preprocess` on a scalar leaf with a
full buffer and a tile index inside the table. -/
theorem preprocess_leaf_eq {V : Type} (u : SparseGridUtil) (above : V → Bool)
    (resolution min_bound : Coord) (idx : List Int) (vc : Int) (leaf : Leaf V)
    (hsize : leaf.data.length = (u.TILE_SIZE * u.TILE_SIZE * u.TILE_SIZE).toNat)
    (h0 : 0 ≤ leaf_tile_index u resolution min_bound leaf)
    (hlt : (leaf_tile_index u resolution min_bound leaf).toNat < idx.length) :
    preprocess_leaf u above resolution min_bound 1 (idx, vc) leaf
      = Except.ok (if leaf_active u above 1 leaf = true
          then (idx.set (leaf_tile_index u resolution min_bound leaf).toNat 0,
            vc + coord_product (leaf_tile_dim u resolution min_bound leaf))
          else (idx, vc)) := by
  unfold preprocess_leaf
  have hscan := leaf_scan_in_bounds above leaf.data
    (u.TILE_SIZE * u.TILE_SIZE * u.TILE_SIZE * 1).toNat (by rw [mul_one, hsize])
  simp only [hscan, DEG.except_bind_ok]
  by_cases ha : leaf_active u above 1 leaf = true
  · have ha' : (leaf.data.take (u.TILE_SIZE * u.TILE_SIZE * u.TILE_SIZE * 1).toNat).any
        (fun v => above v.1) = true := ha
    rw [if_pos ha, if_pos ha']
    have hset : vector_set_at idx (get_tile_index u (leaf.start.sub min_bound)
        (tiled_res_of u resolution)) 0
        = Except.ok (idx.set (leaf_tile_index u resolution min_bound leaf).toNat 0) := by
      unfold vector_set_at
      rw [if_pos ⟨h0, hlt⟩]
      rfl
    rw [hset]
    rfl
  · have ha' : ¬ (leaf.data.take (u.TILE_SIZE * u.TILE_SIZE * u.TILE_SIZE * 1).toNat).any
        (fun v => above v.1) = true := ha
    rw [if_neg ha, if_neg ha']
    rfl

/-- The leaf loop of `image_load_preprocess` on scalar leaves: it counts the
voxels of the active tiles, marks their entries with 0 and leaves the others. -/
theorem preprocess_fold {V : Type} (u : SparseGridUtil) (above : V → Bool)
    (resolution min_bound : Coord) (leaves : List (Leaf V)) :
    ∀ (idx : List Int) (vc : Int),
      (∀ leaf ∈ leaves,
        leaf.data.length = (u.TILE_SIZE * u.TILE_SIZE * u.TILE_SIZE).toNat) →
      (∀ leaf ∈ leaves, 0 ≤ leaf_tile_index u resolution min_bound leaf
        ∧ (leaf_tile_index u resolution min_bound leaf).toNat < idx.length) →
      ∃ idx' : List Int, leaves.foldlM (preprocess_leaf u above resolution min_bound 1) (idx, vc)
          = Except.ok (idx', vc + active_voxels u above 1 resolution min_bound leaves)
        ∧ idx'.length = idx.length
        ∧ (∀ leaf ∈ leaves, leaf_active u above 1 leaf = true →
            idx'[(leaf_tile_index u resolution min_bound leaf).toNat]? = some 0)
        ∧ (∀ t : Nat, idx[t]? = some 0 → idx'[t]? = some 0)
        ∧ (∀ t : Nat, (∀ leaf ∈ leaves, leaf_active u above 1 leaf = true →
              (leaf_tile_index u resolution min_bound leaf).toNat ≠ t) →
            idx'[t]? = idx[t]?) := by
  induction leaves with
  | nil =>
    intro idx vc _ _
    refine ⟨idx, ?_, rfl, ?_, fun _ h => h, fun _ _ => rfl⟩
    · simp [active_voxels]
    · intro l hl
      cases hl
  | cons leaf rest ih =>
    intro idx vc hsize hin
    have hl := hin leaf (List.mem_cons_self _ _)
    rw [List.foldlM_cons, preprocess_leaf_eq u above resolution min_bound idx vc leaf
      (hsize leaf (List.mem_cons_self _ _)) hl.1 hl.2, active_voxels_cons]
    simp only [DEG.except_bind_ok]
    by_cases ha : leaf_active u above 1 leaf = true
    · simp only [ha, if_true]
      obtain ⟨idx', hf, hlen, hact, hzero, hframe⟩ :=
        ih (idx.set (leaf_tile_index u resolution min_bound leaf).toNat 0)
          (vc + coord_product (leaf_tile_dim u resolution min_bound leaf))
          (fun l h => hsize l (List.mem_cons_of_mem _ h))
          (fun l h => by
            rw [List.length_set]; exact hin l (List.mem_cons_of_mem _ h))
      refine ⟨idx', ?_, ?_, ?_, ?_, ?_⟩
      · rw [hf, Int.add_assoc]
      · rw [hlen, List.length_set]
      · intro l hlm hla
        rcases List.mem_cons.1 hlm with e | hr
        · subst e
          exact hzero _ (by rw [List.getElem?_set_self hl.2])
        · exact hact l hr hla
      · intro t ht
        apply hzero
        by_cases e : (leaf_tile_index u resolution min_bound leaf).toNat = t
        · subst e
          rw [List.getElem?_set_self hl.2]
        · rw [List.getElem?_set_ne e]
          exact ht
      · intro t ht
        rw [hframe t (fun l hlm hla => ht l (List.mem_cons_of_mem _ hlm) hla),
          List.getElem?_set_ne (ht leaf (List.mem_cons_self _ _) ha)]
    · simp only [ha, Bool.false_eq_true, if_false]
      obtain ⟨idx', hf, hlen, hact, hzero, hframe⟩ :=
        ih idx vc (fun l h => hsize l (List.mem_cons_of_mem _ h))
          (fun l h => hin l (List.mem_cons_of_mem _ h))
      refine ⟨idx', ?_, hlen, ?_, hzero, ?_⟩
      · rw [hf, Int.zero_add]
      · intro l hlm hla
        rcases List.mem_cons.1 hlm with e | hr
        · subst e
          exact absurd hla ha
        · exact hact l hr hla
      · intro t ht
        exact hframe t (fun l hlm hla => ht l (List.mem_cons_of_mem _ hlm) hla)

theorem coord_sub_inj (a b m : Coord) (h : a.sub m = b.sub m) : a = b := by
  cases a; cases b; cases m
  simp only [Coord.sub, Coord.mk.injEq] at h ⊢
  omega

theorem offsets_from_append (b n m : Int) (hn : 0 ≤ n) (hm : 0 ≤ m) :
    offsets_from b n ++ offsets_from (b + n) m = offsets_from b (n + m) := by
  unfold offsets_from
  have e : (n + m).toNat = n.toNat + m.toNat := by omega
  rw [e, List.range_add, List.map_append, List.map_map]
  congr 1
  apply List.map_congr_left
  intro i _
  simp only [Function.comp]
  push_cast
  rw [Int.toNat_of_nonneg hn]
  ring

theorem written_offsets_scalar (copies : List Copy) :
    written_offsets false copies = copies.map Copy.des := by
  unfold written_offsets
  induction copies with
  | nil => rfl
  | cons c rest ih =>
    rw [List.flatMap_cons, List.map_cons, ih]
    rfl

/-- The tile of an aligned leaf is written to contiguous offsets, in order. -/
theorem sparse_tile_copies_des {V : Type} (u : SparseGridUtil) (hu : u.Standard)
    (resolution min_bound : Coord) (vc : Int) (leaf : Leaf V)
    (h : aligned u (leaf.start.sub min_bound) resolution) :
    (sparse_tile_copies u resolution min_bound vc leaf).map Copy.des
      = offsets_from vc (coord_product (leaf_tile_dim u resolution min_bound leaf)) := by
  obtain ⟨hx, hy, hz⟩ := leaf_tile_dim_pos u hu resolution min_bound leaf h
  unfold sparse_tile_copies
  rw [tile_loop_map]
  have := tile_loop_linear u hu (leaf_tile_dim u resolution min_bound leaf) (by omega) (by omega)
    (fun n => vc + n)
  rw [this]
  unfold offsets_from coord_product
  have e : ((leaf_tile_dim u resolution min_bound leaf).x
      * (leaf_tile_dim u resolution min_bound leaf).y
      * (leaf_tile_dim u resolution min_bound leaf).z).toNat
      = (leaf_tile_dim u resolution min_bound leaf).x.toNat
        * (leaf_tile_dim u resolution min_bound leaf).y.toNat
        * (leaf_tile_dim u resolution min_bound leaf).z.toNat := by
    have e1 := Int.toNat_of_nonneg (show 0 ≤ (leaf_tile_dim u resolution min_bound leaf).x by omega)
    have e2 := Int.toNat_of_nonneg (show 0 ≤ (leaf_tile_dim u resolution min_bound leaf).y by omega)
    have e3 := Int.toNat_of_nonneg (show 0 ≤ (leaf_tile_dim u resolution min_bound leaf).z by omega)
    rw [← e1, ← e2, ← e3]
    norm_cast
  rw [e]

theorem sparse_tile_copies_length {V : Type} (u : SparseGridUtil) (hu : u.Standard)
    (resolution min_bound : Coord) (vc : Int) (leaf : Leaf V)
    (h : aligned u (leaf.start.sub min_bound) resolution) :
    ((sparse_tile_copies u resolution min_bound vc leaf).length : Int)
      = coord_product (leaf_tile_dim u resolution min_bound leaf) := by
  have hd := congrArg List.length (sparse_tile_copies_des u hu resolution min_bound vc leaf h)
  simp only [List.length_map, offsets_from, List.length_range] at hd
  rw [hd]
  obtain ⟨hx, hy, hz⟩ := leaf_tile_dim_pos u hu resolution min_bound leaf h
  apply Int.toNat_of_nonneg
  unfold coord_product
  exact Int.mul_nonneg (Int.mul_nonneg (by omega) (by omega)) (by omega)

theorem sparse_tile_copies_leaf {V : Type} (u : SparseGridUtil) (resolution min_bound : Coord)
    (vc : Int) (leaf : Leaf V) :
    ∀ c ∈ sparse_tile_copies u resolution min_bound vc leaf, c.leaf = leaf.start := by
  intro c hc
  unfold sparse_tile_copies at hc
  obtain ⟨i, j, k, _, _, _, rfl⟩ := (mem_tile_loop _ _ _).1 hc
  rfl

/-- The body of the leaf loop of `image_load_sparse` for one channel, on a leaf
whose tile index is inside the table. -/
theorem sparse_leaf_eq {V : Type} (u : SparseGridUtil) (resolution min_bound : Coord)
    (s : SparseState) (leaf : Leaf V) (e : Int)
    (h0 : 0 ≤ leaf_tile_index u resolution min_bound leaf)
    (he : s.sparse_indexes[(leaf_tile_index u resolution min_bound leaf).toNat]? = some e) :
    sparse_leaf u resolution min_bound 1 s leaf
      = Except.ok (if e = -1 then s
          else
            { sparse_indexes :=
                s.sparse_indexes.set (leaf_tile_index u resolution min_bound leaf).toNat
                  s.voxel_count
              voxel_count := s.voxel_count
                + (sparse_tile_copies u resolution min_bound s.voxel_count leaf).length
              copies := s.copies
                ++ sparse_tile_copies u resolution min_bound s.voxel_count leaf }) := by
  have hlt : (leaf_tile_index u resolution min_bound leaf).toNat < s.sparse_indexes.length := by
    by_contra hge
    rw [List.getElem?_eq_none (by omega)] at he
    cases he
  have hat : vector_at s.sparse_indexes
      (get_tile_index u (leaf.start.sub min_bound) (tiled_res_of u resolution))
      = Except.ok e := by
    have h0' : 0 ≤ get_tile_index u (leaf.start.sub min_bound) (tiled_res_of u resolution) := h0
    have he' : s.sparse_indexes[(get_tile_index u (leaf.start.sub min_bound)
        (tiled_res_of u resolution)).toNat]? = some e := he
    unfold vector_at
    rw [if_pos h0', he']
  have hset : vector_set_at s.sparse_indexes
      (get_tile_index u (leaf.start.sub min_bound) (tiled_res_of u resolution))
      (Int.tdiv s.voxel_count 1)
      = Except.ok (s.sparse_indexes.set (leaf_tile_index u resolution min_bound leaf).toNat
          s.voxel_count) := by
    have hc : 0 ≤ get_tile_index u (leaf.start.sub min_bound) (tiled_res_of u resolution)
        ∧ (get_tile_index u (leaf.start.sub min_bound) (tiled_res_of u resolution)).toNat
          < s.sparse_indexes.length := ⟨h0, hlt⟩
    unfold vector_set_at
    rw [if_pos hc, Int.tdiv_one]
    rfl
  unfold sparse_leaf
  simp only [hat, DEG.except_bind_ok]
  by_cases h1 : e = -1
  · rw [if_pos h1, if_pos h1]
    rfl
  · rw [if_neg h1, if_neg h1]
    simp only [hset, DEG.except_bind_ok]
    rfl

/-- Leaves with distinct aligned starts have distinct tile indices. -/
theorem leaf_tile_index_ne {V : Type} (u : SparseGridUtil) (hu : u.Standard)
    (resolution min_bound : Coord) (leaf leaf' : Leaf V)
    (h : aligned u (leaf.start.sub min_bound) resolution)
    (h' : aligned u (leaf'.start.sub min_bound) resolution) (hne : leaf'.start ≠ leaf.start) :
    (leaf_tile_index u resolution min_bound leaf').toNat
      ≠ (leaf_tile_index u resolution min_bound leaf).toNat := by
  intro e
  have r := (tile_index_in_range u hu _ _ h).1
  have r' := (tile_index_in_range u hu _ _ h').1
  have e' : get_tile_index u (leaf'.start.sub min_bound) (tiled_res_of u resolution)
      = get_tile_index u (leaf.start.sub min_bound) (tiled_res_of u resolution) := by
    unfold leaf_tile_index at e
    omega
  exact hne (coord_sub_inj _ _ _ (tile_index_inj u hu _ _ _ h' h e'))

/-- The leaf loop of `image_load_sparse` for one channel, started on a table in
which the entries of the active leaves are 0 and those of the other leaves -1:
the tiles of the active leaves are written one after the other from the current
voxel count on, each entry of an active leaf becomes the offset at which its
tile starts, and every other entry stays. -/
theorem sparse_fold {V : Type} (u : SparseGridUtil) (hu : u.Standard) (above : V → Bool)
    (resolution min_bound : Coord) (leaves : List (Leaf V)) :
    ∀ s : SparseState,
      (∀ leaf ∈ leaves, aligned u (leaf.start.sub min_bound) resolution) →
      (leaves.map Leaf.start).Nodup →
      (∀ leaf ∈ leaves, s.sparse_indexes[(leaf_tile_index u resolution min_bound leaf).toNat]?
        = some (if leaf_active u above 1 leaf = true then 0 else -1)) →
      ∃ s', leaves.foldlM (sparse_leaf u resolution min_bound 1) s = Except.ok s'
        ∧ s'.voxel_count
            = s.voxel_count + active_voxels u above 1 resolution min_bound leaves
        ∧ s'.copies.map Copy.des = s.copies.map Copy.des
            ++ offsets_from s.voxel_count (active_voxels u above 1 resolution min_bound leaves)
        ∧ s'.sparse_indexes.length = s.sparse_indexes.length
        ∧ (∀ t : Nat, (∀ leaf ∈ leaves, leaf_active u above 1 leaf = true →
              (leaf_tile_index u resolution min_bound leaf).toNat ≠ t) →
            s'.sparse_indexes[t]? = s.sparse_indexes[t]?)
        ∧ (∀ p : Coord, (∀ leaf ∈ leaves, leaf_active u above 1 leaf = true →
              leaf.start ≠ p) →
            s'.copies.filter (fun c => decide (c.leaf = p))
              = s.copies.filter (fun c => decide (c.leaf = p)))
        ∧ (∀ leaf ∈ leaves, leaf_active u above 1 leaf = true →
            ∃ b, s'.sparse_indexes[(leaf_tile_index u resolution min_bound leaf).toNat]? = some b
              ∧ (s'.copies.filter (fun c => decide (c.leaf = leaf.start))).map Copy.des
                = (s.copies.filter (fun c => decide (c.leaf = leaf.start))).map Copy.des
                  ++ offsets_from b
                    (coord_product (leaf_tile_dim u resolution min_bound leaf))) := by
  induction leaves with
  | nil =>
    intro s _ _ _
    refine ⟨s, rfl, ?_, ?_, rfl, fun _ _ => rfl, fun _ _ => rfl, ?_⟩
    · simp [active_voxels]
    · simp [active_voxels, offsets_from]
    · intro l hl
      cases hl
  | cons leaf rest ih =>
    intro s hal hnd hent
    have hl := hal leaf (List.mem_cons_self _ _)
    have hrest : ∀ l ∈ rest, aligned u (l.start.sub min_bound) resolution :=
      fun l h => hal l (List.mem_cons_of_mem _ h)
    rw [List.map_cons, List.nodup_cons] at hnd
    have hne : ∀ l ∈ rest, l.start ≠ leaf.start := by
      intro l hlm e
      exact hnd.1 (by rw [← e]; exact List.mem_map_of_mem _ hlm)
    have htix : ∀ l ∈ rest, (leaf_tile_index u resolution min_bound l).toNat
        ≠ (leaf_tile_index u resolution min_bound leaf).toNat :=
      fun l hlm => leaf_tile_index_ne u hu resolution min_bound leaf l hl (hrest l hlm)
        (hne l hlm)
    have h0 := (tile_index_in_range u hu _ _ hl).1
    have he := hent leaf (List.mem_cons_self _ _)
    rw [List.foldlM_cons, sparse_leaf_eq u resolution min_bound s leaf _ h0 he,
      active_voxels_cons]
    simp only [DEG.except_bind_ok]
    by_cases ha : leaf_active u above 1 leaf = true
    · simp only [ha, if_true]
      rw [if_neg (by decide)]
      have hlen := sparse_tile_copies_length u hu resolution min_bound s.voxel_count leaf hl
      have hdes := sparse_tile_copies_des u hu resolution min_bound s.voxel_count leaf hl
      have hleaf := sparse_tile_copies_leaf u resolution min_bound s.voxel_count leaf
      have hcp : 0 ≤ coord_product (leaf_tile_dim u resolution min_bound leaf) := by
        rw [← hlen]; exact Int.ofNat_nonneg _
      have hlt : (leaf_tile_index u resolution min_bound leaf).toNat
          < s.sparse_indexes.length := by
        by_contra hge
        rw [List.getElem?_eq_none (by omega)] at he
        cases he
      obtain ⟨s', hf, hvc, hcs, hlen', hframe, hfilter, hact⟩ := ih
        { sparse_indexes :=
            s.sparse_indexes.set (leaf_tile_index u resolution min_bound leaf).toNat
              s.voxel_count
          voxel_count := s.voxel_count
            + (sparse_tile_copies u resolution min_bound s.voxel_count leaf).length
          copies := s.copies ++ sparse_tile_copies u resolution min_bound s.voxel_count leaf }
        hrest hnd.2
        (fun l hlm => by
          show (s.sparse_indexes.set _ _)[_]? = _
          rw [List.getElem?_set_ne (fun e => htix l hlm e.symm)]
          exact hent l (List.mem_cons_of_mem _ hlm))
      simp only at hvc hcs hlen' hframe hfilter hact
      have hblock_self : (sparse_tile_copies u resolution min_bound s.voxel_count leaf).filter
          (fun c => decide (c.leaf = leaf.start))
          = sparse_tile_copies u resolution min_bound s.voxel_count leaf :=
        List.filter_eq_self.2 (fun c hc => by simp [hleaf c hc])
      have hblock_other : ∀ p, leaf.start ≠ p →
          (sparse_tile_copies u resolution min_bound s.voxel_count leaf).filter
            (fun c => decide (c.leaf = p)) = [] := by
        intro p hp
        apply List.filter_eq_nil_iff.2
        intro c hc
        rw [hleaf c hc]
        simp [hp]
      refine ⟨s', hf, ?_, ?_, ?_, ?_, ?_, ?_⟩
      · rw [hvc, hlen, Int.add_assoc]
      · rw [hcs, List.map_append, hdes, hlen, List.append_assoc,
          offsets_from_append _ _ _ hcp (active_voxels_nonneg u hu above 1 _ _ rest hrest)]
      · rw [hlen', List.length_set]
      · intro t ht
        rw [hframe t (fun l hlm hla => ht l (List.mem_cons_of_mem _ hlm) hla),
          List.getElem?_set_ne (ht leaf (List.mem_cons_self _ _) ha)]
      · intro p hp
        rw [hfilter p (fun l hlm hla => hp l (List.mem_cons_of_mem _ hlm) hla),
          List.filter_append, hblock_other p (hp leaf (List.mem_cons_self _ _) ha),
          List.append_nil]
      · intro l hlm hla
        rcases List.mem_cons.1 hlm with e | hr
        · subst e
          refine ⟨s.voxel_count, ?_, ?_⟩
          · rw [hframe _ (fun l' hl' _ => htix l' hl'), List.getElem?_set_self hlt]
          · rw [hfilter _ (fun l' hl' _ => hne l' hl'), List.filter_append, hblock_self,
              List.map_append, hdes]
        · obtain ⟨b, hb, hfl⟩ := hact l hr hla
          refine ⟨b, hb, ?_⟩
          rw [hfl, List.filter_append, hblock_other _ (fun e => hne l hr e.symm),
            List.append_nil]
    · simp only [ha, Bool.false_eq_true, if_false, if_true]
      obtain ⟨s', hf, hvc, hcs, hlen', hframe, hfilter, hact⟩ := ih s hrest hnd.2
        (fun l hlm => hent l (List.mem_cons_of_mem _ hlm))
      refine ⟨s', hf, ?_, ?_, hlen', ?_, ?_, ?_⟩
      · rw [hvc, Int.zero_add]
      · rw [hcs, Int.zero_add]
      · intro t ht
        exact hframe t (fun l hlm hla => ht l (List.mem_cons_of_mem _ hlm) hla)
      · intro p hp
        exact hfilter p (fun l hlm hla => hp l (List.mem_cons_of_mem _ hlm) hla)
      · intro l hlm hla
        rcases List.mem_cons.1 hlm with e | hr
        · subst e
          exact absurd hla ha
        · exact hact l hr hla

theorem vector_resize_nil (n val : Int) : vector_resize [] n val = List.replicate n.toNat val := by
  simp [vector_resize]

/-- C27: for a scalar grid (one channel) with tile-aligned leaves and an
initially empty `sparse_indexes`, `image_load_preprocess` returns. When it
selects the sparse layout (`sparse_size ≠ -1`), `image_load_sparse` on the same
grid with the produced `sparse_indexes` returns, writes exactly the offsets
`0, 1, ..., sparse_size - 1`, each once and in this order, leaves a table with
one entry per tile in which the entry of every active leaf is the offset at
which the voxels of its tile start (they occupy the next offsets, as many as
the tile has voxels), and the entry of every tile without an active leaf is
-1. When it rejects the sparse layout, `sparse_size` is -1 and
`sparse_indexes` is empty, and `openvdb_load_image` runs the dense loader. -/
theorem C27_sparse_layout {V : Type} [DecidableEq V] [Zero V] [Sub V] [Neg V]
    (u : SparseGridUtil) (hu : u.Standard) (above : V → Bool) (grid : Grid V)
    (resolution min_bound : Coord) (hg : TileAligned u grid.leaves resolution min_bound)
    (sparse_size0 : Int) :
    ∃ (idx : List Int) (size : Int),
      image_load_preprocess u above grid resolution min_bound 1 [] sparse_size0
          = Except.ok (idx, size)
      ∧ (size ≠ -1 →
          ∃ (idx' : List Int) (copies : List Copy),
            image_load_sparse u grid resolution min_bound 1 idx = Except.ok (idx', copies)
            ∧ 0 ≤ size
            ∧ written_offsets false copies = offsets_from 0 size
            ∧ idx'.length = (coord_product (tiled_res_of u resolution)).toNat
            ∧ (∀ leaf ∈ processed_leaves u grid, leaf_active u above 1 leaf = true →
                ∃ b, idx'[(leaf_tile_index u resolution min_bound leaf).toNat]? = some b
                  ∧ (copies.filter (fun c => decide (c.leaf = leaf.start))).map Copy.des
                      = offsets_from b
                          (coord_product (leaf_tile_dim u resolution min_bound leaf)))
            ∧ (∀ t : Nat, t < idx'.length →
                (∀ leaf ∈ processed_leaves u grid, leaf_active u above 1 leaf = true →
                  (leaf_tile_index u resolution min_bound leaf).toNat ≠ t) →
                idx'[t]? = some (-1)))
      ∧ (size = -1 → idx = []
          ∧ ∀ grid_type, grid_type ≠ OpenVDBGridType.OPENVDB_GRID_MISC →
            openvdb_load_image u grid grid_type resolution min_bound (some idx)
              = Except.ok ⟨dense_zeroed resolution 1, grid_type.is_vector,
                  image_load_dense u grid resolution min_bound, some idx⟩) := by
  obtain ⟨g, hv, hg'⟩ := validate_tile_aligned u grid resolution min_bound hg
  have hpl : processed_leaves u grid = g.leaves := by
    unfold processed_leaves; rw [hv]
  have hin : ∀ leaf ∈ g.leaves, 0 ≤ leaf_tile_index u resolution min_bound leaf
      ∧ (leaf_tile_index u resolution min_bound leaf).toNat
        < (vector_resize [] (coord_product (tiled_res_of u resolution)) (-1)).length := by
    intro leaf hl
    have := tile_index_in_range u hu _ _ (hg'.start leaf hl)
    rw [vector_resize_nil, List.length_replicate]
    unfold leaf_tile_index
    omega
  obtain ⟨idxp, hf, hlen, hact, _, hframe⟩ := preprocess_fold u above resolution min_bound
    g.leaves (vector_resize [] (coord_product (tiled_res_of u resolution)) (-1)) 0 hg'.size hin
  have hav := active_voxels_nonneg u hu above 1 resolution min_bound g.leaves hg'.start
  have hlen0 : idxp.length = (coord_product (tiled_res_of u resolution)).toNat := by
    rw [hlen, vector_resize_nil, List.length_replicate]
  have hinj := List.inj_on_of_nodup_map hg'.distinct
  unfold image_load_preprocess
  rw [hv]
  simp only [hf, DEG.except_bind_ok, Int.zero_add, mul_one]
  by_cases hc : size_t_to_int (coord_product (tiled_res_of u resolution) * 4
      + active_voxels u above 1 resolution min_bound g.leaves * 4)
      < size_t_to_int (coord_product resolution * 4)
  · rw [if_pos hc]
    refine ⟨idxp, active_voxels u above 1 resolution min_bound g.leaves, rfl, ?_, ?_⟩
    · intro _
      have hent : ∀ leaf ∈ g.leaves,
          idxp[(leaf_tile_index u resolution min_bound leaf).toNat]?
            = some (if leaf_active u above 1 leaf = true then 0 else -1) := by
        intro leaf hl
        by_cases ha : leaf_active u above 1 leaf = true
        · rw [if_pos ha]
          exact hact leaf hl ha
        · rw [if_neg ha, hframe, vector_resize_nil, List.getElem?_replicate,
            if_pos (by
              have := (hin leaf hl).2
              rw [vector_resize_nil, List.length_replicate] at this
              exact this)]
          intro l' hl' ha'
          apply leaf_tile_index_ne u hu resolution min_bound leaf l' (hg'.start leaf hl)
            (hg'.start l' hl')
          intro e
          have := hinj hl' hl e
          rw [this] at ha'
          exact ha ha'
      obtain ⟨s', hs, _, hcs, hlen', hframe', _, hact'⟩ := sparse_fold u hu above resolution
        min_bound g.leaves ⟨idxp, 0, []⟩ hg'.start hg'.distinct hent
      simp only [List.map_nil, List.nil_append, List.filter_nil] at hcs hlen' hframe' hact'
      refine ⟨s'.sparse_indexes, s'.copies, ?_, hav, ?_, ?_, ?_, ?_⟩
      · unfold image_load_sparse
        rw [hv]
        simp only [hs, DEG.except_bind_ok]
        rfl
      · rw [written_offsets_scalar, hcs]
      · rw [hlen', hlen0]
      · intro leaf hl ha
        rw [hpl] at hl
        exact hact' leaf hl ha
      · intro t ht hfree
        rw [hpl] at hfree
        rw [hframe' t hfree, hframe t hfree, vector_resize_nil, List.getElem?_replicate,
          if_pos (by rw [hlen', hlen0] at ht; exact ht)]
    · intro hneg
      omega
  · rw [if_neg hc]
    refine ⟨[], -1, rfl, fun h => absurd rfl h, fun _ => ⟨rfl, ?_⟩⟩
    intro grid_type hgt
    unfold openvdb_load_image
    simp [hgt, hv]

/-- Witness of C27: a grid of resolution 32 x 8 x 8 (four tiles) with full
leaves in the second and the fourth tile, both active. The preprocess selects
the sparse layout with 1024 floats. -/
theorem C27_witness :
    image_load_preprocess cycles_util ex_above ex_row_grid ⟨32, 8, 8⟩ ⟨0, 0, 0⟩ 1 [] 0
        = Except.ok ([-1, 0, -1, 0], 1024)
      ∧ ∃ (idx' : List Int) (copies : List Copy),
          image_load_sparse cycles_util ex_row_grid ⟨32, 8, 8⟩ ⟨0, 0, 0⟩ 1 [-1, 0, -1, 0]
              = Except.ok (idx', copies)
          ∧ written_offsets false copies = offsets_from 0 1024
          ∧ idx'.length = 4
          ∧ idx'[0]? = some (-1) := by
  have hstd : cycles_util.Standard :=
    ⟨by decide, fun _ _ _ _ _ => rfl, fun _ _ => rfl⟩
  have hal : TileAligned cycles_util ex_row_grid.leaves ⟨32, 8, 8⟩ ⟨0, 0, 0⟩ := by
    constructor
    · intro leaf hl
      simp only [ex_row_grid, List.mem_cons, List.mem_singleton, List.not_mem_nil, or_false] at hl
      rcases hl with rfl | rfl <;> rfl
    · intro leaf hl
      simp only [ex_row_grid, List.mem_cons, List.mem_singleton, List.not_mem_nil, or_false] at hl
      rcases hl with rfl | rfl <;> exact List.length_replicate _ _
    · intro leaf hl
      simp only [ex_row_grid, List.mem_cons, List.mem_singleton, List.not_mem_nil, or_false] at hl
      rcases hl with rfl | rfl
      · exact ⟨⟨by decide, by decide, ⟨1, by decide⟩⟩, ⟨by decide, by decide, ⟨0, by decide⟩⟩,
          ⟨by decide, by decide, ⟨0, by decide⟩⟩⟩
      · exact ⟨⟨by decide, by decide, ⟨3, by decide⟩⟩, ⟨by decide, by decide, ⟨0, by decide⟩⟩,
          ⟨by decide, by decide, ⟨0, by decide⟩⟩⟩
    · decide
  have hev : (image_load_preprocess cycles_util ex_above ex_row_grid ⟨32, 8, 8⟩ ⟨0, 0, 0⟩ 1
      [] 0).toOption = some ([-1, 0, -1, 0], 1024) := by
    set_option maxRecDepth 20000 in decide
  obtain ⟨idx, size, h, hs, _⟩ := C27_sparse_layout cycles_util hstd ex_above ex_row_grid
    ⟨32, 8, 8⟩ ⟨0, 0, 0⟩ hal 0
  rw [h] at hev
  simp only [Except.toOption, Option.some.injEq, Prod.mk.injEq] at hev
  obtain ⟨rfl, rfl⟩ := hev
  obtain ⟨idx', copies, h1, _, h2, h3, _, h5⟩ := hs (by decide)
  refine ⟨h, idx', copies, h1, h2, by rw [h3]; decide, ?_⟩
  apply h5 0 (by rw [h3]; decide)
  intro leaf hl _
  have hpl : processed_leaves cycles_util ex_row_grid = ex_row_grid.leaves := rfl
  rw [hpl] at hl
  simp only [ex_row_grid, List.mem_cons, List.mem_singleton, List.not_mem_nil, or_false] at hl
  rcases hl with rfl | rfl <;> decide

end CCL
